import Mathlib

/-!
# Nuked OPN2 (Yamaha YM3438) emulator: shallow embedding of `ym3438.go`

Unsigned machine integers are natural numbers reduced modulo `2^w` at every
operation that can leave the width; signed ones (`int16`, `int32`) are
integers wrapped into the two's complement range.  Fixed-size arrays are total
functions on indices, the zero value of the array being the constant `0`
function; the index bounds the program relies on are stated separately
(`OPN2_Clock_inb`).
-/

namespace Nukeykt

/-! ## Machine integers -/

/-- Conversion to `uint8`. -/
def u8 (n : Nat) : Nat := n % 256

/-- Conversion to `uint16`. -/
def u16 (n : Nat) : Nat := n % 65536

/-- Conversion to `uint32`. -/
def u32 (n : Nat) : Nat := n % 4294967296

/-- Conversion to `uint64`. -/
def u64 (n : Nat) : Nat := n % 18446744073709551616

/-- Wrapping `uint8` subtraction. -/
def usub8 (a b : Nat) : Nat := u8 (a + (256 - b % 256))

/-- Wrapping `uint16` subtraction. -/
def usub16 (a b : Nat) : Nat := u16 (a + (65536 - b % 65536))

/-- Wrapping `uint32` subtraction. -/
def usub32 (a b : Nat) : Nat := u32 (a + (4294967296 - b % 4294967296))

/-- Wrapping `uint64` subtraction. -/
def usub64 (a b : Nat) : Nat :=
  u64 (a + (18446744073709551616 - b % 18446744073709551616))

/-- Conversion to `int16`: the two's complement reading of the low 16 bits. -/
def i16 (z : Int) : Int := (z + 32768) % 65536 - 32768

/-- Conversion to `int32`: the two's complement reading of the low 32 bits. -/
def i32 (z : Int) : Int := (z + 2147483648) % 4294967296 - 2147483648

/-- The 16-bit pattern of a signed value (conversion `int16 -> uint16`). -/
def bits16 (z : Int) : Nat := (z % 65536).toNat

/-- Bitwise and of two `int16` values. -/
def iand16 (a b : Int) : Int := i16 ((bits16 a &&& bits16 b : Nat) : Int)

/-- Bitwise or of two `int16` values. -/
def ior16 (a b : Int) : Int := i16 ((bits16 a ||| bits16 b : Nat) : Int)

/-- Bitwise exclusive or of two `int16` values. -/
def ixor16 (a b : Int) : Int := i16 ((bits16 a ^^^ bits16 b : Nat) : Int)

/-- Bitwise complement of an `int16` value (Go's unary `^`). -/
def inot16 (a : Int) : Int := i16 (-a - 1)

/-- Left shift of an `int16` value, wrapping. -/
def ishl16 (a : Int) (k : Nat) : Int := i16 (a * 2 ^ k)

/-- Arithmetic right shift of a signed value: the quotient rounded down. -/
def isar (a : Int) (k : Nat) : Int := a / 2 ^ k

/-- `cbool.ToInt` of the imported package `github.com/elemir/cbool`: `1` for
`true` and `0` for `false`. -/
def ToInt (b : Bool) : Nat := if b then 1 else 0

/-- Array store `a[i] = v`. -/
def upd {α : Type} (a : Nat → α) (i : Nat) (v : α) : Nat → α :=
  fun j => if j = i then v else a j

/-- The loop `for i := range n { a[i] = f(i) }`. -/
def setRange {α : Type} (n : Nat) (a : Nat → α) (f : Nat → α) : Nat → α :=
  fun j => if j < n then f j else a j

/-- Lookup in a one-dimensional table. -/
def tab1 (t : List Nat) (i : Nat) : Nat := t.getD i 0

/-- Lookup in a two-dimensional table. -/
def tab2 (t : List (List Nat)) (i j : Nat) : Nat := (t.getD i []).getD j 0

/-- Lookup in a three-dimensional table. -/
def tab3 (t : List (List (List Nat))) (i j k : Nat) : Nat :=
  ((t.getD i []).getD j []).getD k 0

/-! ## Constants -/

def OUTPUT_FACTOR : Int := 11
def OUTPUT_FACTOR_F : Int := 12
def RSM_FRAC : Nat := 10
def OPN_WRITEBUF_SIZE : Nat := 2048
def OPN_WRITEBUF_DELAY : Nat := 15
def ModeYM2612 : Nat := 0x01
def ModeReadmode : Nat := 0x02

def eg_num_attack : Nat := 0
def eg_num_decay : Nat := 1
def eg_num_sustain : Nat := 2
def eg_num_release : Nat := 3

/-! ## Lookup tables -/

def logsinrom_tab : List Nat := [
   0x859, 0x6c3, 0x607, 0x58b, 0x52e, 0x4e4, 0x4a6, 0x471,
   0x443, 0x41a, 0x3f5, 0x3d3, 0x3b5, 0x398, 0x37e, 0x365,
   0x34e, 0x339, 0x324, 0x311, 0x2ff, 0x2ed, 0x2dc, 0x2cd,
   0x2bd, 0x2af, 0x2a0, 0x293, 0x286, 0x279, 0x26d, 0x261,
   0x256, 0x24b, 0x240, 0x236, 0x22c, 0x222, 0x218, 0x20f,
   0x206, 0x1fd, 0x1f5, 0x1ec, 0x1e4, 0x1dc, 0x1d4, 0x1cd,
   0x1c5, 0x1be, 0x1b7, 0x1b0, 0x1a9, 0x1a2, 0x19b, 0x195,
   0x18f, 0x188, 0x182, 0x17c, 0x177, 0x171, 0x16b, 0x166,
   0x160, 0x15b, 0x155, 0x150, 0x14b, 0x146, 0x141, 0x13c,
   0x137, 0x133, 0x12e, 0x129, 0x125, 0x121, 0x11c, 0x118,
   0x114, 0x10f, 0x10b, 0x107, 0x103, 0x0ff, 0x0fb, 0x0f8,
   0x0f4, 0x0f0, 0x0ec, 0x0e9, 0x0e5, 0x0e2, 0x0de, 0x0db,
   0x0d7, 0x0d4, 0x0d1, 0x0cd, 0x0ca, 0x0c7, 0x0c4, 0x0c1,
   0x0be, 0x0bb, 0x0b8, 0x0b5, 0x0b2, 0x0af, 0x0ac, 0x0a9,
   0x0a7, 0x0a4, 0x0a1, 0x09f, 0x09c, 0x099, 0x097, 0x094,
   0x092, 0x08f, 0x08d, 0x08a, 0x088, 0x086, 0x083, 0x081,
   0x07f, 0x07d, 0x07a, 0x078, 0x076, 0x074, 0x072, 0x070,
   0x06e, 0x06c, 0x06a, 0x068, 0x066, 0x064, 0x062, 0x060,
   0x05e, 0x05c, 0x05b, 0x059, 0x057, 0x055, 0x053, 0x052,
   0x050, 0x04e, 0x04d, 0x04b, 0x04a, 0x048, 0x046, 0x045,
   0x043, 0x042, 0x040, 0x03f, 0x03e, 0x03c, 0x03b, 0x039,
   0x038, 0x037, 0x035, 0x034, 0x033, 0x031, 0x030, 0x02f,
   0x02e, 0x02d, 0x02b, 0x02a, 0x029, 0x028, 0x027, 0x026,
   0x025, 0x024, 0x023, 0x022, 0x021, 0x020, 0x01f, 0x01e,
   0x01d, 0x01c, 0x01b, 0x01a, 0x019, 0x018, 0x017, 0x017,
   0x016, 0x015, 0x014, 0x014, 0x013, 0x012, 0x011, 0x011,
   0x010, 0x00f, 0x00f, 0x00e, 0x00d, 0x00d, 0x00c, 0x00c,
   0x00b, 0x00a, 0x00a, 0x009, 0x009, 0x008, 0x008, 0x007,
   0x007, 0x007, 0x006, 0x006, 0x005, 0x005, 0x005, 0x004,
   0x004, 0x004, 0x003, 0x003, 0x003, 0x002, 0x002, 0x002,
   0x002, 0x001, 0x001, 0x001, 0x001, 0x001, 0x001, 0x001,
   0x000, 0x000, 0x000, 0x000, 0x000, 0x000, 0x000, 0x000
  ]

/-- The log-sine table. -/
def logsinrom (i : Nat) : Nat := tab1 logsinrom_tab i

def exprom_tab : List Nat := [
   0x000, 0x003, 0x006, 0x008, 0x00b, 0x00e, 0x011, 0x014,
   0x016, 0x019, 0x01c, 0x01f, 0x022, 0x025, 0x028, 0x02a,
   0x02d, 0x030, 0x033, 0x036, 0x039, 0x03c, 0x03f, 0x042,
   0x045, 0x048, 0x04b, 0x04e, 0x051, 0x054, 0x057, 0x05a,
   0x05d, 0x060, 0x063, 0x066, 0x069, 0x06c, 0x06f, 0x072,
   0x075, 0x078, 0x07b, 0x07e, 0x082, 0x085, 0x088, 0x08b,
   0x08e, 0x091, 0x094, 0x098, 0x09b, 0x09e, 0x0a1, 0x0a4,
   0x0a8, 0x0ab, 0x0ae, 0x0b1, 0x0b5, 0x0b8, 0x0bb, 0x0be,
   0x0c2, 0x0c5, 0x0c8, 0x0cc, 0x0cf, 0x0d2, 0x0d6, 0x0d9,
   0x0dc, 0x0e0, 0x0e3, 0x0e7, 0x0ea, 0x0ed, 0x0f1, 0x0f4,
   0x0f8, 0x0fb, 0x0ff, 0x102, 0x106, 0x109, 0x10c, 0x110,
   0x114, 0x117, 0x11b, 0x11e, 0x122, 0x125, 0x129, 0x12c,
   0x130, 0x134, 0x137, 0x13b, 0x13e, 0x142, 0x146, 0x149,
   0x14d, 0x151, 0x154, 0x158, 0x15c, 0x160, 0x163, 0x167,
   0x16b, 0x16f, 0x172, 0x176, 0x17a, 0x17e, 0x181, 0x185,
   0x189, 0x18d, 0x191, 0x195, 0x199, 0x19c, 0x1a0, 0x1a4,
   0x1a8, 0x1ac, 0x1b0, 0x1b4, 0x1b8, 0x1bc, 0x1c0, 0x1c4,
   0x1c8, 0x1cc, 0x1d0, 0x1d4, 0x1d8, 0x1dc, 0x1e0, 0x1e4,
   0x1e8, 0x1ec, 0x1f0, 0x1f5, 0x1f9, 0x1fd, 0x201, 0x205,
   0x209, 0x20e, 0x212, 0x216, 0x21a, 0x21e, 0x223, 0x227,
   0x22b, 0x230, 0x234, 0x238, 0x23c, 0x241, 0x245, 0x249,
   0x24e, 0x252, 0x257, 0x25b, 0x25f, 0x264, 0x268, 0x26d,
   0x271, 0x276, 0x27a, 0x27f, 0x283, 0x288, 0x28c, 0x291,
   0x295, 0x29a, 0x29e, 0x2a3, 0x2a8, 0x2ac, 0x2b1, 0x2b5,
   0x2ba, 0x2bf, 0x2c4, 0x2c8, 0x2cd, 0x2d2, 0x2d6, 0x2db,
   0x2e0, 0x2e5, 0x2e9, 0x2ee, 0x2f3, 0x2f8, 0x2fd, 0x302,
   0x306, 0x30b, 0x310, 0x315, 0x31a, 0x31f, 0x324, 0x329,
   0x32e, 0x333, 0x338, 0x33d, 0x342, 0x347, 0x34c, 0x351,
   0x356, 0x35b, 0x360, 0x365, 0x36a, 0x370, 0x375, 0x37a,
   0x37f, 0x384, 0x38a, 0x38f, 0x394, 0x399, 0x39f, 0x3a4,
   0x3a9, 0x3ae, 0x3b4, 0x3b9, 0x3bf, 0x3c4, 0x3c9, 0x3cf,
   0x3d4, 0x3da, 0x3df, 0x3e4, 0x3ea, 0x3ef, 0x3f5, 0x3fa
  ]

/-- The exponent table. -/
def exprom (i : Nat) : Nat := tab1 exprom_tab i

/-- The note table. -/
def fn_note (i : Nat) : Nat :=
  tab1 [0, 0, 0, 0, 0, 0, 0, 1, 2, 3, 3, 3, 3, 3, 3, 3] i

def eg_stephi (i j : Nat) : Nat :=
  tab2 [[0, 0, 0, 0],
        [1, 0, 0, 0],
        [1, 0, 1, 0],
        [1, 1, 1, 0]] i j

def eg_am_shift (i : Nat) : Nat := tab1 [7, 3, 1, 0] i

def pg_detune (i : Nat) : Nat := tab1 [16, 17, 19, 20, 22, 24, 27, 29] i

def pg_lfo_sh1 (i j : Nat) : Nat :=
  tab2 [[7, 7, 7, 7, 7, 7, 7, 7],
        [7, 7, 7, 7, 7, 7, 7, 7],
        [7, 7, 7, 7, 7, 7, 1, 1],
        [7, 7, 7, 7, 1, 1, 1, 1],
        [7, 7, 7, 1, 1, 1, 1, 0],
        [7, 7, 1, 1, 0, 0, 0, 0],
        [7, 7, 1, 1, 0, 0, 0, 0],
        [7, 7, 1, 1, 0, 0, 0, 0]] i j

def pg_lfo_sh2 (i j : Nat) : Nat :=
  tab2 [[7, 7, 7, 7, 7, 7, 7, 7],
        [7, 7, 7, 7, 2, 2, 2, 2],
        [7, 7, 7, 2, 2, 2, 7, 7],
        [7, 7, 2, 2, 7, 7, 2, 2],
        [7, 7, 2, 7, 7, 7, 2, 7],
        [7, 7, 7, 2, 7, 7, 2, 1],
        [7, 7, 7, 2, 7, 7, 2, 1],
        [7, 7, 7, 2, 7, 7, 2, 1]] i j

/-- Address decoder: operator offsets. -/
def op_offset (i : Nat) : Nat :=
  tab1 [0x000, 0x001, 0x002, 0x100, 0x101, 0x102,
        0x004, 0x005, 0x006, 0x104, 0x105, 0x106] i

/-- Address decoder: channel offsets. -/
def ch_offset (i : Nat) : Nat :=
  tab1 [0x000, 0x001, 0x002, 0x100, 0x101, 0x102] i

def lfo_cycles (i : Nat) : Nat := tab1 [108, 77, 71, 67, 62, 44, 8, 5] i

/-- The FM algorithm routing table. -/
def fm_algorithm (op k connect : Nat) : Nat :=
  tab3 [[[1, 1, 1, 1, 1, 1, 1, 1],
         [1, 1, 1, 1, 1, 1, 1, 1],
         [0, 0, 0, 0, 0, 0, 0, 0],
         [0, 0, 0, 0, 0, 0, 0, 0],
         [0, 0, 0, 0, 0, 0, 0, 0],
         [0, 0, 0, 0, 0, 0, 0, 1]],
        [[0, 1, 0, 0, 0, 1, 0, 0],
         [0, 0, 0, 0, 0, 0, 0, 0],
         [1, 1, 1, 0, 0, 0, 0, 0],
         [0, 0, 0, 0, 0, 0, 0, 0],
         [0, 0, 0, 0, 0, 0, 0, 0],
         [0, 0, 0, 0, 0, 1, 1, 1]],
        [[0, 0, 0, 0, 0, 0, 0, 0],
         [0, 0, 0, 0, 0, 0, 0, 0],
         [0, 0, 0, 0, 0, 0, 0, 0],
         [1, 0, 0, 1, 1, 1, 1, 0],
         [0, 0, 0, 0, 0, 0, 0, 0],
         [0, 0, 0, 0, 1, 1, 1, 1]],
        [[0, 0, 1, 0, 0, 1, 0, 0],
         [0, 0, 0, 0, 0, 0, 0, 0],
         [0, 0, 0, 1, 0, 0, 0, 0],
         [1, 1, 0, 1, 1, 0, 0, 0],
         [0, 0, 1, 0, 0, 0, 0, 0],
         [1, 1, 1, 1, 1, 1, 1, 1]]] op k connect

/-! ## Chip state -/

/-- One entry of the timed write queue. -/
structure writebuf where
  time : Nat := 0
  port : Nat := 0
  data : Nat := 0

/-- The chip. Every default is the zero value of the Go field. -/
structure YM3438 where
  cycles : Nat := 0
  channel : Nat := 0
  mol : Int := 0
  mor : Int := 0
  /- IO -/
  write_data : Nat := 0
  write_a : Nat := 0
  write_d : Nat := 0
  write_a_en : Nat := 0
  write_d_en : Nat := 0
  write_busy : Nat := 0
  write_busy_cnt : Nat := 0
  write_fm_address : Nat := 0
  write_fm_data : Nat := 0
  write_fm_mode_a : Nat := 0
  address : Nat := 0
  data : Nat := 0
  pin_test_in : Nat := 0
  pin_irq : Nat := 0
  busy : Nat := 0
  /- LFO -/
  lfo_en : Nat := 0
  lfo_freq : Nat := 0
  lfo_pm : Nat := 0
  lfo_am : Nat := 0
  lfo_cnt : Nat := 0
  lfo_inc : Nat := 0
  lfo_quotient : Nat := 0
  /- Phase generator -/
  pg_fnum : Nat := 0
  pg_block : Nat := 0
  pg_kcode : Nat := 0
  pg_inc : Nat → Nat := fun _ => 0
  pg_phase : Nat → Nat := fun _ => 0
  pg_reset : Nat → Nat := fun _ => 0
  pg_read : Nat := 0
  /- Envelope generator -/
  eg_cycle : Nat := 0
  eg_cycle_stop : Nat := 0
  eg_shift : Nat := 0
  eg_shift_lock : Nat := 0
  eg_timer_low_lock : Nat := 0
  eg_timer : Nat := 0
  eg_timer_inc : Nat := 0
  eg_quotient : Nat := 0
  eg_custom_timer : Nat := 0
  eg_rate : Nat := 0
  eg_ksv : Nat := 0
  eg_inc : Nat := 0
  eg_ratemax : Nat := 0
  eg_sl : Nat → Nat := fun _ => 0
  eg_lfo_am : Nat := 0
  eg_tl : Nat → Nat := fun _ => 0
  eg_state : Nat → Nat := fun _ => 0
  eg_level : Nat → Nat := fun _ => 0
  eg_out : Nat → Nat := fun _ => 0
  eg_kon : Nat → Nat := fun _ => 0
  eg_kon_csm : Nat → Nat := fun _ => 0
  eg_kon_latch : Nat → Nat := fun _ => 0
  eg_csm_mode : Nat → Nat := fun _ => 0
  eg_ssg_enable : Nat → Nat := fun _ => 0
  eg_ssg_pgrst_latch : Nat → Nat := fun _ => 0
  eg_ssg_repeat_latch : Nat → Nat := fun _ => 0
  eg_ssg_hold_up_latch : Nat → Nat := fun _ => 0
  eg_ssg_dir : Nat → Nat := fun _ => 0
  eg_ssg_inv : Nat → Nat := fun _ => 0
  eg_read : Nat → Nat := fun _ => 0
  eg_read_inc : Nat := 0
  /- FM -/
  fm_op1 : Nat → Nat → Int := fun _ _ => 0
  fm_op2 : Nat → Int := fun _ => 0
  fm_out : Nat → Int := fun _ => 0
  fm_mod : Nat → Nat := fun _ => 0
  /- Channel -/
  ch_acc : Nat → Int := fun _ => 0
  ch_out : Nat → Int := fun _ => 0
  ch_lock : Int := 0
  ch_lock_l : Nat := 0
  ch_lock_r : Nat := 0
  ch_read : Int := 0
  /- Timer -/
  timer_a_cnt : Nat := 0
  timer_a_reg : Nat := 0
  timer_a_load_lock : Nat := 0
  timer_a_load : Nat := 0
  timer_a_enable : Nat := 0
  timer_a_reset : Nat := 0
  timer_a_load_latch : Nat := 0
  timer_a_overflow_flag : Nat := 0
  timer_a_overflow : Nat := 0
  timer_b_cnt : Nat := 0
  timer_b_subcnt : Nat := 0
  timer_b_reg : Nat := 0
  timer_b_load_lock : Nat := 0
  timer_b_load : Nat := 0
  timer_b_enable : Nat := 0
  timer_b_reset : Nat := 0
  timer_b_load_latch : Nat := 0
  timer_b_overflow_flag : Nat := 0
  timer_b_overflow : Nat := 0
  /- Register set -/
  mode_test_21 : Nat → Nat := fun _ => 0
  mode_test_2c : Nat → Nat := fun _ => 0
  mode_ch3 : Nat := 0
  mode_kon_channel : Nat := 0
  mode_kon_operator : Nat → Nat := fun _ => 0
  mode_kon : Nat → Nat := fun _ => 0
  mode_csm : Nat := 0
  mode_kon_csm : Nat := 0
  dacen : Nat := 0
  dacdata : Int := 0
  ks : Nat → Nat := fun _ => 0
  ar : Nat → Nat := fun _ => 0
  sr : Nat → Nat := fun _ => 0
  dt : Nat → Nat := fun _ => 0
  multi : Nat → Nat := fun _ => 0
  sl : Nat → Nat := fun _ => 0
  rr : Nat → Nat := fun _ => 0
  dr : Nat → Nat := fun _ => 0
  am : Nat → Nat := fun _ => 0
  tl : Nat → Nat := fun _ => 0
  ssg_eg : Nat → Nat := fun _ => 0
  fnum : Nat → Nat := fun _ => 0
  block : Nat → Nat := fun _ => 0
  kcode : Nat → Nat := fun _ => 0
  fnum_3ch : Nat → Nat := fun _ => 0
  block_3ch : Nat → Nat := fun _ => 0
  kcode_3ch : Nat → Nat := fun _ => 0
  reg_a4 : Nat := 0
  reg_ac : Nat := 0
  connect : Nat → Nat := fun _ => 0
  fb : Nat → Nat := fun _ => 0
  pan_l : Nat → Nat := fun _ => 0
  pan_r : Nat → Nat := fun _ => 0
  ams : Nat → Nat := fun _ => 0
  pms : Nat → Nat := fun _ => 0
  status : Nat := 0
  status_time : Nat := 0
  mute : Nat → Nat := fun _ => 0
  rateratio : Int := 0
  samplecnt : Int := 0
  oldsamples : Nat → Int := fun _ => 0
  samples : Nat → Int := fun _ => 0
  writebuf_samplecnt : Nat := 0
  writebuf_cur : Nat := 0
  writebuf_last : Nat := 0
  writebuf_lasttime : Nat := 0
  writebuf : Nat → writebuf := fun _ => {}

/-- The zero value `YM3438{}`. -/
def YM3438.zero : YM3438 := {}

/-- The macro `SIGN_EXTEND(bit_index, value)` on `int16`. -/
def SIGN_EXTEND (bit_index : Nat) (value : Int) : Int :=
  i16 (iand16 value (i16 (2 ^ bit_index - 1)) - iand16 value (i16 (2 ^ bit_index)))

/-! ## Bus interface -/

def OPN2_DoIO (chip : YM3438) : YM3438 :=
  /- Write signal check -/
  let chip := { chip with
    write_a_en := ToInt (chip.write_a &&& 0x03 == 0x01)
    write_d_en := ToInt (chip.write_d &&& 0x03 == 0x01) }
  let chip := { chip with
    write_a := u8 (chip.write_a <<< 1)
    write_d := u8 (chip.write_d <<< 1) }
  /- Busy counter -/
  let chip := { chip with busy := chip.write_busy }
  let chip := { chip with write_busy_cnt := u8 (chip.write_busy_cnt + chip.write_busy) }
  let chip := { chip with
    write_busy := ToInt ((chip.write_busy != 0 && chip.write_busy_cnt >>> 5 == 0)
                          || chip.write_d_en != 0) }
  { chip with write_busy_cnt := chip.write_busy_cnt &&& 0x1f }

/-- The slot part of the block `if chip.write_fm_data != 0` of
`OPN2_DoRegWrite`: each field is guarded by the case of the switch on
`chip.address & 0xf0` that assigns it. -/
def OPN2_DoRegWrite_slot (chip : YM3438) : YM3438 :=
  let slot := chip.cycles % 12
  let hit : Bool := chip.write_fm_data != 0 && op_offset slot == chip.address &&& 0x107
  /- OP2, OP4 -/
  let slot := if chip.address &&& 0x08 != 0 then slot + 12 else slot
  let address := chip.address &&& 0xf0
  /- DT, MULTI -/
  let chip := { chip with
    multi :=
      if hit && address == 0x30 then upd chip.multi slot (chip.data &&& 0x0f) else chip.multi }
  { chip with
    multi :=
      if hit && address == 0x30 then
        upd chip.multi slot (if chip.multi slot == 0 then 1 else u8 (chip.multi slot <<< 1))
      else chip.multi
    dt :=
      if hit && address == 0x30 then upd chip.dt slot ((chip.data >>> 4) &&& 0x07) else chip.dt
    /- TL -/
    tl := if hit && address == 0x40 then upd chip.tl slot (chip.data &&& 0x7f) else chip.tl
    /- KS, AR -/
    ar := if hit && address == 0x50 then upd chip.ar slot (chip.data &&& 0x1f) else chip.ar
    ks :=
      if hit && address == 0x50 then upd chip.ks slot ((chip.data >>> 6) &&& 0x03) else chip.ks
    /- AM, DR -/
    dr := if hit && address == 0x60 then upd chip.dr slot (chip.data &&& 0x1f) else chip.dr
    am :=
      if hit && address == 0x60 then upd chip.am slot ((chip.data >>> 7) &&& 0x01) else chip.am
    /- SR -/
    sr := if hit && address == 0x70 then upd chip.sr slot (chip.data &&& 0x1f) else chip.sr
    /- SL, RR -/
    rr := if hit && address == 0x80 then upd chip.rr slot (chip.data &&& 0x0f) else chip.rr
    sl :=
      if hit && address == 0x80 then
        upd chip.sl slot
          (((chip.data >>> 4) &&& 0x0f) ||| (u8 (((chip.data >>> 4) &&& 0x0f) + 1) &&& 0x10))
      else chip.sl
    /- SSG-EG -/
    ssg_eg :=
      if hit && address == 0x90 then upd chip.ssg_eg slot (chip.data &&& 0x0f)
      else chip.ssg_eg }

/-- The channel part of the block `if chip.write_fm_data != 0` of
`OPN2_DoRegWrite`: each field is guarded by the case of the switch on
`chip.address & 0xfc` that assigns it. -/
def OPN2_DoRegWrite_channel (chip : YM3438) : YM3438 :=
  let channel := chip.channel
  let hit : Bool := chip.write_fm_data != 0 && ch_offset channel == chip.address &&& 0x103
  let address := chip.address &&& 0xfc
  let chip := { chip with
    fnum :=
      if hit && address == 0xa0 then
        upd chip.fnum channel ((chip.data &&& 0xff) ||| ((chip.reg_a4 &&& 0x07) <<< 8))
      else chip.fnum
    block :=
      if hit && address == 0xa0 then upd chip.block channel ((chip.reg_a4 >>> 3) &&& 0x07)
      else chip.block
    fnum_3ch :=
      if hit && address == 0xa8 then
        upd chip.fnum_3ch channel ((chip.data &&& 0xff) ||| ((chip.reg_ac &&& 0x07) <<< 8))
      else chip.fnum_3ch
    block_3ch :=
      if hit && address == 0xa8 then upd chip.block_3ch channel ((chip.reg_ac >>> 3) &&& 0x07)
      else chip.block_3ch }
  { chip with
    kcode :=
      if hit && address == 0xa0 then
        upd chip.kcode channel
          (u8 (u8 (chip.block channel <<< 2) ||| fn_note (chip.fnum channel >>> 7)))
      else chip.kcode
    reg_a4 := if hit && address == 0xa4 then chip.data &&& 0xff else chip.reg_a4
    kcode_3ch :=
      if hit && address == 0xa8 then
        upd chip.kcode_3ch channel
          (u8 (u8 (chip.block_3ch channel <<< 2) ||| fn_note (chip.fnum_3ch channel >>> 7)))
      else chip.kcode_3ch
    reg_ac := if hit && address == 0xac then chip.data &&& 0xff else chip.reg_ac
    connect :=
      if hit && address == 0xb0 then upd chip.connect channel (chip.data &&& 0x07)
      else chip.connect
    fb :=
      if hit && address == 0xb0 then upd chip.fb channel ((chip.data >>> 3) &&& 0x07)
      else chip.fb
    pms :=
      if hit && address == 0xb4 then upd chip.pms channel (chip.data &&& 0x07) else chip.pms
    ams :=
      if hit && address == 0xb4 then upd chip.ams channel ((chip.data >>> 4) &&& 0x03)
      else chip.ams
    pan_l :=
      if hit && address == 0xb4 then upd chip.pan_l channel ((chip.data >>> 7) &&& 0x01)
      else chip.pan_l
    pan_r :=
      if hit && address == 0xb4 then upd chip.pan_r channel ((chip.data >>> 6) &&& 0x01)
      else chip.pan_r }

/-- The first block of `OPN2_DoRegWrite` ("Update registers"). -/
def OPN2_DoRegWrite_update (chip : YM3438) : YM3438 :=
  OPN2_DoRegWrite_channel (OPN2_DoRegWrite_slot chip)

/-- The statement `if chip.write_d_en != 0 && (chip.write_data&0x100) == 0`
with its switch on `write_fm_mode_a` ("FM Mode") in `OPN2_DoRegWrite`; `en` is
the condition `chip.write_a_en != 0 || chip.write_d_en != 0` of the block around
it.  Each field is guarded by the case that assigns it. -/
def OPN2_DoRegWrite_mode (en : Bool) (chip : YM3438) : YM3438 :=
  let sel : Bool := en && chip.write_d_en != 0 && chip.write_data &&& 0x100 == 0
  let m := chip.write_fm_mode_a
  let chip := { chip with
    /- LSI test 1 -/
    mode_test_21 :=
      if sel && m == 0x21 then
        setRange 8 chip.mode_test_21 (fun i => u8 ((chip.write_data >>> i) &&& 0x01))
      else chip.mode_test_21
    /- LFO control -/
    lfo_en :=
      if sel && m == 0x22 then (if (chip.write_data >>> 3) &&& 0x01 != 0 then 0x7f else 0)
      else chip.lfo_en
    lfo_freq := if sel && m == 0x22 then u8 (chip.write_data &&& 0x07) else chip.lfo_freq
    /- Timer A -/
    timer_a_reg :=
      if sel && m == 0x24 then
        (chip.timer_a_reg &&& 0x03) ||| u16 ((chip.write_data &&& 0xff) <<< 2)
      else if sel && m == 0x25 then (chip.timer_a_reg &&& 0x3fc) ||| (chip.write_data &&& 0x03)
      else chip.timer_a_reg
    /- Timer B -/
    timer_b_reg := if sel && m == 0x26 then chip.write_data &&& 0xff else chip.timer_b_reg
    /- CSM, Timer control -/
    mode_ch3 :=
      if sel && m == 0x27 then u8 ((chip.write_data &&& 0xc0) >>> 6) else chip.mode_ch3
    timer_a_load := if sel && m == 0x27 then u8 (chip.write_data &&& 0x01) else chip.timer_a_load
    timer_a_enable :=
      if sel && m == 0x27 then u8 ((chip.write_data >>> 2) &&& 0x01) else chip.timer_a_enable
    timer_a_reset :=
      if sel && m == 0x27 then u8 ((chip.write_data >>> 4) &&& 0x01) else chip.timer_a_reset
    timer_b_load :=
      if sel && m == 0x27 then u8 ((chip.write_data >>> 1) &&& 0x01) else chip.timer_b_load
    timer_b_enable :=
      if sel && m == 0x27 then u8 ((chip.write_data >>> 3) &&& 0x01) else chip.timer_b_enable
    timer_b_reset :=
      if sel && m == 0x27 then u8 ((chip.write_data >>> 5) &&& 0x01) else chip.timer_b_reset
    /- Key on/off -/
    mode_kon_operator :=
      if sel && m == 0x28 then
        setRange 4 chip.mode_kon_operator (fun i => u8 ((chip.write_data >>> (4 + i)) &&& 0x01))
      else chip.mode_kon_operator
    mode_kon_channel :=
      if sel && m == 0x28 then
        if chip.write_data &&& 0x03 == 0x03 then
          /- Invalid address -/
          0xff
        else u8 ((chip.write_data &&& 0x03) + ((chip.write_data >>> 2) &&& 1) * 3)
      else chip.mode_kon_channel
    /- DAC enable -/
    dacen := if sel && m == 0x2b then u8 (chip.write_data >>> 7) else chip.dacen
    /- LSI test 2 -/
    mode_test_2c :=
      if sel && m == 0x2c then
        setRange 8 chip.mode_test_2c (fun i => u8 ((chip.write_data >>> i) &&& 0x01))
      else chip.mode_test_2c }
  { chip with
    mode_csm := if sel && m == 0x27 then ToInt (chip.mode_ch3 == 2) else chip.mode_csm
    dacdata :=
      if sel && m == 0x2a then
        /- DAC data -/
        ior16 (iand16 chip.dacdata 0x01) (i16 (u16 ((chip.write_data ^^^ 0x80) <<< 1) : Nat))
      else if sel && m == 0x2c then
        ior16 (iand16 chip.dacdata 0x1fe) (chip.mode_test_2c 3 : Nat)
      else chip.dacdata
    eg_custom_timer :=
      if sel && m == 0x2c then ToInt (chip.mode_test_2c 7 == 0 && chip.mode_test_2c 6 != 0)
      else chip.eg_custom_timer }

/-- The block `if chip.write_a_en != 0 || chip.write_d_en != 0` of
`OPN2_DoRegWrite`: address and data latching. -/
def OPN2_DoRegWrite_latch (chip : YM3438) : YM3438 :=
  let en : Bool := chip.write_a_en != 0 || chip.write_d_en != 0
  /- Data -/
  let chip := { chip with
    write_fm_data := if en && chip.write_a_en != 0 then 0 else chip.write_fm_data }
  let chip := { chip with
    write_fm_data :=
      if en && chip.write_fm_address != 0 && chip.write_d_en != 0 then 1
      else chip.write_fm_data }
  /- Address -/
  let chip := { chip with
    address :=
      if en && chip.write_a_en != 0 && chip.write_data &&& 0xf0 != 0x00 then
        /- FM Write -/
        chip.write_data
      else chip.address
    write_fm_address :=
      if en && chip.write_a_en != 0 then
        /- FM Write, else SSG write -/
        (if chip.write_data &&& 0xf0 != 0x00 then 1 else 0)
      else chip.write_fm_address }
  /- FM Mode, Data -/
  let chip := OPN2_DoRegWrite_mode en chip
  /- Address -/
  { chip with
    write_fm_mode_a :=
      if en && chip.write_a_en != 0 then chip.write_data &&& 0x1ff else chip.write_fm_mode_a }

/-- The last statement of `OPN2_DoRegWrite`, on `chip.data`. -/
def OPN2_DoRegWrite_data (chip : YM3438) : YM3438 :=
  { chip with
    data := if chip.write_fm_data != 0 then u8 (chip.write_data &&& 0xff) else chip.data }

def OPN2_DoRegWrite (chip : YM3438) : YM3438 :=
  /- Update registers -/
  let chip := OPN2_DoRegWrite_update chip
  let chip := OPN2_DoRegWrite_latch chip
  OPN2_DoRegWrite_data chip

/-! ## Phase generator -/

def OPN2_PhaseCalcIncrement (chip : YM3438) : YM3438 :=
  let ch := chip.channel
  let slot := chip.cycles
  let fnum := chip.pg_fnum
  let fnum_h := fnum >>> 4
  let lfo := chip.lfo_pm
  let lfo_l := lfo &&& 0x0f
  let pms := chip.pms ch
  let dt := chip.dt slot
  let dt_l := dt &&& 0x03
  let detune := 0
  let kcode := chip.pg_kcode
  let fnum := u32 (fnum <<< 1)
  /- Apply LFO -/
  let lfo_l := if lfo_l &&& 0x08 != 0 then lfo_l ^^^ 0x0f else lfo_l
  let fm := u32 ((fnum_h >>> pg_lfo_sh1 pms lfo_l) + (fnum_h >>> pg_lfo_sh2 pms lfo_l))
  let fm := if pms > 5 then u32 (fm <<< usub8 pms 5) else fm
  let fm := fm >>> 2
  let fnum := if lfo &&& 0x10 != 0 then usub32 fnum fm else u32 (fnum + fm)
  let fnum := fnum &&& 0xfff
  let basefreq := u32 (fnum <<< chip.pg_block) >>> 2
  /- Apply detune -/
  let detune :=
    if dt_l != 0 then
      let kcode := if kcode > 0x1c then 0x1c else kcode
      let block := kcode >>> 2
      let note := kcode &&& 0x03
      let sum := u8 (block + 9 + (ToInt (dt_l == 3) ||| (dt_l &&& 0x02)))
      let sum_h := sum >>> 1
      let sum_l := sum &&& 0x01
      u8 (pg_detune (u8 (sum_l <<< 2) ||| note) >>> usub8 9 sum_h)
    else detune
  let basefreq :=
    if dt &&& 0x04 != 0 then usub32 basefreq detune else u32 (basefreq + detune)
  let basefreq := basefreq &&& 0x1ffff
  let chip := { chip with
    pg_inc := upd chip.pg_inc slot (u32 (basefreq * chip.multi slot) >>> 1) }
  { chip with pg_inc := upd chip.pg_inc slot (chip.pg_inc slot &&& 0xfffff) }

def OPN2_PhaseGenerate (chip : YM3438) : YM3438 :=
  /- Mask increment -/
  let slot := u32 (chip.cycles + 20) % 24
  let chip := { chip with
    pg_inc := if chip.pg_reset slot != 0 then upd chip.pg_inc slot 0 else chip.pg_inc }
  /- Phase step -/
  let slot := u32 (chip.cycles + 19) % 24
  let chip := { chip with
    pg_phase :=
      if chip.pg_reset slot != 0 || chip.mode_test_21 3 != 0 then upd chip.pg_phase slot 0
      else chip.pg_phase }
  let chip := { chip with
    pg_phase := upd chip.pg_phase slot (u32 (chip.pg_phase slot + chip.pg_inc slot)) }
  { chip with pg_phase := upd chip.pg_phase slot (chip.pg_phase slot &&& 0xfffff) }

/-! ## Envelope generator -/

def OPN2_EnvelopeSSGEG (chip : YM3438) : YM3438 :=
  let slot := chip.cycles
  let direction := 0
  let chip := { chip with
    eg_ssg_pgrst_latch := upd chip.eg_ssg_pgrst_latch slot 0
    eg_ssg_repeat_latch := upd chip.eg_ssg_repeat_latch slot 0
    eg_ssg_hold_up_latch := upd chip.eg_ssg_hold_up_latch slot 0 }
  let direction :=
    if chip.ssg_eg slot &&& 0x08 != 0 then
      let direction := chip.eg_ssg_dir slot
      let direction :=
        if chip.eg_level slot &&& 0x200 != 0 then
          /- Inverse -/
          let direction :=
            if chip.ssg_eg slot &&& 0x03 == 0x02 then direction ^^^ 1 else direction
          if chip.ssg_eg slot &&& 0x03 == 0x03 then 1 else direction
        else direction
      direction &&& chip.eg_kon slot
    else direction
  let chip := { chip with
    eg_ssg_pgrst_latch :=
      /- Reset -/
      if chip.ssg_eg slot &&& 0x08 != 0 && chip.eg_level slot &&& 0x200 != 0 &&
          chip.ssg_eg slot &&& 0x03 == 0x00 then
        upd chip.eg_ssg_pgrst_latch slot 1
      else chip.eg_ssg_pgrst_latch
    eg_ssg_repeat_latch :=
      /- Repeat -/
      if chip.ssg_eg slot &&& 0x08 != 0 && chip.eg_level slot &&& 0x200 != 0 &&
          chip.ssg_eg slot &&& 0x01 == 0x00 then
        upd chip.eg_ssg_repeat_latch slot 1
      else chip.eg_ssg_repeat_latch
    eg_ssg_hold_up_latch :=
      /- Hold up -/
      if chip.ssg_eg slot &&& 0x08 != 0 && chip.eg_kon_latch slot != 0 &&
          (chip.ssg_eg slot &&& 0x07 == 0x05 || chip.ssg_eg slot &&& 0x07 == 0x03) then
        upd chip.eg_ssg_hold_up_latch slot 1
      else chip.eg_ssg_hold_up_latch }
  let chip := { chip with eg_ssg_dir := upd chip.eg_ssg_dir slot direction }
  let chip := { chip with
    eg_ssg_enable := upd chip.eg_ssg_enable slot ((chip.ssg_eg slot >>> 3) &&& 0x01) }
  { chip with
    eg_ssg_inv := upd chip.eg_ssg_inv slot
      ((chip.eg_ssg_dir slot ^^^
          (((chip.ssg_eg slot >>> 2) &&& 0x01) &&& ((chip.ssg_eg slot >>> 3) &&& 0x01)))
        &&& chip.eg_kon slot) }

/-- The values of the locals `nextstate`, `nextlevel` and `inc` of
`OPN2_EnvelopeADSR` before the "Envelope off" test, in this order, from the
slot, the key-on event and the level after the key-off substitution. -/
def OPN2_EnvelopeADSR_next (chip : YM3438) (slot kon_event eg_off : Nat) (level : Int) :
    Nat × Int × Int :=
  let nkon := chip.eg_kon_latch slot
  let nextstate := chip.eg_state slot
  let inc : Int := 0
  let nextlevel := level
  if kon_event != 0 then
    let nextstate := eg_num_attack
    /- Instant attack -/
    if chip.eg_ratemax != 0 then (nextstate, 0, inc)
    else if chip.eg_state slot == eg_num_attack && level != 0 && chip.eg_inc != 0 && nkon != 0 then
      (nextstate, nextlevel, isar (ishl16 (inot16 level) chip.eg_inc) 5)
    else (nextstate, nextlevel, inc)
  else
    let r : Nat × Int :=
      if chip.eg_state slot == eg_num_attack then
        if level == 0 then (eg_num_decay, inc)
        else if chip.eg_inc != 0 && chip.eg_ratemax == 0 && nkon != 0 then
          (nextstate, isar (ishl16 (inot16 level) chip.eg_inc) 5)
        else (nextstate, inc)
      else if chip.eg_state slot == eg_num_decay then
        if isar level 4 == ((u8 (chip.eg_sl 1 <<< 1) : Nat) : Int) then (eg_num_sustain, inc)
        else if eg_off == 0 && chip.eg_inc != 0 then
          let inc := i16 (2 ^ usub8 chip.eg_inc 1)
          (nextstate, if chip.eg_ssg_enable slot != 0 then ishl16 inc 2 else inc)
        else (nextstate, inc)
      else if chip.eg_state slot == eg_num_sustain || chip.eg_state slot == eg_num_release then
        if eg_off == 0 && chip.eg_inc != 0 then
          let inc := i16 (2 ^ usub8 chip.eg_inc 1)
          (nextstate, if chip.eg_ssg_enable slot != 0 then ishl16 inc 2 else inc)
        else (nextstate, inc)
      else (nextstate, inc)
    (if nkon == 0 then eg_num_release else r.1, nextlevel, r.2)

/-- The local `kon_event` of `OPN2_EnvelopeADSR`. -/
def OPN2_EnvelopeADSR_kon_event (chip : YM3438) (slot : Nat) : Nat :=
  let nkon := chip.eg_kon_latch slot
  let okon := chip.eg_kon slot
  ToInt ((nkon != 0 && okon == 0) || (okon != 0 && chip.eg_ssg_repeat_latch slot != 0))

/-- The local `level` of `OPN2_EnvelopeADSR` after the statement
`if koff_event != 0 { level = ssg_level }`. -/
def OPN2_EnvelopeADSR_level (chip : YM3438) (slot : Nat) : Int :=
  let nkon := chip.eg_kon_latch slot
  let okon := chip.eg_kon slot
  let koff_event := ToInt (okon != 0 && nkon == 0)
  let level : Int := i16 (chip.eg_level slot : Nat)
  let ssg_level := level
  /- Inverse -/
  let ssg_level :=
    if chip.eg_ssg_inv slot != 0 then iand16 (i16 (512 - level)) 0x3ff else ssg_level
  if koff_event != 0 then ssg_level else level

/-- The local `eg_off` of `OPN2_EnvelopeADSR`. -/
def OPN2_EnvelopeADSR_eg_off (chip : YM3438) (slot : Nat) : Nat :=
  let level := OPN2_EnvelopeADSR_level chip slot
  if chip.eg_ssg_enable slot != 0 then (isar level 9 % 256).toNat
  else ToInt (iand16 level 0x3f0 == 0x3f0)

def OPN2_EnvelopeADSR (chip : YM3438) : YM3438 :=
  let slot := u32 (chip.cycles + 22) % 24
  let nkon := chip.eg_kon_latch slot
  let okon := chip.eg_kon slot
  let chip := { chip with eg_read := upd chip.eg_read 0 chip.eg_read_inc }
  let chip := { chip with eg_read_inc := ToInt (decide (chip.eg_inc > 0)) }
  /- Reset phase generator -/
  let chip := { chip with
    pg_reset := upd chip.pg_reset slot
      (ToInt ((nkon != 0 && okon == 0) || chip.eg_ssg_pgrst_latch slot != 0)) }
  /- KeyOn/Off -/
  let kon_event := OPN2_EnvelopeADSR_kon_event chip slot
  let level := OPN2_EnvelopeADSR_level chip slot
  let eg_off := OPN2_EnvelopeADSR_eg_off chip slot
  let r := OPN2_EnvelopeADSR_next chip slot kon_event eg_off level
  let nextstate := r.1
  let nextlevel := r.2.1
  let inc := r.2.2
  let nextlevel :=
    if chip.eg_kon_csm slot != 0 then ior16 nextlevel (ishl16 (chip.eg_tl 1 : Nat) 3)
    else nextlevel
  /- Envelope off -/
  let off : Bool :=
    kon_event == 0 && chip.eg_ssg_hold_up_latch slot == 0 &&
      chip.eg_state slot != eg_num_attack && eg_off != 0
  let nextstate := if off then eg_num_release else nextstate
  let nextlevel := if off then 0x3ff else nextlevel
  let nextlevel := i16 (nextlevel + inc)
  let chip := { chip with eg_kon := upd chip.eg_kon slot (chip.eg_kon_latch slot) }
  let chip := { chip with eg_level := upd chip.eg_level slot (bits16 nextlevel &&& 0x3ff) }
  { chip with eg_state := upd chip.eg_state slot nextstate }

def OPN2_EnvelopePrepare (chip : YM3438) : YM3438 :=
  let inc := 0
  let slot := chip.cycles
  /- Prepare increment -/
  let rate := u8 (u8 (chip.eg_rate <<< 1) + chip.eg_ksv)
  let rate := min rate 0x3f
  let sum := u8 ((rate >>> 2) + chip.eg_shift_lock) &&& 0x0f
  let inc :=
    if chip.eg_rate != 0 && chip.eg_quotient == 2 then
      if rate < 48 then
        if sum == 12 then 1
        else if sum == 13 then (rate >>> 1) &&& 0x01
        else if sum == 14 then rate &&& 0x01
        else inc
      else
        min (u8 (usub32 (u32 (eg_stephi (rate &&& 0x03) chip.eg_timer_low_lock + (rate >>> 2)))
          11)) 4
    else inc
  let chip := { chip with eg_inc := inc }
  let chip := { chip with eg_ratemax := ToInt ((rate >>> 1) == 0x1f) }
  /- Prepare rate & ksv -/
  let rate_sel := chip.eg_state slot
  let rate_sel :=
    if (chip.eg_kon slot != 0 && chip.eg_ssg_repeat_latch slot != 0) ||
        (chip.eg_kon slot == 0 && chip.eg_kon_latch slot != 0) then eg_num_attack
    else rate_sel
  let chip := { chip with
    eg_rate :=
      if rate_sel == eg_num_attack then chip.ar slot
      else if rate_sel == eg_num_decay then chip.dr slot
      else if rate_sel == eg_num_sustain then chip.sr slot
      else if rate_sel == eg_num_release then u8 (chip.rr slot <<< 1) ||| 0x01
      else chip.eg_rate }
  let chip := { chip with eg_ksv := chip.pg_kcode >>> (chip.ks slot ^^^ 0x03) }
  let chip := { chip with
    eg_lfo_am :=
      if chip.am slot != 0 then chip.lfo_am >>> eg_am_shift (chip.ams chip.channel) else 0 }
  /- Delay TL & SL value -/
  let chip := { chip with eg_tl := upd chip.eg_tl 1 (chip.eg_tl 0) }
  let chip := { chip with eg_tl := upd chip.eg_tl 0 (chip.tl slot) }
  let chip := { chip with eg_sl := upd chip.eg_sl 1 (chip.eg_sl 0) }
  { chip with eg_sl := upd chip.eg_sl 0 (chip.sl slot) }

def OPN2_EnvelopeGenerate (chip : YM3438) : YM3438 :=
  let slot := u32 (chip.cycles + 23) % 24
  let level := chip.eg_level slot
  /- Inverse -/
  let level := if chip.eg_ssg_inv slot != 0 then usub16 512 level else level
  let level := if chip.mode_test_21 5 != 0 then 0 else level
  let level := level &&& 0x3ff
  /- Apply AM LFO -/
  let level := u16 (level + chip.eg_lfo_am)
  /- Apply TL -/
  let level :=
    if ! (chip.mode_csm != 0 && chip.channel == 2 + 1) then
      u16 (level + u16 (chip.eg_tl 0 <<< 3))
    else level
  let level := if level > 0x3ff then 0x3ff else level
  { chip with eg_out := upd chip.eg_out slot level }

/-! ## LFO -/

def OPN2_UpdateLFO (chip : YM3438) : YM3438 :=
  let wrap : Bool :=
    chip.lfo_quotient &&& lfo_cycles chip.lfo_freq == lfo_cycles chip.lfo_freq
  let chip := { chip with
    lfo_quotient := if wrap then 0 else u8 (chip.lfo_quotient + chip.lfo_inc)
    lfo_cnt := if wrap then u8 (chip.lfo_cnt + 1) else chip.lfo_cnt }
  { chip with lfo_cnt := chip.lfo_cnt &&& chip.lfo_en }

/-! ## FM operator network and channel accumulator -/

def OPN2_FMPrepare (chip : YM3438) : YM3438 :=
  let slot := u32 (chip.cycles + 6) % 24
  let channel := chip.channel
  let op := slot / 6
  let connect := chip.connect channel
  let prevslot := u32 (chip.cycles + 18) % 24
  /- Calculate modulation -/
  let mod1 : Int := 0
  let mod2 : Int := 0
  let mod2 :=
    if fm_algorithm op 0 connect != 0 then ior16 mod2 (chip.fm_op1 channel 0) else mod2
  let mod1 :=
    if fm_algorithm op 1 connect != 0 then ior16 mod1 (chip.fm_op1 channel 1) else mod1
  let mod1 := if fm_algorithm op 2 connect != 0 then ior16 mod1 (chip.fm_op2 channel) else mod1
  let mod2 := if fm_algorithm op 3 connect != 0 then ior16 mod2 (chip.fm_out prevslot) else mod2
  let mod1 := if fm_algorithm op 4 connect != 0 then ior16 mod1 (chip.fm_out prevslot) else mod1
  let mod := i16 (mod1 + mod2)
  let mod :=
    if op == 0 then
      /- Feedback -/
      let mod := isar mod (usub8 10 (chip.fb channel))
      if chip.fb channel == 0 then 0 else mod
    else isar mod 1
  let chip := { chip with fm_mod := upd chip.fm_mod slot (bits16 mod) }
  let slot := u32 (chip.cycles + 18) % 24
  /- OP1 -/
  let chip := { chip with
    fm_op1 :=
      if slot / 6 == 0 then
        upd chip.fm_op1 channel (upd (chip.fm_op1 channel) 1 (chip.fm_op1 channel 0))
      else chip.fm_op1 }
  let chip := { chip with
    fm_op1 :=
      if slot / 6 == 0 then
        upd chip.fm_op1 channel (upd (chip.fm_op1 channel) 0 (chip.fm_out slot))
      else chip.fm_op1 }
  /- OP2 -/
  { chip with
    fm_op2 :=
      if slot / 6 == 2 then upd chip.fm_op2 channel (chip.fm_out slot) else chip.fm_op2 }

def OPN2_ChGenerate (chip : YM3438) : YM3438 :=
  let slot := u32 (chip.cycles + 18) % 24
  let channel := chip.channel
  let op := slot / 6
  let test_dac := chip.mode_test_2c 5
  let acc : Int := chip.ch_acc channel
  let add : Int := i16 (test_dac : Nat)
  let acc := if op == 0 && test_dac == 0 then 0 else acc
  let add :=
    if fm_algorithm op 5 (chip.connect channel) != 0 && test_dac == 0 then
      i16 (add + isar (chip.fm_out slot) 5)
    else add
  let sum := i16 (acc + add)
  /- Clamp -/
  let sum := if sum > 255 then 255 else if sum < -256 then -256 else sum
  let chip := { chip with
    ch_out :=
      if op == 0 || test_dac != 0 then upd chip.ch_out channel (chip.ch_acc channel)
      else chip.ch_out }
  { chip with ch_acc := upd chip.ch_acc channel sum }

def OPN2_ChOutput (chip_type : Nat) (chip : YM3438) : YM3438 :=
  let cycles := chip.cycles
  let slot := chip.cycles
  let channel := chip.channel
  let test_dac := chip.mode_test_2c 5
  let chip := { chip with ch_read := chip.ch_lock }
  /- Ch 4,5,6 -/
  let channel := if slot < 12 then u32 (channel + 1) else channel
  let chip := { chip with
    ch_lock :=
      /- Lock value -/
      if cycles &&& 3 == 0 && test_dac == 0 then chip.ch_out channel else chip.ch_lock
    ch_lock_l := if cycles &&& 3 == 0 then chip.pan_l channel else chip.ch_lock_l
    ch_lock_r := if cycles &&& 3 == 0 then chip.pan_r channel else chip.ch_lock_r }
  /- Ch 6 -/
  let out : Int :=
    if (cycles >>> 2 == 1 && chip.dacen != 0) || test_dac != 0 then
      SIGN_EXTEND 8 chip.dacdata
    else chip.ch_lock
  let chip := { chip with mol := 0, mor := 0 }
  let ym2612 : Bool := chip_type &&& ModeYM2612 != 0
  let out_en :=
    if ym2612 then ToInt (cycles &&& 3 == 3 || test_dac != 0)
    else ToInt (cycles &&& 3 != 0 || test_dac != 0)
  /- YM2612 DAC emulation(not verified) -/
  let sign := isar out 8
  let sign := if out ≥ 0 then i16 (sign + 1) else sign
  let out2612 := if out ≥ 0 then i16 (out + 1) else out
  let chip := { chip with
    mol :=
      if ym2612 then (if chip.ch_lock_l != 0 && out_en != 0 then out2612 else sign)
      else (if chip.ch_lock_l != 0 && out_en != 0 then out else chip.mol)
    mor :=
      if ym2612 then (if chip.ch_lock_r != 0 && out_en != 0 then out2612 else sign)
      else (if chip.ch_lock_r != 0 && out_en != 0 then out else chip.mor) }
  /- Amplify signal -/
  { chip with
    mol := if ym2612 then i16 (chip.mol * 3) else chip.mol
    mor := if ym2612 then i16 (chip.mor * 3) else chip.mor }

def OPN2_FMGenerate (chip : YM3438) : YM3438 :=
  let slot := u32 (chip.cycles + 19) % 24
  /- Calculate phase -/
  let phase := u16 (u32 (chip.fm_mod slot + (chip.pg_phase slot >>> 10)) &&& 0x3ff)
  let quarter := if phase &&& 0x100 != 0 then (phase ^^^ 0xff) &&& 0xff else phase &&& 0xff
  let level := logsinrom quarter
  /- Apply envelope -/
  let level := u16 (level + u16 (chip.eg_out slot <<< 2))
  /- Transform -/
  let level := if level > 0x1fff then 0x1fff else level
  let output : Int :=
    i16 ((u16 ((exprom ((level &&& 0xff) ^^^ 0xff) ||| 0x400) <<< 2) >>> (level >>> 8) : Nat))
  let output :=
    if phase &&& 0x200 != 0 then
      i16 (ixor16 (inot16 output) (ishl16 (chip.mode_test_21 4 : Nat) 13) + 1)
    else ixor16 output (ishl16 (chip.mode_test_21 4 : Nat) 13)
  let output := ishl16 output 2
  let output := isar output 2
  { chip with fm_out := upd chip.fm_out slot output }

/-! ## Timers and key-on -/

def OPN2_DoTimerA (chip : YM3438) : YM3438 :=
  let load := chip.timer_a_overflow
  /- Lock load value -/
  let load :=
    if chip.cycles == 2 then
      load ||| ToInt (chip.timer_a_load_lock == 0 && chip.timer_a_load != 0)
    else load
  let chip := { chip with
    timer_a_load_lock := if chip.cycles == 2 then chip.timer_a_load else chip.timer_a_load_lock
    mode_kon_csm :=
      if chip.cycles == 2 then
        /- CSM KeyOn -/
        (if chip.mode_csm != 0 then load else 0)
      else chip.mode_kon_csm }
  /- Load counter -/
  let time := if chip.timer_a_load_latch != 0 then chip.timer_a_reg else chip.timer_a_cnt
  let chip := { chip with timer_a_load_latch := load }
  /- Increase counter -/
  let time :=
    if (chip.cycles == 1 && chip.timer_a_load_lock != 0) || chip.mode_test_21 2 != 0 then
      u16 (time + 1)
    else time
  /- Set overflow flag -/
  let chip := { chip with
    timer_a_overflow_flag :=
      if chip.timer_a_reset != 0 then 0
      else chip.timer_a_overflow_flag ||| (chip.timer_a_overflow &&& chip.timer_a_enable)
    timer_a_reset := if chip.timer_a_reset != 0 then 0 else chip.timer_a_reset }
  { chip with timer_a_overflow := u8 (time >>> 10), timer_a_cnt := time &&& 0x3ff }

def OPN2_DoTimerB (chip : YM3438) : YM3438 :=
  let load := chip.timer_b_overflow
  /- Lock load value -/
  let load :=
    if chip.cycles == 2 then
      load ||| ToInt (chip.timer_b_load_lock == 0 && chip.timer_b_load != 0)
    else load
  let chip := { chip with
    timer_b_load_lock :=
      if chip.cycles == 2 then chip.timer_b_load else chip.timer_b_load_lock }
  /- Load counter -/
  let time := if chip.timer_b_load_latch != 0 then chip.timer_b_reg else chip.timer_b_cnt
  let chip := { chip with timer_b_load_latch := load }
  /- Increase counter -/
  let chip := { chip with
    timer_b_subcnt :=
      if chip.cycles == 1 then u8 (chip.timer_b_subcnt + 1) else chip.timer_b_subcnt }
  let time :=
    if (chip.timer_b_subcnt == 0x10 && chip.timer_b_load_lock != 0) ||
        chip.mode_test_21 2 != 0 then
      u16 (time + 1)
    else time
  let chip := { chip with timer_b_subcnt := chip.timer_b_subcnt &&& 0x0f }
  /- Set overflow flag -/
  let chip := { chip with
    timer_b_overflow_flag :=
      if chip.timer_b_reset != 0 then 0
      else chip.timer_b_overflow_flag ||| (chip.timer_b_overflow &&& chip.timer_b_enable)
    timer_b_reset := if chip.timer_b_reset != 0 then 0 else chip.timer_b_reset }
  { chip with timer_b_overflow := u8 (time >>> 8), timer_b_cnt := time &&& 0xff }

def OPN2_KeyOn (chip : YM3438) : YM3438 :=
  let slot := chip.cycles
  let ch := chip.channel
  /- Key On -/
  let chip := { chip with eg_kon_latch := upd chip.eg_kon_latch slot (chip.mode_kon slot) }
  let chip := { chip with eg_kon_csm := upd chip.eg_kon_csm slot 0 }
  /- CSM Key On -/
  let csm : Bool := chip.channel == 2 && chip.mode_kon_csm != 0
  let chip := { chip with
    eg_kon_latch := if csm then upd chip.eg_kon_latch slot 1 else chip.eg_kon_latch
    eg_kon_csm := if csm then upd chip.eg_kon_csm slot 1 else chip.eg_kon_csm }
  { chip with
    mode_kon :=
      if chip.cycles == chip.mode_kon_channel then
        /- OP1, OP2, OP3, OP4 -/
        upd (upd (upd (upd chip.mode_kon ch (chip.mode_kon_operator 0))
          (ch + 12) (chip.mode_kon_operator 1))
          (ch + 6) (chip.mode_kon_operator 2))
          (ch + 18) (chip.mode_kon_operator 3)
      else chip.mode_kon }

/-! ## Reset, clock and bus operations -/

/-- How a call can fail to return a result. -/
inductive Failure where
  /-- The run-time panic "integer divide by zero". -/
  | divideByZero
  /-- A loop that has not exited within the iterations allowed. -/
  | outOfFuel
  deriving DecidableEq, Repr

/-- `OPN2_Reset(chip, rate, clock)`; `rate` and `clock` are `uint32` values. -/
def OPN2_Reset (_chip : YM3438) (rate clock : Nat) : Except Failure YM3438 :=
  let chip := YM3438.zero
  let chip := { chip with
    eg_out := setRange 24 chip.eg_out (fun _ => 0x3ff)
    eg_level := setRange 24 chip.eg_level (fun _ => 0x3ff)
    eg_state := setRange 24 chip.eg_state (fun _ => eg_num_release)
    multi := setRange 24 chip.multi (fun _ => 1) }
  let chip := { chip with
    pan_l := setRange 6 chip.pan_l (fun _ => 1)
    pan_r := setRange 6 chip.pan_r (fun _ => 1) }
  if clock == 0 then .error Failure.divideByZero
  else
    .ok { chip with
      rateratio := i32 ((u64 (u32 (144 * rate) <<< RSM_FRAC) / clock : Nat)) }

/-- The statements of `OPN2_Clock` before the switch on `chip.cycles`. -/
def OPN2_Clock_head (chip : YM3438) : YM3438 :=
  let chip := { chip with lfo_inc := chip.mode_test_21 1 }
  let chip := { chip with pg_read := chip.pg_read >>> 1 }
  let chip := { chip with eg_read := upd chip.eg_read 1 (chip.eg_read 1 >>> 1) }
  let chip := { chip with eg_cycle := u8 (chip.eg_cycle + 1) }
  /- Lock envelope generator timer value -/
  let lock : Bool := chip.cycles == 1 && chip.eg_quotient == 2
  { chip with
    eg_shift_lock :=
      if lock then (if chip.eg_cycle_stop != 0 then 0 else u8 (chip.eg_shift + 1))
      else chip.eg_shift_lock
    eg_timer_low_lock :=
      if lock then u8 (chip.eg_timer &&& 0x03) else chip.eg_timer_low_lock }

/-- The switch on `chip.cycles` in `OPN2_Clock` ("Cycle specific functions"):
each field is guarded by the cases that assign it; the statements that cases 1
and 13 have in common are guarded by `c1 || c13`. -/
def OPN2_Clock_cycle (chip : YM3438) : YM3438 :=
  let c0 : Bool := chip.cycles == 0
  let c1 : Bool := chip.cycles == 1
  let c2 : Bool := chip.cycles == 2
  let c13 : Bool := chip.cycles == 13
  let c23 : Bool := chip.cycles == 23
  /- case 0 -/
  let chip := { chip with lfo_pm := if c0 then chip.lfo_cnt >>> 2 else chip.lfo_pm }
  let chip := { chip with
    lfo_am :=
      if c0 then
        (if chip.lfo_cnt &&& 0x40 != 0 then chip.lfo_cnt &&& 0x3f else chip.lfo_cnt ^^^ 0x3f)
      else chip.lfo_am }
  let chip := { chip with lfo_am := if c0 then u8 (chip.lfo_am <<< 1) else chip.lfo_am }
  /- case 1, case 13 -/
  let chip := { chip with
    eg_quotient := if c1 then u16 (chip.eg_quotient + 1) else chip.eg_quotient }
  let chip := { chip with eg_quotient := if c1 then chip.eg_quotient % 3 else chip.eg_quotient }
  let chip := { chip with
    eg_cycle := if c1 || c13 then 0 else chip.eg_cycle
    eg_cycle_stop := if c1 || c13 then 1 else chip.eg_cycle_stop
    eg_shift := if c1 || c13 then 0 else chip.eg_shift }
  let chip := { chip with
    eg_timer_inc :=
      if c1 then chip.eg_timer_inc ||| u8 (chip.eg_quotient >>> 1) else chip.eg_timer_inc }
  let chip := { chip with
    eg_timer := if c1 || c13 then u16 (chip.eg_timer + chip.eg_timer_inc) else chip.eg_timer }
  let chip := { chip with
    eg_timer_inc := if c1 || c13 then u8 (chip.eg_timer >>> 12) else chip.eg_timer_inc }
  let chip := { chip with
    eg_timer := if c1 || c13 then chip.eg_timer &&& 0xfff else chip.eg_timer }
  { chip with
    /- case 2 -/
    pg_read := if c2 then chip.pg_phase 21 &&& 0x3ff else chip.pg_read
    eg_read := if c2 then upd chip.eg_read 1 (chip.eg_out 0) else chip.eg_read
    /- case 23 -/
    lfo_inc := if c23 then chip.lfo_inc ||| 1 else chip.lfo_inc }

/-- The envelope timer statements of `OPN2_Clock` after the switch. -/
def OPN2_Clock_timer (chip : YM3438) : YM3438 :=
  let chip := { chip with
    eg_timer := chip.eg_timer &&& (u16 (u8 (chip.mode_test_21 5 <<< chip.eg_cycle)) ^^^ 0xffff) }
  let hit : Bool :=
    ((chip.eg_timer >>> chip.eg_cycle) ||| (chip.pin_test_in &&& chip.eg_custom_timer))
      &&& chip.eg_cycle_stop != 0
  { chip with
    eg_shift := if hit then chip.eg_cycle else chip.eg_shift
    eg_cycle_stop := if hit then 0 else chip.eg_cycle_stop }

/-- The index into `fnum`, `block` and `kcode`, or into their `_3ch` copies when
`special` is set, chosen by "Prepare fnum & block" in `OPN2_Clock`; `slot` is
the value of `chip.cycles` on entry to `OPN2_Clock`. -/
def OPN2_Clock_fnum_sel (chip : YM3438) (slot : Nat) : Bool × Nat :=
  if chip.mode_ch3 != 0 then
    /- Channel 3 special mode -/
    if slot == 1 then (true, 1)        /- OP1 -/
    else if slot == 7 then (true, 0)   /- OP3 -/
    else if slot == 13 then (true, 2)  /- OP2 -/
    else (false, u32 (chip.channel + 1) % 6) /- OP4 -/
  else (false, u32 (chip.channel + 1) % 6)

/-- The statements "Prepare fnum & block" of `OPN2_Clock`. -/
def OPN2_Clock_fnum (chip : YM3438) (slot : Nat) : YM3438 :=
  let sel := OPN2_Clock_fnum_sel chip slot
  { chip with
    pg_fnum := if sel.1 then chip.fnum_3ch sel.2 else chip.fnum sel.2
    pg_block := if sel.1 then chip.block_3ch sel.2 else chip.block sel.2
    pg_kcode := if sel.1 then chip.kcode_3ch sel.2 else chip.kcode sel.2 }

/-- The statements of `OPN2_Clock` that advance `cycles` and `channel`. -/
def OPN2_Clock_next (chip : YM3438) : YM3438 :=
  let chip := { chip with cycles := u32 (chip.cycles + 1) % 24 }
  { chip with channel := chip.cycles % 6 }

/-- The last statement of `OPN2_Clock`, on `status_time`. -/
def OPN2_Clock_status (chip : YM3438) : YM3438 :=
  { chip with
    status_time := if chip.status_time != 0 then chip.status_time - 1 else chip.status_time }

/-- `OPN2_Clock(chip, buffer)`: the new chip and the values stored in
`buffer[0]` and `buffer[1]`.  `chip_type` is the package variable. -/
def OPN2_Clock (chip_type : Nat) (chip : YM3438) : YM3438 × Int × Int :=
  let slot := chip.cycles
  let chip := OPN2_Clock_head chip
  let chip := OPN2_Clock_cycle chip
  let chip := OPN2_Clock_timer chip
  let chip := OPN2_DoIO chip
  let chip := OPN2_DoTimerA chip
  let chip := OPN2_DoTimerB chip
  let chip := OPN2_KeyOn chip
  let chip := OPN2_ChOutput chip_type chip
  let chip := OPN2_ChGenerate chip
  let chip := OPN2_FMPrepare chip
  let chip := OPN2_FMGenerate chip
  let chip := OPN2_PhaseGenerate chip
  let chip := OPN2_PhaseCalcIncrement chip
  let chip := OPN2_EnvelopeADSR chip
  let chip := OPN2_EnvelopeGenerate chip
  let chip := OPN2_EnvelopeSSGEG chip
  let chip := OPN2_EnvelopePrepare chip
  /- Prepare fnum & block -/
  let chip := OPN2_Clock_fnum chip slot
  let chip := OPN2_UpdateLFO chip
  let chip := OPN2_DoRegWrite chip
  let chip := OPN2_Clock_next chip
  let buffer0 := i32 chip.mol
  let buffer1 := i32 chip.mor
  let chip := OPN2_Clock_status chip
  (chip, buffer0, buffer1)

/-- `OPN2_Write(chip, port, data)`; `port` is a `uint32`, `data` a `uint8`. -/
def OPN2_Write (chip : YM3438) (port data : Nat) : YM3438 :=
  let port := port &&& 3
  let chip := { chip with write_data := u16 ((u32 (port <<< 7) &&& 0x100) ||| data) }
  { chip with
    /- Data -/
    write_d := if port &&& 1 != 0 then chip.write_d ||| 1 else chip.write_d
    /- Address -/
    write_a := if port &&& 1 != 0 then chip.write_a else chip.write_a ||| 1 }

def OPN2_SetTestPin (chip : YM3438) (value : Nat) : YM3438 :=
  { chip with pin_test_in := u8 (value &&& 1) }

def OPN2_ReadTestPin (chip : YM3438) : Nat :=
  if chip.mode_test_2c 7 == 0 then 0 else ToInt (chip.cycles == 23)

def OPN2_ReadIRQPin (chip : YM3438) : Nat :=
  chip.timer_a_overflow_flag ||| chip.timer_b_overflow_flag

/-- The test data byte read by `OPN2_Read` when `mode_test_21[6]` is set. -/
def OPN2_Read_testdata (chip : YM3438) : Nat :=
  let slot := u32 (chip.cycles + 18) % 24
  let testdata :=
    u16 (u32 ((chip.pg_read &&& 0x01) <<< 15) |||
      u32 ((chip.eg_read (chip.mode_test_21 0) &&& 0x01) <<< 14))
  let testdata :=
    if chip.mode_test_2c 4 != 0 then testdata ||| bits16 (iand16 chip.ch_read 0x1ff)
    else testdata ||| bits16 (iand16 (chip.fm_out slot) 0x3fff)
  if chip.mode_test_21 7 != 0 then u8 (testdata &&& 0xff) else u8 (testdata >>> 8)

/-- `OPN2_Read(chip, port)`: the new chip and the byte returned. -/
def OPN2_Read (chip_type : Nat) (chip : YM3438) (port : Nat) : YM3438 × Nat :=
  let sel : Bool := port &&& 3 == 0 || chip_type &&& ModeReadmode != 0
  let chip := { chip with
    status :=
      if sel then
        if chip.mode_test_21 6 != 0 then
          /- Read test data -/
          OPN2_Read_testdata chip
        else
          u8 (u8 (chip.busy <<< 7) ||| u8 (chip.timer_b_overflow_flag <<< 1) |||
            chip.timer_a_overflow_flag)
      else chip.status
    status_time :=
      if sel then (if chip_type &&& ModeYM2612 != 0 then 300000 else 40000000)
      else chip.status_time }
  (chip, if chip.status_time != 0 then chip.status else 0)

/-! ## Timed write queue and resampler -/

/-- The catch-up loop `for ; skip >= 0; skip-- { OPN2_Clock(chip, buffer[:]) }`
of `OPN2_WriteBuffered`, with `skip` a `uint64`, run for at most `fuel`
evaluations of its condition. -/
def OPN2_WriteBuffered_skip (chip_type : Nat) : Nat → Nat → YM3438 → Except Failure YM3438
  | 0, _, _ => .error Failure.outOfFuel
  | fuel + 1, skip, chip =>
    if skip ≥ 0 then
      OPN2_WriteBuffered_skip chip_type fuel (usub64 skip 1) (OPN2_Clock chip_type chip).1
    else .ok chip

/-- The statements of `OPN2_WriteBuffered` after the catch-up block. -/
def OPN2_WriteBuffered_insert (chip : YM3438) (port data : Nat) : YM3438 :=
  let chip := { chip with
    writebuf := upd chip.writebuf chip.writebuf_last
      { chip.writebuf chip.writebuf_last with port := u8 ((port &&& 0x03) ||| 0x04) } }
  let chip := { chip with
    writebuf := upd chip.writebuf chip.writebuf_last
      { chip.writebuf chip.writebuf_last with data := data } }
  let time1 := u64 (chip.writebuf_lasttime + OPN_WRITEBUF_DELAY)
  let time2 := chip.writebuf_samplecnt
  let time1 := if time1 < time2 then time2 else time1
  let chip := { chip with
    writebuf := upd chip.writebuf chip.writebuf_last
      { chip.writebuf chip.writebuf_last with time := time1 } }
  let chip := { chip with writebuf_lasttime := time1 }
  { chip with writebuf_last := u32 (chip.writebuf_last + 1) % OPN_WRITEBUF_SIZE }

/-- `OPN2_WriteBuffered(chip, port, data)`; every loop is run for at most
`fuel` evaluations of its condition. -/
def OPN2_WriteBuffered (fuel chip_type : Nat) (chip : YM3438) (port data : Nat) :
    Except Failure YM3438 :=
  if (chip.writebuf chip.writebuf_last).port &&& 0x04 != 0 then
    let chip := OPN2_Write chip ((chip.writebuf chip.writebuf_last).port &&& 0x03)
      (chip.writebuf chip.writebuf_last).data
    let chip := { chip with writebuf_cur := u32 (chip.writebuf_last + 1) % OPN_WRITEBUF_SIZE }
    let skip := usub64 (chip.writebuf chip.writebuf_last).time chip.writebuf_samplecnt
    let chip := { chip with writebuf_samplecnt := (chip.writebuf chip.writebuf_last).time }
    match OPN2_WriteBuffered_skip chip_type fuel skip chip with
    | .error e => .error e
    | .ok chip => .ok (OPN2_WriteBuffered_insert chip port data)
  else .ok (OPN2_WriteBuffered_insert chip port data)

/-- The body of the queue loop of `OPN2_GenerateResampled` after its `break`
test: the pending bit of the entry at `writebuf_cur` is cleared, the entry is
handed to `OPN2_Write` and `writebuf_cur` moves on by one. -/
def OPN2_GenerateResampled_apply (chip : YM3438) : YM3438 :=
  let chip := { chip with
    writebuf := upd chip.writebuf chip.writebuf_cur
      { chip.writebuf chip.writebuf_cur with
        port := (chip.writebuf chip.writebuf_cur).port &&& 0x03 } }
  let chip := OPN2_Write chip (chip.writebuf chip.writebuf_cur).port
    (chip.writebuf chip.writebuf_cur).data
  { chip with writebuf_cur := u32 (chip.writebuf_cur + 1) % OPN_WRITEBUF_SIZE }

/-- The loop of `OPN2_GenerateResampled` that hands the due queue entries to
`OPN2_Write`, run for at most `fuel` evaluations of its condition. -/
def OPN2_GenerateResampled_drain : Nat → YM3438 → Except Failure YM3438
  | 0, _ => .error Failure.outOfFuel
  | fuel + 1, chip =>
    if (chip.writebuf chip.writebuf_cur).time ≤ chip.writebuf_samplecnt then
      if (chip.writebuf chip.writebuf_cur).port &&& 0x04 == 0 then .ok chip
      else OPN2_GenerateResampled_drain fuel (OPN2_GenerateResampled_apply chip)
    else .ok chip

/-- The mute flag selected by the switch on `chip.cycles >> 2`. -/
def OPN2_GenerateResampled_mute (chip : YM3438) : Nat :=
  let q := chip.cycles >>> 2
  if q == 0 then chip.mute 1
  else if q == 1 then chip.mute (5 + chip.dacen)
  else if q == 2 then chip.mute 3
  else if q == 3 then chip.mute 0
  else if q == 4 then chip.mute 4
  else if q == 5 then chip.mute 2
  else 0

/-- One round of the loop `for range 24` of `OPN2_GenerateResampled` up to
the queue loop: the mute flag is selected, the chip is clocked and the output
is added to `samples` unless muted. -/
def OPN2_GenerateResampled_clock (chip_type : Nat) (chip : YM3438) : YM3438 :=
  let mute := OPN2_GenerateResampled_mute chip
  let r := OPN2_Clock chip_type chip
  let chip := r.1
  let chip := { chip with
    samples := if mute == 0 then upd chip.samples 0 (i32 (chip.samples 0 + r.2.1))
      else chip.samples }
  { chip with
    samples := if mute == 0 then upd chip.samples 1 (i32 (chip.samples 1 + r.2.2))
      else chip.samples }

/-- The first `n` rounds of the loop `for range 24` of
`OPN2_GenerateResampled`. -/
def OPN2_GenerateResampled_clocks (fuel chip_type : Nat) :
    Nat → YM3438 → Except Failure YM3438
  | 0, chip => .ok chip
  | n + 1, chip =>
    match OPN2_GenerateResampled_drain fuel (OPN2_GenerateResampled_clock chip_type chip) with
    | .error e => .error e
    | .ok chip =>
      OPN2_GenerateResampled_clocks fuel chip_type n
        { chip with writebuf_samplecnt := u64 (chip.writebuf_samplecnt + 1) }

/-- The output filter of `OPN2_GenerateResampled`.  `lowpass old d` stands for
the floating-point expression
`int32(float64(old) + FILTER_CUTOFF_I*float64(d))`, which is not evaluated
here. -/
def OPN2_GenerateResampled_filter (use_filter : Int) (lowpass : Int → Int → Int)
    (chip : YM3438) : YM3438 :=
  if use_filter == 0 then
    let chip := { chip with samples := upd chip.samples 0 (i32 (chip.samples 0 * OUTPUT_FACTOR)) }
    { chip with samples := upd chip.samples 1 (i32 (chip.samples 1 * OUTPUT_FACTOR)) }
  else
    let chip := { chip with
      samples := upd chip.samples 0
        (i32 (lowpass (chip.oldsamples 0)
          (i32 (i32 (chip.samples 0 * OUTPUT_FACTOR_F) - chip.oldsamples 0)))) }
    { chip with
      samples := upd chip.samples 1
        (i32 (lowpass (chip.oldsamples 1)
          (i32 (i32 (chip.samples 1 * OUTPUT_FACTOR_F) - chip.oldsamples 1)))) }

/-- The loop `for chip.samplecnt >= chip.rateratio` of
`OPN2_GenerateResampled`, run for at most `fuel` evaluations of its
condition. -/
def OPN2_GenerateResampled_loop (dfuel chip_type : Nat) (use_filter : Int)
    (lowpass : Int → Int → Int) : Nat → YM3438 → Except Failure YM3438
  | 0, _ => .error Failure.outOfFuel
  | fuel + 1, chip =>
    if chip.samplecnt ≥ chip.rateratio then
      let chip := { chip with oldsamples := upd chip.oldsamples 0 (chip.samples 0) }
      let chip := { chip with oldsamples := upd chip.oldsamples 1 (chip.samples 1) }
      let chip := { chip with samples := upd chip.samples 0 0 }
      let chip := { chip with samples := upd chip.samples 1 0 }
      match OPN2_GenerateResampled_clocks dfuel chip_type 24 chip with
      | .error e => .error e
      | .ok chip =>
        let chip := OPN2_GenerateResampled_filter use_filter lowpass chip
        let chip := { chip with samplecnt := i32 (chip.samplecnt - chip.rateratio) }
        OPN2_GenerateResampled_loop dfuel chip_type use_filter lowpass fuel chip
    else .ok chip

/-- The blend `(old*(rateratio-samplecnt) + new*samplecnt) / rateratio` in
`int32` arithmetic, for a non-zero `rateratio`. -/
def OPN2_GenerateResampled_blend (chip : YM3438) (k : Nat) : Int :=
  i32 (Int.tdiv
    (i32 (i32 (chip.oldsamples k * i32 (chip.rateratio - chip.samplecnt)) +
      i32 (chip.samples k * chip.samplecnt)))
    chip.rateratio)

/-- `OPN2_GenerateResampled(chip, buf)`: the new chip and the values stored in
`buf[0]` and `buf[1]`.  Every loop is run for at most `fuel` evaluations of its
condition; `use_filter` is the package variable. -/
def OPN2_GenerateResampled (fuel chip_type : Nat) (use_filter : Int)
    (lowpass : Int → Int → Int) (chip : YM3438) : Except Failure (YM3438 × Int × Int) :=
  match OPN2_GenerateResampled_loop fuel chip_type use_filter lowpass fuel chip with
  | .error e => .error e
  | .ok chip =>
    if chip.rateratio == 0 then .error Failure.divideByZero
    else
      let buf0 := OPN2_GenerateResampled_blend chip 0
      let buf1 := OPN2_GenerateResampled_blend chip 1
      .ok ({ chip with samplecnt := i32 (chip.samplecnt + 2 ^ RSM_FRAC) }, buf0, buf1)

/-- `OPN2_GenerateStream(chip, sndptr, numsamples)`: the new chip and the
samples stored in `sndptr[0]` and `sndptr[1]`, in order. -/
def OPN2_GenerateStream (fuel chip_type : Nat) (use_filter : Int)
    (lowpass : Int → Int → Int) : Nat → YM3438 → Except Failure (YM3438 × List Int × List Int)
  | 0, chip => .ok (chip, [], [])
  | n + 1, chip =>
    match OPN2_GenerateResampled fuel chip_type use_filter lowpass chip with
    | .error e => .error e
    | .ok r =>
      match OPN2_GenerateStream fuel chip_type use_filter lowpass n r.1 with
      | .error e => .error e
      | .ok t => .ok (t.1, r.2.1 :: t.2.1, r.2.2 :: t.2.2)

/-! ## Sequences of bus operations -/

/-- One call made by the bus master. -/
inductive BusOp where
  | write (port data : Nat)
  | setTestPin (value : Nat)
  | read (port : Nat)
  | clock

/-- The chip after one call, and what the call hands back: the status byte of
`OPN2_Read` or the pair `(buffer[0], buffer[1])` of `OPN2_Clock`. -/
def BusOp.apply (chip_type : Nat) (chip : YM3438) : BusOp → YM3438 × Option Nat × Option (Int × Int)
  | .write port data => (OPN2_Write chip port data, none, none)
  | .setTestPin value => (OPN2_SetTestPin chip value, none, none)
  | .read port => ((OPN2_Read chip_type chip port).1, some (OPN2_Read chip_type chip port).2, none)
  | .clock => ((OPN2_Clock chip_type chip).1, none, some (OPN2_Clock chip_type chip).2)

/-- The chip after a sequence of calls. -/
def BusOp.run (chip_type : Nat) : YM3438 → List BusOp → YM3438
  | chip, [] => chip
  | chip, op :: ops => BusOp.run chip_type (BusOp.apply chip_type chip op).1 ops

/-- The chip after `n` calls of `OPN2_Clock`. -/
def OPN2_Clock_n (chip_type : Nat) : Nat → YM3438 → YM3438
  | 0, chip => chip
  | n + 1, chip => OPN2_Clock_n chip_type n (OPN2_Clock chip_type chip).1

/-! ## Parts of the chip state -/

/-- The bus interface part of the chip: the scheduling counters, the write latches and
busy counter, the latched address and data, and the total levels; every other
field is zero -/
def busPart (c : YM3438) : YM3438 :=
  { YM3438.zero with
    cycles := c.cycles
    channel := c.channel
    write_data := c.write_data
    write_a := c.write_a
    write_d := c.write_d
    write_a_en := c.write_a_en
    write_d_en := c.write_d_en
    write_busy := c.write_busy
    write_busy_cnt := c.write_busy_cnt
    busy := c.busy
    write_fm_address := c.write_fm_address
    write_fm_data := c.write_fm_data
    write_fm_mode_a := c.write_fm_mode_a
    address := c.address
    data := c.data
    tl := c.tl }

/-- The resampler and write queue part of the chip; every other field is zero -/
def queuePart (c : YM3438) : YM3438 :=
  { YM3438.zero with
    rateratio := c.rateratio
    samplecnt := c.samplecnt
    oldsamples := c.oldsamples
    samples := c.samples
    mute := c.mute
    writebuf_samplecnt := c.writebuf_samplecnt
    writebuf_cur := c.writebuf_cur
    writebuf_last := c.writebuf_last
    writebuf_lasttime := c.writebuf_lasttime
    writebuf := c.writebuf }

/-! ## Concrete chip states -/

/-- The chip after `OPN2_Reset(chip, 44100, 7670454)`. -/
def chip_reset : YM3438 :=
  { YM3438.zero with
    eg_out := setRange 24 (fun _ => 0) (fun _ => 0x3ff)
    eg_level := setRange 24 (fun _ => 0) (fun _ => 0x3ff)
    eg_state := setRange 24 (fun _ => 0) (fun _ => 3)
    multi := setRange 24 (fun _ => 0) (fun _ => 1)
    pan_l := setRange 6 (fun _ => 0) (fun _ => 1)
    pan_r := setRange 6 (fun _ => 0) (fun _ => 1)
    rateratio := 847 }

/-- The chip `chip_reset` after 2048 calls `OPN2_WriteBuffered(chip, 0, 0x30)`:
every entry of the ring is pending and `writebuf_last` is back at 0. -/
def chip_queue_full : YM3438 :=
  { chip_reset with
    writebuf := setRange 2048 (fun _ => {}) (fun i => { time := 15 * (i + 1), port := 4, data := 0x30 })
    writebuf_lasttime := 15 * 2048
    writebuf_last := 0 }

/-- A chip between two native samples, a quarter of the way from 1000 to 2000. -/
def chip_blend : YM3438 :=
  { chip_reset with
    rateratio := 1024, samplecnt := 256
    oldsamples := fun _ => 1000, samples := fun _ => 2000 }

/-- A chip whose two blend products fit in 32 bits while their sum does not. -/
def chip_blend_overflow : YM3438 :=
  { chip_reset with
    rateratio := 1073741824, samplecnt := 536870912
    oldsamples := fun _ => 3, samples := fun _ => 3 }

/-- The value is in the range of `int32`. -/
def fits32 (z : Int) : Prop := -2147483648 ≤ z ∧ z < 2147483648

/-! ## Register write protocol -/

/-- A chip in the middle of an operator register write: no write pulse is
pending, the address `W` and the data byte `D` are latched and the data is
flagged as FM data. -/
def BusSteady (W D : Nat) (c : YM3438) : Prop :=
  c.cycles < 24 ∧ c.write_a % 2 = 0 ∧ c.write_d % 2 = 0 ∧ c.write_fm_data = 1 ∧
    c.address = W ∧ c.data = D ∧ u8 (c.write_data &&& 0xff) = D

/-- The slot selected by an operator register address (bit 8 is the bank). -/
def op_slot (address : Nat) : Nat :=
  (address &&& 3) + 3 * ((address >>> 8) &&& 1) + 6 * ((address >>> 2) &&& 1) +
    12 * ((address >>> 3) &&& 1)

/-- The register write sequence `OPN2_Write(p, A); OPN2_Clock; OPN2_Write(p+1, d)`
followed by 13 calls of `OPN2_Clock`. -/
def register_write (chip_type : Nat) (chip : YM3438) (p A d : Nat) : YM3438 :=
  OPN2_Clock_n chip_type 13
    (OPN2_Write (OPN2_Clock chip_type (OPN2_Write chip p A)).1 (p + 1) d)

/-- The value of `write_data` after `OPN2_Write(chip, 2*b, A)`. -/
def write_word (b A : Nat) : Nat := u16 ((u32 (((2 * b) &&& 3) <<< 7) &&& 0x100) ||| A)

/-- The index into `op_offset` of the operator register `A` of bank `b`. -/
def op_index (b A : Nat) : Nat := (A &&& 3) + 3 * ((2 * b) >>> 1) + 6 * ((A >>> 2) &&& 1)

/-! ## Index ranges of `OPN2_Clock` -/

/-- The array and table indices of `OPN2_KeyOn` are in range: `slot` into the
24-entry slot arrays and, when `cycles == mode_kon_channel`, `ch`, `ch+12`,
`ch+6` and `ch+18` into `mode_kon`. -/
def OPN2_KeyOn_inb (chip : YM3438) : Bool :=
  decide (chip.cycles < 24) &&
    (!(chip.cycles == chip.mode_kon_channel) ||
      (decide (chip.channel < 24) && decide (chip.channel + 12 < 24) &&
        decide (chip.channel + 6 < 24) && decide (chip.channel + 18 < 24)))

/-- The indices of `OPN2_ChOutput` are in range: `channel` (after `channel++`)
into `ch_out`, `pan_l` and `pan_r` when `(cycles & 3) == 0`. -/
def OPN2_ChOutput_inb (chip : YM3438) : Bool :=
  let channel := if chip.cycles < 12 then u32 (chip.channel + 1) else chip.channel
  !(chip.cycles &&& 3 == 0) || decide (channel < 6)

/-- The indices of `OPN2_ChGenerate` are in range: `slot` into `fm_out`,
`channel` into `ch_acc`, `ch_out` and `connect`, and `op`, `connect[channel]`
into `fm_algorithm`. -/
def OPN2_ChGenerate_inb (chip : YM3438) : Bool :=
  let slot := u32 (chip.cycles + 18) % 24
  decide (slot < 24) && decide (chip.channel < 6) && decide (slot / 6 < 4) &&
    decide (chip.connect chip.channel < 8)

/-- The indices of `OPN2_FMPrepare` are in range: `slot` into `fm_mod`,
`prevslot` into `fm_out`, `channel` into `fm_op1`, `fm_op2`, `connect` and `fb`,
and `op`, `connect` into `fm_algorithm`. -/
def OPN2_FMPrepare_inb (chip : YM3438) : Bool :=
  let slot := u32 (chip.cycles + 6) % 24
  let prevslot := u32 (chip.cycles + 18) % 24
  decide (slot < 24) && decide (prevslot < 24) && decide (chip.channel < 6) &&
    decide (slot / 6 < 4) && decide (chip.connect chip.channel < 8)

/-- The indices of `OPN2_FMGenerate` are in range: `slot` into the slot arrays,
`quarter` into `logsinrom` and `(level & 0xff) ^ 0xff` into `exprom`. -/
def OPN2_FMGenerate_inb (chip : YM3438) : Bool :=
  let slot := u32 (chip.cycles + 19) % 24
  let phase := u16 (u32 (chip.fm_mod slot + (chip.pg_phase slot >>> 10)) &&& 0x3ff)
  let quarter := if phase &&& 0x100 != 0 then (phase ^^^ 0xff) &&& 0xff else phase &&& 0xff
  let level := logsinrom quarter
  let level := u16 (level + u16 (chip.eg_out slot <<< 2))
  let level := if level > 0x1fff then 0x1fff else level
  decide (slot < 24) && decide (quarter < 256) && decide ((level &&& 0xff) ^^^ 0xff < 256)

/-- The indices of `OPN2_PhaseGenerate` are in range. -/
def OPN2_PhaseGenerate_inb (chip : YM3438) : Bool :=
  decide (u32 (chip.cycles + 20) % 24 < 24) && decide (u32 (chip.cycles + 19) % 24 < 24)

/-- The indices of `OPN2_PhaseCalcIncrement` are in range: `ch` into `pms`,
`slot` into `dt`, `multi` and `pg_inc`, `pms`, `lfo_l` into `pg_lfo_sh1` and
`pg_lfo_sh2`, and `(sum_l << 2) | note` into `pg_detune` when `dt_l != 0`. -/
def OPN2_PhaseCalcIncrement_inb (chip : YM3438) : Bool :=
  let lfo_l := chip.lfo_pm &&& 0x0f
  let lfo_l := if lfo_l &&& 0x08 != 0 then lfo_l ^^^ 0x0f else lfo_l
  let dt_l := chip.dt chip.cycles &&& 0x03
  let kcode := if chip.pg_kcode > 0x1c then 0x1c else chip.pg_kcode
  let block := kcode >>> 2
  let note := kcode &&& 0x03
  let sum := u8 (block + 9 + (ToInt (dt_l == 3) ||| (dt_l &&& 0x02)))
  let sum_l := sum &&& 0x01
  decide (chip.channel < 6) && decide (chip.cycles < 24) &&
    decide (chip.pms chip.channel < 8) && decide (lfo_l < 8) &&
    (!(dt_l != 0) || decide (u8 (sum_l <<< 2) ||| note < 8))

/-- The indices of `OPN2_EnvelopeADSR` are in range. -/
def OPN2_EnvelopeADSR_inb (chip : YM3438) : Bool :=
  decide (u32 (chip.cycles + 22) % 24 < 24)

/-- The indices of `OPN2_EnvelopeGenerate` are in range. -/
def OPN2_EnvelopeGenerate_inb (chip : YM3438) : Bool :=
  decide (u32 (chip.cycles + 23) % 24 < 24)

/-- The indices of `OPN2_EnvelopeSSGEG` are in range: `slot` into the slot
arrays. -/
def OPN2_EnvelopeSSGEG_inb (chip : YM3438) : Bool :=
  decide (chip.cycles < 24)

/-- The indices of `OPN2_EnvelopePrepare` are in range: `slot` into the slot
arrays, `rate & 3`, `eg_timer_low_lock` into `eg_stephi` on the path that reads
it, and `chip.channel` into `ams`, `ams[chip.channel]` into `eg_am_shift` when
`am[slot] != 0`. -/
def OPN2_EnvelopePrepare_inb (chip : YM3438) : Bool :=
  let rate := u8 (u8 (chip.eg_rate <<< 1) + chip.eg_ksv)
  let rate := min rate 0x3f
  decide (chip.cycles < 24) &&
    (!(chip.eg_rate != 0 && chip.eg_quotient == 2 && !decide (rate < 48)) ||
      (decide (rate &&& 0x03 < 4) && decide (chip.eg_timer_low_lock < 4))) &&
    (!(chip.am chip.cycles != 0) ||
      (decide (chip.channel < 6) && decide (chip.ams chip.channel < 4)))

/-- The indices of "Prepare fnum & block" are in range. -/
def OPN2_Clock_fnum_inb (chip : YM3438) : Bool :=
  decide (u32 (chip.channel + 1) % 6 < 6)

/-- The index of `OPN2_UpdateLFO` is in range: `lfo_freq` into `lfo_cycles`. -/
def OPN2_UpdateLFO_inb (chip : YM3438) : Bool :=
  decide (chip.lfo_freq < 8)

/-- The indices of `OPN2_DoRegWrite` are in range: with `write_fm_data != 0`,
`slot` into `op_offset`, the decoded slot into the operator arrays, `channel`
into `ch_offset` and the channel arrays, and the new `fnum >> 7` and
`fnum_3ch >> 7` into `fn_note`. -/
def OPN2_DoRegWrite_inb (chip : YM3438) : Bool :=
  let slot := chip.cycles % 12
  !(chip.write_fm_data != 0) ||
    (decide (slot < 12) &&
      (!(op_offset slot == chip.address &&& 0x107) ||
        decide ((if chip.address &&& 0x08 != 0 then slot + 12 else slot) < 24)) &&
      decide (chip.channel < 6) &&
      decide (((chip.data &&& 0xff) ||| ((chip.reg_a4 &&& 0x07) <<< 8)) >>> 7 < 16) &&
      decide (((chip.data &&& 0xff) ||| ((chip.reg_ac &&& 0x07) <<< 8)) >>> 7 < 16))

/-- Every array and table index evaluated by `OPN2_Clock(chip, buffer)` that
is not a constant is in range, each at the chip state in which it is evaluated,
and so are `buffer[0]` and `buffer[1]`; `buflen` is the length of `buffer`. The
constant indices (`mode_test_21[1]`, `pg_phase[21]`, `block_3ch[2]`, ...) and
the loop variables of `for i := range 8` and `for i := range 4` over arrays of
these lengths need no condition on the chip. -/
def OPN2_Clock_inb (chip_type buflen : Nat) (chip : YM3438) : Bool :=
  let slot := chip.cycles
  let chip := OPN2_Clock_head chip
  let chip := OPN2_Clock_cycle chip
  let chip := OPN2_Clock_timer chip
  let chip := OPN2_DoIO chip
  let chip := OPN2_DoTimerA chip
  let chip := OPN2_DoTimerB chip
  let b := OPN2_KeyOn_inb chip
  let chip := OPN2_KeyOn chip
  let b := b && OPN2_ChOutput_inb chip
  let chip := OPN2_ChOutput chip_type chip
  let b := b && OPN2_ChGenerate_inb chip
  let chip := OPN2_ChGenerate chip
  let b := b && OPN2_FMPrepare_inb chip
  let chip := OPN2_FMPrepare chip
  let b := b && OPN2_FMGenerate_inb chip
  let chip := OPN2_FMGenerate chip
  let b := b && OPN2_PhaseGenerate_inb chip
  let chip := OPN2_PhaseGenerate chip
  let b := b && OPN2_PhaseCalcIncrement_inb chip
  let chip := OPN2_PhaseCalcIncrement chip
  let b := b && OPN2_EnvelopeADSR_inb chip
  let chip := OPN2_EnvelopeADSR chip
  let b := b && OPN2_EnvelopeGenerate_inb chip
  let chip := OPN2_EnvelopeGenerate chip
  let b := b && OPN2_EnvelopeSSGEG_inb chip
  let chip := OPN2_EnvelopeSSGEG chip
  let b := b && OPN2_EnvelopePrepare_inb chip
  let chip := OPN2_EnvelopePrepare chip
  let b := b && OPN2_Clock_fnum_inb chip
  let chip := OPN2_Clock_fnum chip slot
  let b := b && OPN2_UpdateLFO_inb chip
  let chip := OPN2_UpdateLFO chip
  let b := b && OPN2_DoRegWrite_inb chip
  b && decide (1 < buflen)

/-- The facts about the chip state on which the index bounds of `OPN2_Clock`
rest. -/
def IdxInv (c : YM3438) : Prop :=
  c.cycles < 24 ∧ c.channel = c.cycles % 6 ∧
    (c.mode_kon_channel < 6 ∨ c.mode_kon_channel = 0xff) ∧ c.lfo_freq < 8 ∧
    c.eg_timer_low_lock < 4 ∧ (∀ ch, c.pms ch < 8) ∧ (∀ ch, c.connect ch < 8) ∧
    (∀ ch, c.ams ch < 4)

/-- The fields of the chip that decide the index bounds; every other field is zero -/
def idxPart (c : YM3438) : YM3438 :=
  { YM3438.zero with
    cycles := c.cycles
    channel := c.channel
    mode_kon_channel := c.mode_kon_channel
    lfo_freq := c.lfo_freq
    eg_timer_low_lock := c.eg_timer_low_lock
    pms := c.pms
    connect := c.connect
    ams := c.ams }

/-! ## Host calls -/

/-- One call made by the host program: a bus operation, a buffered write or the
generation of one output sample. -/
inductive HostOp where
  | bus (op : BusOp)
  | writeBuffered (port data : Nat)
  | generate

/-- The chip after a sequence of host calls, when each of them returns; every
loop is run for at most `fuel` evaluations of its condition. -/
def HostOp.run (fuel chip_type : Nat) (use_filter : Int) (lowpass : Int → Int → Int) :
    YM3438 → List HostOp → Except Failure YM3438
  | chip, [] => .ok chip
  | chip, .bus op :: ops =>
    HostOp.run fuel chip_type use_filter lowpass (BusOp.apply chip_type chip op).1 ops
  | chip, .writeBuffered port data :: ops =>
    match OPN2_WriteBuffered fuel chip_type chip port data with
    | .error e => .error e
    | .ok chip => HostOp.run fuel chip_type use_filter lowpass chip ops
  | chip, .generate :: ops =>
    match OPN2_GenerateResampled fuel chip_type use_filter lowpass chip with
    | .error e => .error e
    | .ok r => HostOp.run fuel chip_type use_filter lowpass r.1 ops

/-- The resampler fields on which the return of `OPN2_GenerateResampled`
rests: a positive `rateratio`, a `samplecnt` in the range of `int32` and a
`writebuf_cur` inside the ring. -/
def GenInv (c : YM3438) : Prop :=
  0 < c.rateratio ∧ c.samplecnt < 2147483648 ∧ c.writebuf_cur < 2048

/-- The chip after `OPN2_Reset(chip, 0, 7670454)`. -/
def chip_rate_zero : YM3438 :=
  { chip_reset with rateratio := 0 }

/-! ## Write queue -/

/-- The fields read and written by the queue loop of `OPN2_GenerateResampled`:
the ring `writebuf`, `writebuf_cur` and `writebuf_samplecnt`. -/
structure WriteQueue where
  buf : Nat → writebuf := fun _ => {}
  cur : Nat := 0
  samplecnt : Nat := 0

/-- The write queue of a chip. -/
def YM3438.queue (c : YM3438) : WriteQueue :=
  { buf := c.writebuf, cur := c.writebuf_cur, samplecnt := c.writebuf_samplecnt }

/-- The entry at ring index `i` is pending: bit `0x04` of its port is set. -/
def WriteQueue.pending (q : WriteQueue) (i : Nat) : Bool := (q.buf i).port &&& 0x04 != 0

/-- The condition under which the queue loop hands the entry at `cur` to
`OPN2_Write`: its time is not after `samplecnt` and it is pending. -/
def WriteQueue.due (q : WriteQueue) : Bool :=
  decide ((q.buf q.cur).time ≤ q.samplecnt) && q.pending q.cur

/-- What the body of the queue loop does to the queue: the pending bit of the
entry at `cur` is cleared and `cur` moves on by one. -/
def WriteQueue.pop (q : WriteQueue) : WriteQueue :=
  { q with
    buf := upd q.buf q.cur { q.buf q.cur with port := (q.buf q.cur).port &&& 0x03 }
    cur := u32 (q.cur + 1) % OPN_WRITEBUF_SIZE }

/-- The queue loop of `OPN2_GenerateResampled` on the queue alone, run for at
most `fuel` evaluations of its condition. -/
def WriteQueue.drain : Nat → WriteQueue → Except Failure WriteQueue
  | 0, _ => .error Failure.outOfFuel
  | fuel + 1, q =>
    if (q.buf q.cur).time ≤ q.samplecnt then
      if (q.buf q.cur).port &&& 0x04 == 0 then .ok q
      else WriteQueue.drain fuel q.pop
    else .ok q

/-- The queue after `n` rounds of the loop `for range 24`: in each round the
queue loop runs and `samplecnt` goes up by one. -/
def WriteQueue.rounds (fuel : Nat) : Nat → WriteQueue → Except Failure WriteQueue
  | 0, q => .ok q
  | n + 1, q =>
    match WriteQueue.drain fuel q with
    | .error e => .error e
    | .ok q => WriteQueue.rounds fuel n { q with samplecnt := u64 (q.samplecnt + 1) }

/-- The ring index `k` places after `cur`. -/
def WriteQueue.slot (q : WriteQueue) (k : Nat) : Nat := (q.cur + k) % 2048

/-- The queue holds `n` entries in the order of their insertion: the `n` ring
slots from `cur` on are pending and no other, the time of each is at least 15
after the time of every earlier one, and none is scheduled before
`samplecnt`. -/
def WriteQueue.Ordered (q : WriteQueue) (n : Nat) : Prop :=
  q.cur < 2048 ∧ n ≤ 2048 ∧
    (∀ k, k < n → q.pending (q.slot k) = true) ∧
    (∀ k, n ≤ k → k < 2048 → q.pending (q.slot k) = false) ∧
    (∀ j k, j < k → k < n → (q.buf (q.slot j)).time + 15 ≤ (q.buf (q.slot k)).time) ∧
    (∀ k, k < n → q.samplecnt ≤ (q.buf (q.slot k)).time)

/-- The write queue of the chip holds `n` entries in order, `writebuf_last` is
the slot after them and none is scheduled after `writebuf_lasttime`. -/
def QueueInv (c : YM3438) (n : Nat) : Prop :=
  c.queue.Ordered n ∧ c.writebuf_last = c.queue.slot n ∧
    ∀ k, k < n → (c.writebuf (c.queue.slot k)).time ≤ c.writebuf_lasttime

/-- A chip whose queue clock `writebuf_samplecnt` has reached `2^64 - 16`, with
an empty queue: the queue fields of a chip that has generated
`(2^64 - 16) / 24` native samples without a buffered write.  The other fields
are those of `chip_reset`; the queue loop does not read them. -/
def chip_late : YM3438 :=
  { chip_reset with writebuf_samplecnt := 18446744073709551600 }

/-! ## Concrete chip states for the register and envelope properties -/

/-- A chip in the middle of a write of `0x7f` to the address `0x43`, whose low
two bits select no operator. -/
def chip_address_43 : YM3438 :=
  { chip_reset with write_fm_data := 1, address := 0x43, data := 0x7f }

/-- A chip at cycle 0 whose slot 19 has the phase `0xFFFFF` and the increment
1. -/
def chip_phase_top : YM3438 :=
  { chip_reset with pg_phase := fun _ => 0xfffff, pg_inc := fun _ => 1 }

/-- A chip at cycle 0 on which every operator is keyed on while its envelope is
still in Release with the key off. -/
def chip_key_on : YM3438 :=
  { chip_reset with eg_kon_latch := fun _ => 1 }

/-- A chip at cycle 0 on which every operator is keyed off while its envelope
is in Decay with the key on. -/
def chip_key_off : YM3438 :=
  { chip_reset with eg_kon := fun _ => 1, eg_state := fun _ => eg_num_decay }

/-- The chip `chip_key_off` with the SSG-EG repeat latch of every slot set. -/
def chip_key_off_repeat : YM3438 :=
  { chip_key_off with eg_ssg_repeat_latch := fun _ => 1 }

/-- A chip at cycle 0 whose envelopes are in Decay at the level `0x3f0`, with
the key on and no SSG-EG. -/
def chip_saturated : YM3438 :=
  { chip_reset with
    eg_kon := fun _ => 1, eg_kon_latch := fun _ => 1
    eg_state := fun _ => eg_num_decay, eg_level := fun _ => 0x3f0 }

/-- A chip at cycle 0 whose envelopes are in Decay at the level `0x200` with
the key on, SSG-EG enabled, the SSG-EG repeat latch set and the rate at its
maximum. -/
def chip_decay_repeat : YM3438 :=
  { chip_reset with
    eg_kon := fun _ => 1, eg_kon_latch := fun _ => 1
    eg_state := fun _ => eg_num_decay, eg_level := fun _ => 0x200
    eg_ssg_enable := fun _ => 1, eg_ssg_repeat_latch := fun _ => 1, eg_ratemax := 1 }

/-- A chip at cycle 0 whose envelopes are in Decay at the level `0x100` with
the key on and the increment 3. -/
def chip_decay : YM3438 :=
  { chip_reset with
    eg_kon := fun _ => 1, eg_kon_latch := fun _ => 1
    eg_state := fun _ => eg_num_decay, eg_level := fun _ => 0x100, eg_inc := 3 }

/-- A chip at cycle 5 with the left pan bit locked, the right one clear and the
locked sample 5. -/
def chip_pan_left : YM3438 :=
  { chip_reset with cycles := 5, ch_lock := 5, ch_lock_l := 1, ch_lock_r := 0 }

/-- The fields read by the timer steps of `OPN2_Clock` to form the CSM key-on
strobe and the overflow flags. -/
def timerInPart (c : YM3438) : YM3438 :=
  { YM3438.zero with
    cycles := c.cycles
    mode_csm := c.mode_csm
    mode_kon_csm := c.mode_kon_csm
    timer_a_overflow := c.timer_a_overflow
    timer_a_load_lock := c.timer_a_load_lock
    timer_a_load := c.timer_a_load
    timer_a_reset := c.timer_a_reset
    timer_a_overflow_flag := c.timer_a_overflow_flag
    timer_a_enable := c.timer_a_enable
    timer_b_overflow := c.timer_b_overflow
    timer_b_reset := c.timer_b_reset
    timer_b_overflow_flag := c.timer_b_overflow_flag
    timer_b_enable := c.timer_b_enable }

/-- The CSM key-on strobe and the overflow flags of the two timers. -/
def timerOutPart (c : YM3438) : YM3438 :=
  { YM3438.zero with
    mode_kon_csm := c.mode_kon_csm
    timer_a_overflow_flag := c.timer_a_overflow_flag
    timer_b_overflow_flag := c.timer_b_overflow_flag }

/-- A chip at cycle 2 in CSM mode on which Timer A has overflowed and the load
bit is already locked. -/
def chip_csm_overflow : YM3438 :=
  { chip_reset with
    cycles := 2, mode_csm := 1, timer_a_overflow := 1
    timer_a_load_lock := 1, timer_a_load := 1 }

/-- A chip at cycle 2 in CSM mode on which Timer A has not overflowed and the
load bit is set but not yet locked. -/
def chip_csm_load : YM3438 :=
  { chip_reset with
    cycles := 2, mode_csm := 1, timer_a_overflow := 0
    timer_a_load_lock := 0, timer_a_load := 1 }

/-- A chip whose Timer A flag is set and whose Timer B has overflowed while
enabled. -/
def chip_timer_flags : YM3438 :=
  { chip_reset with
    timer_a_overflow_flag := 1
    timer_b_overflow := 1, timer_b_enable := 1 }

/-! ## Concrete chip states and parts for the generator properties -/

/-- A reset chip with the AM offset 1. -/
def chip_am_one : YM3438 :=
  { chip_reset with eg_lfo_am := 1 }

/-- A chip at cycle 0 with the level `0x100` in slot 23, the AM offset 3 and
the total level 2. -/
def chip_level_sum : YM3438 :=
  { chip_reset with eg_level := fun _ => 0x100, eg_lfo_am := 3, eg_tl := fun _ => 2 }

/-- The fields read by the cycle switch of `OPN2_Clock` to form the two LFO
modulators. -/
def lfoInPart (c : YM3438) : YM3438 :=
  { YM3438.zero with
    cycles := c.cycles
    lfo_cnt := c.lfo_cnt
    lfo_pm := c.lfo_pm
    lfo_am := c.lfo_am }

/-- The two LFO modulators. -/
def lfoOutPart (c : YM3438) : YM3438 :=
  { YM3438.zero with
    lfo_pm := c.lfo_pm
    lfo_am := c.lfo_am }

/-- A chip at cycle 22 whose phase-reset latch of SSG-EG is set in every slot
and on which no key is pressed. -/
def chip_pgrst : YM3438 :=
  { chip_reset with eg_ssg_pgrst_latch := fun _ => 1 }

/-- A chip with the frequency number `0x400`, the block 4 and the multiple
register 1 (`multi = 2`) in every slot. -/
def chip_note : YM3438 :=
  { chip_reset with pg_fnum := 0x400, pg_block := 4, multi := fun _ => 2 }

/-- A chip about to store the data byte 0 in the register `0x30` (DT, MULTI)
of the first operator. -/
def chip_multi_zero : YM3438 :=
  { chip_reset with write_fm_data := 1, address := 0x30, data := 0, multi := fun _ => 6 }

/-- A reset chip (every `eg_out` is `0x3FF`) with a phase and a modulation in
every slot. -/
def chip_loud_phase : YM3438 :=
  { chip_reset with pg_phase := fun _ => 0x12345, fm_mod := fun _ => 0x2a5 }

/-! ## Scheduling and native samples -/

/-- The scheduling invariant: the cycle counter is below 24 and the channel is
the cycle counter modulo 6. -/
def SchedInv (c : YM3438) : Prop :=
  c.cycles < 24 ∧ c.channel = c.cycles % 6

/-- A chip at cycle 23 with the channel 5. -/
def chip_cycle_last : YM3438 :=
  { chip_reset with cycles := 23, channel := 5 }

/-- The body of the loop `for chip.samplecnt >= chip.rateratio` of
`OPN2_GenerateResampled`: one native sample, made by 24 rounds of the loop
`for range 24`. -/
def OPN2_GenerateResampled_native (dfuel chip_type : Nat) (use_filter : Int)
    (lowpass : Int → Int → Int) (chip : YM3438) : Except Failure YM3438 :=
  let chip := { chip with oldsamples := upd chip.oldsamples 0 (chip.samples 0) }
  let chip := { chip with oldsamples := upd chip.oldsamples 1 (chip.samples 1) }
  let chip := { chip with samples := upd chip.samples 0 0 }
  let chip := { chip with samples := upd chip.samples 1 0 }
  match OPN2_GenerateResampled_clocks dfuel chip_type 24 chip with
  | .error e => .error e
  | .ok chip =>
    let chip := OPN2_GenerateResampled_filter use_filter lowpass chip
    .ok { chip with samplecnt := i32 (chip.samplecnt - chip.rateratio) }

/-- The chip after `k` native samples in a row. -/
def OPN2_GenerateResampled_natives (dfuel chip_type : Nat) (use_filter : Int)
    (lowpass : Int → Int → Int) : Nat → YM3438 → Except Failure YM3438
  | 0, chip => .ok chip
  | k + 1, chip =>
    match OPN2_GenerateResampled_native dfuel chip_type use_filter lowpass chip with
    | .error e => .error e
    | .ok chip => OPN2_GenerateResampled_natives dfuel chip_type use_filter lowpass k chip

/-- A reset chip (`rateratio = 847`) with `samplecnt = 2000`. -/
def chip_two_samples : YM3438 :=
  { chip_reset with samplecnt := 2000 }

/-- A reset chip with `samplecnt = 847` whose count of clocks is 16 below
`2^64`. -/
def chip_count_wrap : YM3438 :=
  { chip_reset with samplecnt := 847, writebuf_samplecnt := 18446744073709551600 }

/-! ## Key-on scope -/

/-- The fields read by `OPN2_KeyOn` to form `mode_kon`. -/
def konInPart (c : YM3438) : YM3438 :=
  { YM3438.zero with
    cycles := c.cycles
    channel := c.channel
    mode_kon := c.mode_kon
    mode_kon_channel := c.mode_kon_channel
    mode_kon_operator := c.mode_kon_operator }

/-- The key-on bits of the 24 operators. -/
def konOutPart (c : YM3438) : YM3438 :=
  { YM3438.zero with mode_kon := c.mode_kon }

/-- The key-on channel is one of the six channels or `0xFF`, the values that a
write to the register `0x28` stores. -/
def KonChannelInv (c : YM3438) : Prop :=
  c.mode_kon_channel ≤ 5 ∨ c.mode_kon_channel = 0xff

/-- The key-on invariant: the scheduling invariant together with a key-on
channel among the six channels or `0xFF`. -/
def KonInv (c : YM3438) : Prop :=
  SchedInv c ∧ KonChannelInv c

/-- A chip whose data write to the register `0x28` carries the channel
bits 3. -/
def chip_kon_invalid : YM3438 :=
  { chip_reset with write_d_en := 1, write_fm_mode_a := 0x28, write_data := 0xf3 }

/-! ## Output range -/

/-- The channel accumulators, the channel outputs, the locked sample and the
two outputs of the chip. -/
def chanPart (c : YM3438) : YM3438 :=
  { YM3438.zero with
    ch_acc := c.ch_acc
    ch_out := c.ch_out
    ch_lock := c.ch_lock
    mol := c.mol
    mor := c.mor }

/-- The channel values are 9-bit signed samples. -/
def RangeInv (c : YM3438) : Prop :=
  (∀ i, -256 ≤ c.ch_acc i ∧ c.ch_acc i ≤ 255) ∧
    (∀ i, -256 ≤ c.ch_out i ∧ c.ch_out i ≤ 255) ∧
    (-256 ≤ c.ch_lock ∧ c.ch_lock ≤ 255)

/-! ## Silence after reset -/

/-- The state of a chip that has been reset and not written to: no write is
pending, the test registers and the timers are idle, no key is on, every
envelope rests in Release at the level `0x3FF` and every operator and channel
value is 0. -/
structure Silent (c : YM3438) : Prop where
  write_a : c.write_a = 0
  write_d : c.write_d = 0
  write_a_en : c.write_a_en = 0
  write_d_en : c.write_d_en = 0
  write_fm_data : c.write_fm_data = 0
  mode_test_21 : ∀ i, c.mode_test_21 i = 0
  mode_test_2c : ∀ i, c.mode_test_2c i = 0
  timer_a_overflow : c.timer_a_overflow = 0
  timer_a_load : c.timer_a_load = 0
  timer_a_load_lock : c.timer_a_load_lock = 0
  timer_a_load_latch : c.timer_a_load_latch = 0
  timer_a_cnt : c.timer_a_cnt = 0
  timer_a_overflow_flag : c.timer_a_overflow_flag = 0
  timer_b_overflow : c.timer_b_overflow = 0
  timer_b_load : c.timer_b_load = 0
  timer_b_load_lock : c.timer_b_load_lock = 0
  timer_b_load_latch : c.timer_b_load_latch = 0
  timer_b_cnt : c.timer_b_cnt = 0
  timer_b_overflow_flag : c.timer_b_overflow_flag = 0
  mode_kon_csm : c.mode_kon_csm = 0
  mode_kon : ∀ i, c.mode_kon i = 0
  mode_kon_operator : ∀ i, c.mode_kon_operator i = 0
  eg_kon_latch : ∀ i, c.eg_kon_latch i = 0
  eg_kon : ∀ i, c.eg_kon i = 0
  ch_lock : c.ch_lock = 0
  ch_out : ∀ i, c.ch_out i = 0
  ch_acc : ∀ i, c.ch_acc i = 0
  dacen : c.dacen = 0
  mol : c.mol = 0
  mor : c.mor = 0
  fm_out : ∀ i, c.fm_out i = 0
  eg_out : ∀ i, i < 24 → c.eg_out i = 0x3ff
  eg_level : ∀ i, i < 24 → c.eg_level i = 0x3ff
  eg_state : ∀ i, i < 24 → c.eg_state i = eg_num_release
  eg_ssg_enable : ∀ i, c.eg_ssg_enable i = 0
  eg_ssg_hold_up_latch : ∀ i, c.eg_ssg_hold_up_latch i = 0
  eg_ssg_inv : ∀ i, c.eg_ssg_inv i = 0
  ssg_eg : ∀ i, c.ssg_eg i = 0
  eg_lfo_am : c.eg_lfo_am = 0
  eg_tl : c.eg_tl 0 = 0
  am : ∀ i, c.am i = 0
  tl : ∀ i, c.tl i = 0

/-- The value `nextlevel + inc` of `OPN2_EnvelopeADSR` at the statement
`nextlevel += inc`, as an integer before the conversion to `int16`. -/
def OPN2_EnvelopeADSR_sum (chip : YM3438) (slot : Nat) : Int :=
  let kon_event := OPN2_EnvelopeADSR_kon_event chip slot
  let level := OPN2_EnvelopeADSR_level chip slot
  let eg_off := OPN2_EnvelopeADSR_eg_off chip slot
  let r := OPN2_EnvelopeADSR_next chip slot kon_event eg_off level
  let nextlevel := r.2.1
  let inc := r.2.2
  let nextlevel :=
    if chip.eg_kon_csm slot != 0 then ior16 nextlevel (ishl16 (chip.eg_tl 1 : Nat) 3)
    else nextlevel
  /- Envelope off -/
  let off : Bool :=
    kon_event == 0 && chip.eg_ssg_hold_up_latch slot == 0 &&
      chip.eg_state slot != eg_num_attack && eg_off != 0
  let nextlevel := if off then 0x3ff else nextlevel
  nextlevel + inc

/-- A chip at cycle 0 whose envelopes are in Attack at the level `0x3ff` with
the key on and the increment 4. -/
def chip_attack : YM3438 :=
  { chip_reset with
    eg_kon := fun _ => 1, eg_kon_latch := fun _ => 1
    eg_state := fun _ => eg_num_attack, eg_level := fun _ => 0x3ff, eg_inc := 4 }

/-- The local `inc` of `OPN2_EnvelopeADSR` at the statement
`nextlevel += inc`. -/
def OPN2_EnvelopeADSR_inc (chip : YM3438) (slot : Nat) : Int :=
  (OPN2_EnvelopeADSR_next chip slot (OPN2_EnvelopeADSR_kon_event chip slot)
    (OPN2_EnvelopeADSR_eg_off chip slot) (OPN2_EnvelopeADSR_level chip slot)).2.2

/-! # Properties -/

/-! ## Reset -/

/-- C1: for every prior chip state, every rate and every non-zero clock,
`OPN2_Reset` returns a chip in which all 24 slots have
`eg_level = eg_out = 0x3FF`, `eg_state = Release (3)` and `multi = 1`, all 6
channels have `pan_l = pan_r = 1`, and every field other than these and
`rateratio` has its zero value: putting the zero value back into these seven
fields gives `YM3438{}`; in particular `cycles = channel = 0`, no queue entry is
pending, no key-on is set and the timer flags are clear. -/
theorem C1_reset_defaults (chip : YM3438) (rate clock : Nat) (hclock : clock ≠ 0) :
    ∃ r : YM3438, OPN2_Reset chip rate clock = .ok r ∧
      (∀ i, i < 24 → r.eg_level i = 0x3ff ∧ r.eg_out i = 0x3ff ∧
        r.eg_state i = 3 ∧ r.multi i = 1) ∧
      (∀ c, c < 6 → r.pan_l c = 1 ∧ r.pan_r c = 1) ∧
      { r with
        eg_level := fun _ => 0, eg_out := fun _ => 0, eg_state := fun _ => 0
        multi := fun _ => 0, pan_l := fun _ => 0, pan_r := fun _ => 0
        rateratio := 0 } = YM3438.zero ∧
      r.cycles = 0 ∧ r.channel = 0 ∧ r.writebuf_cur = 0 ∧ r.writebuf_last = 0 ∧
      (∀ i, (r.writebuf i).port = 0) ∧ (∀ i, r.mode_kon i = 0) ∧
      (∀ i, r.eg_kon i = 0 ∧ r.eg_kon_latch i = 0) ∧
      r.timer_a_overflow_flag = 0 ∧ r.timer_b_overflow_flag = 0 ∧
      r.timer_a_cnt = 0 ∧ r.timer_b_cnt = 0 ∧ r.busy = 0 ∧ r.status = 0 := by
  have hc : (clock == 0) = false := by simpa using hclock
  refine ⟨_, by simp only [OPN2_Reset, hc]; rfl, ?_, ?_, rfl, rfl, rfl, rfl, rfl,
    fun _ => rfl, fun _ => rfl, fun _ => ⟨rfl, rfl⟩, rfl, rfl, rfl, rfl, rfl, rfl⟩
  · intro i hi
    simp [setRange, YM3438.zero, hi, eg_num_release]
  · intro c hc6
    simp [setRange, YM3438.zero, hc6]

/-- C1 at the rate 44100 Hz and the clock 7670454 Hz. -/
theorem C1_reset_defaults_witness :
    ∃ r : YM3438, OPN2_Reset YM3438.zero 44100 7670454 = .ok r ∧
      (∀ i, i < 24 → r.eg_level i = 0x3ff ∧ r.eg_out i = 0x3ff ∧
        r.eg_state i = 3 ∧ r.multi i = 1) ∧
      (∀ c, c < 6 → r.pan_l c = 1 ∧ r.pan_r c = 1) ∧
      { r with
        eg_level := fun _ => 0, eg_out := fun _ => 0, eg_state := fun _ => 0
        multi := fun _ => 0, pan_l := fun _ => 0, pan_r := fun _ => 0
        rateratio := 0 } = YM3438.zero ∧
      r.cycles = 0 ∧ r.channel = 0 ∧ r.writebuf_cur = 0 ∧ r.writebuf_last = 0 ∧
      (∀ i, (r.writebuf i).port = 0) ∧ (∀ i, r.mode_kon i = 0) ∧
      (∀ i, r.eg_kon i = 0 ∧ r.eg_kon_latch i = 0) ∧
      r.timer_a_overflow_flag = 0 ∧ r.timer_b_overflow_flag = 0 ∧
      r.timer_a_cnt = 0 ∧ r.timer_b_cnt = 0 ∧ r.busy = 0 ∧ r.status = 0 :=
  C1_reset_defaults YM3438.zero 44100 7670454 (by decide)

/-! ## What each stage of `OPN2_Clock` leaves alone -/

theorem busPart_Clock_head_eq (c : YM3438) :
    busPart ( OPN2_Clock_head c) = busPart c := rfl

theorem busPart_Clock_cycle_eq (c : YM3438) :
    busPart ( OPN2_Clock_cycle c) = busPart c := rfl

theorem busPart_Clock_timer_eq (c : YM3438) :
    busPart ( OPN2_Clock_timer c) = busPart c := rfl

theorem busPart_DoIO_eq (c : YM3438) :
    busPart ( OPN2_DoIO c) = busPart ( OPN2_DoIO (busPart c)) := rfl

theorem busPart_DoTimerA_eq (c : YM3438) :
    busPart ( OPN2_DoTimerA c) = busPart c := rfl

theorem busPart_DoTimerB_eq (c : YM3438) :
    busPart ( OPN2_DoTimerB c) = busPart c := rfl

theorem busPart_KeyOn_eq (c : YM3438) :
    busPart ( OPN2_KeyOn c) = busPart c := rfl

theorem busPart_ChOutput_eq (chip_type : Nat) (c : YM3438) :
    busPart ( OPN2_ChOutput chip_type c) = busPart c := rfl

theorem busPart_ChGenerate_eq (c : YM3438) :
    busPart ( OPN2_ChGenerate c) = busPart c := rfl

theorem busPart_FMPrepare_eq (c : YM3438) :
    busPart ( OPN2_FMPrepare c) = busPart c := rfl

theorem busPart_FMGenerate_eq (c : YM3438) :
    busPart ( OPN2_FMGenerate c) = busPart c := rfl

theorem busPart_PhaseGenerate_eq (c : YM3438) :
    busPart ( OPN2_PhaseGenerate c) = busPart c := rfl

theorem busPart_PhaseCalcIncrement_eq (c : YM3438) :
    busPart ( OPN2_PhaseCalcIncrement c) = busPart c := rfl

theorem busPart_EnvelopeADSR_eq (c : YM3438) :
    busPart ( OPN2_EnvelopeADSR c) = busPart c := rfl

theorem busPart_EnvelopeGenerate_eq (c : YM3438) :
    busPart ( OPN2_EnvelopeGenerate c) = busPart c := rfl

theorem busPart_EnvelopeSSGEG_eq (c : YM3438) :
    busPart ( OPN2_EnvelopeSSGEG c) = busPart c := rfl

theorem busPart_EnvelopePrepare_eq (c : YM3438) :
    busPart ( OPN2_EnvelopePrepare c) = busPart c := rfl

theorem busPart_Clock_fnum_eq (c : YM3438) (slot : Nat) :
    busPart ( OPN2_Clock_fnum c slot) = busPart c := rfl

theorem busPart_UpdateLFO_eq (c : YM3438) :
    busPart ( OPN2_UpdateLFO c) = busPart c := rfl

theorem busPart_DoRegWrite_slot_eq (c : YM3438) :
    busPart ( OPN2_DoRegWrite_slot c) = busPart ( OPN2_DoRegWrite_slot (busPart c)) := rfl

theorem busPart_DoRegWrite_channel_eq (c : YM3438) :
    busPart ( OPN2_DoRegWrite_channel c) = busPart c := rfl

theorem busPart_DoRegWrite_latch_eq (c : YM3438) :
    busPart ( OPN2_DoRegWrite_latch c) = busPart ( OPN2_DoRegWrite_latch (busPart c)) := rfl

theorem busPart_DoRegWrite_data_eq (c : YM3438) :
    busPart ( OPN2_DoRegWrite_data c) = busPart ( OPN2_DoRegWrite_data (busPart c)) := rfl

theorem busPart_DoRegWrite_eq (c : YM3438) :
    busPart ( OPN2_DoRegWrite c) = busPart ( OPN2_DoRegWrite (busPart c)) := by
  simp only [OPN2_DoRegWrite, OPN2_DoRegWrite_update]
  rw [busPart_DoRegWrite_data_eq, busPart_DoRegWrite_latch_eq, busPart_DoRegWrite_channel_eq, busPart_DoRegWrite_slot_eq]
  conv_rhs => rw [busPart_DoRegWrite_data_eq, busPart_DoRegWrite_latch_eq, busPart_DoRegWrite_channel_eq, busPart_DoRegWrite_slot_eq]
  rfl

theorem busPart_Clock_next_eq (c : YM3438) :
    busPart ( OPN2_Clock_next c) = busPart ( OPN2_Clock_next (busPart c)) := rfl

theorem busPart_Clock_status_eq (c : YM3438) :
    busPart ( OPN2_Clock_status c) = busPart c := rfl

theorem queuePart_Clock_head_eq (c : YM3438) :
    queuePart ( OPN2_Clock_head c) = queuePart c := rfl

theorem queuePart_Clock_cycle_eq (c : YM3438) :
    queuePart ( OPN2_Clock_cycle c) = queuePart c := rfl

theorem queuePart_Clock_timer_eq (c : YM3438) :
    queuePart ( OPN2_Clock_timer c) = queuePart c := rfl

theorem queuePart_DoIO_eq (c : YM3438) :
    queuePart ( OPN2_DoIO c) = queuePart c := rfl

theorem queuePart_DoTimerA_eq (c : YM3438) :
    queuePart ( OPN2_DoTimerA c) = queuePart c := rfl

theorem queuePart_DoTimerB_eq (c : YM3438) :
    queuePart ( OPN2_DoTimerB c) = queuePart c := rfl

theorem queuePart_KeyOn_eq (c : YM3438) :
    queuePart ( OPN2_KeyOn c) = queuePart c := rfl

theorem queuePart_ChOutput_eq (chip_type : Nat) (c : YM3438) :
    queuePart ( OPN2_ChOutput chip_type c) = queuePart c := rfl

theorem queuePart_ChGenerate_eq (c : YM3438) :
    queuePart ( OPN2_ChGenerate c) = queuePart c := rfl

theorem queuePart_FMPrepare_eq (c : YM3438) :
    queuePart ( OPN2_FMPrepare c) = queuePart c := rfl

theorem queuePart_FMGenerate_eq (c : YM3438) :
    queuePart ( OPN2_FMGenerate c) = queuePart c := rfl

theorem queuePart_PhaseGenerate_eq (c : YM3438) :
    queuePart ( OPN2_PhaseGenerate c) = queuePart c := rfl

theorem queuePart_PhaseCalcIncrement_eq (c : YM3438) :
    queuePart ( OPN2_PhaseCalcIncrement c) = queuePart c := rfl

theorem queuePart_EnvelopeADSR_eq (c : YM3438) :
    queuePart ( OPN2_EnvelopeADSR c) = queuePart c := rfl

theorem queuePart_EnvelopeGenerate_eq (c : YM3438) :
    queuePart ( OPN2_EnvelopeGenerate c) = queuePart c := rfl

theorem queuePart_EnvelopeSSGEG_eq (c : YM3438) :
    queuePart ( OPN2_EnvelopeSSGEG c) = queuePart c := rfl

theorem queuePart_EnvelopePrepare_eq (c : YM3438) :
    queuePart ( OPN2_EnvelopePrepare c) = queuePart c := rfl

theorem queuePart_Clock_fnum_eq (c : YM3438) (slot : Nat) :
    queuePart ( OPN2_Clock_fnum c slot) = queuePart c := rfl

theorem queuePart_UpdateLFO_eq (c : YM3438) :
    queuePart ( OPN2_UpdateLFO c) = queuePart c := rfl

theorem queuePart_DoRegWrite_slot_eq (c : YM3438) :
    queuePart ( OPN2_DoRegWrite_slot c) = queuePart c := rfl

theorem queuePart_DoRegWrite_channel_eq (c : YM3438) :
    queuePart ( OPN2_DoRegWrite_channel c) = queuePart c := rfl

theorem queuePart_DoRegWrite_latch_eq (c : YM3438) :
    queuePart ( OPN2_DoRegWrite_latch c) = queuePart c := rfl

theorem queuePart_DoRegWrite_data_eq (c : YM3438) :
    queuePart ( OPN2_DoRegWrite_data c) = queuePart c := rfl

theorem queuePart_DoRegWrite_eq (c : YM3438) :
    queuePart ( OPN2_DoRegWrite c) = queuePart c := by
  simp only [OPN2_DoRegWrite, OPN2_DoRegWrite_update]
  rw [queuePart_DoRegWrite_data_eq, queuePart_DoRegWrite_latch_eq, queuePart_DoRegWrite_channel_eq, queuePart_DoRegWrite_slot_eq]

theorem queuePart_Clock_next_eq (c : YM3438) :
    queuePart ( OPN2_Clock_next c) = queuePart c := rfl

theorem queuePart_Clock_status_eq (c : YM3438) :
    queuePart ( OPN2_Clock_status c) = queuePart c := rfl

/-- `OPN2_Clock` does not touch the resampler and write queue fields. -/
theorem queuePart_Clock (chip_type : Nat) (c : YM3438) :
    queuePart (OPN2_Clock chip_type c).1 = queuePart c := by
  simp only [OPN2_Clock]
  rw [queuePart_Clock_status_eq,
    queuePart_Clock_next_eq,
    queuePart_DoRegWrite_eq,
    queuePart_UpdateLFO_eq,
    queuePart_Clock_fnum_eq,
    queuePart_EnvelopePrepare_eq,
    queuePart_EnvelopeSSGEG_eq,
    queuePart_EnvelopeGenerate_eq,
    queuePart_EnvelopeADSR_eq,
    queuePart_PhaseCalcIncrement_eq,
    queuePart_PhaseGenerate_eq,
    queuePart_FMGenerate_eq,
    queuePart_FMPrepare_eq,
    queuePart_ChGenerate_eq,
    queuePart_ChOutput_eq,
    queuePart_KeyOn_eq,
    queuePart_DoTimerB_eq,
    queuePart_DoTimerA_eq,
    queuePart_DoIO_eq,
    queuePart_Clock_timer_eq,
    queuePart_Clock_cycle_eq,
    queuePart_Clock_head_eq]

/-- On the bus interface fields `OPN2_Clock` acts as `OPN2_DoIO`, then
`OPN2_DoRegWrite`, then the advance of `cycles`. -/
theorem busPart_Clock (chip_type : Nat) (c : YM3438) :
    busPart (OPN2_Clock chip_type c).1 =
      busPart (OPN2_Clock_next (busPart (OPN2_DoRegWrite (busPart ( OPN2_DoIO (busPart c)))))) := by
  simp only [OPN2_Clock]
  rw [busPart_Clock_status_eq,
    busPart_Clock_next_eq,
    busPart_DoRegWrite_eq,
    busPart_UpdateLFO_eq,
    busPart_Clock_fnum_eq,
    busPart_EnvelopePrepare_eq,
    busPart_EnvelopeSSGEG_eq,
    busPart_EnvelopeGenerate_eq,
    busPart_EnvelopeADSR_eq,
    busPart_PhaseCalcIncrement_eq,
    busPart_PhaseGenerate_eq,
    busPart_FMGenerate_eq,
    busPart_FMPrepare_eq,
    busPart_ChGenerate_eq,
    busPart_ChOutput_eq,
    busPart_KeyOn_eq,
    busPart_DoTimerB_eq,
    busPart_DoTimerA_eq,
    busPart_DoIO_eq,
    busPart_Clock_timer_eq,
    busPart_Clock_cycle_eq,
    busPart_Clock_head_eq]

/-! ## Status read -/

theorem or_mod_two_pow (a b n : Nat) : (a ||| b) % 2 ^ n = a % 2 ^ n ||| b % 2 ^ n := by
  apply Nat.eq_of_testBit_eq
  intro i
  simp only [Nat.testBit_mod_two_pow, Nat.testBit_or]
  cases decide (i < n) <;> simp

theorem u8_or (a b : Nat) : u8 (a ||| b) = u8 a ||| u8 b := or_mod_two_pow a b 8

theorem u8_u8 (a : Nat) : u8 (u8 a) = u8 a := Nat.mod_mod _ _

/-- C10: with test readback off (`mode_test_21[6] = 0`) and a port with
`(port & 3) = 0`, or `chip_type` containing `ModeReadmode`, `OPN2_Read` returns
the byte `(busy << 7) | (timer_b_overflow_flag << 1) | timer_a_overflow_flag`,
stores it in `status`, sets `status_time` to 300000 when `chip_type` has
`ModeYM2612` and to 40000000 otherwise, and changes no other field. -/
theorem C10_status_read (chip_type port : Nat) (chip : YM3438)
    (htest : chip.mode_test_21 6 = 0)
    (hsel : port &&& 3 = 0 ∨ chip_type &&& ModeReadmode ≠ 0) :
    OPN2_Read chip_type chip port =
      ({ chip with
          status := u8 ((chip.busy <<< 7) ||| (chip.timer_b_overflow_flag <<< 1) |||
            chip.timer_a_overflow_flag)
          status_time := if chip_type &&& ModeYM2612 ≠ 0 then 300000 else 40000000 },
        u8 ((chip.busy <<< 7) ||| (chip.timer_b_overflow_flag <<< 1) |||
          chip.timer_a_overflow_flag)) := by
  have hs : (port &&& 3 == 0 || chip_type &&& ModeReadmode != 0) = true := by
    rcases hsel with h | h
    · simp [h]
    · simp [h]
  have hv : u8 (u8 (chip.busy <<< 7) ||| u8 (chip.timer_b_overflow_flag <<< 1) |||
        chip.timer_a_overflow_flag) =
      u8 ((chip.busy <<< 7) ||| (chip.timer_b_overflow_flag <<< 1) |||
        chip.timer_a_overflow_flag) := by
    simp only [u8_or, u8_u8]
  by_cases hy : chip_type &&& ModeYM2612 = 0
  · simp [OPN2_Read, hs, htest, hy, hv]
  · simp [OPN2_Read, hs, htest, hy, hv]

/-- C10 on the chip after reset, port 0, with `chip_type = ModeReadmode`. -/
theorem C10_status_read_witness :
    OPN2_Read 2 chip_reset 0 =
      ({ chip_reset with
          status := u8 ((chip_reset.busy <<< 7) ||| (chip_reset.timer_b_overflow_flag <<< 1) |||
            chip_reset.timer_a_overflow_flag)
          status_time := if 2 &&& ModeYM2612 ≠ 0 then 300000 else 40000000 },
        u8 ((chip_reset.busy <<< 7) ||| (chip_reset.timer_b_overflow_flag <<< 1) |||
          chip_reset.timer_a_overflow_flag)) :=
  C10_status_read 2 0 chip_reset rfl (Or.inl (by decide))

/-! ## Timed write queue: insertion -/

theorem WriteBuffered_skip_never_exits (chip_type fuel skip : Nat) (chip : YM3438) :
    OPN2_WriteBuffered_skip chip_type fuel skip chip = .error Failure.outOfFuel := by
  induction fuel generalizing skip chip with
  | zero => rfl
  | succ n ih => simp [OPN2_WriteBuffered_skip, ih]

/-- C6: when the ring slot at `writebuf_last` holds a pending entry (port bit
`0x04` set), `OPN2_WriteBuffered` does not return: the condition `skip >= 0` of
its catch-up loop is true of every `uint64`, so whatever number of iterations is
allowed, the loop has not exited and the new entry is never stored. -/
theorem C6_write_buffered_pending_never_returns (fuel chip_type : Nat) (chip : YM3438)
    (port data : Nat) (hpending : (chip.writebuf chip.writebuf_last).port &&& 0x04 ≠ 0) :
    OPN2_WriteBuffered fuel chip_type chip port data = .error Failure.outOfFuel := by
  have h : ((chip.writebuf chip.writebuf_last).port &&& 0x04 != 0) = true := by
    simpa using hpending
  simp only [OPN2_WriteBuffered, h, if_true, WriteBuffered_skip_never_exits]

/-- C6 on the full queue, for a million allowed iterations. -/
theorem C6_write_buffered_pending_never_returns_witness :
    OPN2_WriteBuffered 1000000 2 chip_queue_full 0 0x30 = .error Failure.outOfFuel :=
  C6_write_buffered_pending_never_returns 1000000 2 chip_queue_full 0 0x30 (by decide)

theorem upd_upd {α : Type} (a : Nat → α) (i : Nat) (v w : α) :
    upd (upd a i v) i w = upd a i w := by
  funext j
  simp only [upd]
  split <;> rfl

theorem upd_same {α : Type} (a : Nat → α) (i : Nat) (v : α) : upd a i v i = v := by
  simp [upd]

theorem upd_other {α : Type} (a : Nat → α) (i j : Nat) (v : α) (h : j ≠ i) :
    upd a i v j = a j := by
  simp [upd, h]

theorem WriteBuffered_insert_eq (chip : YM3438) (port data : Nat)
    (hno : chip.writebuf_lasttime + 15 < 2 ^ 64) :
    OPN2_WriteBuffered_insert chip port data =
      { chip with
        writebuf := upd chip.writebuf chip.writebuf_last
          { port := (port &&& 3) ||| 4, data := data
            time := max (chip.writebuf_lasttime + 15) chip.writebuf_samplecnt }
        writebuf_lasttime := max (chip.writebuf_lasttime + 15) chip.writebuf_samplecnt
        writebuf_last := (chip.writebuf_last + 1) % 2048 } := by
  have hp : u8 ((port &&& 3) ||| 4) = (port &&& 3) ||| 4 := by
    have h3 : port &&& 3 < 2 ^ 3 := lt_of_le_of_lt Nat.and_le_right (by decide)
    have h8 : (port &&& 3) ||| 4 < 2 ^ 3 := Nat.or_lt_two_pow h3 (by decide)
    exact Nat.mod_eq_of_lt (lt_trans h8 (by decide))
  have ht : u64 (chip.writebuf_lasttime + OPN_WRITEBUF_DELAY) = chip.writebuf_lasttime + 15 :=
    Nat.mod_eq_of_lt hno
  have hm : (if chip.writebuf_lasttime + 15 < chip.writebuf_samplecnt
        then chip.writebuf_samplecnt else chip.writebuf_lasttime + 15) =
      max (chip.writebuf_lasttime + 15) chip.writebuf_samplecnt := by
    rw [max_def]
    split_ifs <;> omega
  have hl : u32 (chip.writebuf_last + 1) % OPN_WRITEBUF_SIZE = (chip.writebuf_last + 1) % 2048 :=
    Nat.mod_mod_of_dvd _ (by decide)
  simp only [OPN2_WriteBuffered_insert, upd_upd, upd_same, hp, ht, hm, hl]

/-- C7: when the ring slot at `writebuf_last` is not pending (port bit `0x04`
clear) and `writebuf_lasttime + 15` does not overflow 64 bits,
`OPN2_WriteBuffered(port, data)` stores `{port = (port & 3) | 4, data,
time = max(writebuf_lasttime + 15, writebuf_samplecnt)}` in that slot, sets
`writebuf_lasttime` to that time, advances `writebuf_last` by one modulo 2048 and
changes nothing else; and the entry inserted by a second such call is scheduled
at least 15 later than the first. -/
theorem C7_write_buffered_insert (fuel chip_type : Nat) (chip : YM3438) (port data : Nat)
    (hfree : (chip.writebuf chip.writebuf_last).port &&& 0x04 = 0)
    (hno : chip.writebuf_lasttime + 15 < 2 ^ 64) :
    OPN2_WriteBuffered fuel chip_type chip port data = .ok
      { chip with
        writebuf := upd chip.writebuf chip.writebuf_last
          { port := (port &&& 3) ||| 4, data := data
            time := max (chip.writebuf_lasttime + 15) chip.writebuf_samplecnt }
        writebuf_lasttime := max (chip.writebuf_lasttime + 15) chip.writebuf_samplecnt
        writebuf_last := (chip.writebuf_last + 1) % 2048 } ∧
      ∀ (next : YM3438) (port₂ data₂ : Nat),
        OPN2_WriteBuffered fuel chip_type chip port data = .ok next →
        (next.writebuf next.writebuf_last).port &&& 0x04 = 0 →
        next.writebuf_lasttime + 15 < 2 ^ 64 →
        ∃ last : YM3438, OPN2_WriteBuffered fuel chip_type next port₂ data₂ = .ok last ∧
          (next.writebuf chip.writebuf_last).time + 15 ≤
            (last.writebuf next.writebuf_last).time := by
  have key : ∀ (c : YM3438) (p d : Nat), (c.writebuf c.writebuf_last).port &&& 0x04 = 0 →
      c.writebuf_lasttime + 15 < 2 ^ 64 →
      OPN2_WriteBuffered fuel chip_type c p d = .ok
        { c with
          writebuf := upd c.writebuf c.writebuf_last
            { port := (p &&& 3) ||| 4, data := d
              time := max (c.writebuf_lasttime + 15) c.writebuf_samplecnt }
          writebuf_lasttime := max (c.writebuf_lasttime + 15) c.writebuf_samplecnt
          writebuf_last := (c.writebuf_last + 1) % 2048 } := by
    intro c p d hf hn
    have h : ((c.writebuf c.writebuf_last).port &&& 0x04 != 0) = false := by simp [hf]
    simp only [OPN2_WriteBuffered, h, Bool.false_eq_true, if_false, WriteBuffered_insert_eq c p d hn]
  refine ⟨key chip port data hfree hno, ?_⟩
  intro next port₂ data₂ h1 hf2 hn2
  refine ⟨_, key next port₂ data₂ hf2 hn2, ?_⟩
  rw [key chip port data hfree hno] at h1
  cases h1
  simp only [upd_same]
  exact le_trans (by simp) (le_max_left _ _)

/-- C7 on the chip after reset. -/
theorem C7_write_buffered_insert_witness :
    OPN2_WriteBuffered 1 2 chip_reset 0 0x30 = .ok
      { chip_reset with
        writebuf := upd chip_reset.writebuf chip_reset.writebuf_last
          { port := (0 &&& 3) ||| 4, data := 0x30
            time := max (chip_reset.writebuf_lasttime + 15) chip_reset.writebuf_samplecnt }
        writebuf_lasttime := max (chip_reset.writebuf_lasttime + 15) chip_reset.writebuf_samplecnt
        writebuf_last := (chip_reset.writebuf_last + 1) % 2048 } ∧
      ∀ (next : YM3438) (port₂ data₂ : Nat),
        OPN2_WriteBuffered 1 2 chip_reset 0 0x30 = .ok next →
        (next.writebuf next.writebuf_last).port &&& 0x04 = 0 →
        next.writebuf_lasttime + 15 < 2 ^ 64 →
        ∃ last : YM3438, OPN2_WriteBuffered 1 2 next port₂ data₂ = .ok last ∧
          (next.writebuf chip_reset.writebuf_last).time + 15 ≤
            (last.writebuf next.writebuf_last).time :=
  C7_write_buffered_insert 1 2 chip_reset 0 0x30 (by decide) (by decide)

/-! ## Resampler blend -/

theorem i32_of_fits {z : Int} (h : fits32 z) : i32 z = z := by
  obtain ⟨h1, h2⟩ := h
  unfold i32
  omega

theorem fits32_tdiv {n d : Int} (h : fits32 n) (hd : 0 < d) : fits32 (Int.tdiv n d) := by
  obtain ⟨h1, h2⟩ := h
  rcases le_or_lt 0 n with hn | hn
  · have h0 : 0 ≤ Int.tdiv n d := Int.tdiv_nonneg hn hd.le
    have h3 : Int.tdiv n d ≤ n := by
      rw [Int.tdiv_eq_ediv hn hd.le]
      exact Int.ediv_le_self _ hn
    exact ⟨by omega, by omega⟩
  · have hq : Int.tdiv n d = -Int.tdiv (-n) d := by rw [Int.neg_tdiv, neg_neg]
    have hn' : 0 ≤ -n := by omega
    have h0 : 0 ≤ Int.tdiv (-n) d := Int.tdiv_nonneg hn' hd.le
    have h3 : Int.tdiv (-n) d ≤ -n := by
      rw [Int.tdiv_eq_ediv hn' hd.le]
      exact Int.ediv_le_self _ hn'
    exact ⟨by omega, by omega⟩

theorem tmod_neg_left (n r : Int) : Int.tmod (-n) r = -Int.tmod n r := by
  have h1 := Int.tmod_add_tdiv (-n) r
  have h2 := Int.tmod_add_tdiv n r
  rw [Int.neg_tdiv, mul_neg] at h1
  linarith

/-- The truncated quotient of `a*(r - c) + b*c` by `r`, for `0 <= c < r`, lies
between `a` and `b` and within 1 of the exact blend. -/
theorem tdiv_blend (a b r c : Int) (h0 : 0 ≤ c) (hlt : c < r) :
    min a b ≤ Int.tdiv (a * (r - c) + b * c) r ∧
      Int.tdiv (a * (r - c) + b * c) r ≤ max a b ∧
      |((Int.tdiv (a * (r - c) + b * c) r : Int) : ℚ) - ((a : ℚ) + ((b : ℚ) - a) * ((c : ℚ) / r))|
        < 1 := by
  have hr : 0 < r := lt_of_le_of_lt h0 hlt
  set n := a * (r - c) + b * c with hn
  have hlo : min a b * r ≤ n := by
    have h1 : min a b * (r - c) ≤ a * (r - c) :=
      mul_le_mul_of_nonneg_right (min_le_left a b) (by omega)
    have h2 : min a b * c ≤ b * c := mul_le_mul_of_nonneg_right (min_le_right a b) h0
    nlinarith
  have hhi : n ≤ max a b * r := by
    have h1 : a * (r - c) ≤ max a b * (r - c) :=
      mul_le_mul_of_nonneg_right (le_max_left a b) (by omega)
    have h2 : b * c ≤ max a b * c := mul_le_mul_of_nonneg_right (le_max_right a b) h0
    nlinarith
  have hmod := Int.tmod_add_tdiv n r
  have hexact : ((a : ℚ) + ((b : ℚ) - a) * ((c : ℚ) / r)) = (n : ℚ) / r := by
    have hrq : (r : ℚ) ≠ 0 := by exact_mod_cast hr.ne'
    rw [hn]
    push_cast
    field_simp
    ring
  rcases le_or_lt 0 n with hnn | hnn
  · have hm0 : 0 ≤ Int.tmod n r := Int.tmod_nonneg r hnn
    have hm1 : Int.tmod n r < r := Int.tmod_lt_of_pos n hr
    refine ⟨?_, ?_, ?_⟩
    · by_contra hc
      push_neg at hc
      have : (Int.tdiv n r + 1) * r ≤ min a b * r :=
        mul_le_mul_of_nonneg_right (by omega) hr.le
      nlinarith
    · by_contra hc
      push_neg at hc
      have : (max a b + 1) * r ≤ Int.tdiv n r * r :=
        mul_le_mul_of_nonneg_right (by omega) hr.le
      nlinarith
    · rw [hexact, abs_lt]
      have hrq : (0 : ℚ) < r := by exact_mod_cast hr
      have hq : (n : ℚ) = Int.tmod n r + r * Int.tdiv n r := by exact_mod_cast hmod.symm
      have hm0q : (0 : ℚ) ≤ Int.tmod n r := by exact_mod_cast hm0
      have hm1q : ((Int.tmod n r : Int) : ℚ) < r := by exact_mod_cast hm1
      have hdiv : (n : ℚ) / r = Int.tdiv n r + (Int.tmod n r : ℚ) / r := by
        rw [hq]; field_simp; ring
      rw [hdiv]
      have h1 : (0 : ℚ) ≤ (Int.tmod n r : ℚ) / r := div_nonneg hm0q hrq.le
      have h2 : ((Int.tmod n r : Int) : ℚ) / r < 1 := (div_lt_one hrq).2 hm1q
      constructor <;> linarith
  · have hm0 : Int.tmod n r ≤ 0 := by
      have := Int.tmod_nonneg r (show 0 ≤ -n by omega)
      rw [tmod_neg_left] at this
      omega
    have hm1 : -r < Int.tmod n r := by
      have := Int.tmod_lt_of_pos (-n) hr
      rw [tmod_neg_left] at this
      omega
    refine ⟨?_, ?_, ?_⟩
    · by_contra hc
      push_neg at hc
      have : (Int.tdiv n r + 1) * r ≤ min a b * r :=
        mul_le_mul_of_nonneg_right (by omega) hr.le
      nlinarith
    · by_contra hc
      push_neg at hc
      have : (max a b + 1) * r ≤ Int.tdiv n r * r :=
        mul_le_mul_of_nonneg_right (by omega) hr.le
      nlinarith
    · rw [hexact, abs_lt]
      have hrq : (0 : ℚ) < r := by exact_mod_cast hr
      have hq : (n : ℚ) = Int.tmod n r + r * Int.tdiv n r := by exact_mod_cast hmod.symm
      have hm0q : ((Int.tmod n r : Int) : ℚ) ≤ 0 := by exact_mod_cast hm0
      have hm1q : -(r : ℚ) < ((Int.tmod n r : Int) : ℚ) := by exact_mod_cast hm1
      have hdiv : (n : ℚ) / r = Int.tdiv n r + (Int.tmod n r : ℚ) / r := by
        rw [hq]; field_simp; ring
      rw [hdiv]
      have h1 : (Int.tmod n r : ℚ) / r ≤ 0 := div_nonpos_of_nonpos_of_nonneg hm0q hrq.le
      have h2 : -1 < ((Int.tmod n r : Int) : ℚ) / r := by
        rw [lt_div_iff₀ hrq]; linarith
      constructor <;> linarith

theorem GenerateResampled_idle (fuel chip_type : Nat) (use_filter : Int)
    (lowpass : Int → Int → Int) (chip : YM3438) (hfuel : 0 < fuel)
    (h0 : 0 ≤ chip.samplecnt) (hlt : chip.samplecnt < chip.rateratio) :
    OPN2_GenerateResampled fuel chip_type use_filter lowpass chip =
      .ok ({ chip with samplecnt := i32 (chip.samplecnt + 2 ^ RSM_FRAC) },
        OPN2_GenerateResampled_blend chip 0, OPN2_GenerateResampled_blend chip 1) := by
  obtain ⟨f, rfl⟩ : ∃ f, fuel = f + 1 := ⟨fuel - 1, by omega⟩
  have hge : ¬ chip.samplecnt ≥ chip.rateratio := by omega
  have hz : (chip.rateratio == 0) = false := by
    have : chip.rateratio ≠ 0 := by omega
    simpa using this
  simp only [OPN2_GenerateResampled, OPN2_GenerateResampled_loop, hge, if_false, hz,
    Bool.false_eq_true]

theorem blend_eq_tdiv (chip : YM3438) (k : Nat) (hlt : chip.samplecnt < chip.rateratio)
    (h0 : 0 ≤ chip.samplecnt) (hr : fits32 chip.rateratio)
    (h1 : fits32 (chip.oldsamples k * (chip.rateratio - chip.samplecnt)))
    (h2 : fits32 (chip.samples k * chip.samplecnt))
    (h3 : fits32 (chip.oldsamples k * (chip.rateratio - chip.samplecnt) +
      chip.samples k * chip.samplecnt)) :
    OPN2_GenerateResampled_blend chip k =
      Int.tdiv (chip.oldsamples k * (chip.rateratio - chip.samplecnt) +
        chip.samples k * chip.samplecnt) chip.rateratio := by
  have hd : fits32 (chip.rateratio - chip.samplecnt) := by
    obtain ⟨a, b⟩ := hr
    exact ⟨by omega, by omega⟩
  unfold OPN2_GenerateResampled_blend
  rw [i32_of_fits hd, i32_of_fits h1, i32_of_fits h2, i32_of_fits h3,
    i32_of_fits (fits32_tdiv h3 (by omega))]

/-- C9, as the code has it: with `0 <= samplecnt < rateratio` (no native sample
is generated) and the two products and their sum fitting in 32 bits,
`OPN2_GenerateResampled` only advances `samplecnt` by `1 << RSM_FRAC` and
outputs, for each side `k`, the truncated quotient
`(oldsamples[k]*(rateratio - samplecnt) + samples[k]*samplecnt) / rateratio`,
which lies between `oldsamples[k]` and `samples[k]` and differs from
`S0 + (S1 - S0)*f`, `f = samplecnt/rateratio`, by less than 1. -/
theorem C9_resampler_blend (fuel chip_type : Nat) (use_filter : Int)
    (lowpass : Int → Int → Int) (chip : YM3438) (hfuel : 0 < fuel)
    (h0 : 0 ≤ chip.samplecnt) (hlt : chip.samplecnt < chip.rateratio)
    (hr : fits32 chip.rateratio)
    (hfit : ∀ k, k < 2 →
      fits32 (chip.oldsamples k * (chip.rateratio - chip.samplecnt)) ∧
      fits32 (chip.samples k * chip.samplecnt) ∧
      fits32 (chip.oldsamples k * (chip.rateratio - chip.samplecnt) +
        chip.samples k * chip.samplecnt)) :
    OPN2_GenerateResampled fuel chip_type use_filter lowpass chip =
      .ok ({ chip with samplecnt := i32 (chip.samplecnt + 1024) },
        Int.tdiv (chip.oldsamples 0 * (chip.rateratio - chip.samplecnt) +
          chip.samples 0 * chip.samplecnt) chip.rateratio,
        Int.tdiv (chip.oldsamples 1 * (chip.rateratio - chip.samplecnt) +
          chip.samples 1 * chip.samplecnt) chip.rateratio) ∧
      ∀ k, k < 2 →
        min (chip.oldsamples k) (chip.samples k) ≤
          Int.tdiv (chip.oldsamples k * (chip.rateratio - chip.samplecnt) +
            chip.samples k * chip.samplecnt) chip.rateratio ∧
        Int.tdiv (chip.oldsamples k * (chip.rateratio - chip.samplecnt) +
            chip.samples k * chip.samplecnt) chip.rateratio ≤
          max (chip.oldsamples k) (chip.samples k) ∧
        |((Int.tdiv (chip.oldsamples k * (chip.rateratio - chip.samplecnt) +
            chip.samples k * chip.samplecnt) chip.rateratio : Int) : ℚ) -
          ((chip.oldsamples k : ℚ) + ((chip.samples k : ℚ) - chip.oldsamples k) *
            ((chip.samplecnt : ℚ) / chip.rateratio))| < 1 := by
  refine ⟨?_, fun k _ => tdiv_blend _ _ _ _ h0 hlt⟩
  rw [GenerateResampled_idle fuel chip_type use_filter lowpass chip hfuel h0 hlt,
    blend_eq_tdiv chip 0 hlt h0 hr (hfit 0 (by decide)).1 (hfit 0 (by decide)).2.1
      (hfit 0 (by decide)).2.2,
    blend_eq_tdiv chip 1 hlt h0 hr (hfit 1 (by decide)).1 (hfit 1 (by decide)).2.1
      (hfit 1 (by decide)).2.2]
  rfl

theorem chip_blend_fits (k : Nat) :
    fits32 (chip_blend.oldsamples k * (chip_blend.rateratio - chip_blend.samplecnt)) ∧
      fits32 (chip_blend.samples k * chip_blend.samplecnt) ∧
      fits32 (chip_blend.oldsamples k * (chip_blend.rateratio - chip_blend.samplecnt) +
        chip_blend.samples k * chip_blend.samplecnt) := by
  have e1 : chip_blend.oldsamples k = 1000 := rfl
  have e2 : chip_blend.samples k = 2000 := rfl
  have e3 : chip_blend.rateratio = 1024 := rfl
  have e4 : chip_blend.samplecnt = 256 := rfl
  rw [e1, e2, e3, e4]
  refine ⟨⟨?_, ?_⟩, ⟨?_, ?_⟩, ⟨?_, ?_⟩⟩ <;> decide

/-- C9 at the literal inputs of the specification: `S0 = 1000`, `S1 = 2000`,
`rateratio = 1024`, `samplecnt = 256` give 1250 on both sides. -/
theorem C9_resampler_blend_witness :
    (OPN2_GenerateResampled 1 2 1 (fun _ _ => 0) chip_blend =
      .ok ({ chip_blend with samplecnt := i32 (chip_blend.samplecnt + 1024) },
        Int.tdiv (chip_blend.oldsamples 0 * (chip_blend.rateratio - chip_blend.samplecnt) +
          chip_blend.samples 0 * chip_blend.samplecnt) chip_blend.rateratio,
        Int.tdiv (chip_blend.oldsamples 1 * (chip_blend.rateratio - chip_blend.samplecnt) +
          chip_blend.samples 1 * chip_blend.samplecnt) chip_blend.rateratio) ∧
      ∀ k, k < 2 →
        min (chip_blend.oldsamples k) (chip_blend.samples k) ≤
          Int.tdiv (chip_blend.oldsamples k * (chip_blend.rateratio - chip_blend.samplecnt) +
            chip_blend.samples k * chip_blend.samplecnt) chip_blend.rateratio ∧
        Int.tdiv (chip_blend.oldsamples k * (chip_blend.rateratio - chip_blend.samplecnt) +
            chip_blend.samples k * chip_blend.samplecnt) chip_blend.rateratio ≤
          max (chip_blend.oldsamples k) (chip_blend.samples k) ∧
        |((Int.tdiv (chip_blend.oldsamples k * (chip_blend.rateratio - chip_blend.samplecnt) +
            chip_blend.samples k * chip_blend.samplecnt) chip_blend.rateratio : Int) : ℚ) -
          ((chip_blend.oldsamples k : ℚ) + ((chip_blend.samples k : ℚ) - chip_blend.oldsamples k) *
            ((chip_blend.samplecnt : ℚ) / chip_blend.rateratio))| < 1) ∧
      Int.tdiv (chip_blend.oldsamples 0 * (chip_blend.rateratio - chip_blend.samplecnt) +
        chip_blend.samples 0 * chip_blend.samplecnt) chip_blend.rateratio = 1250 :=
  ⟨C9_resampler_blend 1 2 1 (fun _ _ => 0) chip_blend (by decide) (by decide) (by decide)
    ⟨by decide, by decide⟩ (fun k _ => chip_blend_fits k), by decide⟩

/-- C9 as stated fails: on `chip_blend_overflow` (`oldsamples = samples = 3`,
`rateratio = 2^30`, `samplecnt = 2^29`) both products fit in 32 bits, yet the
sum wraps and `OPN2_GenerateResampled` outputs `-1`, while the truncated
quotient is 3. -/
theorem C9_counterexample :
    (0 ≤ chip_blend_overflow.samplecnt ∧
      chip_blend_overflow.samplecnt < chip_blend_overflow.rateratio ∧
      fits32 (chip_blend_overflow.oldsamples 0 *
        (chip_blend_overflow.rateratio - chip_blend_overflow.samplecnt)) ∧
      fits32 (chip_blend_overflow.samples 0 * chip_blend_overflow.samplecnt)) ∧
    OPN2_GenerateResampled 1 2 1 (fun _ _ => 0) chip_blend_overflow =
      .ok ({ chip_blend_overflow with
          samplecnt := i32 (chip_blend_overflow.samplecnt + 2 ^ RSM_FRAC) }, -1, -1) ∧
    Int.tdiv (chip_blend_overflow.oldsamples 0 *
        (chip_blend_overflow.rateratio - chip_blend_overflow.samplecnt) +
      chip_blend_overflow.samples 0 * chip_blend_overflow.samplecnt)
      chip_blend_overflow.rateratio = 3 := by
  refine ⟨⟨by decide, by decide, ⟨by decide, by decide⟩, ⟨by decide, by decide⟩⟩, ?_, by decide⟩
  rw [GenerateResampled_idle 1 2 1 (fun _ _ => 0) chip_blend_overflow (by decide) (by decide)
    (by decide)]
  rfl

/-! ## Register write protocol -/

theorem Clock_tl (ct : Nat) (c : YM3438) :
    (OPN2_Clock ct c).1.tl = (OPN2_DoRegWrite_slot c).tl := by
  have h := congrArg YM3438.tl (busPart_Clock ct c)
  exact h

theorem Clock_cycles (ct : Nat) (c : YM3438) :
    (OPN2_Clock ct c).1.cycles = u32 (c.cycles + 1) % 24 := by
  have h := congrArg YM3438.cycles (busPart_Clock ct c)
  exact h

theorem Clock_channel (ct : Nat) (c : YM3438) :
    (OPN2_Clock ct c).1.channel = (u32 (c.cycles + 1) % 24) % 6 := by
  have h := congrArg YM3438.channel (busPart_Clock ct c)
  exact h

theorem Clock_write_a (ct : Nat) (c : YM3438) :
    (OPN2_Clock ct c).1.write_a = u8 (c.write_a <<< 1) := by
  have h := congrArg YM3438.write_a (busPart_Clock ct c)
  exact h

theorem Clock_write_d (ct : Nat) (c : YM3438) :
    (OPN2_Clock ct c).1.write_d = u8 (c.write_d <<< 1) := by
  have h := congrArg YM3438.write_d (busPart_Clock ct c)
  exact h

theorem Clock_write_data (ct : Nat) (c : YM3438) :
    (OPN2_Clock ct c).1.write_data = c.write_data := by
  have h := congrArg YM3438.write_data (busPart_Clock ct c)
  exact h

theorem Clock_write_fm_data (ct : Nat) (c : YM3438) :
    (OPN2_Clock ct c).1.write_fm_data = (OPN2_DoRegWrite_latch ( OPN2_DoIO c)).write_fm_data := by
  have h := congrArg YM3438.write_fm_data (busPart_Clock ct c)
  exact h

theorem Clock_write_fm_address (ct : Nat) (c : YM3438) :
    (OPN2_Clock ct c).1.write_fm_address =
      (OPN2_DoRegWrite_latch ( OPN2_DoIO c)).write_fm_address := by
  have h := congrArg YM3438.write_fm_address (busPart_Clock ct c)
  exact h

theorem Clock_address (ct : Nat) (c : YM3438) :
    (OPN2_Clock ct c).1.address = (OPN2_DoRegWrite_latch ( OPN2_DoIO c)).address := by
  have h := congrArg YM3438.address (busPart_Clock ct c)
  exact h

theorem Clock_data (ct : Nat) (c : YM3438) :
    (OPN2_Clock ct c).1.data =
      (OPN2_DoRegWrite_data (OPN2_DoRegWrite_latch ( OPN2_DoIO c))).data := by
  have h := congrArg YM3438.data (busPart_Clock ct c)
  exact h

theorem and_three (x : Nat) : x &&& 3 = x % 4 := Nat.and_pow_two_sub_one_eq_mod x 2

theorem and_one (x : Nat) : x &&& 1 = x % 2 := Nat.and_pow_two_sub_one_eq_mod x 1

theorem or_one_mod_four (x : Nat) (h : x % 4 = 0) : (x ||| 1) % 4 = 1 := by
  have := or_mod_two_pow x 1 2
  simp only [show (2:Nat)^2 = 4 by decide] at this
  rw [this, h]
  decide

theorem or_one_mod_four_of_two (x : Nat) (h : x % 4 = 2) : (x ||| 1) % 4 = 3 := by
  have := or_mod_two_pow x 1 2
  simp only [show (2:Nat)^2 = 4 by decide] at this
  rw [this, h]
  decide

theorem u8_shl_one (x : Nat) : u8 (x <<< 1) = (2 * x) % 256 := by
  simp only [u8, Nat.shiftLeft_eq]
  omega

theorem DoRegWrite_slot_tl (c : YM3438) :
    (OPN2_DoRegWrite_slot c).tl =
      if (c.write_fm_data != 0 && op_offset (c.cycles % 12) == c.address &&& 0x107) &&
          c.address &&& 0xf0 == 0x40 then
        upd c.tl (if c.address &&& 0x08 != 0 then c.cycles % 12 + 12 else c.cycles % 12)
          (c.data &&& 0x7f)
      else c.tl := rfl

theorem latch_write_fm_data (c : YM3438) :
    (OPN2_DoRegWrite_latch ( OPN2_DoIO c)).write_fm_data =
      if (ToInt (c.write_a &&& 0x03 == 0x01) != 0 || ToInt (c.write_d &&& 0x03 == 0x01) != 0) &&
          c.write_fm_address != 0 && ToInt (c.write_d &&& 0x03 == 0x01) != 0 then 1
      else if (ToInt (c.write_a &&& 0x03 == 0x01) != 0 ||
          ToInt (c.write_d &&& 0x03 == 0x01) != 0) && ToInt (c.write_a &&& 0x03 == 0x01) != 0
        then 0
      else c.write_fm_data := rfl

theorem latch_address (c : YM3438) :
    (OPN2_DoRegWrite_latch ( OPN2_DoIO c)).address =
      if (ToInt (c.write_a &&& 0x03 == 0x01) != 0 || ToInt (c.write_d &&& 0x03 == 0x01) != 0) &&
          ToInt (c.write_a &&& 0x03 == 0x01) != 0 && c.write_data &&& 0xf0 != 0x00 then
        c.write_data
      else c.address := rfl

theorem latch_write_fm_address (c : YM3438) :
    (OPN2_DoRegWrite_latch ( OPN2_DoIO c)).write_fm_address =
      if (ToInt (c.write_a &&& 0x03 == 0x01) != 0 || ToInt (c.write_d &&& 0x03 == 0x01) != 0) &&
          ToInt (c.write_a &&& 0x03 == 0x01) != 0 then
        (if c.write_data &&& 0xf0 != 0x00 then 1 else 0)
      else c.write_fm_address := rfl

theorem latch_data (c : YM3438) :
    (OPN2_DoRegWrite_data (OPN2_DoRegWrite_latch ( OPN2_DoIO c))).data =
      if (OPN2_DoRegWrite_latch ( OPN2_DoIO c)).write_fm_data != 0 then
        u8 (c.write_data &&& 0xff)
      else c.data := rfl

theorem Clock_n_succ (ct n : Nat) (c : YM3438) :
    OPN2_Clock_n ct (n + 1) c = OPN2_Clock_n ct n (OPN2_Clock ct c).1 := rfl

theorem BusSteady_step (ct W D : Nat) (c : YM3438) (h : BusSteady W D c) :
    BusSteady W D (OPN2_Clock ct c).1 ∧
      (OPN2_Clock ct c).1.cycles = (c.cycles + 1) % 24 ∧
      (OPN2_Clock ct c).1.tl =
        if (op_offset (c.cycles % 12) == W &&& 0x107) && W &&& 0xf0 == 0x40 then
          upd c.tl (if W &&& 0x08 != 0 then c.cycles % 12 + 12 else c.cycles % 12) (D &&& 0x7f)
        else c.tl := by
  obtain ⟨hc, ha, hd, hf, hw, hD, hwd⟩ := h
  have ha3 : (c.write_a &&& 3 == 1) = false := by
    rw [and_three]; simp; omega
  have hd3 : (c.write_d &&& 3 == 1) = false := by
    rw [and_three]; simp; omega
  have hfd : (OPN2_DoRegWrite_latch ( OPN2_DoIO c)).write_fm_data = 1 := by
    rw [latch_write_fm_data, ha3, hd3, hf]; rfl
  have hcy : (OPN2_Clock ct c).1.cycles = (c.cycles + 1) % 24 := by
    rw [Clock_cycles]; unfold u32; omega
  refine ⟨⟨?_, ?_, ?_, ?_, ?_, ?_, ?_⟩, hcy, ?_⟩
  · rw [hcy]; omega
  · rw [Clock_write_a, u8_shl_one]; omega
  · rw [Clock_write_d, u8_shl_one]; omega
  · rw [Clock_write_fm_data, hfd]
  · rw [Clock_address, latch_address, ha3, hd3, hw]; rfl
  · rw [Clock_data, latch_data, hfd]; exact hwd
  · rw [Clock_write_data]; exact hwd
  · rw [Clock_tl, DoRegWrite_slot_tl, hf, hw, hD]; rfl

theorem BusSteady_run (ct W D j0 s : Nat)
    (hW : ∀ j, j < 12 → ((op_offset j == W &&& 0x107) = true ↔ j = j0))
    (h40 : (W &&& 0xf0 == 0x40) = true)
    (hs : s = if W &&& 0x08 != 0 then j0 + 12 else j0) :
    ∀ (n : Nat) (c : YM3438), BusSteady W D c →
      BusSteady W D (OPN2_Clock_n ct n c) ∧
      (OPN2_Clock_n ct n c).cycles = (c.cycles + n) % 24 ∧
      ((∃ i, i < n ∧ (c.cycles + i) % 12 = j0) →
        (OPN2_Clock_n ct n c).tl = upd c.tl s (D &&& 0x7f)) ∧
      ((∀ i, i < n → (c.cycles + i) % 12 ≠ j0) → (OPN2_Clock_n ct n c).tl = c.tl) := by
  intro n
  induction n with
  | zero =>
    intro c h
    refine ⟨h, ?_, ?_, fun _ => rfl⟩
    · have := h.1
      show c.cycles = (c.cycles + 0) % 24
      omega
    · rintro ⟨i, hi, _⟩
      omega
  | succ n ih =>
    intro c h
    obtain ⟨h1, hcy, htl⟩ := BusSteady_step ct W D c h
    obtain ⟨i1, i2, i3, i4⟩ := ih (OPN2_Clock ct c).1 h1
    have hc := h.1
    rw [Clock_n_succ]
    have hidx : ∀ i, ((OPN2_Clock ct c).1.cycles + i) % 12 = (c.cycles + (i + 1)) % 12 := by
      intro i; rw [hcy]; omega
    refine ⟨i1, ?_, ?_, ?_⟩
    · rw [i2, hcy]; omega
    · rintro ⟨i, hi, hij⟩
      by_cases hnow : c.cycles % 12 = j0
      · have hhit : (op_offset (c.cycles % 12) == W &&& 0x107) = true :=
          (hW _ (Nat.mod_lt _ (by decide))).2 hnow
        have htl' : (OPN2_Clock ct c).1.tl = upd c.tl s (D &&& 0x7f) := by
          rw [htl, hhit, h40, hs, hnow]; rfl
        by_cases hlater : ∃ i, i < n ∧ ((OPN2_Clock ct c).1.cycles + i) % 12 = j0
        · rw [i3 hlater, htl', upd_upd]
        · push_neg at hlater
          rw [i4 hlater, htl']
      · have hmiss : (op_offset (c.cycles % 12) == W &&& 0x107) = false := by
          rw [Bool.eq_false_iff]
          intro hh
          exact hnow ((hW _ (Nat.mod_lt _ (by decide))).1 hh)
        have htl' : (OPN2_Clock ct c).1.tl = c.tl := by
          rw [htl, hmiss]; rfl
        have hi0 : i ≠ 0 := by
          rintro rfl
          exact hnow (by simpa using hij)
        have hlater : ∃ i, i < n ∧ ((OPN2_Clock ct c).1.cycles + i) % 12 = j0 :=
          ⟨i - 1, by omega, by rw [hidx]; rw [show i - 1 + 1 = i by omega]; exact hij⟩
        rw [i3 hlater, htl']
    · intro hno
      have hnow : c.cycles % 12 ≠ j0 := by
        have := hno 0 (by omega)
        simpa using this
      have hmiss : (op_offset (c.cycles % 12) == W &&& 0x107) = false := by
        rw [Bool.eq_false_iff]
        intro hh
        exact hnow ((hW _ (Nat.mod_lt _ (by decide))).1 hh)
      have htl' : (OPN2_Clock ct c).1.tl = c.tl := by
        rw [htl, hmiss]; rfl
      have hlater : ∀ i, i < n → ((OPN2_Clock ct c).1.cycles + i) % 12 ≠ j0 := by
        intro i hi
        rw [hidx]
        exact hno (i + 1) (by omega)
      rw [i4 hlater, htl']

theorem Write_fields (c : YM3438) (port data : Nat) :
    (OPN2_Write c port data).write_data = u16 ((u32 ((port &&& 3) <<< 7) &&& 0x100) ||| data) ∧
    (OPN2_Write c port data).write_a =
      (if (port &&& 3) &&& 1 != 0 then c.write_a else c.write_a ||| 1) ∧
    (OPN2_Write c port data).write_d =
      (if (port &&& 3) &&& 1 != 0 then c.write_d ||| 1 else c.write_d) ∧
    (OPN2_Write c port data).cycles = c.cycles ∧
    (OPN2_Write c port data).write_fm_data = c.write_fm_data ∧
    (OPN2_Write c port data).write_fm_address = c.write_fm_address ∧
    (OPN2_Write c port data).address = c.address ∧
    (OPN2_Write c port data).data = c.data ∧
    (OPN2_Write c port data).tl = c.tl :=
  ⟨rfl, rfl, rfl, rfl, rfl, rfl, rfl, rfl, rfl⟩

/-- The clock after an address write latches the address. -/
theorem Clock_after_address (ct : Nat) (c : YM3438) (hc : c.cycles < 24)
    (ha : c.write_a % 4 = 1) (hd : c.write_d % 4 = 0) (hw : (c.write_data &&& 0xf0 != 0) = true) :
    (OPN2_Clock ct c).1.cycles = (c.cycles + 1) % 24 ∧
    (OPN2_Clock ct c).1.write_a % 4 = 2 ∧ (OPN2_Clock ct c).1.write_d % 4 = 0 ∧
    (OPN2_Clock ct c).1.write_fm_data = 0 ∧ (OPN2_Clock ct c).1.write_fm_address = 1 ∧
    (OPN2_Clock ct c).1.address = c.write_data ∧
    (OPN2_Clock ct c).1.write_data = c.write_data ∧
    (OPN2_Clock ct c).1.tl = (OPN2_DoRegWrite_slot c).tl := by
  have ha3 : (c.write_a &&& 3 == 1) = true := by rw [and_three, ha]; rfl
  have hd3 : (c.write_d &&& 3 == 1) = false := by rw [and_three, hd]; rfl
  have hfd : (OPN2_DoRegWrite_latch ( OPN2_DoIO c)).write_fm_data = 0 := by
    rw [latch_write_fm_data, ha3, hd3]; simp [ToInt]
  refine ⟨?_, ?_, ?_, ?_, ?_, ?_, ?_, ?_⟩
  · rw [Clock_cycles]; unfold u32; omega
  · rw [Clock_write_a, u8_shl_one]; omega
  · rw [Clock_write_d, u8_shl_one]; omega
  · rw [Clock_write_fm_data, hfd]
  · rw [Clock_write_fm_address, latch_write_fm_address, ha3, hd3, hw]; rfl
  · rw [Clock_address, latch_address, ha3, hd3, hw]; rfl
  · rw [Clock_write_data]
  · rw [Clock_tl]

/-- The clock after the data write flags the data as FM data and latches it. -/
theorem Clock_after_data (ct : Nat) (c : YM3438) (hc : c.cycles < 24)
    (ha : c.write_a % 4 = 2) (hd : c.write_d % 4 = 1) (hfa : c.write_fm_address = 1)
    (hfd : c.write_fm_data = 0) :
    BusSteady c.address (u8 (c.write_data &&& 0xff)) (OPN2_Clock ct c).1 ∧
    (OPN2_Clock ct c).1.cycles = (c.cycles + 1) % 24 ∧
    (OPN2_Clock ct c).1.tl = c.tl := by
  have ha3 : (c.write_a &&& 3 == 1) = false := by rw [and_three, ha]; rfl
  have hd3 : (c.write_d &&& 3 == 1) = true := by rw [and_three, hd]; rfl
  have hfd' : (OPN2_DoRegWrite_latch ( OPN2_DoIO c)).write_fm_data = 1 := by
    rw [latch_write_fm_data, ha3, hd3, hfa]; rfl
  have hcy : (OPN2_Clock ct c).1.cycles = (c.cycles + 1) % 24 := by
    rw [Clock_cycles]; unfold u32; omega
  refine ⟨⟨?_, ?_, ?_, ?_, ?_, ?_, ?_⟩, hcy, ?_⟩
  · rw [hcy]; omega
  · rw [Clock_write_a, u8_shl_one]; omega
  · rw [Clock_write_d, u8_shl_one]; omega
  · rw [Clock_write_fm_data, hfd']
  · rw [Clock_address, latch_address, ha3, hd3]; rfl
  · rw [Clock_data, latch_data, hfd']; rfl
  · rw [Clock_write_data]
  · rw [Clock_tl, DoRegWrite_slot_tl, hfd]; rfl

theorem and_mod_512 (a m : Nat) (hm : 511 &&& m = m) : a &&& m = (a % 512) &&& m := by
  have h : a % 512 = a &&& 511 := (Nat.and_pow_two_sub_one_eq_mod a 9).symm
  rw [h, Nat.and_assoc, hm]

theorem op_slot_mod (a : Nat) : op_slot a = op_slot (a % 512) := by
  unfold op_slot
  simp only [and_three, and_one, Nat.shiftRight_eq_div_pow]
  omega

set_option maxRecDepth 100000 in
theorem op_offset_slot_small : ∀ r, r < 512 → ∀ j, j < 12 →
    (op_offset j == r &&& 0x107) = true →
    (if r &&& 0x08 != 0 then j + 12 else j) = op_slot r := by
  decide

/-- The decoded slot of `OPN2_DoRegWrite` is `op_slot` of the address. -/
theorem op_offset_slot (a j : Nat) (hj : j < 12) (h : (op_offset j == a &&& 0x107) = true) :
    (if a &&& 0x08 != 0 then j + 12 else j) = op_slot a := by
  rw [and_mod_512 a 0x107 rfl] at h
  rw [and_mod_512 a 0x08 rfl, op_slot_mod]
  exact op_offset_slot_small (a % 512) (Nat.mod_lt _ (by decide)) j hj h

set_option maxRecDepth 100000 in
theorem tl_address_nonzero : ∀ A, A < 256 → A &&& 0xF0 = 0x40 → ∀ b, b < 2 →
    (write_word b A &&& 0xf0 != 0) = true ∧ (write_word b A &&& 0xf0 == 0x40) = true := by
  decide

set_option maxRecDepth 100000 in
theorem tl_address_index : ∀ A, A < 256 → A &&& 0xF0 = 0x40 → A &&& 3 ≠ 3 → ∀ b, b < 2 →
    ∀ j, j < 12 → (op_offset j == write_word b A &&& 0x107) = (j == op_index b A) := by
  decide

set_option maxRecDepth 100000 in
theorem tl_address_slot : ∀ A, A < 256 → A &&& 0xF0 = 0x40 → A &&& 3 ≠ 3 → ∀ b, b < 2 →
    op_index b A + 12 * ((A >>> 3) &&& 1) =
      (if write_word b A &&& 0x08 != 0 then op_index b A + 12 else op_index b A) ∧
    op_index b A < 12 := by
  decide

set_option maxRecDepth 100000 in
theorem data_byte_facts : ∀ d, d < 256 → ∀ b, b < 2 →
    u8 (u16 ((u32 (((2 * b + 1) &&& 3) <<< 7) &&& 0x100) ||| d) &&& 0xff) = d := by
  decide

theorem register_write_tl (ct : Nat) (chip : YM3438) (A b d : Nat)
    (hcyc : chip.cycles < 24) (ha : chip.write_a &&& 3 = 0) (hd : chip.write_d &&& 3 = 0)
    (hA : A < 256) (hA40 : A &&& 0xF0 = 0x40) (hA3 : A &&& 3 ≠ 3) (hb : b < 2)
    (hd256 : d < 256) :
    (register_write ct chip (2 * b) A d).tl =
      upd (OPN2_DoRegWrite_slot chip).tl (op_index b A + 12 * ((A >>> 3) &&& 1))
        (d &&& 0x7F) := by
  obtain ⟨w0, w40⟩ := tl_address_nonzero A hA hA40 b hb
  have wtab : ∀ j, j < 12 →
      ((op_offset j == write_word b A &&& 0x107) = true ↔ j = op_index b A) := by
    intro j hj
    rw [tl_address_index A hA hA40 hA3 b hb j hj]
    exact beq_iff_eq
  obtain ⟨ws, wj⟩ := tl_address_slot A hA hA40 hA3 b hb
  have wd := data_byte_facts d hd256 b hb
  have hpar : (((2 * b) &&& 3) &&& 1 != 0) = false := by
    interval_cases b <;> rfl
  have hpar2 : (((2 * b + 1) &&& 3) &&& 1 != 0) = true := by
    interval_cases b <;> rfl
  rw [and_three] at ha hd
  -- the address write and the clock after it
  obtain ⟨f1, f2, f3, f4, f5, f6, f7, f8, f9⟩ := Write_fields chip (2 * b) A
  have a1 : (OPN2_Write chip (2 * b) A).write_a % 4 = 1 := by
    rw [f2, hpar]; exact or_one_mod_four _ ha
  have d1 : (OPN2_Write chip (2 * b) A).write_d % 4 = 0 := by
    rw [f3, hpar]; exact hd
  obtain ⟨cy2, a2, d2, fd2, fa2, ad2, _, tl2⟩ :=
    Clock_after_address ct (OPN2_Write chip (2 * b) A) (by rw [f4]; exact hcyc) a1 d1
      (by rw [f1]; exact w0)
  change _ = write_word b A at f1
  have tl2' : (OPN2_Clock ct (OPN2_Write chip (2 * b) A)).1.tl = (OPN2_DoRegWrite_slot chip).tl :=
    tl2
  -- the data write and the clock after it
  obtain ⟨g1, g2, g3, g4, g5, g6, g7, g8, g9⟩ :=
    Write_fields (OPN2_Clock ct (OPN2_Write chip (2 * b) A)).1 (2 * b + 1) d
  have hc2 : (OPN2_Clock ct (OPN2_Write chip (2 * b) A)).1.cycles < 24 := by
    rw [cy2]; exact Nat.mod_lt _ (by decide)
  obtain ⟨st4, cy4, tl4⟩ :=
    Clock_after_data ct
      (OPN2_Write (OPN2_Clock ct (OPN2_Write chip (2 * b) A)).1 (2 * b + 1) d)
      (by rw [g4]; exact hc2) (by rw [g2, hpar2]; exact a2)
      (by rw [g3, hpar2]; exact or_one_mod_four _ d2) (by rw [g6]; exact fa2)
      (by rw [g5]; exact fd2)
  rw [g7, ad2, f1, g1, wd] at st4
  -- the twelve clocks that follow
  obtain ⟨_, _, hit, _⟩ :=
    BusSteady_run ct _ d _ _ wtab w40 ws 12 _ st4
  have hex : ∃ i, i < 12 ∧
      ((OPN2_Clock ct
        (OPN2_Write (OPN2_Clock ct (OPN2_Write chip (2 * b) A)).1 (2 * b + 1) d)).1.cycles
          + i) % 12 = op_index b A := by
    generalize op_index b A = j0 at wj
    generalize (OPN2_Clock ct
        (OPN2_Write (OPN2_Clock ct (OPN2_Write chip (2 * b) A)).1 (2 * b + 1) d)).1.cycles = k
    exact ⟨(j0 + 12 - k % 12) % 12, Nat.mod_lt _ (by decide), by omega⟩
  have hfin := hit hex
  rw [tl4, g9, tl2'] at hfin
  exact hfin

theorem DoRegWrite_slot_tl_other (c : YM3438) (i : Nat)
    (hi : i ≠ op_slot c.address) : (OPN2_DoRegWrite_slot c).tl i = c.tl i := by
  rw [DoRegWrite_slot_tl]
  split
  · rename_i h
    simp only [Bool.and_eq_true] at h
    have hslot := op_offset_slot c.address (c.cycles % 12) (Nat.mod_lt _ (by decide)) h.1.2
    rw [hslot]
    exact upd_other _ _ _ _ hi
  · rfl

/-- C2: from every chip state with `cycles < 24`, `channel = cycles mod 6` and the
low two bits of `write_a` and `write_d` clear, for every address byte `A` with
`(A & 0xF0) = 0x40` and `(A & 3) != 3`, every address port `p` in `{0, 2}` and
every data byte `d`, the sequence `OPN2_Write(p, A); OPN2_Clock;
OPN2_Write(p+1, d)`; then 13 calls of `OPN2_Clock` leaves `tl[s] = d & 0x7F` for
the slot `s = (A & 3) + 3*(p >> 1) + 6*((A >> 2) & 1) + 12*((A >> 3) & 1)`, and
leaves `tl` unchanged for every other slot that is not the slot of the
previously latched address. -/
theorem C2_register_write_protocol (chip_type : Nat) (chip : YM3438) (A p d : Nat)
    (hcyc : chip.cycles < 24) (hch : chip.channel = chip.cycles % 6)
    (ha : chip.write_a &&& 3 = 0) (hd : chip.write_d &&& 3 = 0)
    (hA : A < 256) (hA40 : A &&& 0xF0 = 0x40) (hA3 : A &&& 3 ≠ 3)
    (hp : p = 0 ∨ p = 2) (hd256 : d < 256) :
    (register_write chip_type chip p A d).tl
        ((A &&& 3) + 3 * (p >>> 1) + 6 * ((A >>> 2) &&& 1) + 12 * ((A >>> 3) &&& 1)) =
      d &&& 0x7F ∧
    ∀ i, i ≠ (A &&& 3) + 3 * (p >>> 1) + 6 * ((A >>> 2) &&& 1) + 12 * ((A >>> 3) &&& 1) →
      i ≠ op_slot chip.address → (register_write chip_type chip p A d).tl i = chip.tl i := by
  have _ := hch
  obtain ⟨b, hb, rfl⟩ : ∃ b, b < 2 ∧ p = 2 * b := by
    rcases hp with rfl | rfl
    · exact ⟨0, by decide, rfl⟩
    · exact ⟨1, by decide, rfl⟩
  have key := register_write_tl chip_type chip A b d hcyc ha hd hA hA40 hA3 hb hd256
  have hs : (A &&& 3) + 3 * ((2 * b) >>> 1) + 6 * ((A >>> 2) &&& 1) + 12 * ((A >>> 3) &&& 1) =
      op_index b A + 12 * ((A >>> 3) &&& 1) := rfl
  rw [hs, key]
  refine ⟨upd_same _ _ _, ?_⟩
  intro i hi hold
  rw [upd_other _ _ _ _ hi]
  exact DoRegWrite_slot_tl_other chip i hold

/-- C2 on the chip after reset: total level `0x23` written to register `0x41`
of bank 0 reaches slot 1. -/
theorem C2_register_write_protocol_witness :
    (register_write 2 chip_reset 0 0x41 0x23).tl
        ((0x41 &&& 3) + 3 * (0 >>> 1) + 6 * ((0x41 >>> 2) &&& 1) + 12 * ((0x41 >>> 3) &&& 1)) =
      0x23 &&& 0x7F ∧
    ∀ i, i ≠ (0x41 &&& 3) + 3 * (0 >>> 1) + 6 * ((0x41 >>> 2) &&& 1) +
        12 * ((0x41 >>> 3) &&& 1) →
      i ≠ op_slot chip_reset.address → (register_write 2 chip_reset 0 0x41 0x23).tl i =
        chip_reset.tl i :=
  C2_register_write_protocol 2 chip_reset 0x41 0 0x23 (by decide) (by decide) (by decide)
    (by decide) (by decide) (by decide) (by decide) (Or.inl rfl) (by decide)

/-! ## Index ranges of `OPN2_Clock` -/

theorem idxPart_Clock_cycle_eq (c : YM3438) :
    idxPart ( OPN2_Clock_cycle c) = idxPart c := rfl

theorem idxPart_Clock_timer_eq (c : YM3438) :
    idxPart ( OPN2_Clock_timer c) = idxPart c := rfl

theorem idxPart_DoIO_eq (c : YM3438) :
    idxPart ( OPN2_DoIO c) = idxPart c := rfl

theorem idxPart_DoTimerA_eq (c : YM3438) :
    idxPart ( OPN2_DoTimerA c) = idxPart c := rfl

theorem idxPart_DoTimerB_eq (c : YM3438) :
    idxPart ( OPN2_DoTimerB c) = idxPart c := rfl

theorem idxPart_KeyOn_eq (c : YM3438) :
    idxPart ( OPN2_KeyOn c) = idxPart c := rfl

theorem idxPart_ChOutput_eq (chip_type : Nat) (c : YM3438) :
    idxPart ( OPN2_ChOutput chip_type c) = idxPart c := rfl

theorem idxPart_ChGenerate_eq (c : YM3438) :
    idxPart ( OPN2_ChGenerate c) = idxPart c := rfl

theorem idxPart_FMPrepare_eq (c : YM3438) :
    idxPart ( OPN2_FMPrepare c) = idxPart c := rfl

theorem idxPart_FMGenerate_eq (c : YM3438) :
    idxPart ( OPN2_FMGenerate c) = idxPart c := rfl

theorem idxPart_PhaseGenerate_eq (c : YM3438) :
    idxPart ( OPN2_PhaseGenerate c) = idxPart c := rfl

theorem idxPart_PhaseCalcIncrement_eq (c : YM3438) :
    idxPart ( OPN2_PhaseCalcIncrement c) = idxPart c := rfl

theorem idxPart_EnvelopeADSR_eq (c : YM3438) :
    idxPart ( OPN2_EnvelopeADSR c) = idxPart c := rfl

theorem idxPart_EnvelopeGenerate_eq (c : YM3438) :
    idxPart ( OPN2_EnvelopeGenerate c) = idxPart c := rfl

theorem idxPart_EnvelopeSSGEG_eq (c : YM3438) :
    idxPart ( OPN2_EnvelopeSSGEG c) = idxPart c := rfl

theorem idxPart_EnvelopePrepare_eq (c : YM3438) :
    idxPart ( OPN2_EnvelopePrepare c) = idxPart c := rfl

theorem idxPart_Clock_fnum_eq (c : YM3438) (slot : Nat) :
    idxPart ( OPN2_Clock_fnum c slot) = idxPart c := rfl

theorem idxPart_UpdateLFO_eq (c : YM3438) :
    idxPart ( OPN2_UpdateLFO c) = idxPart c := rfl

theorem idxPart_Clock_status_eq (c : YM3438) :
    idxPart ( OPN2_Clock_status c) = idxPart c := rfl
theorem IdxInv_congr {c₁ c₂ : YM3438} (h : idxPart c₁ = idxPart c₂) (hinv : IdxInv c₂) :
    IdxInv c₁ := by
  have e1 : c₁.cycles = c₂.cycles := by
    have := congrArg YM3438.cycles h
    exact this
  have e2 : c₁.channel = c₂.channel := by
    have := congrArg YM3438.channel h
    exact this
  have e3 : c₁.mode_kon_channel = c₂.mode_kon_channel := by
    have := congrArg YM3438.mode_kon_channel h
    exact this
  have e4 : c₁.lfo_freq = c₂.lfo_freq := by
    have := congrArg YM3438.lfo_freq h
    exact this
  have e5 : c₁.eg_timer_low_lock = c₂.eg_timer_low_lock := by
    have := congrArg YM3438.eg_timer_low_lock h
    exact this
  have e6 : c₁.pms = c₂.pms := by
    have := congrArg YM3438.pms h
    exact this
  have e7 : c₁.connect = c₂.connect := by
    have := congrArg YM3438.connect h
    exact this
  have e8 : c₁.ams = c₂.ams := by
    have := congrArg YM3438.ams h
    exact this
  unfold IdxInv
  rw [e1, e2, e3, e4, e5, e6, e7, e8]
  exact hinv

theorem IdxInv_Clock_head (c : YM3438) (h : IdxInv c) : IdxInv (OPN2_Clock_head c) := by
  obtain ⟨h1, h2, h3, h4, h5, h6, h7, h8⟩ := h
  refine ⟨h1, h2, h3, h4, ?_, h6, h7, h8⟩
  show (if (c.cycles == 1 && c.eg_quotient == 2) = true then u8 (c.eg_timer &&& 0x03)
    else c.eg_timer_low_lock) < 4
  split
  · have : c.eg_timer &&& 3 ≤ 3 := Nat.and_le_right
    unfold u8
    omega
  · exact h5

theorem DoRegWrite_slot_keeps_cycles (c : YM3438) : ( OPN2_DoRegWrite_slot c).cycles = c.cycles := rfl

theorem DoRegWrite_slot_keeps_channel (c : YM3438) : ( OPN2_DoRegWrite_slot c).channel = c.channel := rfl

theorem DoRegWrite_slot_keeps_eg_timer_low_lock (c : YM3438) : ( OPN2_DoRegWrite_slot c).eg_timer_low_lock = c.eg_timer_low_lock := rfl

theorem DoRegWrite_slot_keeps_write_fm_data (c : YM3438) : ( OPN2_DoRegWrite_slot c).write_fm_data = c.write_fm_data := rfl

theorem DoRegWrite_slot_keeps_address (c : YM3438) : ( OPN2_DoRegWrite_slot c).address = c.address := rfl

theorem DoRegWrite_slot_keeps_data (c : YM3438) : ( OPN2_DoRegWrite_slot c).data = c.data := rfl

theorem DoRegWrite_slot_keeps_write_a_en (c : YM3438) : ( OPN2_DoRegWrite_slot c).write_a_en = c.write_a_en := rfl

theorem DoRegWrite_slot_keeps_write_d_en (c : YM3438) : ( OPN2_DoRegWrite_slot c).write_d_en = c.write_d_en := rfl

theorem DoRegWrite_slot_keeps_write_data (c : YM3438) : ( OPN2_DoRegWrite_slot c).write_data = c.write_data := rfl

theorem DoRegWrite_slot_keeps_write_fm_mode_a (c : YM3438) : ( OPN2_DoRegWrite_slot c).write_fm_mode_a = c.write_fm_mode_a := rfl

theorem DoRegWrite_slot_keeps_mode_kon_channel (c : YM3438) : ( OPN2_DoRegWrite_slot c).mode_kon_channel = c.mode_kon_channel := rfl

theorem DoRegWrite_slot_keeps_lfo_freq (c : YM3438) : ( OPN2_DoRegWrite_slot c).lfo_freq = c.lfo_freq := rfl

theorem DoRegWrite_slot_keeps_pms (c : YM3438) : ( OPN2_DoRegWrite_slot c).pms = c.pms := rfl

theorem DoRegWrite_slot_keeps_ams (c : YM3438) : ( OPN2_DoRegWrite_slot c).ams = c.ams := rfl

theorem DoRegWrite_slot_keeps_connect (c : YM3438) : ( OPN2_DoRegWrite_slot c).connect = c.connect := rfl

theorem DoRegWrite_channel_keeps_cycles (c : YM3438) : ( OPN2_DoRegWrite_channel c).cycles = c.cycles := rfl

theorem DoRegWrite_channel_keeps_channel (c : YM3438) : ( OPN2_DoRegWrite_channel c).channel = c.channel := rfl

theorem DoRegWrite_channel_keeps_eg_timer_low_lock (c : YM3438) : ( OPN2_DoRegWrite_channel c).eg_timer_low_lock = c.eg_timer_low_lock := rfl

theorem DoRegWrite_channel_keeps_write_fm_data (c : YM3438) : ( OPN2_DoRegWrite_channel c).write_fm_data = c.write_fm_data := rfl

theorem DoRegWrite_channel_keeps_address (c : YM3438) : ( OPN2_DoRegWrite_channel c).address = c.address := rfl

theorem DoRegWrite_channel_keeps_data (c : YM3438) : ( OPN2_DoRegWrite_channel c).data = c.data := rfl

theorem DoRegWrite_channel_keeps_write_a_en (c : YM3438) : ( OPN2_DoRegWrite_channel c).write_a_en = c.write_a_en := rfl

theorem DoRegWrite_channel_keeps_write_d_en (c : YM3438) : ( OPN2_DoRegWrite_channel c).write_d_en = c.write_d_en := rfl

theorem DoRegWrite_channel_keeps_write_data (c : YM3438) : ( OPN2_DoRegWrite_channel c).write_data = c.write_data := rfl

theorem DoRegWrite_channel_keeps_write_fm_mode_a (c : YM3438) : ( OPN2_DoRegWrite_channel c).write_fm_mode_a = c.write_fm_mode_a := rfl

theorem DoRegWrite_channel_keeps_mode_kon_channel (c : YM3438) : ( OPN2_DoRegWrite_channel c).mode_kon_channel = c.mode_kon_channel := rfl

theorem DoRegWrite_channel_keeps_lfo_freq (c : YM3438) : ( OPN2_DoRegWrite_channel c).lfo_freq = c.lfo_freq := rfl

theorem DoRegWrite_latch_keeps_cycles (c : YM3438) : ( OPN2_DoRegWrite_latch c).cycles = c.cycles := rfl

theorem DoRegWrite_latch_keeps_channel (c : YM3438) : ( OPN2_DoRegWrite_latch c).channel = c.channel := rfl

theorem DoRegWrite_latch_keeps_eg_timer_low_lock (c : YM3438) : ( OPN2_DoRegWrite_latch c).eg_timer_low_lock = c.eg_timer_low_lock := rfl

theorem DoRegWrite_latch_keeps_pms (c : YM3438) : ( OPN2_DoRegWrite_latch c).pms = c.pms := rfl

theorem DoRegWrite_latch_keeps_ams (c : YM3438) : ( OPN2_DoRegWrite_latch c).ams = c.ams := rfl

theorem DoRegWrite_latch_keeps_connect (c : YM3438) : ( OPN2_DoRegWrite_latch c).connect = c.connect := rfl

theorem DoRegWrite_data_keeps_cycles (c : YM3438) : ( OPN2_DoRegWrite_data c).cycles = c.cycles := rfl

theorem DoRegWrite_data_keeps_channel (c : YM3438) : ( OPN2_DoRegWrite_data c).channel = c.channel := rfl

theorem DoRegWrite_data_keeps_eg_timer_low_lock (c : YM3438) : ( OPN2_DoRegWrite_data c).eg_timer_low_lock = c.eg_timer_low_lock := rfl

theorem DoRegWrite_data_keeps_pms (c : YM3438) : ( OPN2_DoRegWrite_data c).pms = c.pms := rfl

theorem DoRegWrite_data_keeps_ams (c : YM3438) : ( OPN2_DoRegWrite_data c).ams = c.ams := rfl

theorem DoRegWrite_data_keeps_connect (c : YM3438) : ( OPN2_DoRegWrite_data c).connect = c.connect := rfl

theorem DoRegWrite_data_keeps_lfo_freq (c : YM3438) : ( OPN2_DoRegWrite_data c).lfo_freq = c.lfo_freq := rfl

theorem DoRegWrite_data_keeps_mode_kon_channel (c : YM3438) : ( OPN2_DoRegWrite_data c).mode_kon_channel = c.mode_kon_channel := rfl

theorem DoRegWrite_channel_pms (c : YM3438) :
    (OPN2_DoRegWrite_channel c).pms =
      (if (c.write_fm_data != 0 && ch_offset c.channel == c.address &&& 0x103) &&
          c.address &&& 0xfc == 0xb4 then upd c.pms c.channel (c.data &&& 0x07) else c.pms) :=
  rfl

theorem DoRegWrite_channel_ams (c : YM3438) :
    (OPN2_DoRegWrite_channel c).ams =
      (if (c.write_fm_data != 0 && ch_offset c.channel == c.address &&& 0x103) &&
          c.address &&& 0xfc == 0xb4 then upd c.ams c.channel ((c.data >>> 4) &&& 0x03)
        else c.ams) := rfl

theorem DoRegWrite_channel_connect (c : YM3438) :
    (OPN2_DoRegWrite_channel c).connect =
      (if (c.write_fm_data != 0 && ch_offset c.channel == c.address &&& 0x103) &&
          c.address &&& 0xfc == 0xb0 then upd c.connect c.channel (c.data &&& 0x07)
        else c.connect) := rfl

theorem DoRegWrite_latch_lfo_freq (c : YM3438) :
    (OPN2_DoRegWrite_latch c).lfo_freq =
      (if ((c.write_a_en != 0 || c.write_d_en != 0) && c.write_d_en != 0 &&
          c.write_data &&& 0x100 == 0) && c.write_fm_mode_a == 0x22 then
        u8 (c.write_data &&& 0x07) else c.lfo_freq) := rfl

theorem DoRegWrite_latch_mode_kon_channel (c : YM3438) :
    (OPN2_DoRegWrite_latch c).mode_kon_channel =
      (if ((c.write_a_en != 0 || c.write_d_en != 0) && c.write_d_en != 0 &&
          c.write_data &&& 0x100 == 0) && c.write_fm_mode_a == 0x28 then
        (if c.write_data &&& 0x03 == 0x03 then 0xff
          else u8 ((c.write_data &&& 0x03) + ((c.write_data >>> 2) &&& 1) * 3))
        else c.mode_kon_channel) := rfl

theorem DoRegWrite_cycles (c : YM3438) : (OPN2_DoRegWrite c).cycles = c.cycles := by
  simp only [OPN2_DoRegWrite, OPN2_DoRegWrite_update, DoRegWrite_data_keeps_cycles,
    DoRegWrite_latch_keeps_cycles, DoRegWrite_channel_keeps_cycles,
    DoRegWrite_slot_keeps_cycles]

theorem DoRegWrite_channel_eq (c : YM3438) : (OPN2_DoRegWrite c).channel = c.channel := by
  simp only [OPN2_DoRegWrite, OPN2_DoRegWrite_update, DoRegWrite_data_keeps_channel,
    DoRegWrite_latch_keeps_channel, DoRegWrite_channel_keeps_channel,
    DoRegWrite_slot_keeps_channel]

theorem DoRegWrite_eg_timer_low_lock (c : YM3438) :
    (OPN2_DoRegWrite c).eg_timer_low_lock = c.eg_timer_low_lock := by
  simp only [OPN2_DoRegWrite, OPN2_DoRegWrite_update, DoRegWrite_data_keeps_eg_timer_low_lock,
    DoRegWrite_latch_keeps_eg_timer_low_lock, DoRegWrite_channel_keeps_eg_timer_low_lock,
    DoRegWrite_slot_keeps_eg_timer_low_lock]

theorem DoRegWrite_pms (c : YM3438) :
    (OPN2_DoRegWrite c).pms =
      (if (c.write_fm_data != 0 && ch_offset c.channel == c.address &&& 0x103) &&
          c.address &&& 0xfc == 0xb4 then upd c.pms c.channel (c.data &&& 0x07) else c.pms) := by
  simp only [OPN2_DoRegWrite, OPN2_DoRegWrite_update, DoRegWrite_data_keeps_pms,
    DoRegWrite_latch_keeps_pms, DoRegWrite_channel_pms, DoRegWrite_slot_keeps_write_fm_data,
    DoRegWrite_slot_keeps_channel, DoRegWrite_slot_keeps_address, DoRegWrite_slot_keeps_data,
    DoRegWrite_slot_keeps_pms]

theorem DoRegWrite_ams (c : YM3438) :
    (OPN2_DoRegWrite c).ams =
      (if (c.write_fm_data != 0 && ch_offset c.channel == c.address &&& 0x103) &&
          c.address &&& 0xfc == 0xb4 then upd c.ams c.channel ((c.data >>> 4) &&& 0x03)
        else c.ams) := by
  simp only [OPN2_DoRegWrite, OPN2_DoRegWrite_update, DoRegWrite_data_keeps_ams,
    DoRegWrite_latch_keeps_ams, DoRegWrite_channel_ams, DoRegWrite_slot_keeps_write_fm_data,
    DoRegWrite_slot_keeps_channel, DoRegWrite_slot_keeps_address, DoRegWrite_slot_keeps_data,
    DoRegWrite_slot_keeps_ams]

theorem DoRegWrite_connect (c : YM3438) :
    (OPN2_DoRegWrite c).connect =
      (if (c.write_fm_data != 0 && ch_offset c.channel == c.address &&& 0x103) &&
          c.address &&& 0xfc == 0xb0 then upd c.connect c.channel (c.data &&& 0x07)
        else c.connect) := by
  simp only [OPN2_DoRegWrite, OPN2_DoRegWrite_update, DoRegWrite_data_keeps_connect,
    DoRegWrite_latch_keeps_connect, DoRegWrite_channel_connect,
    DoRegWrite_slot_keeps_write_fm_data, DoRegWrite_slot_keeps_channel,
    DoRegWrite_slot_keeps_address, DoRegWrite_slot_keeps_data, DoRegWrite_slot_keeps_connect]

theorem DoRegWrite_lfo_freq (c : YM3438) :
    (OPN2_DoRegWrite c).lfo_freq =
      (if ((c.write_a_en != 0 || c.write_d_en != 0) && c.write_d_en != 0 &&
          c.write_data &&& 0x100 == 0) && c.write_fm_mode_a == 0x22 then
        u8 (c.write_data &&& 0x07) else c.lfo_freq) := by
  simp only [OPN2_DoRegWrite, OPN2_DoRegWrite_update, DoRegWrite_data_keeps_lfo_freq,
    DoRegWrite_latch_lfo_freq, DoRegWrite_channel_keeps_write_a_en,
    DoRegWrite_channel_keeps_write_d_en, DoRegWrite_channel_keeps_write_data,
    DoRegWrite_channel_keeps_write_fm_mode_a, DoRegWrite_channel_keeps_lfo_freq,
    DoRegWrite_slot_keeps_write_a_en, DoRegWrite_slot_keeps_write_d_en,
    DoRegWrite_slot_keeps_write_data, DoRegWrite_slot_keeps_write_fm_mode_a,
    DoRegWrite_slot_keeps_lfo_freq]

theorem DoRegWrite_mode_kon_channel (c : YM3438) :
    (OPN2_DoRegWrite c).mode_kon_channel =
      (if ((c.write_a_en != 0 || c.write_d_en != 0) && c.write_d_en != 0 &&
          c.write_data &&& 0x100 == 0) && c.write_fm_mode_a == 0x28 then
        (if c.write_data &&& 0x03 == 0x03 then 0xff
          else u8 ((c.write_data &&& 0x03) + ((c.write_data >>> 2) &&& 1) * 3))
        else c.mode_kon_channel) := by
  simp only [OPN2_DoRegWrite, OPN2_DoRegWrite_update, DoRegWrite_data_keeps_mode_kon_channel,
    DoRegWrite_latch_mode_kon_channel, DoRegWrite_channel_keeps_write_a_en,
    DoRegWrite_channel_keeps_write_d_en, DoRegWrite_channel_keeps_write_data,
    DoRegWrite_channel_keeps_write_fm_mode_a, DoRegWrite_channel_keeps_mode_kon_channel,
    DoRegWrite_slot_keeps_write_a_en, DoRegWrite_slot_keeps_write_d_en,
    DoRegWrite_slot_keeps_write_data, DoRegWrite_slot_keeps_write_fm_mode_a,
    DoRegWrite_slot_keeps_mode_kon_channel]

theorem upd_lt {a : Nat → Nat} {n : Nat} (h : ∀ i, a i < n) (i v : Nat) (hv : v < n) :
    ∀ j, upd a i v j < n := by
  intro j
  unfold upd
  split
  · exact hv
  · exact h j

theorem IdxInv_DoRegWrite (c : YM3438) (h : IdxInv c) : IdxInv (OPN2_DoRegWrite c) := by
  obtain ⟨h1, h2, h3, h4, h5, h6, h7, h8⟩ := h
  unfold IdxInv
  rw [DoRegWrite_cycles, DoRegWrite_channel_eq, DoRegWrite_eg_timer_low_lock, DoRegWrite_pms,
    DoRegWrite_ams, DoRegWrite_connect, DoRegWrite_lfo_freq, DoRegWrite_mode_kon_channel]
  refine ⟨h1, h2, ?_, ?_, h5, ?_, ?_, ?_⟩
  · split
    · split
      · exact Or.inr rfl
      · rename_i h3'
        left
        have h3'' : c.write_data &&& 3 ≠ 3 := by simpa using h3'
        rw [and_three] at h3'' ⊢
        rw [and_one, Nat.shiftRight_eq_div_pow]
        have hlt : c.write_data % 4 + c.write_data / 2 ^ 2 % 2 * 3 < 6 := by omega
        exact lt_of_le_of_lt (Nat.mod_le _ _) hlt
    · exact h3
  · split
    · have : c.write_data &&& 7 ≤ 7 := Nat.and_le_right
      unfold u8
      omega
    · exact h4
  · split
    · exact upd_lt h6 _ _ (lt_of_le_of_lt Nat.and_le_right (by decide))
    · exact h6
  · split
    · exact upd_lt h7 _ _ (lt_of_le_of_lt Nat.and_le_right (by decide))
    · exact h7
  · split
    · exact upd_lt h8 _ _ (lt_of_le_of_lt Nat.and_le_right (by decide))
    · exact h8

theorem IdxInv_Clock_next (c : YM3438) (h : IdxInv c) : IdxInv (OPN2_Clock_next c) := by
  obtain ⟨h1, h2, h3, h4, h5, h6, h7, h8⟩ := h
  exact ⟨Nat.mod_lt _ (by decide), rfl, h3, h4, h5, h6, h7, h8⟩
theorem KeyOn_inb_ok (c : YM3438) (h : IdxInv c) : OPN2_KeyOn_inb c = true := by
  obtain ⟨h1, h2, h3, -⟩ := h
  simp only [OPN2_KeyOn_inb, Bool.and_eq_true, Bool.or_eq_true, Bool.not_eq_true',
    decide_eq_true_eq, beq_eq_false_iff_ne, ne_eq]
  refine ⟨h1, ?_⟩
  by_cases hk : c.cycles = c.mode_kon_channel
  · right
    rcases h3 with h3 | h3
    · omega
    · omega
  · exact Or.inl hk

theorem output_channel_lt : ∀ n, n < 24 → n % 4 = 0 →
    (if n < 12 then u32 (n % 6 + 1) else n % 6) < 6 := by
  decide

theorem ChOutput_inb_ok (c : YM3438) (h : IdxInv c) : OPN2_ChOutput_inb c = true := by
  obtain ⟨h1, h2, -⟩ := h
  simp only [OPN2_ChOutput_inb, Bool.or_eq_true, Bool.not_eq_true', decide_eq_true_eq,
    beq_eq_false_iff_ne, ne_eq, and_three]
  by_cases hk : c.cycles % 4 = 0
  · right
    rw [h2]
    exact output_channel_lt _ h1 hk
  · exact Or.inl hk

theorem ChGenerate_inb_ok (c : YM3438) (h : IdxInv c) : OPN2_ChGenerate_inb c = true := by
  obtain ⟨h1, h2, -, -, -, -, h7, -⟩ := h
  simp only [OPN2_ChGenerate_inb, Bool.and_eq_true, decide_eq_true_eq]
  refine ⟨⟨⟨Nat.mod_lt _ (by decide), by omega⟩, ?_⟩, h7 _⟩
  have := Nat.mod_lt (u32 (c.cycles + 18)) (show 0 < 24 by decide)
  omega

theorem FMPrepare_inb_ok (c : YM3438) (h : IdxInv c) : OPN2_FMPrepare_inb c = true := by
  obtain ⟨h1, h2, -, -, -, -, h7, -⟩ := h
  simp only [OPN2_FMPrepare_inb, Bool.and_eq_true, decide_eq_true_eq]
  refine ⟨⟨⟨⟨Nat.mod_lt _ (by decide), Nat.mod_lt _ (by decide)⟩, by omega⟩, ?_⟩, h7 _⟩
  have := Nat.mod_lt (u32 (c.cycles + 6)) (show 0 < 24 by decide)
  omega

theorem FMGenerate_inb_ok (c : YM3438) : OPN2_FMGenerate_inb c = true := by
  simp only [OPN2_FMGenerate_inb, Bool.and_eq_true, decide_eq_true_eq]
  refine ⟨⟨Nat.mod_lt _ (by decide), ?_⟩, ?_⟩
  · split <;> exact lt_of_le_of_lt Nat.and_le_right (by decide)
  · exact Nat.xor_lt_two_pow (n := 8) (lt_of_le_of_lt Nat.and_le_right (by decide)) (by decide)

theorem PhaseGenerate_inb_ok (c : YM3438) : OPN2_PhaseGenerate_inb c = true := by
  simp only [OPN2_PhaseGenerate_inb, Bool.and_eq_true, decide_eq_true_eq]
  exact ⟨Nat.mod_lt _ (by decide), Nat.mod_lt _ (by decide)⟩

theorem lfo_fold_lt : ∀ x, x < 16 → (if x &&& 0x08 != 0 then x ^^^ 0x0f else x) < 8 := by
  decide

theorem PhaseCalcIncrement_inb_ok (c : YM3438) (h : IdxInv c) :
    OPN2_PhaseCalcIncrement_inb c = true := by
  obtain ⟨h1, h2, -, -, -, h6, -, -⟩ := h
  simp only [OPN2_PhaseCalcIncrement_inb, Bool.and_eq_true, Bool.or_eq_true,
    decide_eq_true_eq]
  refine ⟨⟨⟨⟨by omega, h1⟩, h6 _⟩, ?_⟩, Or.inr ?_⟩
  · exact lfo_fold_lt _ (lt_of_le_of_lt Nat.and_le_right (by decide))
  · refine Nat.or_lt_two_pow (n := 3) ?_ (lt_of_le_of_lt Nat.and_le_right (by decide))
    have hs : ∀ s : Nat, u8 ((s &&& 0x01) <<< 2) < 2 ^ 3 := by
      intro s
      have : s &&& 1 ≤ 1 := Nat.and_le_right
      simp only [u8, Nat.shiftLeft_eq]
      omega
    exact hs _

theorem EnvelopePrepare_inb_ok (c : YM3438) (h : IdxInv c) :
    OPN2_EnvelopePrepare_inb c = true := by
  obtain ⟨h1, h2, -, -, h5, -, -, h8⟩ := h
  simp only [OPN2_EnvelopePrepare_inb, Bool.and_eq_true, Bool.or_eq_true, decide_eq_true_eq]
  refine ⟨⟨h1, Or.inr ⟨lt_of_le_of_lt Nat.and_le_right (by decide), h5⟩⟩, Or.inr ⟨by omega, h8 _⟩⟩

theorem DoRegWrite_inb_ok (c : YM3438) (h : IdxInv c) : OPN2_DoRegWrite_inb c = true := by
  obtain ⟨h1, h2, -⟩ := h
  have hf : ∀ d r : Nat, ((d &&& 0xff) ||| ((r &&& 0x07) <<< 8)) >>> 7 < 16 := by
    intro d r
    have h1 : d &&& 0xff < 2 ^ 11 := lt_of_le_of_lt Nat.and_le_right (by decide)
    have h2 : (r &&& 0x07) <<< 8 < 2 ^ 11 := by
      have : r &&& 7 ≤ 7 := Nat.and_le_right
      rw [Nat.shiftLeft_eq]
      omega
    have h3 := Nat.or_lt_two_pow h1 h2
    rw [Nat.shiftRight_eq_div_pow]
    omega
  simp only [OPN2_DoRegWrite_inb, Bool.and_eq_true, Bool.or_eq_true, decide_eq_true_eq]
  right
  refine ⟨⟨⟨⟨Nat.mod_lt _ (by decide), Or.inr ?_⟩, by omega⟩, hf _ _⟩, hf _ _⟩
  have := Nat.mod_lt c.cycles (show 0 < 12 by decide)
  split <;> omega

theorem IdxInv_Clock (ct : Nat) (c : YM3438) (h : IdxInv c) : IdxInv (OPN2_Clock ct c).1 := by
  simp only [OPN2_Clock]
  apply IdxInv_congr (idxPart_Clock_status_eq _)
  apply IdxInv_Clock_next
  apply IdxInv_DoRegWrite
  apply IdxInv_congr (idxPart_UpdateLFO_eq _)
  apply IdxInv_congr (idxPart_Clock_fnum_eq _ _)
  apply IdxInv_congr (idxPart_EnvelopePrepare_eq _)
  apply IdxInv_congr (idxPart_EnvelopeSSGEG_eq _)
  apply IdxInv_congr (idxPart_EnvelopeGenerate_eq _)
  apply IdxInv_congr (idxPart_EnvelopeADSR_eq _)
  apply IdxInv_congr (idxPart_PhaseCalcIncrement_eq _)
  apply IdxInv_congr (idxPart_PhaseGenerate_eq _)
  apply IdxInv_congr (idxPart_FMGenerate_eq _)
  apply IdxInv_congr (idxPart_FMPrepare_eq _)
  apply IdxInv_congr (idxPart_ChGenerate_eq _)
  apply IdxInv_congr (idxPart_ChOutput_eq _ _)
  apply IdxInv_congr (idxPart_KeyOn_eq _)
  apply IdxInv_congr (idxPart_DoTimerB_eq _)
  apply IdxInv_congr (idxPart_DoTimerA_eq _)
  apply IdxInv_congr ( idxPart_DoIO_eq _)
  apply IdxInv_congr (idxPart_Clock_timer_eq _)
  apply IdxInv_congr (idxPart_Clock_cycle_eq _)
  exact IdxInv_Clock_head c h

theorem Clock_inb_of_IdxInv (ct buflen : Nat) (c : YM3438) (h : IdxInv c)
    (hbuf : 2 ≤ buflen) : OPN2_Clock_inb ct buflen c = true := by
  have s1 := IdxInv_Clock_head c h
  have s2 := IdxInv_congr (idxPart_Clock_cycle_eq _) s1
  have s3 := IdxInv_congr (idxPart_Clock_timer_eq _) s2
  have s4 := IdxInv_congr ( idxPart_DoIO_eq _) s3
  have s5 := IdxInv_congr (idxPart_DoTimerA_eq _) s4
  have s6 := IdxInv_congr (idxPart_DoTimerB_eq _) s5
  have s7 := IdxInv_congr (idxPart_KeyOn_eq _) s6
  have s8 := IdxInv_congr (idxPart_ChOutput_eq ct _) s7
  have s9 := IdxInv_congr (idxPart_ChGenerate_eq _) s8
  have s10 := IdxInv_congr (idxPart_FMPrepare_eq _) s9
  have s11 := IdxInv_congr (idxPart_FMGenerate_eq _) s10
  have s12 := IdxInv_congr (idxPart_PhaseGenerate_eq _) s11
  have s13 := IdxInv_congr (idxPart_PhaseCalcIncrement_eq _) s12
  have s14 := IdxInv_congr (idxPart_EnvelopeADSR_eq _) s13
  have s15 := IdxInv_congr (idxPart_EnvelopeGenerate_eq _) s14
  have s16 := IdxInv_congr (idxPart_EnvelopeSSGEG_eq _) s15
  have s17 := IdxInv_congr (idxPart_EnvelopePrepare_eq _) s16
  have s18 := IdxInv_congr (idxPart_Clock_fnum_eq _ c.cycles) s17
  have s19 := IdxInv_congr (idxPart_UpdateLFO_eq _) s18
  simp only [OPN2_Clock_inb, Bool.and_eq_true]
  refine ⟨⟨⟨⟨⟨⟨⟨⟨⟨⟨⟨⟨⟨⟨KeyOn_inb_ok _ s6, ChOutput_inb_ok _ s7⟩, ChGenerate_inb_ok _ s8⟩,
    FMPrepare_inb_ok _ s9⟩, FMGenerate_inb_ok _⟩, PhaseGenerate_inb_ok _⟩,
    PhaseCalcIncrement_inb_ok _ s12⟩, ?_⟩, ?_⟩, ?_⟩, EnvelopePrepare_inb_ok _ s16⟩, ?_⟩, ?_⟩,
    DoRegWrite_inb_ok _ s19⟩, ?_⟩
  · simp only [OPN2_EnvelopeADSR_inb, decide_eq_true_eq]
    exact Nat.mod_lt _ (by decide)
  · simp only [OPN2_EnvelopeGenerate_inb, decide_eq_true_eq]
    exact Nat.mod_lt _ (by decide)
  · simp only [OPN2_EnvelopeSSGEG_inb, decide_eq_true_eq]
    exact s15.1
  · simp only [OPN2_Clock_fnum_inb, decide_eq_true_eq]
    exact Nat.mod_lt _ (by decide)
  · simp only [OPN2_UpdateLFO_inb, decide_eq_true_eq]
    exact s18.2.2.2.1
  · simp only [decide_eq_true_eq]
    omega
theorem idxPart_Write_eq (c : YM3438) (port data : Nat) :
    idxPart (OPN2_Write c port data) = idxPart c := rfl

theorem idxPart_SetTestPin_eq (c : YM3438) (value : Nat) :
    idxPart (OPN2_SetTestPin c value) = idxPart c := rfl

theorem idxPart_Read_eq (ct : Nat) (c : YM3438) (port : Nat) :
    idxPart (OPN2_Read ct c port).1 = idxPart c := rfl

theorem IdxInv_zero : IdxInv YM3438.zero :=
  ⟨by decide, rfl, Or.inl (by decide), by decide, by decide, fun _ => Nat.zero_lt_succ 7,
    fun _ => Nat.zero_lt_succ 7, fun _ => Nat.zero_lt_succ 3⟩

theorem IdxInv_Reset (chip r : YM3438) (rate clock : Nat)
    (h : OPN2_Reset chip rate clock = .ok r) : IdxInv r := by
  simp only [OPN2_Reset] at h
  split at h
  · cases h
  · cases h
    exact IdxInv_congr (show idxPart _ = idxPart YM3438.zero from rfl) IdxInv_zero

theorem IdxInv_run (ct : Nat) (ops : List BusOp) :
    ∀ c : YM3438, IdxInv c → IdxInv (BusOp.run ct c ops) := by
  induction ops with
  | nil => exact fun c h => h
  | cons op ops ih =>
    intro c h
    refine ih _ ?_
    cases op with
    | write port data => exact IdxInv_congr (idxPart_Write_eq c port data) h
    | setTestPin value => exact IdxInv_congr (idxPart_SetTestPin_eq c value) h
    | read port => exact IdxInv_congr (idxPart_Read_eq ct c port) h
    | clock => exact IdxInv_Clock ct c h

/-- C4: in every chip state reached from the result of `OPN2_Reset` by any
sequence of `OPN2_Write` (any port, any data), `OPN2_SetTestPin`, `OPN2_Read`
and `OPN2_Clock` calls, every array and table index evaluated by a further
`OPN2_Clock` call with an output buffer of length at least 2 is in range. -/
theorem C4_clock_indices_in_range (chip_type buflen rate clock : Nat) (chip r : YM3438)
    (ops : List BusOp) (hreset : OPN2_Reset chip rate clock = .ok r) (hbuf : 2 ≤ buflen) :
    OPN2_Clock_inb chip_type buflen (BusOp.run chip_type r ops) = true :=
  Clock_inb_of_IdxInv chip_type buflen _
    (IdxInv_run chip_type ops r (IdxInv_Reset chip r rate clock hreset)) hbuf

/-- C4 after a reset at 44100 Hz and 7670454 Hz, a key-on write and two clocks. -/
theorem C4_clock_indices_in_range_witness :
    OPN2_Reset YM3438.zero 44100 7670454 = .ok chip_reset ∧ 2 ≤ 2 ∧
      OPN2_Clock_inb 0 2 (BusOp.run 0 chip_reset
        [BusOp.write 0 0x28, BusOp.clock, BusOp.write 1 0xf7, BusOp.read 0,
          BusOp.setTestPin 1, BusOp.clock]) = true :=
  ⟨rfl, le_refl 2, C4_clock_indices_in_range 0 2 44100 7670454 YM3438.zero chip_reset _ rfl
    (le_refl 2)⟩

/-! ## Return of the resampler -/

theorem and_three_and_four (p : Nat) : (p &&& 0x03) &&& 0x04 = 0 := by
  rw [Nat.and_assoc, show (0x03 &&& 0x04 : Nat) = 0 from rfl, Nat.and_zero]

theorem i32_lt (z : Int) : i32 z < 2147483648 := by
  unfold i32
  omega

theorem apply_rateratio (c : YM3438) :
    (OPN2_GenerateResampled_apply c).rateratio = c.rateratio := rfl

theorem apply_samplecnt (c : YM3438) :
    (OPN2_GenerateResampled_apply c).samplecnt = c.samplecnt := rfl

theorem apply_writebuf_cur (c : YM3438) :
    (OPN2_GenerateResampled_apply c).writebuf_cur =
      u32 (c.writebuf_cur + 1) % OPN_WRITEBUF_SIZE := rfl

theorem apply_writebuf (c : YM3438) :
    (OPN2_GenerateResampled_apply c).writebuf =
      upd c.writebuf c.writebuf_cur
        { c.writebuf c.writebuf_cur with
          port := (c.writebuf c.writebuf_cur).port &&& 0x03 } := rfl

theorem apply_writebuf_cur_lt (c : YM3438) :
    (OPN2_GenerateResampled_apply c).writebuf_cur < 2048 := by
  rw [apply_writebuf_cur]
  exact Nat.mod_lt _ (by decide)

/-- The queue loop leaves `rateratio` and `samplecnt` alone and keeps
`writebuf_cur` inside the ring. -/
theorem drain_frame (fuel : Nat) : ∀ c c' : YM3438,
    OPN2_GenerateResampled_drain fuel c = .ok c' →
      c'.rateratio = c.rateratio ∧ c'.samplecnt = c.samplecnt ∧
        (c.writebuf_cur < 2048 → c'.writebuf_cur < 2048) := by
  induction fuel with
  | zero =>
    intro c c' h
    simp only [OPN2_GenerateResampled_drain] at h
    cases h
  | succ n ih =>
    intro c c' h
    simp only [OPN2_GenerateResampled_drain] at h
    split at h
    · split at h
      · cases h
        exact ⟨rfl, rfl, id⟩
      · obtain ⟨h1, h2, h3⟩ := ih _ _ h
        exact ⟨h1.trans (apply_rateratio c), h2.trans (apply_samplecnt c),
          fun _ => h3 (apply_writebuf_cur_lt c)⟩
    · cases h
      exact ⟨rfl, rfl, id⟩

/-- The queue loop fails only by running out of fuel. -/
theorem drain_error (fuel : Nat) : ∀ (c : YM3438) (e : Failure),
    OPN2_GenerateResampled_drain fuel c = .error e → e = Failure.outOfFuel := by
  induction fuel with
  | zero =>
    intro c e h
    simp only [OPN2_GenerateResampled_drain] at h
    cases h
    rfl
  | succ n ih =>
    intro c e h
    simp only [OPN2_GenerateResampled_drain] at h
    split at h
    · split at h
      · cases h
      · exact ih _ _ h
    · cases h

/-- The queue loop exits once every pending entry of the ring has been handed
over: each round clears the pending bit of one entry counted in `S`. -/
theorem drain_returns_aux (fuel : Nat) : ∀ (c : YM3438) (S : Finset Nat),
    S.card < fuel → c.writebuf_cur < 2048 →
      (∀ i, i < 2048 → (c.writebuf i).port &&& 0x04 ≠ 0 → i ∈ S) →
      ∃ c', OPN2_GenerateResampled_drain fuel c = .ok c' := by
  induction fuel with
  | zero =>
    intro c S hS
    omega
  | succ n ih =>
    intro c S hS hcur hmem
    simp only [OPN2_GenerateResampled_drain]
    split
    · split
      · exact ⟨c, rfl⟩
      · rename_i hp
        have hp' : (c.writebuf c.writebuf_cur).port &&& 0x04 ≠ 0 := by simpa using hp
        have hin := hmem _ hcur hp'
        have hpos : 0 < S.card := Finset.card_pos.mpr ⟨_, hin⟩
        refine ih _ (S.erase c.writebuf_cur) ?_ (apply_writebuf_cur_lt c) ?_
        · rw [Finset.card_erase_of_mem hin]
          omega
        · intro i hi hpend
          rw [apply_writebuf] at hpend
          by_cases hic : i = c.writebuf_cur
          · subst hic
            rw [upd_same] at hpend
            exact absurd (and_three_and_four _) hpend
          · rw [upd_other _ _ _ _ hic] at hpend
            exact Finset.mem_erase.mpr ⟨hic, hmem i hi hpend⟩
    · exact ⟨c, rfl⟩

theorem drain_returns (fuel : Nat) (c : YM3438) (hfuel : 2048 < fuel)
    (hcur : c.writebuf_cur < 2048) : ∃ c', OPN2_GenerateResampled_drain fuel c = .ok c' :=
  drain_returns_aux fuel c (Finset.range 2048) (by simpa using hfuel) hcur
    (fun i hi _ => Finset.mem_range.mpr hi)

theorem clock_rateratio (ct : Nat) (c : YM3438) :
    (OPN2_GenerateResampled_clock ct c).rateratio = c.rateratio := by
  have h := congrArg YM3438.rateratio (queuePart_Clock ct c)
  exact h

theorem clock_samplecnt (ct : Nat) (c : YM3438) :
    (OPN2_GenerateResampled_clock ct c).samplecnt = c.samplecnt := by
  have h := congrArg YM3438.samplecnt (queuePart_Clock ct c)
  exact h

theorem clock_writebuf_cur (ct : Nat) (c : YM3438) :
    (OPN2_GenerateResampled_clock ct c).writebuf_cur = c.writebuf_cur := by
  have h := congrArg YM3438.writebuf_cur (queuePart_Clock ct c)
  exact h

/-- The 24 clocks of one native sample leave `rateratio` and `samplecnt` alone
and keep `writebuf_cur` inside the ring. -/
theorem clocks_frame (fuel ct n : Nat) : ∀ c c' : YM3438,
    OPN2_GenerateResampled_clocks fuel ct n c = .ok c' →
      c'.rateratio = c.rateratio ∧ c'.samplecnt = c.samplecnt ∧
        (c.writebuf_cur < 2048 → c'.writebuf_cur < 2048) := by
  induction n with
  | zero =>
    intro c c' h
    simp only [OPN2_GenerateResampled_clocks] at h
    cases h
    exact ⟨rfl, rfl, id⟩
  | succ n ih =>
    intro c c' h
    simp only [OPN2_GenerateResampled_clocks] at h
    split at h
    · cases h
    · rename_i c1 hd
      obtain ⟨a1, a2, a3⟩ := drain_frame _ _ _ hd
      obtain ⟨b1, b2, b3⟩ := ih _ _ h
      exact ⟨b1.trans (a1.trans (clock_rateratio ct c)),
        b2.trans (a2.trans (clock_samplecnt ct c)),
        fun hc => b3 (a3 (by rw [clock_writebuf_cur]; exact hc))⟩

theorem clocks_error (fuel ct n : Nat) : ∀ (c : YM3438) (e : Failure),
    OPN2_GenerateResampled_clocks fuel ct n c = .error e → e = Failure.outOfFuel := by
  induction n with
  | zero =>
    intro c e h
    simp only [OPN2_GenerateResampled_clocks] at h
    cases h
  | succ n ih =>
    intro c e h
    simp only [OPN2_GenerateResampled_clocks] at h
    split at h
    · rename_i e1 hd
      cases h
      exact drain_error _ _ _ hd
    · exact ih _ _ h

theorem clocks_returns (fuel ct n : Nat) (hfuel : 2048 < fuel) : ∀ c : YM3438,
    c.writebuf_cur < 2048 → ∃ c', OPN2_GenerateResampled_clocks fuel ct n c = .ok c' := by
  induction n with
  | zero =>
    intro c _
    exact ⟨c, rfl⟩
  | succ n ih =>
    intro c hcur
    have hcur1 : (OPN2_GenerateResampled_clock ct c).writebuf_cur < 2048 := by
      rw [clock_writebuf_cur]
      exact hcur
    obtain ⟨c1, h1⟩ := drain_returns fuel _ hfuel hcur1
    simp only [OPN2_GenerateResampled_clocks, h1]
    exact ih _ ((drain_frame _ _ _ h1).2.2 hcur1)

theorem filter_rateratio (uf : Int) (lp : Int → Int → Int) (c : YM3438) :
    (OPN2_GenerateResampled_filter uf lp c).rateratio = c.rateratio := by
  unfold OPN2_GenerateResampled_filter
  split <;> rfl

theorem filter_samplecnt (uf : Int) (lp : Int → Int → Int) (c : YM3438) :
    (OPN2_GenerateResampled_filter uf lp c).samplecnt = c.samplecnt := by
  unfold OPN2_GenerateResampled_filter
  split <;> rfl

theorem filter_writebuf_cur (uf : Int) (lp : Int → Int → Int) (c : YM3438) :
    (OPN2_GenerateResampled_filter uf lp c).writebuf_cur = c.writebuf_cur := by
  unfold OPN2_GenerateResampled_filter
  split <;> rfl

/-- The loop `for chip.samplecnt >= chip.rateratio` keeps the resampler fields
in order. -/
theorem loop_inv (dfuel ct : Nat) (uf : Int) (lp : Int → Int → Int) (fuel : Nat) :
    ∀ c c' : YM3438, GenInv c →
      OPN2_GenerateResampled_loop dfuel ct uf lp fuel c = .ok c' → GenInv c' := by
  induction fuel with
  | zero =>
    intro c c' _ h
    simp only [OPN2_GenerateResampled_loop] at h
    cases h
  | succ n ih =>
    intro c c' hinv h
    simp only [OPN2_GenerateResampled_loop] at h
    split at h
    · rename_i hge
      split at h
      · cases h
      · rename_i c1 hc
        obtain ⟨a1, a2, a3⟩ := clocks_frame _ _ _ _ _ hc
        obtain ⟨i1, i2, i3⟩ := hinv
        refine ih _ _ ⟨?_, ?_, ?_⟩ h
        · show 0 < (OPN2_GenerateResampled_filter uf lp c1).rateratio
          rw [filter_rateratio, a1]
          exact i1
        · exact i32_lt _
        · show (OPN2_GenerateResampled_filter uf lp c1).writebuf_cur < 2048
          rw [filter_writebuf_cur]
          exact a3 i3
    · cases h
      exact hinv

/-- With a positive `rateratio` the loop `for chip.samplecnt >= chip.rateratio`
exits: `samplecnt` goes down by `rateratio` in every round. -/
theorem loop_returns (dfuel ct : Nat) (uf : Int) (lp : Int → Int → Int)
    (hdfuel : 2048 < dfuel) (fuel : Nat) :
    ∀ c : YM3438, GenInv c → 0 < fuel → c.samplecnt < fuel →
      ∃ c', OPN2_GenerateResampled_loop dfuel ct uf lp fuel c = .ok c' := by
  induction fuel with
  | zero =>
    intro c _ h
    omega
  | succ n ih =>
    intro c hinv _ hlt
    obtain ⟨i1, i2, i3⟩ := hinv
    simp only [OPN2_GenerateResampled_loop]
    split
    · rename_i hge
      obtain ⟨c1, hc⟩ := clocks_returns dfuel ct 24 hdfuel
        { c with
          oldsamples := upd (upd c.oldsamples 0 (c.samples 0)) 1 (c.samples 1)
          samples := upd (upd c.samples 0 0) 1 0 } i3
      obtain ⟨a1, a2, a3⟩ := clocks_frame _ _ _ _ _ hc
      have b1 : c1.rateratio = c.rateratio := a1
      have b2 : c1.samplecnt = c.samplecnt := a2
      have hfit : i32 (c.samplecnt - c.rateratio) = c.samplecnt - c.rateratio :=
        i32_of_fits ⟨by omega, by omega⟩
      have hc' : OPN2_GenerateResampled_clocks dfuel ct 24
          { c with
            oldsamples := upd (upd c.oldsamples 0 (c.samples 0)) 1 (c.samples 1)
            samples := upd (upd c.samples 0 0) 1 0 } = .ok c1 := hc
      simp only [hc']
      refine ih _ ⟨?_, i32_lt _, ?_⟩ ?_ ?_
      · show 0 < (OPN2_GenerateResampled_filter uf lp c1).rateratio
        rw [filter_rateratio, b1]
        exact i1
      · show (OPN2_GenerateResampled_filter uf lp c1).writebuf_cur < 2048
        rw [filter_writebuf_cur]
        exact a3 i3
      · have : (0 : Int) < (n : Int) := by omega
        exact_mod_cast this
      · show i32 ((OPN2_GenerateResampled_filter uf lp c1).samplecnt -
          (OPN2_GenerateResampled_filter uf lp c1).rateratio) < n
        rw [filter_rateratio, filter_samplecnt, b1, b2, hfit]
        push_cast at hlt
        omega
    · exact ⟨c, rfl⟩

/-- With `rateratio = 0` and `samplecnt = 0` the loop
`for chip.samplecnt >= chip.rateratio` never exits. -/
theorem loop_stuck (dfuel ct : Nat) (uf : Int) (lp : Int → Int → Int) (fuel : Nat) :
    ∀ c : YM3438, c.rateratio = 0 → c.samplecnt = 0 →
      OPN2_GenerateResampled_loop dfuel ct uf lp fuel c = .error Failure.outOfFuel := by
  induction fuel with
  | zero =>
    intro c _ _
    rfl
  | succ n ih =>
    intro c hr hs
    have hge : c.samplecnt ≥ c.rateratio := by omega
    simp only [OPN2_GenerateResampled_loop, hge, if_true]
    split
    · rename_i e he
      rw [clocks_error _ _ _ _ _ he]
    · rename_i c1 hc
      obtain ⟨a1, a2, -⟩ := clocks_frame _ _ _ _ _ hc
      have b1 : c1.rateratio = c.rateratio := a1
      have b2 : c1.samplecnt = c.samplecnt := a2
      refine ih _ ?_ ?_
      · show (OPN2_GenerateResampled_filter uf lp c1).rateratio = 0
        rw [filter_rateratio, b1, hr]
      · show i32 ((OPN2_GenerateResampled_filter uf lp c1).samplecnt -
          (OPN2_GenerateResampled_filter uf lp c1).rateratio) = 0
        rw [filter_rateratio, filter_samplecnt, b1, b2, hr, hs]
        rfl

theorem GenerateResampled_inv (fuel ct : Nat) (uf : Int) (lp : Int → Int → Int)
    (c : YM3438) (out : YM3438 × Int × Int) (hinv : GenInv c)
    (h : OPN2_GenerateResampled fuel ct uf lp c = .ok out) : GenInv out.1 := by
  simp only [OPN2_GenerateResampled] at h
  split at h
  · cases h
  · rename_i c1 hc
    obtain ⟨i1, i2, i3⟩ := loop_inv _ _ _ _ _ _ _ hinv hc
    split at h
    · cases h
    · cases h
      exact ⟨i1, i32_lt _, i3⟩

theorem GenerateResampled_returns (fuel ct : Nat) (uf : Int) (lp : Int → Int → Int)
    (c : YM3438) (hinv : GenInv c) (hfuel : 2 ^ 31 < fuel) :
    ∃ out, OPN2_GenerateResampled fuel ct uf lp c = .ok out := by
  have hlt : c.samplecnt < fuel := by
    have := hinv.2.1
    have h2 : ((2 ^ 31 : Nat) : Int) < (fuel : Int) := by exact_mod_cast hfuel
    norm_num at h2
    omega
  obtain ⟨c1, hc⟩ := loop_returns fuel ct uf lp (by omega) fuel c hinv (by omega) hlt
  have hz : (c1.rateratio == 0) = false := by
    have h1 := (loop_inv _ _ _ _ _ _ _ hinv hc).1
    have : c1.rateratio ≠ 0 := by omega
    simpa using this
  simp only [OPN2_GenerateResampled, hc, hz]
  exact ⟨_, rfl⟩

theorem GenerateStream_returns (fuel ct : Nat) (uf : Int) (lp : Int → Int → Int)
    (hfuel : 2 ^ 31 < fuel) (n : Nat) :
    ∀ c : YM3438, GenInv c → ∃ t, OPN2_GenerateStream fuel ct uf lp n c = .ok t := by
  induction n with
  | zero =>
    intro c _
    exact ⟨_, rfl⟩
  | succ n ih =>
    intro c hinv
    obtain ⟨out, ho⟩ := GenerateResampled_returns fuel ct uf lp c hinv hfuel
    obtain ⟨t, ht⟩ := ih out.1 (GenerateResampled_inv _ _ _ _ _ _ hinv ho)
    simp only [OPN2_GenerateStream, ho, ht]
    exact ⟨_, rfl⟩

theorem WriteBuffered_inv (fuel ct : Nat) (c c' : YM3438) (port data : Nat)
    (hinv : GenInv c) (h : OPN2_WriteBuffered fuel ct c port data = .ok c') : GenInv c' := by
  simp only [OPN2_WriteBuffered] at h
  split at h
  · simp only [WriteBuffered_skip_never_exits] at h
    cases h
  · cases h
    exact hinv

theorem BusOp_inv (ct : Nat) (c : YM3438) (op : BusOp) (hinv : GenInv c) :
    GenInv (BusOp.apply ct c op).1 := by
  cases op with
  | write port data => exact hinv
  | setTestPin value => exact hinv
  | read port => exact hinv
  | clock =>
    obtain ⟨i1, i2, i3⟩ := hinv
    have h1 : (OPN2_Clock ct c).1.rateratio = c.rateratio := by
      have h := congrArg YM3438.rateratio (queuePart_Clock ct c)
      exact h
    have h2 : (OPN2_Clock ct c).1.samplecnt = c.samplecnt := by
      have h := congrArg YM3438.samplecnt (queuePart_Clock ct c)
      exact h
    have h3 : (OPN2_Clock ct c).1.writebuf_cur = c.writebuf_cur := by
      have h := congrArg YM3438.writebuf_cur (queuePart_Clock ct c)
      exact h
    show 0 < (OPN2_Clock ct c).1.rateratio ∧ (OPN2_Clock ct c).1.samplecnt < 2147483648 ∧
      (OPN2_Clock ct c).1.writebuf_cur < 2048
    rw [h1, h2, h3]
    exact ⟨i1, i2, i3⟩

theorem HostOp_run_inv (fuel ct : Nat) (uf : Int) (lp : Int → Int → Int)
    (ops : List HostOp) : ∀ c c' : YM3438, GenInv c →
      HostOp.run fuel ct uf lp c ops = .ok c' → GenInv c' := by
  induction ops with
  | nil =>
    intro c c' hinv h
    simp only [HostOp.run] at h
    cases h
    exact hinv
  | cons op ops ih =>
    intro c c' hinv h
    cases op with
    | bus op =>
      simp only [HostOp.run] at h
      exact ih _ _ (BusOp_inv ct c op hinv) h
    | writeBuffered port data =>
      simp only [HostOp.run] at h
      split at h
      · cases h
      · rename_i c1 hc
        exact ih _ _ (WriteBuffered_inv _ _ _ _ _ _ hinv hc) h
    | generate =>
      simp only [HostOp.run] at h
      split at h
      · cases h
      · rename_i r hr
        exact ih _ _ (GenerateResampled_inv _ _ _ _ _ _ hinv hr) h

theorem Reset_returns (chip : YM3438) (rate clock : Nat) (hclock : clock ≠ 0) :
    ∃ r, OPN2_Reset chip rate clock = .ok r ∧
      r.rateratio = i32 ((u64 (u32 (144 * rate) <<< RSM_FRAC) / clock : Nat)) ∧
      r.samplecnt = 0 ∧ r.writebuf_cur = 0 := by
  have hc : (clock == 0) = false := by simpa using hclock
  refine ⟨_, by simp only [OPN2_Reset, hc]; rfl, ?_, ?_, ?_⟩ <;> rfl

/-- C5, with the two conditions on the reset parameters under which it holds:
for a chip clock other than 0 and a host rate for which the `rateratio` stored
by `OPN2_Reset` is positive, the reset returns, and in every chip state reached
from it by host calls that returned, `OPN2_GenerateResampled` returns a result
(its loop `for chip.samplecnt >= chip.rateratio` exits within `2^31`
evaluations of its condition, its queue loop within 2049, and the divisor
`rateratio` is not zero), and so does `OPN2_GenerateStream` for every count. -/
theorem C5_generation_completes (chip : YM3438) (rate clock chip_type : Nat)
    (use_filter : Int) (lowpass : Int → Int → Int) (hclock : clock ≠ 0)
    (hratio : 0 < i32 ((u64 (u32 (144 * rate) <<< RSM_FRAC) / clock : Nat))) :
    ∃ r, OPN2_Reset chip rate clock = .ok r ∧
      ∀ (ops : List HostOp) (fuel0 : Nat) (c : YM3438),
        HostOp.run fuel0 chip_type use_filter lowpass r ops = .ok c →
        ∀ fuel, 2 ^ 31 < fuel →
          (∃ out, OPN2_GenerateResampled fuel chip_type use_filter lowpass c = .ok out) ∧
            ∀ n, ∃ t, OPN2_GenerateStream fuel chip_type use_filter lowpass n c = .ok t := by
  obtain ⟨r, hr, h1, h2, h3⟩ := Reset_returns chip rate clock hclock
  refine ⟨r, hr, ?_⟩
  intro ops fuel0 c hrun fuel hfuel
  have hinv0 : GenInv r := by
    refine ⟨?_, ?_, ?_⟩
    · rw [h1]
      exact hratio
    · rw [h2]
      norm_num
    · rw [h3]
      norm_num
  have hinv : GenInv c := HostOp_run_inv _ _ _ _ _ _ _ hinv0 hrun
  exact ⟨GenerateResampled_returns fuel chip_type use_filter lowpass c hinv hfuel,
    fun n => GenerateStream_returns fuel chip_type use_filter lowpass hfuel n c hinv⟩

/-- C5 at the rate 44100 Hz and the clock 7670454 Hz, where `rateratio` is
847. -/
theorem C5_generation_completes_witness :
    7670454 ≠ 0 ∧ 0 < i32 ((u64 (u32 (144 * 44100) <<< RSM_FRAC) / 7670454 : Nat)) ∧
      ∃ r, OPN2_Reset YM3438.zero 44100 7670454 = .ok r ∧
        ∀ (ops : List HostOp) (fuel0 : Nat) (c : YM3438),
          HostOp.run fuel0 0 0 (fun old _ => old) r ops = .ok c →
          ∀ fuel, 2 ^ 31 < fuel →
            (∃ out, OPN2_GenerateResampled fuel 0 0 (fun old _ => old) c = .ok out) ∧
              ∀ n, ∃ t, OPN2_GenerateStream fuel 0 0 (fun old _ => old) n c = .ok t :=
  ⟨by decide, by decide,
    C5_generation_completes YM3438.zero 44100 7670454 0 0 (fun old _ => old) (by decide)
      (by decide)⟩

/-- C5 as stated fails for the clock 0, where the division in `OPN2_Reset` is by
zero, and for the rate 0, where the reset stores `rateratio = 0` and the loop
`for chip.samplecnt >= chip.rateratio` of `OPN2_GenerateResampled` never
exits, whatever number of iterations is allowed. -/
theorem C5_counterexample :
    OPN2_Reset YM3438.zero 44100 0 = .error Failure.divideByZero ∧
      OPN2_Reset YM3438.zero 0 7670454 = .ok chip_rate_zero ∧
      ∀ (fuel : Nat) (lowpass : Int → Int → Int),
        OPN2_GenerateResampled fuel 0 0 lowpass chip_rate_zero =
          .error Failure.outOfFuel := by
  refine ⟨rfl, rfl, ?_⟩
  intro fuel lowpass
  simp only [OPN2_GenerateResampled, loop_stuck fuel 0 0 lowpass fuel chip_rate_zero rfl rfl]

/-! ## Write queue order -/

theorem queue_buf (c : YM3438) : c.queue.buf = c.writebuf := rfl

theorem queue_cur (c : YM3438) : c.queue.cur = c.writebuf_cur := rfl

theorem queue_samplecnt (c : YM3438) : c.queue.samplecnt = c.writebuf_samplecnt := rfl

theorem slot_lt (q : WriteQueue) (k : Nat) : q.slot k < 2048 :=
  Nat.mod_lt _ (by decide)

theorem slot_inj (q : WriteQueue) (j k : Nat) (hj : j < 2048) (hk : k < 2048)
    (h : q.slot j = q.slot k) : j = k := by
  unfold WriteQueue.slot at h
  omega

theorem slot_zero (q : WriteQueue) (h : q.cur < 2048) : q.slot 0 = q.cur := by
  unfold WriteQueue.slot
  omega

/-- Every ring index is the slot some number of places after `cur`. -/
theorem slot_surj (q : WriteQueue) (i : Nat) (hc : q.cur < 2048) (hi : i < 2048) :
    ∃ k, k < 2048 ∧ q.slot k = i := by
  refine ⟨(i + 2048 - q.cur) % 2048, Nat.mod_lt _ (by decide), ?_⟩
  unfold WriteQueue.slot
  omega

theorem pop_cur (q : WriteQueue) : q.pop.cur = (q.cur + 1) % 2048 := by
  show u32 (q.cur + 1) % OPN_WRITEBUF_SIZE = (q.cur + 1) % 2048
  unfold u32 OPN_WRITEBUF_SIZE
  omega

theorem pop_samplecnt (q : WriteQueue) : q.pop.samplecnt = q.samplecnt := rfl

theorem pop_buf (q : WriteQueue) :
    q.pop.buf = upd q.buf q.cur { q.buf q.cur with port := (q.buf q.cur).port &&& 0x03 } := rfl

theorem pop_slot (q : WriteQueue) (k : Nat) : q.pop.slot k = q.slot (k + 1) := by
  unfold WriteQueue.slot
  rw [pop_cur q]
  omega

theorem pop_time (q : WriteQueue) (i : Nat) : (q.pop.buf i).time = (q.buf i).time := by
  rw [pop_buf]
  unfold upd
  split
  · rename_i h
    rw [h]
  · rfl

theorem pop_data (q : WriteQueue) (i : Nat) : (q.pop.buf i).data = (q.buf i).data := by
  rw [pop_buf]
  unfold upd
  split
  · rename_i h
    rw [h]
  · rfl

theorem pop_pending (q : WriteQueue) (i : Nat) :
    q.pop.pending i = (q.pending i && decide (i ≠ q.cur)) := by
  unfold WriteQueue.pending
  rw [pop_buf]
  unfold upd
  by_cases h : i = q.cur
  · simp [h, and_three_and_four]
  · simp [h]

theorem queue_drain_due (q : WriteQueue) (fuel : Nat) (h : q.due = true) :
    q.drain (fuel + 1) = q.pop.drain fuel := by
  simp only [WriteQueue.due, WriteQueue.pending, Bool.and_eq_true, decide_eq_true_eq,
    bne_iff_ne, ne_eq] at h
  have h2 : ((q.buf q.cur).port &&& 0x04 == 0) = false := by simpa using h.2
  simp only [WriteQueue.drain, h.1, if_true, h2, Bool.false_eq_true, if_false]

theorem queue_drain_not_due (q : WriteQueue) (fuel : Nat) (h : q.due = false) :
    q.drain (fuel + 1) = .ok q := by
  simp only [WriteQueue.drain]
  split
  · rename_i ht
    split
    · rfl
    · rename_i hp
      exfalso
      have hp' : (q.buf q.cur).port &&& 0x04 ≠ 0 := by simpa using hp
      have : q.due = true := by
        simp only [WriteQueue.due, WriteQueue.pending, Bool.and_eq_true, decide_eq_true_eq,
          bne_iff_ne, ne_eq]
        exact ⟨ht, hp'⟩
      rw [h] at this
      exact Bool.false_ne_true this
  · rfl

/-- In an ordered queue a pending entry sits in one of the first `n` slots. -/
theorem ordered_pending_slot (q : WriteQueue) (n i : Nat) (ho : q.Ordered n) (hi : i < 2048)
    (hp : q.pending i = true) : ∃ k, k < n ∧ q.slot k = i := by
  obtain ⟨hc, -, -, h4, -, -⟩ := ho
  obtain ⟨k, hk, hs⟩ := slot_surj q i hc hi
  refine ⟨k, ?_, hs⟩
  by_contra hn
  have := h4 k (by omega) hk
  rw [hs, hp] at this
  exact Bool.noConfusion this

/-- In an ordered queue the entry at `cur` is the earliest. -/
theorem ordered_head_le (q : WriteQueue) (n k : Nat) (ho : q.Ordered n) (hk : k < n) :
    (q.buf q.cur).time ≤ (q.buf (q.slot k)).time := by
  obtain ⟨hc, -, -, -, h5, -⟩ := ho
  rcases Nat.eq_zero_or_pos k with h0 | h0
  · rw [h0, slot_zero q hc]
  · have := h5 0 k h0 hk
    rw [slot_zero q hc] at this
    omega

/-- In an ordered queue the entry after a due one is not due. -/
theorem ordered_pop_not_due (q : WriteQueue) (n : Nat) (ho : q.Ordered n)
    (hd : q.due = true) : q.pop.due = false := by
  obtain ⟨hc, hn, h3, h4, h5, h6⟩ := ho
  simp only [WriteQueue.due, Bool.and_eq_true, decide_eq_true_eq] at hd
  have hcur : q.pop.cur = q.slot 1 := by
    rw [pop_cur]
    rfl
  have hn1 : 1 ≤ n := by
    by_contra hlt
    have := h4 0 (by omega) (by decide)
    rw [slot_zero q hc, hd.2] at this
    exact Bool.noConfusion this
  have h60 := h6 0 (by omega)
  rw [slot_zero q hc] at h60
  simp only [WriteQueue.due, Bool.and_eq_false_iff, decide_eq_false_iff_not, hcur,
    pop_time, pop_samplecnt, pop_pending]
  by_cases h1 : 1 < n
  · left
    have := h5 0 1 (by decide) h1
    rw [slot_zero q hc] at this
    omega
  · right
    left
    exact h4 1 (by omega) (by decide)

/-- The queue loop on an ordered queue hands over at most the entry at `cur`. -/
theorem queue_drain_ordered (q : WriteQueue) (n fuel : Nat) (ho : q.Ordered n)
    (hf : 2 ≤ fuel) : q.drain fuel = .ok (if q.due = true then q.pop else q) := by
  obtain ⟨f, rfl⟩ : ∃ f, fuel = f + 2 := ⟨fuel - 2, by omega⟩
  by_cases hd : q.due = true
  · rw [queue_drain_due q (f + 1) hd, queue_drain_not_due q.pop f (ordered_pop_not_due q n ho hd),
      if_pos hd]
  · have hd' : q.due = false := by simpa using hd
    rw [queue_drain_not_due q (f + 1) hd', if_neg hd]

theorem u64_succ_le (s t : Nat) (h : s < t) : u64 (s + 1) ≤ t :=
  le_trans (Nat.mod_le _ _) h

/-- A round in which the entry at `cur` is due: it leaves the queue, the other
entries stay. -/
theorem ordered_round_pop (q : WriteQueue) (n : Nat) (ho : q.Ordered n) (hd : q.due = true) :
    1 ≤ n ∧ WriteQueue.Ordered { q.pop with samplecnt := u64 (q.samplecnt + 1) } (n - 1) ∧
      ∀ i, i < 2048 →
        q.pop.pending i = (q.pending i && decide (q.samplecnt < (q.buf i).time)) := by
  have ho' := ho
  obtain ⟨hc, hn, h3, h4, h5, h6⟩ := ho
  have hd' := hd
  simp only [WriteQueue.due, Bool.and_eq_true, decide_eq_true_eq] at hd
  have hn1 : 1 ≤ n := by
    by_contra hlt
    have := h4 0 (by omega) (by decide)
    rw [slot_zero q hc, hd.2] at this
    exact Bool.noConfusion this
  have h60 := h6 0 (by omega)
  rw [slot_zero q hc] at h60
  have hne : ∀ k, 0 < k → k < 2048 → q.slot k ≠ q.cur := by
    intro k h0 hk he
    rw [← slot_zero q hc] at he
    have := slot_inj q k 0 hk (by decide) he
    omega
  refine ⟨hn1, ⟨?_, by omega, ?_, ?_, ?_, ?_⟩, ?_⟩
  · show q.pop.cur < 2048
    rw [pop_cur]
    exact Nat.mod_lt _ (by decide)
  · intro k hk
    show q.pop.pending (q.pop.slot k) = true
    rw [pop_slot, pop_pending, h3 (k + 1) (by omega)]
    simpa using hne (k + 1) (by omega) (by omega)
  · intro k hk hk2
    show q.pop.pending (q.pop.slot k) = false
    rw [pop_slot, pop_pending]
    by_cases hk3 : k + 1 < 2048
    · rw [h4 (k + 1) (by omega) hk3]
      rfl
    · have : q.slot (k + 1) = q.cur := by
        unfold WriteQueue.slot
        omega
      simp [this]
  · intro j k hjk hk
    show (q.pop.buf (q.pop.slot j)).time + 15 ≤ (q.pop.buf (q.pop.slot k)).time
    rw [pop_slot, pop_slot, pop_time, pop_time]
    exact h5 (j + 1) (k + 1) (by omega) (by omega)
  · intro k hk
    show u64 (q.samplecnt + 1) ≤ (q.pop.buf (q.pop.slot k)).time
    rw [pop_slot, pop_time]
    have := h5 0 (k + 1) (by omega) (by omega)
    rw [slot_zero q hc] at this
    exact u64_succ_le _ _ (by omega)
  · intro i hi
    rw [pop_pending]
    by_cases hp : q.pending i = true
    · obtain ⟨k, hk, hs⟩ := ordered_pending_slot q n i ho' hi hp
      rw [hp]
      rcases Nat.eq_zero_or_pos k with h0 | h0
      · have hic : i = q.cur := by rw [← hs, h0, slot_zero q hc]
        simp [hic, hd.1]
      · have hic : i ≠ q.cur := by
          rw [← hs]
          exact hne k h0 (by omega)
        have := h5 0 k h0 hk
        rw [slot_zero q hc, hs] at this
        have hlt : q.samplecnt < (q.buf i).time := by omega
        simp [hic, hlt]
    · have hp' : q.pending i = false := by simpa using hp
      simp [hp']

/-- A round in which the entry at `cur` is not due: the queue stays as it
is. -/
theorem ordered_round_keep (q : WriteQueue) (n : Nat) (ho : q.Ordered n)
    (hd : q.due = false) :
    WriteQueue.Ordered { q with samplecnt := u64 (q.samplecnt + 1) } n ∧
      ∀ i, i < 2048 →
        q.pending i = (q.pending i && decide (q.samplecnt < (q.buf i).time)) := by
  have ho' := ho
  obtain ⟨hc, hn, h3, h4, h5, h6⟩ := ho
  have hlt : ∀ k, k < n → q.samplecnt < (q.buf (q.slot k)).time := by
    intro k hk
    have h0 := h3 0 (by omega)
    rw [slot_zero q hc] at h0
    have hle := ordered_head_le q n k ho' hk
    simp only [WriteQueue.due, h0, Bool.and_true, decide_eq_false_iff_not] at hd
    omega
  refine ⟨⟨hc, hn, h3, h4, h5, ?_⟩, ?_⟩
  · intro k hk
    exact u64_succ_le _ _ (hlt k hk)
  · intro i hi
    by_cases hp : q.pending i = true
    · obtain ⟨k, hk, hs⟩ := ordered_pending_slot q n i ho' hi hp
      have := hlt k hk
      rw [hs] at this
      simp [hp, this]
    · have hp' : q.pending i = false := by simpa using hp
      simp [hp']

/-- One round on an ordered queue: exactly the pending entries scheduled at
the present `samplecnt` leave the queue (at most one, the entry at `cur`), and
the queue is ordered again. -/
theorem queue_round_ordered (q : WriteQueue) (n fuel : Nat) (ho : q.Ordered n)
    (hf : 2 ≤ fuel) :
    ∃ q' n', q.rounds fuel 1 = .ok q' ∧ q'.Ordered n' ∧
      q'.samplecnt = u64 (q.samplecnt + 1) ∧ q'.slot n' = q.slot n ∧ n' ≤ n ∧
      (∀ k, k < n' → ∃ k0, k0 < n ∧ q'.slot k = q.slot k0) ∧
      ∀ i, i < 2048 →
        (q'.pending i = (q.pending i && decide (q.samplecnt < (q.buf i).time)) ∧
          (q'.buf i).time = (q.buf i).time ∧ (q'.buf i).data = (q.buf i).data) := by
  by_cases hd : q.due = true
  · obtain ⟨hn1, ho1, hp1⟩ := ordered_round_pop q n ho hd
    refine ⟨{ q.pop with samplecnt := u64 (q.samplecnt + 1) }, n - 1, ?_, ho1, rfl, ?_,
      by omega, ?_, ?_⟩
    · simp only [WriteQueue.rounds, queue_drain_ordered q n fuel ho hf, if_pos hd]
      rfl
    · show q.pop.slot (n - 1) = q.slot n
      rw [pop_slot]
      congr 1
      omega
    · intro k hk
      exact ⟨k + 1, by omega, pop_slot q k⟩
    · intro i hi
      exact ⟨hp1 i hi, pop_time q i, pop_data q i⟩
  · have hd' : q.due = false := by simpa using hd
    obtain ⟨ho1, hp1⟩ := ordered_round_keep q n ho hd'
    refine ⟨{ q with samplecnt := u64 (q.samplecnt + 1) }, n, ?_, ho1, rfl, rfl, le_refl n,
      ?_, ?_⟩
    · simp only [WriteQueue.rounds, queue_drain_ordered q n fuel ho hf, if_neg hd]
    · intro k hk
      exact ⟨k, hk, rfl⟩
    · intro i hi
      exact ⟨hp1 i hi, rfl, rfl⟩

theorem queue_rounds_succ (fuel N : Nat) (q q1 : WriteQueue)
    (h : q.rounds fuel 1 = .ok q1) : q.rounds fuel (N + 1) = q1.rounds fuel N := by
  simp only [WriteQueue.rounds] at h ⊢
  split at h
  · cases h
  · rename_i q0 hq
    cases h
    rfl

/-- After `N` rounds on an ordered queue, with `samplecnt` not wrapping, the
pending entries are those that were pending and are scheduled at
`samplecnt + N` or later: an entry scheduled at `t` leaves in the round that
starts with `samplecnt = t`. -/
theorem queue_rounds_ordered (fuel : Nat) (hf : 2 ≤ fuel) (N : Nat) :
    ∀ (q : WriteQueue) (n : Nat), q.Ordered n → q.samplecnt + N < 2 ^ 64 →
      ∃ q' n', q.rounds fuel N = .ok q' ∧ q'.Ordered n' ∧
        q'.samplecnt = q.samplecnt + N ∧ q'.slot n' = q.slot n ∧ n' ≤ n ∧
        (∀ k, k < n' → ∃ k0, k0 < n ∧ q'.slot k = q.slot k0) ∧
        ∀ i, i < 2048 →
          (q'.pending i = (q.pending i && decide (q.samplecnt + N ≤ (q.buf i).time)) ∧
            (q'.buf i).time = (q.buf i).time ∧ (q'.buf i).data = (q.buf i).data) := by
  induction N with
  | zero =>
    intro q n ho _
    refine ⟨q, n, rfl, ho, rfl, rfl, le_refl n, fun k hk => ⟨k, hk, rfl⟩, ?_⟩
    intro i hi
    refine ⟨?_, rfl, rfl⟩
    by_cases hp : q.pending i = true
    · obtain ⟨k, hk, hs⟩ := ordered_pending_slot q n i ho hi hp
      have := ho.2.2.2.2.2 k hk
      rw [hs] at this
      simp [hp, this]
    · have hp' : q.pending i = false := by simpa using hp
      simp [hp']
  | succ N ih =>
    intro q n ho hs
    obtain ⟨q1, n1, hr1, ho1, hs1, hl1, hn1, hk1, hp1⟩ := queue_round_ordered q n fuel ho hf
    have hs1' : q1.samplecnt = q.samplecnt + 1 := by
      rw [hs1]
      exact Nat.mod_eq_of_lt (by omega)
    obtain ⟨q2, n2, hr2, ho2, hs2, hl2, hn2, hk2, hp2⟩ := ih q1 n1 ho1 (by omega)
    refine ⟨q2, n2, ?_, ho2, by omega, hl2.trans hl1, by omega, ?_, ?_⟩
    · rw [queue_rounds_succ fuel N q q1 hr1, hr2]
    · intro k hk
      obtain ⟨ka, hka, hsa⟩ := hk2 k hk
      obtain ⟨kb, hkb, hsb⟩ := hk1 ka hka
      exact ⟨kb, hkb, hsa.trans hsb⟩
    · intro i hi
      obtain ⟨a1, a2, a3⟩ := hp1 i hi
      obtain ⟨b1, b2, b3⟩ := hp2 i hi
      refine ⟨?_, b2.trans a2, b3.trans a3⟩
      rw [b1, a1, a2, hs1']
      cases q.pending i
      · rfl
      · simp only [Bool.true_and, ← Bool.decide_and]
        congr 1
        apply propext
        constructor
        · rintro ⟨_, h⟩
          omega
        · intro h
          exact ⟨by omega, by omega⟩

/-- An entry appended behind an ordered queue, scheduled at least 15 after the
entries in it, leaves the queue ordered. -/
theorem ordered_push (q : WriteQueue) (n : Nat) (e : writebuf) (L : Nat) (ho : q.Ordered n)
    (hn : n < 2048) (hp : e.port &&& 0x04 ≠ 0)
    (hL : ∀ k, k < n → (q.buf (q.slot k)).time ≤ L) (ht : L + 15 ≤ e.time)
    (hs : q.samplecnt ≤ e.time) :
    WriteQueue.Ordered { q with buf := upd q.buf (q.slot n) e } (n + 1) := by
  obtain ⟨hc, -, h3, h4, h5, h6⟩ := ho
  have hsl : ∀ k, WriteQueue.slot { q with buf := upd q.buf (q.slot n) e } k = q.slot k :=
    fun _ => rfl
  have hbuf : ∀ k, k < 2048 → k ≠ n → upd q.buf (q.slot n) e (q.slot k) = q.buf (q.slot k) := by
    intro k hk hkn
    exact upd_other _ _ _ _ (fun h => hkn (slot_inj q k n hk hn h))
  have hnew : upd q.buf (q.slot n) e (q.slot n) = e := upd_same _ _ _
  refine ⟨hc, by omega, ?_, ?_, ?_, ?_⟩
  · intro k hk
    show (upd q.buf (q.slot n) e (q.slot k)).port &&& 0x04 != 0
    rcases Nat.lt_or_ge k n with hlt | hge
    · rw [hbuf k (by omega) (by omega)]
      exact h3 k hlt
    · have : k = n := by omega
      rw [this, hnew]
      simpa using hp
  · intro k hk hk2
    show ((upd q.buf (q.slot n) e (q.slot k)).port &&& 0x04 != 0) = false
    rw [hbuf k hk2 (by omega)]
    exact h4 k (by omega) hk2
  · intro j k hjk hk
    show (upd q.buf (q.slot n) e (q.slot j)).time + 15 ≤
      (upd q.buf (q.slot n) e (q.slot k)).time
    rw [hbuf j (by omega) (by omega)]
    rcases Nat.lt_or_ge k n with hlt | hge
    · rw [hbuf k (by omega) (by omega)]
      exact h5 j k hjk hlt
    · have : k = n := by omega
      rw [this, hnew]
      have := hL j (by omega)
      omega
  · intro k hk
    show q.samplecnt ≤ (upd q.buf (q.slot n) e (q.slot k)).time
    rcases Nat.lt_or_ge k n with hlt | hge
    · rw [hbuf k (by omega) (by omega)]
      exact h6 k hlt
    · have : k = n := by omega
      rw [this, hnew]
      exact hs

theorem port_pending (p : Nat) : ((p &&& 3) ||| 4) &&& 0x04 ≠ 0 := by
  have h4 : Nat.testBit 4 2 = true := by decide
  have h : (((p &&& 3) ||| 4) &&& 4).testBit 2 = true := by
    simp [Nat.testBit_and, Nat.testBit_or, h4]
  intro h0
  rw [h0] at h
  simp at h

/-- `OPN2_WriteBuffered` on a chip whose queue holds `n < 2048` ordered
entries, with `writebuf_lasttime + 15` not overflowing: the call returns, the
new entry sits behind the others and the queue is ordered again. -/
theorem QueueInv_insert (fuel ct : Nat) (c : YM3438) (n p dd : Nat) (hq : QueueInv c n)
    (hn : n < 2048) (hno : c.writebuf_lasttime + 15 < 2 ^ 64) :
    OPN2_WriteBuffered fuel ct c p dd = .ok (OPN2_WriteBuffered_insert c p dd) ∧
      QueueInv (OPN2_WriteBuffered_insert c p dd) (n + 1) ∧
      (OPN2_WriteBuffered_insert c p dd).writebuf =
        upd c.writebuf (c.queue.slot n)
          { port := (p &&& 3) ||| 4, data := dd
            time := max (c.writebuf_lasttime + 15) c.writebuf_samplecnt } ∧
      (OPN2_WriteBuffered_insert c p dd).writebuf_lasttime =
        max (c.writebuf_lasttime + 15) c.writebuf_samplecnt ∧
      (OPN2_WriteBuffered_insert c p dd).writebuf_samplecnt = c.writebuf_samplecnt ∧
      (OPN2_WriteBuffered_insert c p dd).writebuf_cur = c.writebuf_cur := by
  obtain ⟨ho, hlast, hL⟩ := hq
  have hfree : ((c.writebuf c.writebuf_last).port &&& 0x04 != 0) = false := by
    rw [hlast]
    exact ho.2.2.2.1 n (le_refl n) hn
  have hX := WriteBuffered_insert_eq c p dd hno
  rw [hlast] at hX
  have hbuf : (OPN2_WriteBuffered_insert c p dd).writebuf =
      upd c.writebuf (c.queue.slot n)
        { port := (p &&& 3) ||| 4, data := dd
          time := max (c.writebuf_lasttime + 15) c.writebuf_samplecnt } := by
    rw [hX]
  have hlt : (OPN2_WriteBuffered_insert c p dd).writebuf_lasttime =
      max (c.writebuf_lasttime + 15) c.writebuf_samplecnt := by
    rw [hX]
  have hla : (OPN2_WriteBuffered_insert c p dd).writebuf_last = (c.queue.slot n + 1) % 2048 := by
    rw [hX]
  have hq' : (OPN2_WriteBuffered_insert c p dd).queue =
      { c.queue with
        buf := upd c.queue.buf (c.queue.slot n)
          { port := (p &&& 3) ||| 4, data := dd
            time := max (c.writebuf_lasttime + 15) c.writebuf_samplecnt } } := by
    rw [hX]
    rfl
  refine ⟨?_, ⟨?_, ?_, ?_⟩, hbuf, hlt, rfl, rfl⟩
  · simp only [OPN2_WriteBuffered, hfree, Bool.false_eq_true, if_false]
  · rw [hq']
    exact ordered_push c.queue n _ c.writebuf_lasttime ho hn (port_pending p) hL
      (le_max_left _ _) (le_max_right _ _)
  · rw [hla, hq']
    show (c.queue.slot n + 1) % 2048 = c.queue.slot (n + 1)
    unfold WriteQueue.slot
    omega
  · intro k hk
    rw [hlt, hq', hbuf]
    show (upd c.writebuf (c.queue.slot n) _ (c.queue.slot k)).time ≤ _
    rcases Nat.lt_or_ge k n with hlt' | hge
    · rw [upd_other _ _ _ _ (fun h => by
        have := slot_inj c.queue k n (by omega) hn h
        omega)]
      exact le_trans (hL k hlt') (le_trans (by omega) (le_max_left _ _))
    · have : k = n := by omega
      rw [this, upd_same]

theorem apply_queue (c : YM3438) : (OPN2_GenerateResampled_apply c).queue = c.queue.pop := rfl

theorem apply_writebuf_last (c : YM3438) :
    (OPN2_GenerateResampled_apply c).writebuf_last = c.writebuf_last := rfl

theorem apply_writebuf_lasttime (c : YM3438) :
    (OPN2_GenerateResampled_apply c).writebuf_lasttime = c.writebuf_lasttime := rfl

theorem apply_writebuf_samplecnt (c : YM3438) :
    (OPN2_GenerateResampled_apply c).writebuf_samplecnt = c.writebuf_samplecnt := rfl

theorem clock_writebuf (ct : Nat) (c : YM3438) :
    (OPN2_GenerateResampled_clock ct c).writebuf = c.writebuf := by
  have h := congrArg YM3438.writebuf (queuePart_Clock ct c)
  exact h

theorem clock_writebuf_samplecnt (ct : Nat) (c : YM3438) :
    (OPN2_GenerateResampled_clock ct c).writebuf_samplecnt = c.writebuf_samplecnt := by
  have h := congrArg YM3438.writebuf_samplecnt (queuePart_Clock ct c)
  exact h

theorem clock_writebuf_last (ct : Nat) (c : YM3438) :
    (OPN2_GenerateResampled_clock ct c).writebuf_last = c.writebuf_last := by
  have h := congrArg YM3438.writebuf_last (queuePart_Clock ct c)
  exact h

theorem clock_writebuf_lasttime (ct : Nat) (c : YM3438) :
    (OPN2_GenerateResampled_clock ct c).writebuf_lasttime = c.writebuf_lasttime := by
  have h := congrArg YM3438.writebuf_lasttime (queuePart_Clock ct c)
  exact h

theorem clock_queue (ct : Nat) (c : YM3438) :
    (OPN2_GenerateResampled_clock ct c).queue = c.queue := by
  unfold YM3438.queue
  rw [clock_writebuf, clock_writebuf_cur, clock_writebuf_samplecnt]

/-- On the queue, the queue loop of `OPN2_GenerateResampled` acts as
`WriteQueue.drain`. -/
theorem drain_queue (fuel : Nat) : ∀ c : YM3438,
    Except.map YM3438.queue (OPN2_GenerateResampled_drain fuel c) = c.queue.drain fuel := by
  induction fuel with
  | zero =>
    intro c
    rfl
  | succ f ih =>
    intro c
    simp only [OPN2_GenerateResampled_drain, WriteQueue.drain, queue_buf, queue_cur,
      queue_samplecnt]
    split
    · split
      · rfl
      · rw [ih, apply_queue]
    · rfl

/-- On the queue, `n` rounds of the loop `for range 24` act as
`WriteQueue.rounds`. -/
theorem clocks_queue (fuel ct n : Nat) : ∀ c : YM3438,
    Except.map YM3438.queue (OPN2_GenerateResampled_clocks fuel ct n c) =
      c.queue.rounds fuel n := by
  induction n with
  | zero =>
    intro c
    rfl
  | succ n ih =>
    intro c
    have hd := drain_queue fuel (OPN2_GenerateResampled_clock ct c)
    rw [clock_queue] at hd
    simp only [OPN2_GenerateResampled_clocks, WriteQueue.rounds, ← hd]
    cases OPN2_GenerateResampled_drain fuel (OPN2_GenerateResampled_clock ct c) with
    | error e => rfl
    | ok c1 => exact ih _

theorem map_eq_ok {α β : Type} (f : α → β) (x : Except Failure α) (y : β)
    (h : Except.map f x = .ok y) : ∃ a, x = .ok a ∧ f a = y := by
  cases x with
  | error e => cases h
  | ok a =>
    cases h
    exact ⟨a, rfl, rfl⟩

/-- The queue loop leaves `writebuf_last` and `writebuf_lasttime` alone. -/
theorem drain_last (fuel : Nat) : ∀ c c' : YM3438,
    OPN2_GenerateResampled_drain fuel c = .ok c' →
      c'.writebuf_last = c.writebuf_last ∧ c'.writebuf_lasttime = c.writebuf_lasttime := by
  induction fuel with
  | zero =>
    intro c c' h
    simp only [OPN2_GenerateResampled_drain] at h
    cases h
  | succ n ih =>
    intro c c' h
    simp only [OPN2_GenerateResampled_drain] at h
    split at h
    · split at h
      · cases h
        exact ⟨rfl, rfl⟩
      · obtain ⟨h1, h2⟩ := ih _ _ h
        exact ⟨h1.trans (apply_writebuf_last c), h2.trans (apply_writebuf_lasttime c)⟩
    · cases h
      exact ⟨rfl, rfl⟩

theorem clocks_last (fuel ct n : Nat) : ∀ c c' : YM3438,
    OPN2_GenerateResampled_clocks fuel ct n c = .ok c' →
      c'.writebuf_last = c.writebuf_last ∧ c'.writebuf_lasttime = c.writebuf_lasttime := by
  induction n with
  | zero =>
    intro c c' h
    simp only [OPN2_GenerateResampled_clocks] at h
    cases h
    exact ⟨rfl, rfl⟩
  | succ n ih =>
    intro c c' h
    simp only [OPN2_GenerateResampled_clocks] at h
    split at h
    · cases h
    · rename_i c1 hd
      obtain ⟨a1, a2⟩ := drain_last _ _ _ hd
      obtain ⟨b1, b2⟩ := ih _ _ h
      exact ⟨b1.trans (a1.trans (clock_writebuf_last ct c)),
        b2.trans (a2.trans (clock_writebuf_lasttime ct c))⟩

/-- The entries handed to `OPN2_Write` by one run of the queue loop are those
at `writebuf_cur`, `writebuf_cur + 1`, ... in this order, each pending and
with a time not after `writebuf_samplecnt` when it is handed over. -/
theorem drain_trace (fuel : Nat) : ∀ d d' : YM3438, d.writebuf_cur < 2048 →
    OPN2_GenerateResampled_drain fuel d = .ok d' →
      ∃ m, d' = Nat.iterate OPN2_GenerateResampled_apply m d ∧
        ∀ j, j < m →
          (Nat.iterate OPN2_GenerateResampled_apply j d).writebuf_cur =
              (d.writebuf_cur + j) % 2048 ∧
            (Nat.iterate OPN2_GenerateResampled_apply j d).queue.due = true := by
  induction fuel with
  | zero =>
    intro d d' _ h
    simp only [OPN2_GenerateResampled_drain] at h
    cases h
  | succ f ih =>
    intro d d' hc h
    simp only [OPN2_GenerateResampled_drain] at h
    split at h
    · rename_i ht
      split at h
      · cases h
        exact ⟨0, rfl, fun j hj => absurd hj (Nat.not_lt_zero j)⟩
      · rename_i hp
        obtain ⟨m, hm, hall⟩ := ih _ _ (apply_writebuf_cur_lt d) h
        refine ⟨m + 1, ?_, ?_⟩
        · rw [Function.iterate_succ_apply]
          exact hm
        · intro j hj
          rcases Nat.eq_zero_or_pos j with h0 | h0
          · subst h0
            refine ⟨by simp only [Function.iterate_zero, id_eq]; omega, ?_⟩
            have hp' : (d.writebuf d.writebuf_cur).port &&& 0x04 ≠ 0 := by simpa using hp
            simp only [Function.iterate_zero, id_eq, WriteQueue.due, WriteQueue.pending,
              queue_buf, queue_cur, queue_samplecnt, Bool.and_eq_true, decide_eq_true_eq,
              bne_iff_ne, ne_eq]
            exact ⟨ht, hp'⟩
          · obtain ⟨i, rfl⟩ : ∃ i, j = i + 1 := ⟨j - 1, by omega⟩
            obtain ⟨a1, a2⟩ := hall i (by omega)
            rw [Function.iterate_succ_apply]
            refine ⟨?_, a2⟩
            rw [a1, apply_writebuf_cur]
            unfold u32 OPN_WRITEBUF_SIZE
            omega
    · cases h
      exact ⟨0, rfl, fun j hj => absurd hj (Nat.not_lt_zero j)⟩

/-- `N` rounds of the loop `for range 24` on a chip with an ordered queue, with
`writebuf_samplecnt` not wrapping: the rounds return, the queue is ordered
again, and the pending entries are those that were pending and are scheduled
at `writebuf_samplecnt + N` or later. -/
theorem QueueInv_clocks (fuel ct N : Nat) (c : YM3438) (n : Nat) (hq : QueueInv c n)
    (hf : 2 ≤ fuel) (hs : c.writebuf_samplecnt + N < 2 ^ 64) :
    ∃ d, OPN2_GenerateResampled_clocks fuel ct N c = .ok d ∧
      d.writebuf_samplecnt = c.writebuf_samplecnt + N ∧ (∃ m, QueueInv d m) ∧
      ∀ i, i < 2048 →
        (d.queue.pending i =
            (c.queue.pending i && decide (c.writebuf_samplecnt + N ≤ (c.writebuf i).time)) ∧
          (d.writebuf i).time = (c.writebuf i).time ∧
          (d.writebuf i).data = (c.writebuf i).data) := by
  obtain ⟨ho, hlast, hL⟩ := hq
  obtain ⟨q', n', hr, ho', hs', hl', -, hk', hp'⟩ :=
    queue_rounds_ordered fuel hf N c.queue n ho hs
  have hm := clocks_queue fuel ct N c
  rw [hr] at hm
  obtain ⟨d, hd, hdq⟩ := map_eq_ok _ _ _ hm
  obtain ⟨e1, e2⟩ := clocks_last _ _ _ _ _ hd
  have hbuf : d.writebuf = q'.buf := by rw [← hdq]; rfl
  refine ⟨d, hd, ?_, ⟨n', ?_, ?_, ?_⟩, ?_⟩
  · show d.queue.samplecnt = _
    rw [hdq, hs']
    rfl
  · rw [hdq]
    exact ho'
  · rw [e1, hlast, hdq, hl']
  · intro k hk
    obtain ⟨k0, hk0, hsl⟩ := hk' k hk
    rw [e2, hdq, hbuf, hsl, (hp' _ (slot_lt c.queue k0)).2.1]
    exact hL k0 hk0
  · intro i hi
    rw [hdq, hbuf]
    exact hp' i hi

theorem reset_not_pending (i : Nat) : chip_reset.queue.pending i = false := by
  show ((0 : Nat) &&& 0x04 != 0) = false
  decide

theorem QueueInv_reset : QueueInv chip_reset 0 :=
  ⟨⟨Nat.zero_lt_succ 2047, Nat.zero_le 2048, fun _ h => absurd h (Nat.not_lt_zero _),
      fun _ _ _ => reset_not_pending _, fun _ _ _ h => absurd h (Nat.not_lt_zero _),
      fun _ h => absurd h (Nat.not_lt_zero _)⟩,
    rfl, fun _ h => absurd h (Nat.not_lt_zero _)⟩

theorem QueueInv_congr (c c' : YM3438) (n : Nat) (hq : c'.queue = c.queue)
    (hl : c'.writebuf_last = c.writebuf_last)
    (ht : c'.writebuf_lasttime = c.writebuf_lasttime) (h : QueueInv c n) : QueueInv c' n := by
  obtain ⟨h1, h2, h3⟩ := h
  have hb : c'.writebuf = c.writebuf := congrArg WriteQueue.buf hq
  refine ⟨by rw [hq]; exact h1, by rw [hl, hq]; exact h2, ?_⟩
  intro k hk
  rw [hb, hq, ht]
  exact h3 k hk

theorem Clock_queue (ct : Nat) (c : YM3438) : (OPN2_Clock ct c).1.queue = c.queue := by
  have h1 : (OPN2_Clock ct c).1.writebuf = c.writebuf := by
    have h := congrArg YM3438.writebuf (queuePart_Clock ct c)
    exact h
  have h2 : (OPN2_Clock ct c).1.writebuf_cur = c.writebuf_cur := by
    have h := congrArg YM3438.writebuf_cur (queuePart_Clock ct c)
    exact h
  have h3 : (OPN2_Clock ct c).1.writebuf_samplecnt = c.writebuf_samplecnt := by
    have h := congrArg YM3438.writebuf_samplecnt (queuePart_Clock ct c)
    exact h
  unfold YM3438.queue
  rw [h1, h2, h3]

theorem BusOp_queue (ct : Nat) (c : YM3438) (op : BusOp) :
    (BusOp.apply ct c op).1.queue = c.queue ∧
      (BusOp.apply ct c op).1.writebuf_last = c.writebuf_last ∧
      (BusOp.apply ct c op).1.writebuf_lasttime = c.writebuf_lasttime := by
  cases op with
  | write port data => exact ⟨rfl, rfl, rfl⟩
  | setTestPin value => exact ⟨rfl, rfl, rfl⟩
  | read port => exact ⟨rfl, rfl, rfl⟩
  | clock =>
    refine ⟨Clock_queue ct c, ?_, ?_⟩
    · have h := congrArg YM3438.writebuf_last (queuePart_Clock ct c)
      exact h
    · have h := congrArg YM3438.writebuf_lasttime (queuePart_Clock ct c)
      exact h

theorem filter_queue (uf : Int) (lp : Int → Int → Int) (c : YM3438) :
    (OPN2_GenerateResampled_filter uf lp c).queue = c.queue ∧
      (OPN2_GenerateResampled_filter uf lp c).writebuf_last = c.writebuf_last ∧
      (OPN2_GenerateResampled_filter uf lp c).writebuf_lasttime = c.writebuf_lasttime := by
  unfold OPN2_GenerateResampled_filter
  split <;> exact ⟨rfl, rfl, rfl⟩

/-- A returning `OPN2_WriteBuffered` on a chip with an ordered queue, with
`writebuf_lasttime + 15` not overflowing, leaves the queue ordered. -/
theorem WriteBuffered_QueueInv (fuel ct : Nat) (c c' : YM3438) (n p dd : Nat)
    (hq : QueueInv c n) (hno : c.writebuf_lasttime + 15 < 2 ^ 64)
    (h : OPN2_WriteBuffered fuel ct c p dd = .ok c') :
    QueueInv c' (n + 1) ∧ c'.writebuf_samplecnt = c.writebuf_samplecnt ∧
      c'.writebuf_lasttime = max (c.writebuf_lasttime + 15) c.writebuf_samplecnt := by
  rcases Nat.lt_or_ge n 2048 with hn | hn
  · obtain ⟨a1, a2, -, a4, a5, -⟩ := QueueInv_insert fuel ct c n p dd hq hn hno
    rw [a1] at h
    cases h
    exact ⟨a2, a5, a4⟩
  · exfalso
    obtain ⟨⟨hc, hn2, h3, -⟩, hlast, -⟩ := hq
    have hn' : n = 2048 := by omega
    have hp := h3 0 (by omega)
    have hsl : c.queue.slot n = c.queue.slot 0 := by
      unfold WriteQueue.slot
      omega
    have hpend : ((c.writebuf c.writebuf_last).port &&& 0x04 != 0) = true := by
      rw [hlast, hsl]
      exact hp
    simp only [OPN2_WriteBuffered, hpend, if_true, WriteBuffered_skip_never_exits] at h
    cases h

/-- The loop `for chip.samplecnt >= chip.rateratio` keeps the queue ordered as
long as `writebuf_samplecnt` does not wrap. -/
theorem loop_QueueInv (dfuel ct : Nat) (uf : Int) (lp : Int → Int → Int) (hf : 2 ≤ dfuel)
    (fuel : Nat) : ∀ c c' : YM3438, (∃ n, QueueInv c n) →
      c.writebuf_samplecnt + 24 * fuel < 2 ^ 64 →
      OPN2_GenerateResampled_loop dfuel ct uf lp fuel c = .ok c' →
      (∃ n, QueueInv c' n) ∧ c'.writebuf_samplecnt ≤ c.writebuf_samplecnt + 24 * fuel ∧
        c'.writebuf_lasttime = c.writebuf_lasttime := by
  induction fuel with
  | zero =>
    intro c c' _ _ h
    simp only [OPN2_GenerateResampled_loop] at h
    cases h
  | succ k ih =>
    intro c c' hq hs h
    simp only [OPN2_GenerateResampled_loop] at h
    split at h
    · split at h
      · cases h
      · rename_i c1 hc
        obtain ⟨n, hn⟩ := hq
        obtain ⟨d, hd, hds, ⟨m, hm⟩, -⟩ := QueueInv_clocks dfuel ct 24
          { c with
            oldsamples := upd (upd c.oldsamples 0 (c.samples 0)) 1 (c.samples 1)
            samples := upd (upd c.samples 0 0) 1 0 } n
          (QueueInv_congr c _ n rfl rfl rfl hn) hf (by
            show c.writebuf_samplecnt + 24 < 2 ^ 64
            omega)
        have hd' : OPN2_GenerateResampled_clocks dfuel ct 24
          { c with
            oldsamples := upd (upd c.oldsamples 0 (c.samples 0)) 1 (c.samples 1)
            samples := upd (upd c.samples 0 0) 1 0 } = .ok c1 := hc
        rw [hd] at hd'
        injection hd' with hdc
        subst hdc
        obtain ⟨f1, f2, f3⟩ := filter_queue uf lp d
        obtain ⟨-, l2⟩ := clocks_last _ _ _ _ _ hd
        have hds' : d.writebuf_samplecnt = c.writebuf_samplecnt + 24 := hds
        have l2' : d.writebuf_lasttime = c.writebuf_lasttime := l2
        have e2 : (OPN2_GenerateResampled_filter uf lp d).writebuf_samplecnt =
            d.writebuf_samplecnt := congrArg WriteQueue.samplecnt f1
        have key := ih _ c' ⟨m, ?_⟩ ?_ h
        rotate_left
        · exact QueueInv_congr d _ m f1 f2 f3 hm
        · show (OPN2_GenerateResampled_filter uf lp d).writebuf_samplecnt + 24 * k < 2 ^ 64
          omega
        obtain ⟨k1, k2, k3⟩ := key
        have k2' : c'.writebuf_samplecnt ≤
            (OPN2_GenerateResampled_filter uf lp d).writebuf_samplecnt + 24 * k := k2
        have k3' : c'.writebuf_lasttime =
            (OPN2_GenerateResampled_filter uf lp d).writebuf_lasttime := k3
        refine ⟨k1, by omega, ?_⟩
        rw [k3', f3, l2']
    · cases h
      exact ⟨hq, by omega, rfl⟩

theorem GenerateResampled_QueueInv (fuel ct : Nat) (uf : Int) (lp : Int → Int → Int)
    (hf : 2 ≤ fuel) (c : YM3438) (out : YM3438 × Int × Int) (hq : ∃ n, QueueInv c n)
    (hs : c.writebuf_samplecnt + 24 * fuel < 2 ^ 64)
    (h : OPN2_GenerateResampled fuel ct uf lp c = .ok out) :
    (∃ n, QueueInv out.1 n) ∧ out.1.writebuf_samplecnt ≤ c.writebuf_samplecnt + 24 * fuel ∧
      out.1.writebuf_lasttime = c.writebuf_lasttime := by
  simp only [OPN2_GenerateResampled] at h
  split at h
  · cases h
  · rename_i c1 hc
    obtain ⟨⟨n, hn⟩, a2, a3⟩ := loop_QueueInv fuel ct uf lp hf fuel c c1 hq hs hc
    split at h
    · cases h
    · cases h
      exact ⟨⟨n, QueueInv_congr c1 _ n rfl rfl rfl hn⟩, a2, a3⟩

/-- In every chip state reached from a chip with an ordered queue by host
calls that returned, the queue is ordered, as long as the times cannot have
overflowed: each call moves `writebuf_samplecnt` and `writebuf_lasttime` up by
at most `24 * fuel + 15`. -/
theorem HostOp_run_QueueInv (fuel ct : Nat) (uf : Int) (lp : Int → Int → Int) (hf : 2 ≤ fuel)
    (ops : List HostOp) : ∀ (c c' : YM3438) (B : Nat), (∃ n, QueueInv c n) →
      c.writebuf_lasttime ≤ B → c.writebuf_samplecnt ≤ B →
      B + (24 * fuel + 15) * ops.length < 2 ^ 64 →
      HostOp.run fuel ct uf lp c ops = .ok c' →
      (∃ n, QueueInv c' n) ∧ c'.writebuf_lasttime ≤ B + (24 * fuel + 15) * ops.length ∧
        c'.writebuf_samplecnt ≤ B + (24 * fuel + 15) * ops.length := by
  induction ops with
  | nil =>
    intro c c' B hq hl hs _ h
    simp only [HostOp.run] at h
    cases h
    exact ⟨hq, by simpa using hl, by simpa using hs⟩
  | cons op ops ih =>
    intro c c' B hq hl hs hB h
    have hlen : (24 * fuel + 15) * (op :: ops).length =
        (24 * fuel + 15) + (24 * fuel + 15) * ops.length := by
      rw [List.length_cons]
      ring
    rw [hlen] at hB ⊢
    cases op with
    | bus op =>
      simp only [HostOp.run] at h
      obtain ⟨n, hn⟩ := hq
      obtain ⟨b1, b2, b3⟩ := BusOp_queue ct c op
      have hs' : (BusOp.apply ct c op).1.writebuf_samplecnt = c.writebuf_samplecnt :=
        congrArg WriteQueue.samplecnt b1
      obtain ⟨r1, r2, r3⟩ := ih _ c' (B + (24 * fuel + 15))
        ⟨n, QueueInv_congr c _ n b1 b2 b3 hn⟩ (by omega) (by omega) (by omega) h
      exact ⟨r1, by omega, by omega⟩
    | writeBuffered port data =>
      simp only [HostOp.run] at h
      split at h
      · cases h
      · rename_i c1 hc
        obtain ⟨n, hn⟩ := hq
        obtain ⟨w1, w2, w3⟩ := WriteBuffered_QueueInv fuel ct c c1 n port data hn (by omega) hc
        obtain ⟨r1, r2, r3⟩ := ih c1 c' (B + (24 * fuel + 15)) ⟨n + 1, w1⟩
          (by rw [w3]; exact max_le (by omega) (by omega)) (by omega) (by omega) h
        exact ⟨r1, by omega, by omega⟩
    | generate =>
      simp only [HostOp.run] at h
      split at h
      · cases h
      · rename_i r hr
        obtain ⟨g1, g2, g3⟩ := GenerateResampled_QueueInv fuel ct uf lp hf c r hq (by omega) hr
        obtain ⟨r1, r2, r3⟩ := ih r.1 c' (B + (24 * fuel + 15)) g1 (by omega) (by omega)
          (by omega) h
        exact ⟨r1, by omega, by omega⟩

theorem Reset_queue (chip r : YM3438) (rate clock : Nat)
    (h : OPN2_Reset chip rate clock = .ok r) :
    r.writebuf = chip_reset.writebuf ∧ r.writebuf_cur = chip_reset.writebuf_cur ∧
      r.writebuf_samplecnt = chip_reset.writebuf_samplecnt ∧
      r.writebuf_last = chip_reset.writebuf_last ∧
      r.writebuf_lasttime = chip_reset.writebuf_lasttime := by
  simp only [OPN2_Reset] at h
  split at h
  · cases h
  · cases h
    refine ⟨?_, ?_, ?_, ?_, ?_⟩ <;> rfl

/-- After `OPN2_Reset` the queue is empty, and in every chip state reached from
it by host calls that returned the queue is ordered, as long as the number of
calls is too small for the times to have overflowed. -/
theorem QueueInv_reachable (fuel ct rate clock : Nat) (uf : Int) (lp : Int → Int → Int)
    (hf : 2 ≤ fuel) (chip r c : YM3438) (ops : List HostOp)
    (hreset : OPN2_Reset chip rate clock = .ok r)
    (hlen : (24 * fuel + 15) * ops.length < 2 ^ 64)
    (hrun : HostOp.run fuel ct uf lp r ops = .ok c) :
    (∃ n, QueueInv c n) ∧ c.writebuf_lasttime ≤ (24 * fuel + 15) * ops.length ∧
      c.writebuf_samplecnt ≤ (24 * fuel + 15) * ops.length := by
  obtain ⟨e1, e2, e3, e4, e5⟩ := Reset_queue chip r rate clock hreset
  have hq : r.queue = chip_reset.queue := by
    unfold YM3438.queue
    rw [e1, e2, e3]
  have h1 : QueueInv r 0 := QueueInv_congr chip_reset r 0 hq e4 e5 QueueInv_reset
  have h2 : r.writebuf_lasttime = 0 := e5
  have h3 : r.writebuf_samplecnt = 0 := e3
  have := HostOp_run_QueueInv fuel ct uf lp hf ops r c 0 ⟨0, h1⟩ (by omega) (by omega)
    (by omega) hrun
  simpa using this

/-- C8, provided the times of the two writes do not overflow `uint64`.  (1) One
run of the queue loop of `OPN2_GenerateResampled` hands to `OPN2_Write` the
entries at `writebuf_cur`, `writebuf_cur + 1`, ... (modulo 2048) in this order,
each of them pending and with `time <= writebuf_samplecnt` when it is handed
over.  (2) On a chip whose queue holds `n` ordered entries, `N` rounds of the
loop `for range 24` leave pending exactly the entries scheduled at
`writebuf_samplecnt + N` or later: an entry scheduled at `t` is handed over in
the round that starts with `writebuf_samplecnt = t`, so at most one in a round.
(3) Two consecutive `OPN2_WriteBuffered` calls with room for both return, the
two entries sit in the slots `n` and `n + 1` after `writebuf_cur` with times
`t` and `t + 15`, where `t = max(writebuf_lasttime + 15, writebuf_samplecnt)`,
and after `N` rounds the first is pending iff `writebuf_samplecnt + N <= t` and
the second iff `writebuf_samplecnt + N <= t + 15`: the first is handed over 15
clocks before the second. -/
theorem C8_write_queue_order (fuel chip_type : Nat) (chip : YM3438)
    (n port₁ data₁ port₂ data₂ : Nat) (hq : QueueInv chip n) (hroom : n + 2 ≤ 2048)
    (hno : max (chip.writebuf_lasttime + 15) chip.writebuf_samplecnt + 15 < 2 ^ 64)
    (hfuel : 2 ≤ fuel) :
    (∀ (f : Nat) (d d' : YM3438), d.writebuf_cur < 2048 →
      OPN2_GenerateResampled_drain f d = .ok d' →
      ∃ m, d' = Nat.iterate OPN2_GenerateResampled_apply m d ∧
        ∀ j, j < m →
          (Nat.iterate OPN2_GenerateResampled_apply j d).writebuf_cur =
              (d.writebuf_cur + j) % 2048 ∧
            (Nat.iterate OPN2_GenerateResampled_apply j d).queue.due = true) ∧
    (∀ (d : YM3438) (m N : Nat), QueueInv d m → d.writebuf_samplecnt + N < 2 ^ 64 →
      ∃ d', OPN2_GenerateResampled_clocks fuel chip_type N d = .ok d' ∧
        d'.writebuf_samplecnt = d.writebuf_samplecnt + N ∧ (∃ m', QueueInv d' m') ∧
        ∀ i, i < 2048 →
          (d'.queue.pending i =
              (d.queue.pending i && decide (d.writebuf_samplecnt + N ≤ (d.writebuf i).time)) ∧
            (d'.writebuf i).time = (d.writebuf i).time ∧
            (d'.writebuf i).data = (d.writebuf i).data)) ∧
    ∃ c₁ c₂ : YM3438,
      OPN2_WriteBuffered fuel chip_type chip port₁ data₁ = .ok c₁ ∧
      OPN2_WriteBuffered fuel chip_type c₁ port₂ data₂ = .ok c₂ ∧
      QueueInv c₂ (n + 2) ∧
      c₂.writebuf (chip.queue.slot n) =
        { port := (port₁ &&& 3) ||| 4, data := data₁
          time := max (chip.writebuf_lasttime + 15) chip.writebuf_samplecnt } ∧
      c₂.writebuf (chip.queue.slot (n + 1)) =
        { port := (port₂ &&& 3) ||| 4, data := data₂
          time := max (chip.writebuf_lasttime + 15) chip.writebuf_samplecnt + 15 } ∧
      ∀ N, chip.writebuf_samplecnt + N < 2 ^ 64 →
        ∃ d, OPN2_GenerateResampled_clocks fuel chip_type N c₂ = .ok d ∧
          d.queue.pending (chip.queue.slot n) =
            decide (chip.writebuf_samplecnt + N ≤
              max (chip.writebuf_lasttime + 15) chip.writebuf_samplecnt) ∧
          d.queue.pending (chip.queue.slot (n + 1)) =
            decide (chip.writebuf_samplecnt + N ≤
              max (chip.writebuf_lasttime + 15) chip.writebuf_samplecnt + 15) := by
  refine ⟨fun f d d' hc h => drain_trace f d d' hc h,
    fun d m N hd hs => QueueInv_clocks fuel chip_type N d m hd hfuel hs, ?_⟩
  have hL : chip.writebuf_lasttime + 15 < 2 ^ 64 := by
    have := le_max_left (chip.writebuf_lasttime + 15) chip.writebuf_samplecnt
    omega
  obtain ⟨a1, a2, a3, a4, a5, a6⟩ :=
    QueueInv_insert fuel chip_type chip n port₁ data₁ hq (by omega) hL
  have hs1 : (OPN2_WriteBuffered_insert chip port₁ data₁).queue.slot (n + 1) =
      chip.queue.slot (n + 1) := by
    unfold WriteQueue.slot
    rw [queue_cur, queue_cur, a6]
  obtain ⟨b1, b2, b3, b4, b5, b6⟩ :=
    QueueInv_insert fuel chip_type (OPN2_WriteBuffered_insert chip port₁ data₁) (n + 1)
      port₂ data₂ a2 (by omega) (by rw [a4]; exact hno)
  rw [hs1, a3, a4, a5] at b3
  have ht : max (max (chip.writebuf_lasttime + 15) chip.writebuf_samplecnt + 15)
      chip.writebuf_samplecnt =
      max (chip.writebuf_lasttime + 15) chip.writebuf_samplecnt + 15 := by
    have := le_max_right (chip.writebuf_lasttime + 15) chip.writebuf_samplecnt
    exact max_eq_left (by omega)
  rw [ht] at b3
  have hne : chip.queue.slot n ≠ chip.queue.slot (n + 1) := by
    intro h
    have := slot_inj chip.queue n (n + 1) (by omega) (by omega) h
    omega
  have e1 : (OPN2_WriteBuffered_insert (OPN2_WriteBuffered_insert chip port₁ data₁) port₂
      data₂).writebuf (chip.queue.slot n) =
      { port := (port₁ &&& 3) ||| 4, data := data₁
        time := max (chip.writebuf_lasttime + 15) chip.writebuf_samplecnt } := by
    rw [b3, upd_other _ _ _ _ hne, upd_same]
  have e2 : (OPN2_WriteBuffered_insert (OPN2_WriteBuffered_insert chip port₁ data₁) port₂
      data₂).writebuf (chip.queue.slot (n + 1)) =
      { port := (port₂ &&& 3) ||| 4, data := data₂
        time := max (chip.writebuf_lasttime + 15) chip.writebuf_samplecnt + 15 } := by
    rw [b3, upd_same]
  refine ⟨_, _, a1, b1, b2, e1, e2, ?_⟩
  intro N hN
  obtain ⟨d, hd, -, -, hp⟩ := QueueInv_clocks fuel chip_type N _ (n + 2) b2 hfuel
    (by rw [b5, a5]; exact hN)
  rw [b5, a5] at hp
  refine ⟨d, hd, ?_, ?_⟩
  · rw [(hp _ (slot_lt chip.queue n)).1, e1]
    have : WriteQueue.pending (OPN2_WriteBuffered_insert
        (OPN2_WriteBuffered_insert chip port₁ data₁) port₂ data₂).queue
        (chip.queue.slot n) = true := by
      unfold WriteQueue.pending
      rw [queue_buf, e1]
      simpa using port_pending port₁
    rw [this, Bool.true_and]
  · rw [(hp _ (slot_lt chip.queue (n + 1))).1, e2]
    have : WriteQueue.pending (OPN2_WriteBuffered_insert
        (OPN2_WriteBuffered_insert chip port₁ data₁) port₂ data₂).queue
        (chip.queue.slot (n + 1)) = true := by
      unfold WriteQueue.pending
      rw [queue_buf, e2]
      simpa using port_pending port₂
    rw [this, Bool.true_and]

/-- C8 on the chip after reset, for the writes `(0, 0x30)` and `(1, 0x71)`. -/
theorem C8_write_queue_order_witness :
    QueueInv chip_reset 0 ∧ 0 + 2 ≤ 2048 ∧
      max (chip_reset.writebuf_lasttime + 15) chip_reset.writebuf_samplecnt + 15 < 2 ^ 64 ∧
      2 ≤ 2 ∧
      ((∀ (f : Nat) (d d' : YM3438), d.writebuf_cur < 2048 →
        OPN2_GenerateResampled_drain f d = .ok d' →
        ∃ m, d' = Nat.iterate OPN2_GenerateResampled_apply m d ∧
          ∀ j, j < m →
            (Nat.iterate OPN2_GenerateResampled_apply j d).writebuf_cur =
                (d.writebuf_cur + j) % 2048 ∧
              (Nat.iterate OPN2_GenerateResampled_apply j d).queue.due = true) ∧
      (∀ (d : YM3438) (m N : Nat), QueueInv d m → d.writebuf_samplecnt + N < 2 ^ 64 →
        ∃ d', OPN2_GenerateResampled_clocks 2 0 N d = .ok d' ∧
          d'.writebuf_samplecnt = d.writebuf_samplecnt + N ∧ (∃ m', QueueInv d' m') ∧
          ∀ i, i < 2048 →
            (d'.queue.pending i =
                (d.queue.pending i &&
                  decide (d.writebuf_samplecnt + N ≤ (d.writebuf i).time)) ∧
              (d'.writebuf i).time = (d.writebuf i).time ∧
              (d'.writebuf i).data = (d.writebuf i).data)) ∧
      ∃ c₁ c₂ : YM3438,
        OPN2_WriteBuffered 2 0 chip_reset 0 0x30 = .ok c₁ ∧
        OPN2_WriteBuffered 2 0 c₁ 1 0x71 = .ok c₂ ∧
        QueueInv c₂ (0 + 2) ∧
        c₂.writebuf (chip_reset.queue.slot 0) =
          { port := (0 &&& 3) ||| 4, data := 0x30
            time := max (chip_reset.writebuf_lasttime + 15) chip_reset.writebuf_samplecnt } ∧
        c₂.writebuf (chip_reset.queue.slot (0 + 1)) =
          { port := (1 &&& 3) ||| 4, data := 0x71
            time :=
              max (chip_reset.writebuf_lasttime + 15) chip_reset.writebuf_samplecnt + 15 } ∧
        ∀ N, chip_reset.writebuf_samplecnt + N < 2 ^ 64 →
          ∃ d, OPN2_GenerateResampled_clocks 2 0 N c₂ = .ok d ∧
            d.queue.pending (chip_reset.queue.slot 0) =
              decide (chip_reset.writebuf_samplecnt + N ≤
                max (chip_reset.writebuf_lasttime + 15) chip_reset.writebuf_samplecnt) ∧
            d.queue.pending (chip_reset.queue.slot (0 + 1)) =
              decide (chip_reset.writebuf_samplecnt + N ≤
                max (chip_reset.writebuf_lasttime + 15) chip_reset.writebuf_samplecnt + 15)) :=
  ⟨QueueInv_reset, by decide, by decide, by decide,
    C8_write_queue_order 2 0 chip_reset 0 0 0x30 1 0x71 QueueInv_reset (by decide) (by decide)
      (by decide)⟩

theorem late_not_pending (i : Nat) : chip_late.queue.pending i = false := by
  show ((0 : Nat) &&& 0x04 != 0) = false
  decide

theorem QueueInv_late : QueueInv chip_late 0 :=
  ⟨⟨Nat.zero_lt_succ 2047, Nat.zero_le 2048, fun _ h => absurd h (Nat.not_lt_zero _),
      fun _ _ _ => late_not_pending _, fun _ _ _ h => absurd h (Nat.not_lt_zero _),
      fun _ h => absurd h (Nat.not_lt_zero _)⟩,
    rfl, fun _ h => absurd h (Nat.not_lt_zero _)⟩

theorem WriteBuffered_free (fuel ct : Nat) (c : YM3438) (p dd : Nat)
    (h : ((c.writebuf c.writebuf_last).port &&& 0x04 != 0) = false) :
    OPN2_WriteBuffered fuel ct c p dd = .ok (OPN2_WriteBuffered_insert c p dd) := by
  simp only [OPN2_WriteBuffered, h, Bool.false_eq_true, if_false]

/-- Without the condition on overflow C8 fails.  On a chip with an empty queue
and `writebuf_samplecnt = 2^64 - 16`, three consecutive writes are scheduled at
`2^64 - 16`, `2^64 - 1` and, because `2^64 - 1 + 15` wraps to 14, again at
`2^64 - 16`.  The second and the third, inserted by consecutive calls into a
queue with one entry, are both pending after 15 rounds of the loop
`for range 24` and both handed over in the 16th: they reach `OPN2_Write` after
the same clock. -/
theorem C8_counterexample :
    ∃ c₁ c₂ c₃ d₁₅ d₁₆ : YM3438,
      OPN2_WriteBuffered 3 0 chip_late 0 0x30 = .ok c₁ ∧
      OPN2_WriteBuffered 3 0 c₁ 1 0x71 = .ok c₂ ∧
      OPN2_WriteBuffered 3 0 c₂ 0 0x40 = .ok c₃ ∧
      QueueInv c₁ 1 ∧
      (c₃.writebuf 1).time = 18446744073709551615 ∧
      (c₃.writebuf 2).time = 18446744073709551600 ∧
      OPN2_GenerateResampled_clocks 3 0 15 c₃ = .ok d₁₅ ∧
      OPN2_GenerateResampled_clocks 3 0 16 c₃ = .ok d₁₆ ∧
      d₁₅.queue.pending 1 = true ∧ d₁₅.queue.pending 2 = true ∧
      d₁₆.queue.pending 1 = false ∧ d₁₆.queue.pending 2 = false := by
  obtain ⟨a1, a2, -⟩ := QueueInv_insert 3 0 chip_late 0 0 0x30 QueueInv_late (by decide)
    (by decide)
  have b1 := WriteBuffered_free 3 0 (OPN2_WriteBuffered_insert chip_late 0 0x30) 1 0x71 rfl
  have c1 := WriteBuffered_free 3 0
    (OPN2_WriteBuffered_insert (OPN2_WriteBuffered_insert chip_late 0 0x30) 1 0x71) 0 0x40 rfl
  have h15 : ∃ q, (OPN2_WriteBuffered_insert (OPN2_WriteBuffered_insert
      (OPN2_WriteBuffered_insert chip_late 0 0x30) 1 0x71) 0 0x40).queue.rounds 3 15 = .ok q ∧
      q.pending 1 = true ∧ q.pending 2 = true := ⟨_, rfl, rfl, rfl⟩
  have h16 : ∃ q, (OPN2_WriteBuffered_insert (OPN2_WriteBuffered_insert
      (OPN2_WriteBuffered_insert chip_late 0 0x30) 1 0x71) 0 0x40).queue.rounds 3 16 = .ok q ∧
      q.pending 1 = false ∧ q.pending 2 = false := ⟨_, rfl, rfl, rfl⟩
  obtain ⟨q15, e15, p15, p15'⟩ := h15
  obtain ⟨q16, e16, p16, p16'⟩ := h16
  have m15 := clocks_queue 3 0 15 (OPN2_WriteBuffered_insert (OPN2_WriteBuffered_insert
      (OPN2_WriteBuffered_insert chip_late 0 0x30) 1 0x71) 0 0x40)
  have m16 := clocks_queue 3 0 16 (OPN2_WriteBuffered_insert (OPN2_WriteBuffered_insert
      (OPN2_WriteBuffered_insert chip_late 0 0x30) 1 0x71) 0 0x40)
  rw [e15] at m15
  rw [e16] at m16
  obtain ⟨d15, hd15, hq15⟩ := map_eq_ok _ _ _ m15
  obtain ⟨d16, hd16, hq16⟩ := map_eq_ok _ _ _ m16
  refine ⟨_, _, _, d15, d16, a1, b1, c1, a2, rfl, rfl, hd15, hd16, ?_, ?_, ?_, ?_⟩
  · rw [hq15]
    exact p15
  · rw [hq15]
    exact p15'
  · rw [hq16]
    exact p16
  · rw [hq16]
    exact p16'

/-! ## Busy flag -/

theorem Clock_busy (ct : Nat) (c : YM3438) : (OPN2_Clock ct c).1.busy = c.write_busy := by
  have h := congrArg YM3438.busy (busPart_Clock ct c)
  exact h

theorem Clock_write_busy (ct : Nat) (c : YM3438) :
    (OPN2_Clock ct c).1.write_busy =
      ToInt ((c.write_busy != 0 && u8 (c.write_busy_cnt + c.write_busy) >>> 5 == 0) ||
        ToInt (c.write_d &&& 0x03 == 0x01) != 0) := by
  have h := congrArg YM3438.write_busy (busPart_Clock ct c)
  exact h

theorem Clock_write_busy_cnt (ct : Nat) (c : YM3438) :
    (OPN2_Clock ct c).1.write_busy_cnt = u8 (c.write_busy_cnt + c.write_busy) &&& 0x1f := by
  have h := congrArg YM3438.write_busy_cnt (busPart_Clock ct c)
  exact h

theorem Clock_n_last (ct n : Nat) : ∀ c : YM3438,
    OPN2_Clock_n ct (n + 1) c = (OPN2_Clock ct (OPN2_Clock_n ct n c)).1 := by
  induction n with
  | zero =>
    intro c
    rfl
  | succ n ih =>
    intro c
    rw [Clock_n_succ, ih, Clock_n_succ]

/-- One clock with no data write pending: `busy` takes the value of
`write_busy`, the busy counter goes up by `write_busy` and `write_busy` falls
when the counter reaches 32. -/
theorem Clock_busy_step (ct : Nat) (c : YM3438) (hd : c.write_d % 2 = 0)
    (hcnt : c.write_busy_cnt < 32) (hb : c.write_busy ≤ 1) :
    (OPN2_Clock ct c).1.write_d % 2 = 0 ∧ (OPN2_Clock ct c).1.busy = c.write_busy ∧
      (OPN2_Clock ct c).1.write_busy =
        (if c.write_busy = 1 ∧ c.write_busy_cnt < 31 then 1 else 0) ∧
      (OPN2_Clock ct c).1.write_busy_cnt = (c.write_busy_cnt + c.write_busy) % 32 := by
  have hd3 : (c.write_d &&& 0x03 == 0x01) = false := by
    rw [and_three]
    simp
    omega
  refine ⟨?_, Clock_busy ct c, ?_, ?_⟩
  · rw [Clock_write_d]
    simp only [u8, Nat.shiftLeft_eq]
    omega
  · rw [Clock_write_busy, hd3]
    have h8 : u8 (c.write_busy_cnt + c.write_busy) = c.write_busy_cnt + c.write_busy :=
      Nat.mod_eq_of_lt (by omega)
    have hs : ∀ x : Nat, x >>> 5 = x / 32 := fun x => Nat.shiftRight_eq_div_pow x 5
    rw [h8, hs]
    rcases Nat.eq_zero_or_pos c.write_busy with h0 | h0
    · simp [h0, ToInt]
    · have h1 : c.write_busy = 1 := by omega
      by_cases h31 : c.write_busy_cnt < 31
      · have : (c.write_busy_cnt + 1) / 32 = 0 := by omega
        simp [h1, h31, this, ToInt]
      · have : (c.write_busy_cnt + 1) / 32 ≠ 0 := by omega
        simp [h1, h31, this, ToInt]
  · rw [Clock_write_busy_cnt]
    have h8 : u8 (c.write_busy_cnt + c.write_busy) = c.write_busy_cnt + c.write_busy :=
      Nat.mod_eq_of_lt (by omega)
    rw [h8]
    exact Nat.and_pow_two_sub_one_eq_mod _ 5

/-- The busy counter after a data write: the state after `k >= 1` clocks. -/
theorem busy_run (ct : Nat) (c : YM3438) (hb : c.write_busy = 0) (hcnt : c.write_busy_cnt = 0)
    (hd : c.write_d % 4 = 1) (k : Nat) :
    (OPN2_Clock_n ct (k + 1) c).write_d % 2 = 0 ∧
      (OPN2_Clock_n ct (k + 1) c).busy = (if 1 ≤ k ∧ k ≤ 32 then 1 else 0) ∧
      (OPN2_Clock_n ct (k + 1) c).write_busy = (if k < 32 then 1 else 0) ∧
      (OPN2_Clock_n ct (k + 1) c).write_busy_cnt = (if k < 32 then k else 0) := by
  induction k with
  | zero =>
    have hd3 : (c.write_d &&& 0x03 == 0x01) = true := by
      rw [and_three, hd]
      rfl
    refine ⟨?_, ?_, ?_, ?_⟩
    · show (OPN2_Clock ct c).1.write_d % 2 = 0
      rw [Clock_write_d]
      simp only [u8, Nat.shiftLeft_eq]
      omega
    · show (OPN2_Clock ct c).1.busy = _
      rw [Clock_busy, hb]
      rfl
    · show (OPN2_Clock ct c).1.write_busy = _
      rw [Clock_write_busy, hd3, hb]
      rfl
    · show (OPN2_Clock ct c).1.write_busy_cnt = _
      rw [Clock_write_busy_cnt, hb, hcnt]
      rfl
  | succ k ih =>
    obtain ⟨i1, i2, i3, i4⟩ := ih
    rw [Clock_n_last]
    have hc32 : (OPN2_Clock_n ct (k + 1) c).write_busy_cnt < 32 := by
      rw [i4]
      split <;> omega
    have hb1 : (OPN2_Clock_n ct (k + 1) c).write_busy ≤ 1 := by
      rw [i3]
      split <;> omega
    obtain ⟨s1, s2, s3, s4⟩ := Clock_busy_step ct _ i1 hc32 hb1
    rcases Nat.lt_or_ge k 32 with hk | hk
    · rw [if_pos hk] at i3 i4
      rw [i3, i4] at s3 s4
      rw [i3] at s2
      refine ⟨s1, ?_, ?_, ?_⟩
      · rw [s2, if_pos ⟨by omega, by omega⟩]
      · rw [s3]
        by_cases h31 : k < 31
        · rw [if_pos ⟨rfl, h31⟩, if_pos (by omega)]
        · rw [if_neg (fun h => h31 h.2), if_neg (by omega)]
      · rw [s4]
        by_cases h31 : k < 31
        · rw [if_pos (by omega)]
          omega
        · rw [if_neg (by omega)]
          omega
    · rw [if_neg (by omega)] at i3 i4
      rw [i3, i4] at s3 s4
      rw [i3] at s2
      refine ⟨s1, ?_, ?_, ?_⟩
      · rw [s2, if_neg (by omega)]
      · rw [s3, if_neg (fun h => absurd h.1 (by decide)), if_neg (by omega)]
      · rw [s4, if_neg (by omega)]

/-- C11: from a state with `write_busy = 0`, `write_busy_cnt = 0` and the low
two bits of `write_d` clear, after one `OPN2_Write` to an odd port and no
further write, `chip.busy` is 0 after the first `OPN2_Clock`, 1 after each of
the next 32 and 0 after every later one. -/
theorem C11_busy_duration (chip_type : Nat) (chip : YM3438) (port data : Nat)
    (hbusy : chip.write_busy = 0) (hcnt : chip.write_busy_cnt = 0)
    (hd : chip.write_d &&& 3 = 0) (hport : port &&& 1 = 1) :
    (OPN2_Clock_n chip_type 1 (OPN2_Write chip port data)).busy = 0 ∧
      (∀ k, 2 ≤ k → k ≤ 33 →
        (OPN2_Clock_n chip_type k (OPN2_Write chip port data)).busy = 1) ∧
      ∀ k, 34 ≤ k → (OPN2_Clock_n chip_type k (OPN2_Write chip port data)).busy = 0 := by
  have hp : ((port &&& 3) &&& 1 != 0) = true := by
    rw [Nat.and_assoc, show (3 &&& 1 : Nat) = 1 from rfl, hport]
    rfl
  obtain ⟨-, -, hwd, -⟩ := Write_fields chip port data
  rw [hp, if_pos rfl] at hwd
  have hd4 : (OPN2_Write chip port data).write_d % 4 = 1 := by
    rw [hwd]
    rw [and_three] at hd
    exact or_one_mod_four _ hd
  have key := busy_run chip_type (OPN2_Write chip port data) hbusy hcnt hd4
  refine ⟨?_, ?_, ?_⟩
  · have := (key 0).2.1
    simpa using this
  · intro k h2 h33
    obtain ⟨j, rfl⟩ : ∃ j, k = j + 1 := ⟨k - 1, by omega⟩
    rw [(key j).2.1, if_pos ⟨by omega, by omega⟩]
  · intro k h34
    obtain ⟨j, rfl⟩ : ∃ j, k = j + 1 := ⟨k - 1, by omega⟩
    rw [(key j).2.1, if_neg (by omega)]

/-- C11 on the chip after reset, for the write of `0x10` to port 1. -/
theorem C11_busy_duration_witness :
    chip_reset.write_busy = 0 ∧ chip_reset.write_busy_cnt = 0 ∧ chip_reset.write_d &&& 3 = 0 ∧
      1 &&& 1 = 1 ∧
      (OPN2_Clock_n 0 1 (OPN2_Write chip_reset 1 0x10)).busy = 0 ∧
      (∀ k, 2 ≤ k → k ≤ 33 → (OPN2_Clock_n 0 k (OPN2_Write chip_reset 1 0x10)).busy = 1) ∧
      ∀ k, 34 ≤ k → (OPN2_Clock_n 0 k (OPN2_Write chip_reset 1 0x10)).busy = 0 :=
  ⟨rfl, rfl, rfl, rfl, C11_busy_duration 0 chip_reset 1 0x10 rfl rfl rfl rfl⟩

/-! ## Unrecognized addresses -/

theorem op_offset_low : ∀ j, op_offset j &&& 3 ≠ 3 := by
  intro j
  by_cases h : j < 12
  · interval_cases j <;> decide
  · have : op_offset j = 0 := by
      unfold op_offset tab1
      exact List.getD_eq_default _ _ (by simp; omega)
    rw [this]
    decide

theorem ch_offset_low : ∀ j, ch_offset j &&& 3 ≠ 3 := by
  intro j
  by_cases h : j < 6
  · interval_cases j <;> decide
  · have : ch_offset j = 0 := by
      unfold ch_offset tab1
      exact List.getD_eq_default _ _ (by simp; omega)
    rw [this]
    decide

/-- An address with both low bits set matches no operator and no channel
offset. -/
theorem offset_miss (a j : Nat) (h : a &&& 3 = 3) :
    (op_offset j == a &&& 0x107) = false ∧ (ch_offset j == a &&& 0x103) = false := by
  have h1 : (a &&& 0x107) &&& 3 = 3 := by
    rw [Nat.and_assoc, show (0x107 &&& 3 : Nat) = 3 from rfl, h]
  have h2 : (a &&& 0x103) &&& 3 = 3 := by
    rw [Nat.and_assoc, show (0x103 &&& 3 : Nat) = 3 from rfl, h]
  constructor
  · rw [beq_eq_false_iff_ne]
    intro e
    rw [← e] at h1
    exact op_offset_low j h1
  · rw [beq_eq_false_iff_ne]
    intro e
    rw [← e] at h2
    exact ch_offset_low j h2

set_option maxRecDepth 100000 in
theorem case_miss_small : ∀ r, r < 512 →
    ((r >>> 4) &&& 0xf < 3 ∨ 0xB < (r >>> 4) &&& 0xf) →
    ((r &&& 0xf0 == 0x30) = false ∧ (r &&& 0xf0 == 0x40) = false ∧
      (r &&& 0xf0 == 0x50) = false ∧ (r &&& 0xf0 == 0x60) = false ∧
      (r &&& 0xf0 == 0x70) = false ∧ (r &&& 0xf0 == 0x80) = false ∧
      (r &&& 0xf0 == 0x90) = false) ∧
    ((r &&& 0xfc == 0xa0) = false ∧ (r &&& 0xfc == 0xa4) = false ∧
      (r &&& 0xfc == 0xa8) = false ∧ (r &&& 0xfc == 0xac) = false ∧
      (r &&& 0xfc == 0xb0) = false ∧ (r &&& 0xfc == 0xb4) = false) := by
  decide

/-- An address whose bits 4-7 are outside `0x3..0xB` selects no case of the two
switches of the register update. -/
theorem case_miss (a : Nat) (h : (a >>> 4) &&& 0xf < 3 ∨ 0xB < (a >>> 4) &&& 0xf) :
    ((a &&& 0xf0 == 0x30) = false ∧ (a &&& 0xf0 == 0x40) = false ∧
      (a &&& 0xf0 == 0x50) = false ∧ (a &&& 0xf0 == 0x60) = false ∧
      (a &&& 0xf0 == 0x70) = false ∧ (a &&& 0xf0 == 0x80) = false ∧
      (a &&& 0xf0 == 0x90) = false) ∧
    ((a &&& 0xfc == 0xa0) = false ∧ (a &&& 0xfc == 0xa4) = false ∧
      (a &&& 0xfc == 0xa8) = false ∧ (a &&& 0xfc == 0xac) = false ∧
      (a &&& 0xfc == 0xb0) = false ∧ (a &&& 0xfc == 0xb4) = false) := by
  have hn : (a >>> 4) &&& 0xf = ((a % 512) >>> 4) &&& 0xf := by
    have e1 := Nat.and_pow_two_sub_one_eq_mod (a >>> 4) 4
    have e2 := Nat.and_pow_two_sub_one_eq_mod ((a % 512) >>> 4) 4
    simp only [show (2 : Nat) ^ 4 - 1 = 0xf from rfl] at e1 e2
    rw [e1, e2, Nat.shiftRight_eq_div_pow, Nat.shiftRight_eq_div_pow]
    omega
  rw [hn] at h
  rw [and_mod_512 a 0xf0 rfl, and_mod_512 a 0xfc rfl]
  exact case_miss_small (a % 512) (Nat.mod_lt _ (by decide)) h

/-- The register update does nothing when no operator and no channel offset
matches or no case of its switches is selected. -/
theorem DoRegWrite_update_miss (c : YM3438)
    (h : c.address &&& 3 = 3 ∨
      ((c.address >>> 4) &&& 0xf < 3 ∨ 0xB < (c.address >>> 4) &&& 0xf)) :
    OPN2_DoRegWrite_update c = c := by
  rcases h with h | h
  · have h1 := (offset_miss c.address (c.cycles % 12) h).1
    have h2 := (offset_miss c.address c.channel h).2
    have hs : OPN2_DoRegWrite_slot c = c := by
      simp only [OPN2_DoRegWrite_slot, h1, Bool.and_false, Bool.false_and, Bool.false_eq_true,
        if_false]
    have hc : OPN2_DoRegWrite_channel c = c := by
      simp only [OPN2_DoRegWrite_channel, h2, Bool.and_false, Bool.false_and,
        Bool.false_eq_true, if_false]
    rw [OPN2_DoRegWrite_update, hs, hc]
  · obtain ⟨⟨a1, a2, a3, a4, a5, a6, a7⟩, b1, b2, b3, b4, b5, b6⟩ := case_miss c.address h
    have hs : OPN2_DoRegWrite_slot c = c := by
      simp only [OPN2_DoRegWrite_slot, a1, a2, a3, a4, a5, a6, a7, Bool.and_false,
        Bool.false_eq_true, if_false]
    have hc : OPN2_DoRegWrite_channel c = c := by
      simp only [OPN2_DoRegWrite_channel, b1, b2, b3, b4, b5, b6, Bool.and_false,
        Bool.false_eq_true, if_false]
    rw [OPN2_DoRegWrite_update, hs, hc]

/-- C12: when the low two bits of the latched address are 3, or its bits 4-7
are outside `0x3..0xB`, the register-update part of `OPN2_DoRegWrite` leaves
the operator arrays `ks, ar, sr, dt, multi, sl, rr, dr, am, tl, ssg_eg` and the
channel fields `fnum, block, kcode`, their `_3ch` copies, `reg_a4, reg_ac,
connect, fb, pan_l, pan_r, ams, pms` unchanged; it holds whatever
`write_fm_data` and `cycles` are. -/
theorem C12_unrecognized_address (chip : YM3438)
    (haddr : chip.address &&& 3 = 3 ∨
      ((chip.address >>> 4) &&& 0xf < 3 ∨ 0xB < (chip.address >>> 4) &&& 0xf)) :
    ((OPN2_DoRegWrite_update chip).ks = chip.ks ∧ (OPN2_DoRegWrite_update chip).ar = chip.ar ∧
      (OPN2_DoRegWrite_update chip).sr = chip.sr ∧ (OPN2_DoRegWrite_update chip).dt = chip.dt ∧
      (OPN2_DoRegWrite_update chip).multi = chip.multi ∧
      (OPN2_DoRegWrite_update chip).sl = chip.sl ∧ (OPN2_DoRegWrite_update chip).rr = chip.rr ∧
      (OPN2_DoRegWrite_update chip).dr = chip.dr ∧ (OPN2_DoRegWrite_update chip).am = chip.am ∧
      (OPN2_DoRegWrite_update chip).tl = chip.tl ∧
      (OPN2_DoRegWrite_update chip).ssg_eg = chip.ssg_eg) ∧
    ((OPN2_DoRegWrite_update chip).fnum = chip.fnum ∧
      (OPN2_DoRegWrite_update chip).block = chip.block ∧
      (OPN2_DoRegWrite_update chip).kcode = chip.kcode ∧
      (OPN2_DoRegWrite_update chip).fnum_3ch = chip.fnum_3ch ∧
      (OPN2_DoRegWrite_update chip).block_3ch = chip.block_3ch ∧
      (OPN2_DoRegWrite_update chip).kcode_3ch = chip.kcode_3ch ∧
      (OPN2_DoRegWrite_update chip).reg_a4 = chip.reg_a4 ∧
      (OPN2_DoRegWrite_update chip).reg_ac = chip.reg_ac ∧
      (OPN2_DoRegWrite_update chip).connect = chip.connect ∧
      (OPN2_DoRegWrite_update chip).fb = chip.fb ∧
      (OPN2_DoRegWrite_update chip).pan_l = chip.pan_l ∧
      (OPN2_DoRegWrite_update chip).pan_r = chip.pan_r ∧
      (OPN2_DoRegWrite_update chip).ams = chip.ams ∧
      (OPN2_DoRegWrite_update chip).pms = chip.pms) := by
  rw [DoRegWrite_update_miss chip haddr]
  exact ⟨⟨rfl, rfl, rfl, rfl, rfl, rfl, rfl, rfl, rfl, rfl, rfl⟩,
    rfl, rfl, rfl, rfl, rfl, rfl, rfl, rfl, rfl, rfl, rfl, rfl, rfl, rfl⟩

/-- C12 for a write to the address `0x43`. -/
theorem C12_unrecognized_address_witness :
    (chip_address_43.address &&& 3 = 3 ∨
      ((chip_address_43.address >>> 4) &&& 0xf < 3 ∨
        0xB < (chip_address_43.address >>> 4) &&& 0xf)) ∧
      ((OPN2_DoRegWrite_update chip_address_43).ks = chip_address_43.ks ∧
        (OPN2_DoRegWrite_update chip_address_43).ar = chip_address_43.ar ∧
        (OPN2_DoRegWrite_update chip_address_43).sr = chip_address_43.sr ∧
        (OPN2_DoRegWrite_update chip_address_43).dt = chip_address_43.dt ∧
        (OPN2_DoRegWrite_update chip_address_43).multi = chip_address_43.multi ∧
        (OPN2_DoRegWrite_update chip_address_43).sl = chip_address_43.sl ∧
        (OPN2_DoRegWrite_update chip_address_43).rr = chip_address_43.rr ∧
        (OPN2_DoRegWrite_update chip_address_43).dr = chip_address_43.dr ∧
        (OPN2_DoRegWrite_update chip_address_43).am = chip_address_43.am ∧
        (OPN2_DoRegWrite_update chip_address_43).tl = chip_address_43.tl ∧
        (OPN2_DoRegWrite_update chip_address_43).ssg_eg = chip_address_43.ssg_eg) ∧
      ((OPN2_DoRegWrite_update chip_address_43).fnum = chip_address_43.fnum ∧
        (OPN2_DoRegWrite_update chip_address_43).block = chip_address_43.block ∧
        (OPN2_DoRegWrite_update chip_address_43).kcode = chip_address_43.kcode ∧
        (OPN2_DoRegWrite_update chip_address_43).fnum_3ch = chip_address_43.fnum_3ch ∧
        (OPN2_DoRegWrite_update chip_address_43).block_3ch = chip_address_43.block_3ch ∧
        (OPN2_DoRegWrite_update chip_address_43).kcode_3ch = chip_address_43.kcode_3ch ∧
        (OPN2_DoRegWrite_update chip_address_43).reg_a4 = chip_address_43.reg_a4 ∧
        (OPN2_DoRegWrite_update chip_address_43).reg_ac = chip_address_43.reg_ac ∧
        (OPN2_DoRegWrite_update chip_address_43).connect = chip_address_43.connect ∧
        (OPN2_DoRegWrite_update chip_address_43).fb = chip_address_43.fb ∧
        (OPN2_DoRegWrite_update chip_address_43).pan_l = chip_address_43.pan_l ∧
        (OPN2_DoRegWrite_update chip_address_43).pan_r = chip_address_43.pan_r ∧
        (OPN2_DoRegWrite_update chip_address_43).ams = chip_address_43.ams ∧
        (OPN2_DoRegWrite_update chip_address_43).pms = chip_address_43.pms) :=
  ⟨Or.inl rfl, C12_unrecognized_address chip_address_43 (Or.inl rfl)⟩

/-! ## Phase accumulator -/

theorem phase_slots_ne (n : Nat) : u32 (n + 19) % 24 ≠ u32 (n + 20) % 24 := by
  unfold u32
  omega

theorem u32_and_fffff (x : Nat) : u32 x &&& 0xfffff = x % 2 ^ 20 := by
  have h := Nat.and_pow_two_sub_one_eq_mod (u32 x) 20
  simp only [show (2 : Nat) ^ 20 - 1 = 0xfffff from rfl] at h
  rw [h]
  unfold u32
  exact Nat.mod_mod_of_dvd x (by decide)

/-- C13: with `s` the slot `(cycles + 19) % 24` stepped by
`OPN2_PhaseGenerate` (the sum is formed in `uint32`), if `pg_reset[s] = 0` and
`mode_test_21[3] = 0` the new `pg_phase[s]` is
`(pg_phase[s] + pg_inc[s]) mod 2^20`, and `pg_phase` of every other slot is
unchanged. -/
theorem C13_phase_wraparound (chip : YM3438)
    (hreset : chip.pg_reset (u32 (chip.cycles + 19) % 24) = 0)
    (htest : chip.mode_test_21 3 = 0) :
    (OPN2_PhaseGenerate chip).pg_phase (u32 (chip.cycles + 19) % 24) =
        (chip.pg_phase (u32 (chip.cycles + 19) % 24) +
          chip.pg_inc (u32 (chip.cycles + 19) % 24)) % 2 ^ 20 ∧
      (∀ i, i ≠ u32 (chip.cycles + 19) % 24 →
        (OPN2_PhaseGenerate chip).pg_phase i = chip.pg_phase i) ∧
      (chip.cycles + 19 < 2 ^ 32 → u32 (chip.cycles + 19) % 24 = (chip.cycles + 19) % 24) := by
  have hc : (chip.pg_reset (u32 (chip.cycles + 19) % 24) != 0 || chip.mode_test_21 3 != 0) =
      false := by
    rw [hreset, htest]
    rfl
  have hinc : (if chip.pg_reset (u32 (chip.cycles + 20) % 24) != 0 then
        upd chip.pg_inc (u32 (chip.cycles + 20) % 24) 0 else chip.pg_inc)
      (u32 (chip.cycles + 19) % 24) = chip.pg_inc (u32 (chip.cycles + 19) % 24) := by
    split
    · exact upd_other _ _ _ _ (phase_slots_ne chip.cycles)
    · rfl
  refine ⟨?_, ?_, ?_⟩
  · simp only [OPN2_PhaseGenerate, hc, Bool.false_eq_true, if_false, upd_same, hinc]
    exact u32_and_fffff _
  · intro i hi
    simp only [OPN2_PhaseGenerate, hc, Bool.false_eq_true, if_false, upd_upd]
    exact upd_other _ _ _ _ hi
  · intro h
    have h' : chip.cycles + 19 < 4294967296 := h
    unfold u32
    rw [Nat.mod_eq_of_lt h']

/-- C13 for the phase `0xFFFFF` and the increment 1: the new phase is 0. -/
theorem C13_phase_wraparound_witness :
    chip_phase_top.pg_reset (u32 (chip_phase_top.cycles + 19) % 24) = 0 ∧
      chip_phase_top.mode_test_21 3 = 0 ∧
      ((OPN2_PhaseGenerate chip_phase_top).pg_phase (u32 (chip_phase_top.cycles + 19) % 24) =
          (chip_phase_top.pg_phase (u32 (chip_phase_top.cycles + 19) % 24) +
            chip_phase_top.pg_inc (u32 (chip_phase_top.cycles + 19) % 24)) % 2 ^ 20 ∧
        (∀ i, i ≠ u32 (chip_phase_top.cycles + 19) % 24 →
          (OPN2_PhaseGenerate chip_phase_top).pg_phase i = chip_phase_top.pg_phase i) ∧
        (chip_phase_top.cycles + 19 < 2 ^ 32 →
          u32 (chip_phase_top.cycles + 19) % 24 = (chip_phase_top.cycles + 19) % 24)) ∧
      (chip_phase_top.pg_phase 19 + chip_phase_top.pg_inc 19) % 2 ^ 20 = 0 :=
  ⟨rfl, rfl, C13_phase_wraparound chip_phase_top rfl rfl, rfl⟩

/-! ## Envelope generator -/

theorem ADSR_eg_state (c : YM3438) :
    (OPN2_EnvelopeADSR c).eg_state =
      upd c.eg_state (u32 (c.cycles + 22) % 24)
        (if (OPN2_EnvelopeADSR_kon_event c (u32 (c.cycles + 22) % 24) == 0 &&
              c.eg_ssg_hold_up_latch (u32 (c.cycles + 22) % 24) == 0 &&
              c.eg_state (u32 (c.cycles + 22) % 24) != eg_num_attack &&
              OPN2_EnvelopeADSR_eg_off c (u32 (c.cycles + 22) % 24) != 0) then eg_num_release
          else
            (OPN2_EnvelopeADSR_next c (u32 (c.cycles + 22) % 24)
              (OPN2_EnvelopeADSR_kon_event c (u32 (c.cycles + 22) % 24))
              (OPN2_EnvelopeADSR_eg_off c (u32 (c.cycles + 22) % 24))
              (OPN2_EnvelopeADSR_level c (u32 (c.cycles + 22) % 24))).1) := rfl

theorem ADSR_eg_level (c : YM3438) :
    (OPN2_EnvelopeADSR c).eg_level =
      upd c.eg_level (u32 (c.cycles + 22) % 24)
        (bits16 (i16 ((if (OPN2_EnvelopeADSR_kon_event c (u32 (c.cycles + 22) % 24) == 0 &&
              c.eg_ssg_hold_up_latch (u32 (c.cycles + 22) % 24) == 0 &&
              c.eg_state (u32 (c.cycles + 22) % 24) != eg_num_attack &&
              OPN2_EnvelopeADSR_eg_off c (u32 (c.cycles + 22) % 24) != 0) then 0x3ff
          else
            (if c.eg_kon_csm (u32 (c.cycles + 22) % 24) != 0 then
              ior16
                (OPN2_EnvelopeADSR_next c (u32 (c.cycles + 22) % 24)
                  (OPN2_EnvelopeADSR_kon_event c (u32 (c.cycles + 22) % 24))
                  (OPN2_EnvelopeADSR_eg_off c (u32 (c.cycles + 22) % 24))
                  (OPN2_EnvelopeADSR_level c (u32 (c.cycles + 22) % 24))).2.1
                (ishl16 (c.eg_tl 1 : Nat) 3)
            else
              (OPN2_EnvelopeADSR_next c (u32 (c.cycles + 22) % 24)
                (OPN2_EnvelopeADSR_kon_event c (u32 (c.cycles + 22) % 24))
                (OPN2_EnvelopeADSR_eg_off c (u32 (c.cycles + 22) % 24))
                (OPN2_EnvelopeADSR_level c (u32 (c.cycles + 22) % 24))).2.1)) +
          (OPN2_EnvelopeADSR_next c (u32 (c.cycles + 22) % 24)
            (OPN2_EnvelopeADSR_kon_event c (u32 (c.cycles + 22) % 24))
            (OPN2_EnvelopeADSR_eg_off c (u32 (c.cycles + 22) % 24))
            (OPN2_EnvelopeADSR_level c (u32 (c.cycles + 22) % 24))).2.2)) &&& 0x3ff) := rfl

theorem ADSR_pg_reset (c : YM3438) :
    (OPN2_EnvelopeADSR c).pg_reset =
      upd c.pg_reset (u32 (c.cycles + 22) % 24)
        (ToInt ((c.eg_kon_latch (u32 (c.cycles + 22) % 24) != 0 &&
            c.eg_kon (u32 (c.cycles + 22) % 24) == 0) ||
          c.eg_ssg_pgrst_latch (u32 (c.cycles + 22) % 24) != 0)) := rfl

/-- With a key-on event the next state is Attack. -/
theorem next_state_kon (c : YM3438) (s kon eo : Nat) (level : Int) (h : kon ≠ 0) :
    (OPN2_EnvelopeADSR_next c s kon eo level).1 = eg_num_attack := by
  have hk : (kon != 0) = true := by simpa using h
  simp only [OPN2_EnvelopeADSR_next, hk, if_true]
  split
  · rfl
  · split <;> rfl

/-- Without a key-on event and with the key off the next state is Release. -/
theorem next_state_koff (c : YM3438) (s eo : Nat) (level : Int)
    (h : c.eg_kon_latch s = 0) :
    (OPN2_EnvelopeADSR_next c s 0 eo level).1 = eg_num_release := by
  simp [OPN2_EnvelopeADSR_next, h]

/-- C18: when `eg_kon_latch[s] != 0` and `eg_kon[s] = 0` for the slot
`s = (cycles + 22) % 24` of `OPN2_EnvelopeADSR`, after the step
`eg_state[s]` is Attack, whatever the previous state, level, SSG-EG latches and
envelope-off condition, and `pg_reset[s] = 1`. -/
theorem C18_key_on_attack (chip : YM3438)
    (hlatch : chip.eg_kon_latch (u32 (chip.cycles + 22) % 24) ≠ 0)
    (hkon : chip.eg_kon (u32 (chip.cycles + 22) % 24) = 0) :
    (OPN2_EnvelopeADSR chip).eg_state (u32 (chip.cycles + 22) % 24) = eg_num_attack ∧
      (OPN2_EnvelopeADSR chip).pg_reset (u32 (chip.cycles + 22) % 24) = 1 := by
  have hl : (chip.eg_kon_latch (u32 (chip.cycles + 22) % 24) != 0) = true := by
    simpa using hlatch
  have hev : OPN2_EnvelopeADSR_kon_event chip (u32 (chip.cycles + 22) % 24) = 1 := by
    simp [OPN2_EnvelopeADSR_kon_event, hl, hkon, ToInt]
  constructor
  · rw [ADSR_eg_state, upd_same, hev]
    simp only [show ((1 : Nat) == 0) = false from rfl, Bool.false_and, Bool.false_eq_true,
      if_false]
    exact next_state_kon chip _ 1 _ _ (by decide)
  · rw [ADSR_pg_reset, upd_same, hl, hkon]
    rfl

/-- C18 on a chip whose operators are keyed on from Release. -/
theorem C18_key_on_attack_witness :
    chip_key_on.eg_kon_latch (u32 (chip_key_on.cycles + 22) % 24) ≠ 0 ∧
      chip_key_on.eg_kon (u32 (chip_key_on.cycles + 22) % 24) = 0 ∧
      (OPN2_EnvelopeADSR chip_key_on).eg_state (u32 (chip_key_on.cycles + 22) % 24) =
        eg_num_attack ∧
      (OPN2_EnvelopeADSR chip_key_on).pg_reset (u32 (chip_key_on.cycles + 22) % 24) = 1 :=
  ⟨by decide, rfl, C18_key_on_attack chip_key_on (by decide) rfl⟩

/-- C19, when the SSG-EG repeat latch is clear: with `eg_kon[s] != 0`,
`eg_kon_latch[s] = 0` and `eg_ssg_repeat_latch[s] = 0` for the slot
`s = (cycles + 22) % 24` of `OPN2_EnvelopeADSR`, after the step `eg_state[s]`
is Release, whatever the previous envelope state and the other SSG-EG
latches. -/
theorem C19_key_off_release (chip : YM3438)
    (hkon : chip.eg_kon (u32 (chip.cycles + 22) % 24) ≠ 0)
    (hlatch : chip.eg_kon_latch (u32 (chip.cycles + 22) % 24) = 0)
    (hrepeat : chip.eg_ssg_repeat_latch (u32 (chip.cycles + 22) % 24) = 0) :
    (OPN2_EnvelopeADSR chip).eg_state (u32 (chip.cycles + 22) % 24) = eg_num_release := by
  have hev : OPN2_EnvelopeADSR_kon_event chip (u32 (chip.cycles + 22) % 24) = 0 := by
    have hk : (chip.eg_kon (u32 (chip.cycles + 22) % 24) != 0) = true := by simpa using hkon
    simp only [OPN2_EnvelopeADSR_kon_event, hlatch, hrepeat, hk]
    rfl
  rw [ADSR_eg_state, upd_same, hev]
  split
  · rfl
  · exact next_state_koff chip _ _ _ hlatch

/-- C19 on a chip whose operators are keyed off in Decay. -/
theorem C19_key_off_release_witness :
    chip_key_off.eg_kon (u32 (chip_key_off.cycles + 22) % 24) ≠ 0 ∧
      chip_key_off.eg_kon_latch (u32 (chip_key_off.cycles + 22) % 24) = 0 ∧
      chip_key_off.eg_ssg_repeat_latch (u32 (chip_key_off.cycles + 22) % 24) = 0 ∧
      (OPN2_EnvelopeADSR chip_key_off).eg_state (u32 (chip_key_off.cycles + 22) % 24) =
        eg_num_release :=
  ⟨by decide, rfl, rfl, C19_key_off_release chip_key_off (by decide) rfl rfl⟩

/-- C19 as stated fails when the SSG-EG repeat latch of the slot is set: the
key-off edge (`eg_kon[s] != 0`, `eg_kon_latch[s] = 0`) then counts as a key-on
event and the slot enters Attack, not Release. -/
theorem C19_counterexample :
    chip_key_off_repeat.eg_kon (u32 (chip_key_off_repeat.cycles + 22) % 24) ≠ 0 ∧
      chip_key_off_repeat.eg_kon_latch (u32 (chip_key_off_repeat.cycles + 22) % 24) = 0 ∧
      (OPN2_EnvelopeADSR chip_key_off_repeat).eg_state
          (u32 (chip_key_off_repeat.cycles + 22) % 24) = eg_num_attack ∧
      eg_num_attack ≠ eg_num_release :=
  ⟨by decide, rfl, rfl, by decide⟩

theorem level_lt (c : YM3438) (s : Nat) : OPN2_EnvelopeADSR_level c s < 32768 := by
  have h16 : ∀ z : Int, i16 z < 32768 := by
    intro z
    unfold i16
    omega
  unfold OPN2_EnvelopeADSR_level
  simp only []
  split
  · split
    · exact h16 _
    · exact h16 _
  · exact h16 _

/-- The envelope-off condition `eg_off` holds when the level is saturated. -/
theorem eg_off_saturated (c : YM3438) (s : Nat)
    (h : (c.eg_ssg_enable s = 0 ∧
        iand16 (OPN2_EnvelopeADSR_level c s) 0x3f0 = 0x3f0) ∨
      (c.eg_ssg_enable s ≠ 0 ∧ 0x200 ≤ OPN2_EnvelopeADSR_level c s)) :
    OPN2_EnvelopeADSR_eg_off c s ≠ 0 := by
  unfold OPN2_EnvelopeADSR_eg_off
  rcases h with ⟨h1, h2⟩ | ⟨h1, h2⟩
  · simp [h1, h2, ToInt]
  · have hne : (c.eg_ssg_enable s != 0) = true := by simpa using h1
    have hlt := level_lt c s
    simp only [hne, if_true, isar]
    omega

/-- Without a key-on event, outside Attack and with `eg_off` set the
increment is 0. -/
theorem next_inc_off (c : YM3438) (s eo : Nat) (level : Int)
    (hst : c.eg_state s ≠ eg_num_attack) (heo : eo ≠ 0) :
    (OPN2_EnvelopeADSR_next c s 0 eo level).2.2 = 0 := by
  have h1 : (c.eg_state s == eg_num_attack) = false := by simpa using hst
  have h2 : (eo == 0) = false := by simpa using heo
  simp only [OPN2_EnvelopeADSR_next, show ((0 : Nat) != 0) = false from rfl, h1, h2,
    Bool.false_and, Bool.false_eq_true, if_false]
  split
  · split <;> rfl
  · split <;> rfl

/-- C20: for the slot `s = (cycles + 22) % 24` of `OPN2_EnvelopeADSR`, with no
key-on event, `eg_ssg_hold_up_latch[s] = 0`, `eg_state[s]` other than Attack
and the level saturated (`level & 0x3f0 = 0x3f0` without SSG-EG,
`level >= 0x200` with SSG-EG, for the level after the key-off inversion), the
step sets `eg_state[s]` to Release and `eg_level[s]` to `0x3ff`. -/
theorem C20_envelope_off (chip : YM3438)
    (hev : OPN2_EnvelopeADSR_kon_event chip (u32 (chip.cycles + 22) % 24) = 0)
    (hhold : chip.eg_ssg_hold_up_latch (u32 (chip.cycles + 22) % 24) = 0)
    (hstate : chip.eg_state (u32 (chip.cycles + 22) % 24) ≠ eg_num_attack)
    (hsat : (chip.eg_ssg_enable (u32 (chip.cycles + 22) % 24) = 0 ∧
        iand16 (OPN2_EnvelopeADSR_level chip (u32 (chip.cycles + 22) % 24)) 0x3f0 = 0x3f0) ∨
      (chip.eg_ssg_enable (u32 (chip.cycles + 22) % 24) ≠ 0 ∧
        0x200 ≤ OPN2_EnvelopeADSR_level chip (u32 (chip.cycles + 22) % 24))) :
    (OPN2_EnvelopeADSR chip).eg_state (u32 (chip.cycles + 22) % 24) = eg_num_release ∧
      (OPN2_EnvelopeADSR chip).eg_level (u32 (chip.cycles + 22) % 24) = 0x3ff := by
  have heo := eg_off_saturated chip _ hsat
  have hoff : (OPN2_EnvelopeADSR_kon_event chip (u32 (chip.cycles + 22) % 24) == 0 &&
      chip.eg_ssg_hold_up_latch (u32 (chip.cycles + 22) % 24) == 0 &&
      chip.eg_state (u32 (chip.cycles + 22) % 24) != eg_num_attack &&
      OPN2_EnvelopeADSR_eg_off chip (u32 (chip.cycles + 22) % 24) != 0) = true := by
    rw [hev, hhold]
    simp [hstate, heo]
  constructor
  · rw [ADSR_eg_state, upd_same, if_pos hoff]
  · rw [ADSR_eg_level, upd_same, if_pos hoff, hev, next_inc_off chip _ _ _ hstate heo]
    rfl

/-- C20 on a chip in Decay at the level `0x3f0`. -/
theorem C20_envelope_off_witness :
    OPN2_EnvelopeADSR_kon_event chip_saturated (u32 (chip_saturated.cycles + 22) % 24) = 0 ∧
      chip_saturated.eg_ssg_hold_up_latch (u32 (chip_saturated.cycles + 22) % 24) = 0 ∧
      chip_saturated.eg_state (u32 (chip_saturated.cycles + 22) % 24) ≠ eg_num_attack ∧
      ((chip_saturated.eg_ssg_enable (u32 (chip_saturated.cycles + 22) % 24) = 0 ∧
          iand16 (OPN2_EnvelopeADSR_level chip_saturated
            (u32 (chip_saturated.cycles + 22) % 24)) 0x3f0 = 0x3f0) ∨
        (chip_saturated.eg_ssg_enable (u32 (chip_saturated.cycles + 22) % 24) ≠ 0 ∧
          0x200 ≤ OPN2_EnvelopeADSR_level chip_saturated
            (u32 (chip_saturated.cycles + 22) % 24))) ∧
      (OPN2_EnvelopeADSR chip_saturated).eg_state (u32 (chip_saturated.cycles + 22) % 24) =
        eg_num_release ∧
      (OPN2_EnvelopeADSR chip_saturated).eg_level (u32 (chip_saturated.cycles + 22) % 24) =
        0x3ff :=
  ⟨rfl, rfl, by decide, Or.inl ⟨rfl, by decide⟩,
    C20_envelope_off chip_saturated rfl rfl (by decide) (Or.inl ⟨rfl, by decide⟩)⟩

theorem bits16_i16_small (z : Int) (h0 : 0 ≤ z) (h1 : z < 1024) :
    bits16 (i16 z) &&& 0x3ff = z.toNat := by
  have e : bits16 (i16 z) = z.toNat := by
    unfold bits16 i16
    omega
  rw [e]
  have h := Nat.and_pow_two_sub_one_eq_mod z.toNat 10
  simp only [show (2 : Nat) ^ 10 - 1 = 0x3ff from rfl] at h
  rw [h]
  omega

set_option maxRecDepth 100000 in
theorem and_3f0_lt : ∀ n, n < 1024 → n &&& 0x3f0 ≠ 0x3f0 → n < 0x3f0 := by
  decide

theorem iand16_small (n m : Nat) (hn : n < 32768) (hm : m < 32768) :
    iand16 (n : Int) (m : Int) = ((n &&& m : Nat) : Int) := by
  have e1 : bits16 (n : Int) = n := by
    unfold bits16
    omega
  have e2 : bits16 (m : Int) = m := by
    unfold bits16
    omega
  have hle : n &&& m ≤ n := Nat.and_le_left
  unfold iand16
  rw [e1, e2]
  unfold i16
  omega

/-- The increment of `OPN2_EnvelopePrepare` is at most 4. -/
theorem EnvelopePrepare_eg_inc (c : YM3438) : (OPN2_EnvelopePrepare c).eg_inc ≤ 4 := by
  have h1 : ∀ x : Nat, x &&& 0x01 ≤ 4 := fun x => le_trans Nat.and_le_right (by decide)
  show (if c.eg_rate != 0 && c.eg_quotient == 2 then _ else (0 : Nat)) ≤ 4
  split
  · split
    · split
      · decide
      · split
        · exact h1 _
        · split
          · exact h1 _
          · decide
    · exact Nat.min_le_right _ _
  · decide

/-- In Decay without a key-on event the level is kept and the increment is 0,
or `eg_off` is clear and the increment is a power of two up to 8, four times
that with SSG-EG. -/
theorem next_decay (c : YM3438) (s eo : Nat) (level : Int)
    (hst : c.eg_state s = eg_num_decay) (hinc : c.eg_inc ≤ 4) :
    (OPN2_EnvelopeADSR_next c s 0 eo level).2.1 = level ∧
      ((OPN2_EnvelopeADSR_next c s 0 eo level).2.2 = 0 ∨
        (eo = 0 ∧ 1 ≤ (OPN2_EnvelopeADSR_next c s 0 eo level).2.2 ∧
          (OPN2_EnvelopeADSR_next c s 0 eo level).2.2 ≤
            (if c.eg_ssg_enable s != 0 then 32 else 8))) := by
  have h1 : (c.eg_state s == eg_num_attack) = false := by
    rw [hst]
    rfl
  have h2 : (c.eg_state s == eg_num_decay) = true := by
    rw [hst]
    rfl
  simp only [OPN2_EnvelopeADSR_next, show ((0 : Nat) != 0) = false from rfl, h1, h2,
    Bool.false_eq_true, if_false, if_true]
  refine ⟨trivial, ?_⟩
  split
  · exact Or.inl rfl
  · split
    · rename_i hc
      simp only [Bool.and_eq_true, beq_iff_eq, bne_iff_ne, ne_eq] at hc
      right
      refine ⟨hc.1, ?_⟩
      have hi : c.eg_inc = 1 ∨ c.eg_inc = 2 ∨ c.eg_inc = 3 ∨ c.eg_inc = 4 := by
        have := hc.2
        omega
      rcases hi with hi | hi | hi | hi <;> rw [hi] <;> split <;> dsimp only <;> decide
    · exact Or.inl rfl

/-- C14, with the conditions under which it holds: for the slot
`s = (cycles + 22) % 24` of `OPN2_EnvelopeADSR` in Decay with
`eg_kon[s] = eg_kon_latch[s] = 1`, the SSG-EG repeat latch and the CSM key-on
of the slot clear, `eg_inc <= 4` (as `OPN2_EnvelopePrepare` leaves it) and
`eg_level[s] <= 0x3ff`, the step leaves `eg_level[s]` greater than or equal to
its previous value. -/
theorem C14_decay_monotone (chip : YM3438)
    (hstate : chip.eg_state (u32 (chip.cycles + 22) % 24) = eg_num_decay)
    (hkon : chip.eg_kon (u32 (chip.cycles + 22) % 24) = 1)
    (hlatch : chip.eg_kon_latch (u32 (chip.cycles + 22) % 24) = 1)
    (hlevel : chip.eg_level (u32 (chip.cycles + 22) % 24) ≤ 0x3ff)
    (hrepeat : chip.eg_ssg_repeat_latch (u32 (chip.cycles + 22) % 24) = 0)
    (hcsm : chip.eg_kon_csm (u32 (chip.cycles + 22) % 24) = 0)
    (hinc : chip.eg_inc ≤ 4) :
    chip.eg_level (u32 (chip.cycles + 22) % 24) ≤
      (OPN2_EnvelopeADSR chip).eg_level (u32 (chip.cycles + 22) % 24) := by
  have hev : OPN2_EnvelopeADSR_kon_event chip (u32 (chip.cycles + 22) % 24) = 0 := by
    simp only [OPN2_EnvelopeADSR_kon_event, hkon, hlatch, hrepeat]
    rfl
  have hlev : OPN2_EnvelopeADSR_level chip (u32 (chip.cycles + 22) % 24) =
      ((chip.eg_level (u32 (chip.cycles + 22) % 24) : Nat) : Int) := by
    simp only [OPN2_EnvelopeADSR_level, hkon, hlatch]
    show i16 _ = _
    unfold i16
    omega
  have heo : OPN2_EnvelopeADSR_eg_off chip (u32 (chip.cycles + 22) % 24) = 0 →
      (chip.eg_level (u32 (chip.cycles + 22) % 24) : Int) +
        (if chip.eg_ssg_enable (u32 (chip.cycles + 22) % 24) != 0 then 32 else 8) < 1024 := by
    intro h0
    unfold OPN2_EnvelopeADSR_eg_off at h0
    rw [hlev] at h0
    by_cases hs : (chip.eg_ssg_enable (u32 (chip.cycles + 22) % 24) != 0) = true
    · simp only [hs, if_true, isar] at h0 ⊢
      omega
    · simp only [hs, Bool.false_eq_true, if_false] at h0 ⊢
      have e := iand16_small (chip.eg_level (u32 (chip.cycles + 22) % 24)) 0x3f0 (by omega)
        (by decide)
      have e' : iand16 (chip.eg_level (u32 (chip.cycles + 22) % 24) : Int) 0x3f0 =
          ((chip.eg_level (u32 (chip.cycles + 22) % 24) &&& 0x3f0 : Nat) : Int) := e
      rw [e'] at h0
      have hne : chip.eg_level (u32 (chip.cycles + 22) % 24) &&& 0x3f0 ≠ 0x3f0 := by
        intro hh
        rw [hh] at h0
        exact absurd h0 (by decide)
      have := and_3f0_lt _ (by omega) hne
      omega
  obtain ⟨n1, n2⟩ := next_decay chip (u32 (chip.cycles + 22) % 24)
    (OPN2_EnvelopeADSR_eg_off chip (u32 (chip.cycles + 22) % 24))
    (OPN2_EnvelopeADSR_level chip (u32 (chip.cycles + 22) % 24)) hstate hinc
  have hc : (chip.eg_kon_csm (u32 (chip.cycles + 22) % 24) != 0) = false := by
    rw [hcsm]
    rfl
  rw [ADSR_eg_level, upd_same, hev, hc, n1, hlev]
  simp only [Bool.false_eq_true, if_false]
  rw [hlev] at n2
  rcases n2 with n2 | ⟨e0, n2, n3⟩
  · rw [n2]
    split
    · rw [bits16_i16_small _ (by decide) (by decide)]
      exact hlevel
    · rw [bits16_i16_small _ (by omega) (by omega)]
      omega
  · have hoff : (OPN2_EnvelopeADSR_eg_off chip (u32 (chip.cycles + 22) % 24) != 0) = false := by
      rw [e0]
      rfl
    have hb := heo e0
    rw [hoff]
    simp only [Bool.and_false, Bool.false_eq_true, if_false]
    rw [bits16_i16_small _ (by omega) (by omega)]
    omega

/-- C14 on a chip in Decay at the level `0x100` with the increment 3. -/
theorem C14_decay_monotone_witness :
    chip_decay.eg_state (u32 (chip_decay.cycles + 22) % 24) = eg_num_decay ∧
      chip_decay.eg_kon (u32 (chip_decay.cycles + 22) % 24) = 1 ∧
      chip_decay.eg_kon_latch (u32 (chip_decay.cycles + 22) % 24) = 1 ∧
      chip_decay.eg_level (u32 (chip_decay.cycles + 22) % 24) ≤ 0x3ff ∧
      chip_decay.eg_ssg_repeat_latch (u32 (chip_decay.cycles + 22) % 24) = 0 ∧
      chip_decay.eg_kon_csm (u32 (chip_decay.cycles + 22) % 24) = 0 ∧
      chip_decay.eg_inc ≤ 4 ∧
      chip_decay.eg_level (u32 (chip_decay.cycles + 22) % 24) ≤
        (OPN2_EnvelopeADSR chip_decay).eg_level (u32 (chip_decay.cycles + 22) % 24) :=
  ⟨rfl, rfl, rfl, by decide, rfl, rfl, by decide,
    C14_decay_monotone chip_decay rfl rfl rfl (by decide) rfl rfl (by decide)⟩

/-- C14 as stated fails when the SSG-EG repeat latch of the slot is set: in
Decay with `eg_kon[s] = eg_kon_latch[s] = 1` at the level `0x200`, the latch
makes a key-on event, and with the rate at its maximum the level drops
to 0. -/
theorem C14_counterexample :
    chip_decay_repeat.eg_state (u32 (chip_decay_repeat.cycles + 22) % 24) = eg_num_decay ∧
      chip_decay_repeat.eg_kon (u32 (chip_decay_repeat.cycles + 22) % 24) = 1 ∧
      chip_decay_repeat.eg_kon_latch (u32 (chip_decay_repeat.cycles + 22) % 24) = 1 ∧
      chip_decay_repeat.eg_level (u32 (chip_decay_repeat.cycles + 22) % 24) = 0x200 ∧
      (OPN2_EnvelopeADSR chip_decay_repeat).eg_level
        (u32 (chip_decay_repeat.cycles + 22) % 24) = 0 :=
  ⟨rfl, rfl, rfl, rfl, rfl⟩

/-! ## Channel output -/

/-- The left output of `OPN2_ChOutput` without `ModeYM2612`. -/
theorem ChOutput_mol (chip_type : Nat) (chip : YM3438) (hmode : chip_type &&& ModeYM2612 = 0) :
    (OPN2_ChOutput chip_type chip).mol =
      if (OPN2_ChOutput chip_type chip).ch_lock_l != 0 &&
          ToInt (chip.cycles &&& 3 != 0 || chip.mode_test_2c 5 != 0) != 0 then
        (if (chip.cycles >>> 2 == 1 && chip.dacen != 0) || chip.mode_test_2c 5 != 0 then
          SIGN_EXTEND 8 chip.dacdata
        else (OPN2_ChOutput chip_type chip).ch_lock)
      else 0 := by
  have h : (chip_type &&& ModeYM2612 != 0) = false := by
    rw [hmode]
    rfl
  simp only [OPN2_ChOutput, h, Bool.false_eq_true, if_false]

/-- The right output of `OPN2_ChOutput` without `ModeYM2612`. -/
theorem ChOutput_mor (chip_type : Nat) (chip : YM3438) (hmode : chip_type &&& ModeYM2612 = 0) :
    (OPN2_ChOutput chip_type chip).mor =
      if (OPN2_ChOutput chip_type chip).ch_lock_r != 0 &&
          ToInt (chip.cycles &&& 3 != 0 || chip.mode_test_2c 5 != 0) != 0 then
        (if (chip.cycles >>> 2 == 1 && chip.dacen != 0) || chip.mode_test_2c 5 != 0 then
          SIGN_EXTEND 8 chip.dacdata
        else (OPN2_ChOutput chip_type chip).ch_lock)
      else 0 := by
  have h : (chip_type &&& ModeYM2612 != 0) = false := by
    rw [hmode]
    rfl
  simp only [OPN2_ChOutput, h, Bool.false_eq_true, if_false]

theorem gate_closed (l cycles test : Nat) (x : Int)
    (h : l = 0 ∨ (cycles &&& 3 = 0 ∧ test = 0)) :
    (if l != 0 && ToInt (cycles &&& 3 != 0 || test != 0) != 0 then x else 0) = 0 := by
  rcases h with h | ⟨h1, h2⟩
  · rw [h]
    rfl
  · rw [h1, h2]
    simp [ToInt]

theorem gate_open (l cycles test : Nat) (x : Int) (hl : l ≠ 0)
    (h : cycles &&& 3 ≠ 0 ∨ test ≠ 0) :
    (if l != 0 && ToInt (cycles &&& 3 != 0 || test != 0) != 0 then x else 0) = x := by
  have h1 : (l != 0) = true := by simpa using hl
  have h2 : (cycles &&& 3 != 0 || test != 0) = true := by
    rcases h with h | h
    · simp [h]
    · simp [h]
  rw [h1, h2]
  rfl

/-- C17: with `chip_type` lacking `ModeYM2612`, after `OPN2_ChOutput` the left
output `mol` is 0 when the locked pan bit `ch_lock_l` is 0, and also when
`cycles & 3 = 0` with the test DAC off; when `ch_lock_l` is not 0 and
`cycles & 3` is not 0 (or the test DAC is on) it is the selected sample: the
sign-extended DAC data when `cycles >> 2 = 1` with `dacen` set or the test DAC
is on, and `ch_lock` otherwise.  The same holds for `mor` with `ch_lock_r`.
The lock values are those after the step: on the cycles with `cycles & 3 = 0`
they are the pan bits of the channel, on the others they are kept. -/
theorem C17_pan_gating (chip_type : Nat) (chip : YM3438)
    (hmode : chip_type &&& ModeYM2612 = 0) :
    ((OPN2_ChOutput chip_type chip).ch_lock_l = 0 ∨
        (chip.cycles &&& 3 = 0 ∧ chip.mode_test_2c 5 = 0) →
      (OPN2_ChOutput chip_type chip).mol = 0) ∧
    ((OPN2_ChOutput chip_type chip).ch_lock_l ≠ 0 →
        chip.cycles &&& 3 ≠ 0 ∨ chip.mode_test_2c 5 ≠ 0 →
      (OPN2_ChOutput chip_type chip).mol =
        if (chip.cycles >>> 2 == 1 && chip.dacen != 0) || chip.mode_test_2c 5 != 0 then
          SIGN_EXTEND 8 chip.dacdata
        else (OPN2_ChOutput chip_type chip).ch_lock) ∧
    ((OPN2_ChOutput chip_type chip).ch_lock_r = 0 ∨
        (chip.cycles &&& 3 = 0 ∧ chip.mode_test_2c 5 = 0) →
      (OPN2_ChOutput chip_type chip).mor = 0) ∧
    ((OPN2_ChOutput chip_type chip).ch_lock_r ≠ 0 →
        chip.cycles &&& 3 ≠ 0 ∨ chip.mode_test_2c 5 ≠ 0 →
      (OPN2_ChOutput chip_type chip).mor =
        if (chip.cycles >>> 2 == 1 && chip.dacen != 0) || chip.mode_test_2c 5 != 0 then
          SIGN_EXTEND 8 chip.dacdata
        else (OPN2_ChOutput chip_type chip).ch_lock) ∧
    (OPN2_ChOutput chip_type chip).ch_lock_l =
      (if chip.cycles &&& 3 == 0 then
        chip.pan_l (if chip.cycles < 12 then u32 (chip.channel + 1) else chip.channel)
      else chip.ch_lock_l) ∧
    (OPN2_ChOutput chip_type chip).ch_lock_r =
      (if chip.cycles &&& 3 == 0 then
        chip.pan_r (if chip.cycles < 12 then u32 (chip.channel + 1) else chip.channel)
      else chip.ch_lock_r) ∧
    (OPN2_ChOutput chip_type chip).ch_lock =
      (if chip.cycles &&& 3 == 0 && chip.mode_test_2c 5 == 0 then
        chip.ch_out (if chip.cycles < 12 then u32 (chip.channel + 1) else chip.channel)
      else chip.ch_lock) := by
  refine ⟨fun h => ?_, fun hl h => ?_, fun h => ?_, fun hl h => ?_, rfl, rfl, rfl⟩
  · rw [ChOutput_mol chip_type chip hmode]
    exact gate_closed _ _ _ _ h
  · rw [ChOutput_mol chip_type chip hmode]
    exact gate_open _ _ _ _ hl h
  · rw [ChOutput_mor chip_type chip hmode]
    exact gate_closed _ _ _ _ h
  · rw [ChOutput_mor chip_type chip hmode]
    exact gate_open _ _ _ _ hl h

/-- C17 on a chip at cycle 5 with only the left pan bit locked: the left output
is the locked sample 5 and the right output is 0. -/
theorem C17_pan_gating_witness :
    (0 : Nat) &&& ModeYM2612 = 0 ∧
      (OPN2_ChOutput 0 chip_pan_left).ch_lock_l ≠ 0 ∧
      (OPN2_ChOutput 0 chip_pan_left).ch_lock_r = 0 ∧
      chip_pan_left.cycles &&& 3 ≠ 0 ∧
      (OPN2_ChOutput 0 chip_pan_left).mol = 5 ∧
      (OPN2_ChOutput 0 chip_pan_left).mor = 0 :=
  ⟨by decide, by decide, rfl, by decide,
    ((C17_pan_gating 0 chip_pan_left (by decide)).2.1 (by decide) (Or.inl (by decide))).trans rfl,
    (C17_pan_gating 0 chip_pan_left (by decide)).2.2.1 (Or.inl rfl)⟩

/-! ## Timers -/

theorem timerInPart_Clock_head_eq (c : YM3438) :
    timerInPart ( OPN2_Clock_head c) = timerInPart c := rfl

theorem timerInPart_Clock_cycle_eq (c : YM3438) :
    timerInPart ( OPN2_Clock_cycle c) = timerInPart c := rfl

theorem timerInPart_Clock_timer_eq (c : YM3438) :
    timerInPart ( OPN2_Clock_timer c) = timerInPart c := rfl

theorem timerInPart_DoIO_eq (c : YM3438) :
    timerInPart ( OPN2_DoIO c) = timerInPart c := rfl

theorem timerOutPart_KeyOn_eq (c : YM3438) :
    timerOutPart ( OPN2_KeyOn c) = timerOutPart c := rfl

theorem timerOutPart_ChOutput_eq (chip_type : Nat) (c : YM3438) :
    timerOutPart ( OPN2_ChOutput chip_type c) = timerOutPart c := rfl

theorem timerOutPart_ChGenerate_eq (c : YM3438) :
    timerOutPart ( OPN2_ChGenerate c) = timerOutPart c := rfl

theorem timerOutPart_FMPrepare_eq (c : YM3438) :
    timerOutPart ( OPN2_FMPrepare c) = timerOutPart c := rfl

theorem timerOutPart_FMGenerate_eq (c : YM3438) :
    timerOutPart ( OPN2_FMGenerate c) = timerOutPart c := rfl

theorem timerOutPart_PhaseGenerate_eq (c : YM3438) :
    timerOutPart ( OPN2_PhaseGenerate c) = timerOutPart c := rfl

theorem timerOutPart_PhaseCalcIncrement_eq (c : YM3438) :
    timerOutPart ( OPN2_PhaseCalcIncrement c) = timerOutPart c := rfl

theorem timerOutPart_EnvelopeADSR_eq (c : YM3438) :
    timerOutPart ( OPN2_EnvelopeADSR c) = timerOutPart c := rfl

theorem timerOutPart_EnvelopeGenerate_eq (c : YM3438) :
    timerOutPart ( OPN2_EnvelopeGenerate c) = timerOutPart c := rfl

theorem timerOutPart_EnvelopeSSGEG_eq (c : YM3438) :
    timerOutPart ( OPN2_EnvelopeSSGEG c) = timerOutPart c := rfl

theorem timerOutPart_EnvelopePrepare_eq (c : YM3438) :
    timerOutPart ( OPN2_EnvelopePrepare c) = timerOutPart c := rfl

theorem timerOutPart_Clock_fnum_eq (c : YM3438) (slot : Nat) :
    timerOutPart ( OPN2_Clock_fnum c slot) = timerOutPart c := rfl

theorem timerOutPart_UpdateLFO_eq (c : YM3438) :
    timerOutPart ( OPN2_UpdateLFO c) = timerOutPart c := rfl

theorem timerOutPart_DoRegWrite_slot_eq (c : YM3438) :
    timerOutPart ( OPN2_DoRegWrite_slot c) = timerOutPart c := rfl

theorem timerOutPart_DoRegWrite_channel_eq (c : YM3438) :
    timerOutPart ( OPN2_DoRegWrite_channel c) = timerOutPart c := rfl

theorem timerOutPart_DoRegWrite_latch_eq (c : YM3438) :
    timerOutPart ( OPN2_DoRegWrite_latch c) = timerOutPart c := rfl

theorem timerOutPart_DoRegWrite_data_eq (c : YM3438) :
    timerOutPart ( OPN2_DoRegWrite_data c) = timerOutPart c := rfl

theorem timerOutPart_DoRegWrite_eq (c : YM3438) :
    timerOutPart ( OPN2_DoRegWrite c) = timerOutPart c := by
  simp only [OPN2_DoRegWrite, OPN2_DoRegWrite_update]
  rw [timerOutPart_DoRegWrite_data_eq, timerOutPart_DoRegWrite_latch_eq, timerOutPart_DoRegWrite_channel_eq, timerOutPart_DoRegWrite_slot_eq]

theorem timerOutPart_Clock_next_eq (c : YM3438) :
    timerOutPart ( OPN2_Clock_next c) = timerOutPart c := rfl

theorem timerOutPart_Clock_status_eq (c : YM3438) :
    timerOutPart ( OPN2_Clock_status c) = timerOutPart c := rfl

theorem timerOutPart_DoTimer_eq (c : YM3438) :
    timerOutPart (OPN2_DoTimerB (OPN2_DoTimerA c)) =
      timerOutPart (OPN2_DoTimerB (OPN2_DoTimerA (timerInPart c))) := rfl

/-- The strobe and the timer flags after `OPN2_Clock` are those that the two
timer steps compute from the fields of `timerInPart` on entry. -/
theorem timerOutPart_Clock (chip_type : Nat) (c : YM3438) :
    timerOutPart (OPN2_Clock chip_type c).1 =
      timerOutPart (OPN2_DoTimerB (OPN2_DoTimerA (timerInPart c))) := by
  have h1 : timerOutPart (OPN2_Clock chip_type c).1 =
      timerOutPart (OPN2_DoTimerB (OPN2_DoTimerA
        ( OPN2_DoIO (OPN2_Clock_timer (OPN2_Clock_cycle (OPN2_Clock_head c)))))) := by
    simp only [OPN2_Clock]
    rw [timerOutPart_Clock_status_eq,
    timerOutPart_Clock_next_eq,
    timerOutPart_DoRegWrite_eq,
    timerOutPart_UpdateLFO_eq,
    timerOutPart_Clock_fnum_eq,
    timerOutPart_EnvelopePrepare_eq,
    timerOutPart_EnvelopeSSGEG_eq,
    timerOutPart_EnvelopeGenerate_eq,
    timerOutPart_EnvelopeADSR_eq,
    timerOutPart_PhaseCalcIncrement_eq,
    timerOutPart_PhaseGenerate_eq,
    timerOutPart_FMGenerate_eq,
    timerOutPart_FMPrepare_eq,
    timerOutPart_ChGenerate_eq,
    timerOutPart_ChOutput_eq,
    timerOutPart_KeyOn_eq]
  refine h1.trans ((timerOutPart_DoTimer_eq _).trans ?_)
  rw [timerInPart_DoIO_eq,
    timerInPart_Clock_timer_eq,
    timerInPart_Clock_cycle_eq,
    timerInPart_Clock_head_eq]

/-- The CSM key-on strobe after one `OPN2_Clock`. -/
theorem Clock_mode_kon_csm (ct : Nat) (c : YM3438) :
    (OPN2_Clock ct c).1.mode_kon_csm =
      if c.cycles == 2 then
        (if c.mode_csm != 0 then
          c.timer_a_overflow ||| ToInt (c.timer_a_load_lock == 0 && c.timer_a_load != 0)
        else 0)
      else c.mode_kon_csm := by
  have h : (OPN2_Clock ct c).1.mode_kon_csm = (OPN2_DoTimerA c).mode_kon_csm := by
    have h0 := congrArg YM3438.mode_kon_csm (timerOutPart_Clock ct c)
    exact h0
  rw [h]
  show (if c.cycles == 2 then
      (if c.mode_csm != 0 then
        (if c.cycles == 2 then
          c.timer_a_overflow ||| ToInt (c.timer_a_load_lock == 0 && c.timer_a_load != 0)
        else c.timer_a_overflow)
      else 0)
    else c.mode_kon_csm) = _
  by_cases h2 : (c.cycles == 2) = true
  · simp only [h2, if_true]
  · simp only [h2, Bool.false_eq_true, if_false]

/-- The Timer A flag after one `OPN2_Clock`. -/
theorem Clock_timer_a_overflow_flag (ct : Nat) (c : YM3438) :
    (OPN2_Clock ct c).1.timer_a_overflow_flag =
      if c.timer_a_reset != 0 then 0
      else c.timer_a_overflow_flag ||| (c.timer_a_overflow &&& c.timer_a_enable) := by
  have h := congrArg YM3438.timer_a_overflow_flag (timerOutPart_Clock ct c)
  exact h

/-- The Timer B flag after one `OPN2_Clock`. -/
theorem Clock_timer_b_overflow_flag (ct : Nat) (c : YM3438) :
    (OPN2_Clock ct c).1.timer_b_overflow_flag =
      if c.timer_b_reset != 0 then 0
      else c.timer_b_overflow_flag ||| (c.timer_b_overflow &&& c.timer_b_enable) := by
  have h := congrArg YM3438.timer_b_overflow_flag (timerOutPart_Clock ct c)
  exact h

/-- The cycle counter after `n` clocks. -/
theorem Clock_n_cycles (ct n : Nat) : ∀ c : YM3438, c.cycles < 24 →
    (OPN2_Clock_n ct n c).cycles = (c.cycles + n) % 24 := by
  induction n with
  | zero =>
    intro c h
    show c.cycles = (c.cycles + 0) % 24
    omega
  | succ n ih =>
    intro c h
    have h1 : (OPN2_Clock ct c).1.cycles = (c.cycles + 1) % 24 := by
      rw [Clock_cycles]
      unfold u32
      omega
    rw [Clock_n_succ, ih _ (by rw [h1]; omega), h1]
    omega

/-- The strobe is kept by the clocks with `cycles` other than 2. -/
theorem mode_kon_csm_kept (ct : Nat) (c : YM3438) (h : c.cycles ≠ 2) :
    (OPN2_Clock ct c).1.mode_kon_csm = c.mode_kon_csm := by
  have h2 : (c.cycles == 2) = false := by simpa using h
  rw [Clock_mode_kon_csm, h2]
  rfl

/-- From cycle 2 the strobe keeps, for 24 clocks, the value that the first of
them gave it. -/
theorem mode_kon_csm_revolution (ct : Nat) (c : YM3438) (hc : c.cycles = 2) (k : Nat) :
    k < 24 → (OPN2_Clock_n ct (k + 1) c).mode_kon_csm = (OPN2_Clock ct c).1.mode_kon_csm := by
  induction k with
  | zero =>
    intro _
    rfl
  | succ k ih =>
    intro hk
    rw [Clock_n_last, mode_kon_csm_kept, ih (by omega)]
    rw [Clock_n_cycles ct (k + 1) c (by omega), hc]
    omega

/-- C15, with the value the code gives the strobe: `mode_kon_csm` is changed
only by the clock at cycle 2; there, with `mode_csm != 0`, it becomes
`timer_a_overflow | (timer_a_load_lock == 0 && timer_a_load != 0)` of the
values on entry, so 1 when Timer A overflowed and also when the load bit has
just been set, and with `mode_csm = 0` it becomes 0; from cycle 2 it keeps
that value for the 24 clocks of the revolution, until cycle 2 evaluates it
again. -/
theorem C15_csm_strobe (chip_type : Nat) (chip : YM3438) :
    (chip.cycles ≠ 2 →
      (OPN2_Clock chip_type chip).1.mode_kon_csm = chip.mode_kon_csm) ∧
    (chip.cycles = 2 → chip.mode_csm ≠ 0 →
      (OPN2_Clock chip_type chip).1.mode_kon_csm =
        chip.timer_a_overflow |||
          ToInt (chip.timer_a_load_lock == 0 && chip.timer_a_load != 0)) ∧
    (chip.cycles = 2 → chip.mode_csm ≠ 0 →
      chip.timer_a_load_lock ≠ 0 ∨ chip.timer_a_load = 0 →
      (OPN2_Clock chip_type chip).1.mode_kon_csm = chip.timer_a_overflow) ∧
    (chip.cycles = 2 → chip.mode_csm = 0 →
      (OPN2_Clock chip_type chip).1.mode_kon_csm = 0) ∧
    (chip.cycles = 2 → ∀ k, 1 ≤ k → k ≤ 24 →
      (OPN2_Clock_n chip_type k chip).mode_kon_csm =
        (OPN2_Clock chip_type chip).1.mode_kon_csm) := by
  refine ⟨mode_kon_csm_kept chip_type chip, fun hc hm => ?_, fun hc hm hl => ?_,
    fun hc hm => ?_, fun hc k h1 h2 => ?_⟩
  · have h1 : (chip.mode_csm != 0) = true := by simpa using hm
    rw [Clock_mode_kon_csm, hc, h1]
    rfl
  · have h1 : (chip.mode_csm != 0) = true := by simpa using hm
    have h2 : (chip.timer_a_load_lock == 0 && chip.timer_a_load != 0) = false := by
      rcases hl with hl | hl
      · simp [hl]
      · simp [hl]
    rw [Clock_mode_kon_csm, hc, h1, h2]
    exact Nat.or_zero _
  · rw [Clock_mode_kon_csm, hc, hm]
    rfl
  · obtain ⟨j, rfl⟩ : ∃ j, k = j + 1 := ⟨k - 1, by omega⟩
    exact mode_kon_csm_revolution chip_type chip hc j (by omega)

/-- C15 on a chip at cycle 2 in CSM mode on which Timer A has overflowed: the
strobe is 1 after the clock and after each of the 24 clocks from there. -/
theorem C15_csm_strobe_witness :
    chip_csm_overflow.cycles = 2 ∧ chip_csm_overflow.mode_csm ≠ 0 ∧
      chip_csm_overflow.timer_a_overflow = 1 ∧
      (OPN2_Clock 0 chip_csm_overflow).1.mode_kon_csm = 1 ∧
      ∀ k, 1 ≤ k → k ≤ 24 → (OPN2_Clock_n 0 k chip_csm_overflow).mode_kon_csm = 1 :=
  ⟨rfl, by decide, rfl,
    ((C15_csm_strobe 0 chip_csm_overflow).2.1 rfl (by decide)).trans rfl,
    fun k h1 h2 => ((C15_csm_strobe 0 chip_csm_overflow).2.2.2.2 rfl k h1 h2).trans
      (((C15_csm_strobe 0 chip_csm_overflow).2.1 rfl (by decide)).trans rfl)⟩

/-- C15 as stated fails when the load bit of Timer A has just been set: at
cycle 2 in CSM mode, with `timer_a_overflow = 0` on entry, the clock sets the
strobe to 1. -/
theorem C15_counterexample :
    chip_csm_load.cycles = 2 ∧ chip_csm_load.mode_csm ≠ 0 ∧
      chip_csm_load.timer_a_overflow = 0 ∧
      (OPN2_Clock 0 chip_csm_load).1.mode_kon_csm = 1 :=
  ⟨rfl, by decide, rfl, (Clock_mode_kon_csm 0 chip_csm_load).trans rfl⟩

theorem or_ne_zero_left (a b : Nat) (h : a ≠ 0) : a ||| b ≠ 0 := by
  intro h0
  have h1 : (a ||| b) &&& a = a := by
    apply Nat.eq_of_testBit_eq
    intro i
    simp only [Nat.testBit_and, Nat.testBit_or]
    cases a.testBit i <;> simp
  rw [h0, Nat.zero_and] at h1
  exact h h1.symm

/-- A set Timer A flag stays set as long as no clock sees a reset pulse. -/
theorem timer_a_flag_sticky (ct n : Nat) : ∀ c : YM3438,
    c.timer_a_overflow_flag ≠ 0 →
    (∀ k, k < n → (OPN2_Clock_n ct k c).timer_a_reset = 0) →
    (OPN2_Clock_n ct n c).timer_a_overflow_flag ≠ 0 := by
  induction n with
  | zero =>
    intro c h _
    exact h
  | succ n ih =>
    intro c h hr
    rw [Clock_n_last, Clock_timer_a_overflow_flag, hr n (Nat.lt_succ_self n)]
    exact or_ne_zero_left _ _ (ih c h (fun k hk => hr k (Nat.lt_succ_of_lt hk)))

/-- A set Timer B flag stays set as long as no clock sees a reset pulse. -/
theorem timer_b_flag_sticky (ct n : Nat) : ∀ c : YM3438,
    c.timer_b_overflow_flag ≠ 0 →
    (∀ k, k < n → (OPN2_Clock_n ct k c).timer_b_reset = 0) →
    (OPN2_Clock_n ct n c).timer_b_overflow_flag ≠ 0 := by
  induction n with
  | zero =>
    intro c h _
    exact h
  | succ n ih =>
    intro c h hr
    rw [Clock_n_last, Clock_timer_b_overflow_flag, hr n (Nat.lt_succ_self n)]
    exact or_ne_zero_left _ _ (ih c h (fun k hk => hr k (Nat.lt_succ_of_lt hk)))

theorem flag_raised (flag ov en reset : Nat) (h0 : flag = 0)
    (h : (if reset != 0 then 0 else flag ||| (ov &&& en)) ≠ 0) :
    reset = 0 ∧ ov &&& en ≠ 0 := by
  by_cases hr : reset = 0
  · rw [hr, h0] at h
    refine ⟨hr, ?_⟩
    intro he
    rw [he] at h
    exact h rfl
  · have hb : (reset != 0) = true := by simpa using hr
    rw [hb] at h
    exact absurd rfl h

/-- C16: one `OPN2_DoTimerA` step sets `timer_a_overflow_flag` to 0 when
`timer_a_reset != 0` and to `flag | (timer_a_overflow & timer_a_enable)`
otherwise, and leaves `timer_a_reset` at 0; `OPN2_Clock` does the same to the
flag; so a set flag stays set over any number of clocks none of which sees a
reset pulse, and a clear flag is set by a clock only without a reset pulse and
with `timer_a_overflow & timer_a_enable` not 0.  The same holds for Timer B
in `OPN2_DoTimerB`. -/
theorem C16_sticky_timer_flags (chip_type : Nat) (chip : YM3438) :
    ((OPN2_DoTimerA chip).timer_a_overflow_flag =
        (if chip.timer_a_reset != 0 then 0
        else chip.timer_a_overflow_flag ||| (chip.timer_a_overflow &&& chip.timer_a_enable)) ∧
      (OPN2_DoTimerA chip).timer_a_reset = 0 ∧
      (OPN2_Clock chip_type chip).1.timer_a_overflow_flag =
        (OPN2_DoTimerA chip).timer_a_overflow_flag ∧
      (∀ n, chip.timer_a_overflow_flag ≠ 0 →
        (∀ k, k < n → (OPN2_Clock_n chip_type k chip).timer_a_reset = 0) →
        (OPN2_Clock_n chip_type n chip).timer_a_overflow_flag ≠ 0) ∧
      (chip.timer_a_overflow_flag = 0 →
        (OPN2_Clock chip_type chip).1.timer_a_overflow_flag ≠ 0 →
        chip.timer_a_reset = 0 ∧ chip.timer_a_overflow &&& chip.timer_a_enable ≠ 0)) ∧
    ((OPN2_DoTimerB chip).timer_b_overflow_flag =
        (if chip.timer_b_reset != 0 then 0
        else chip.timer_b_overflow_flag ||| (chip.timer_b_overflow &&& chip.timer_b_enable)) ∧
      (OPN2_DoTimerB chip).timer_b_reset = 0 ∧
      (OPN2_Clock chip_type chip).1.timer_b_overflow_flag =
        (OPN2_DoTimerB chip).timer_b_overflow_flag ∧
      (∀ n, chip.timer_b_overflow_flag ≠ 0 →
        (∀ k, k < n → (OPN2_Clock_n chip_type k chip).timer_b_reset = 0) →
        (OPN2_Clock_n chip_type n chip).timer_b_overflow_flag ≠ 0) ∧
      (chip.timer_b_overflow_flag = 0 →
        (OPN2_Clock chip_type chip).1.timer_b_overflow_flag ≠ 0 →
        chip.timer_b_reset = 0 ∧ chip.timer_b_overflow &&& chip.timer_b_enable ≠ 0)) := by
  have ha : ∀ r : Nat, (if (r != 0) = true then 0 else r) = 0 := by
    intro r
    by_cases h : r = 0
    · rw [h]
      rfl
    · have hb : (r != 0) = true := by simpa using h
      rw [hb]
      rfl
  refine ⟨⟨rfl, ha _, Clock_timer_a_overflow_flag chip_type chip,
      fun n => timer_a_flag_sticky chip_type n chip, fun h0 h => ?_⟩,
    ⟨rfl, ha _, Clock_timer_b_overflow_flag chip_type chip,
      fun n => timer_b_flag_sticky chip_type n chip, fun h0 h => ?_⟩⟩
  · rw [Clock_timer_a_overflow_flag] at h
    exact flag_raised _ _ _ _ h0 h
  · rw [Clock_timer_b_overflow_flag] at h
    exact flag_raised _ _ _ _ h0 h

/-- C16 on a chip whose Timer A flag is set and whose Timer B has overflowed
while enabled: after one clock both flags are 1. -/
theorem C16_sticky_timer_flags_witness :
    chip_timer_flags.timer_a_overflow_flag = 1 ∧
      chip_timer_flags.timer_b_overflow_flag = 0 ∧
      (OPN2_Clock 0 chip_timer_flags).1.timer_a_overflow_flag = 1 ∧
      (OPN2_Clock 0 chip_timer_flags).1.timer_b_overflow_flag = 1 :=
  ⟨rfl, rfl, ((C16_sticky_timer_flags 0 chip_timer_flags).1.2.2.1).trans rfl,
    ((C16_sticky_timer_flags 0 chip_timer_flags).2.2.2.1).trans rfl⟩

/-! ## Envelope output -/

theorem and_3ff_le (x : Nat) : x &&& 0x3ff ≤ 0x3ff := Nat.and_le_right

/-- The value stored by `OPN2_EnvelopeGenerate`, with the two additions not
wrapping in `uint16`. -/
theorem EnvelopeGenerate_value (level am tl : Nat) (skip : Bool)
    (ham : am < 256) (htl : tl < 256) :
    (if (if ! skip then u16 (u16 ((level &&& 0x3ff) + am) + u16 (tl <<< 3))
          else u16 ((level &&& 0x3ff) + am)) > 0x3ff then 0x3ff
      else (if ! skip then u16 (u16 ((level &&& 0x3ff) + am) + u16 (tl <<< 3))
          else u16 ((level &&& 0x3ff) + am))) =
      min 0x3ff ((level &&& 0x3ff) + am + (if skip then 0 else tl <<< 3)) := by
  have h1 := and_3ff_le level
  have h2 : tl <<< 3 = tl * 8 := by
    rw [Nat.shiftLeft_eq]
  rw [h2]
  generalize level &&& 0x3ff = l at h1 ⊢
  cases skip
  · simp only [Bool.not_false, if_true, Bool.false_eq_true, if_false]
    unfold u16
    split <;> omega
  · simp only [Bool.not_true, Bool.false_eq_true, if_false, if_true]
    unfold u16
    split <;> omega

/-- C21, with the saturation the code performs: with `eg_lfo_am` and
`eg_tl[0]` in the range of `uint8`, `OPN2_EnvelopeGenerate` stores in
`eg_out[s]`, `s = (cycles + 23) mod 24`, the sum of the possibly inverted level
masked to 10 bits (0 under `mode_test_21[5]`), the AM offset and, unless
`mode_csm != 0` and `channel = 3`, `eg_tl[0] << 3`, saturated at `0x3FF`; the
other entries of `eg_out` are unchanged. -/
theorem C21_envelope_output (chip : YM3438)
    (ham : chip.eg_lfo_am < 256) (htl : chip.eg_tl 0 < 256) :
    (OPN2_EnvelopeGenerate chip).eg_out (u32 (chip.cycles + 23) % 24) =
        min 0x3ff
          (((if chip.mode_test_21 5 != 0 then 0
              else if chip.eg_ssg_inv (u32 (chip.cycles + 23) % 24) != 0 then
                usub16 512 (chip.eg_level (u32 (chip.cycles + 23) % 24))
              else chip.eg_level (u32 (chip.cycles + 23) % 24)) &&& 0x3ff) +
            chip.eg_lfo_am +
            (if chip.mode_csm != 0 && chip.channel == 2 + 1 then 0 else chip.eg_tl 0 <<< 3)) ∧
      ∀ i, i ≠ u32 (chip.cycles + 23) % 24 →
        (OPN2_EnvelopeGenerate chip).eg_out i = chip.eg_out i := by
  refine ⟨?_, fun i hi => ?_⟩
  · simp only [OPN2_EnvelopeGenerate, upd_same]
    exact EnvelopeGenerate_value _ _ _ _ ham htl
  · simp only [OPN2_EnvelopeGenerate]
    exact upd_other _ _ _ _ hi

/-- C21 for the level `0x100`, the AM offset 3 and the total level 2: the
stored value is `0x100 + 3 + 16`. -/
theorem C21_envelope_output_witness :
    chip_level_sum.eg_lfo_am < 256 ∧ chip_level_sum.eg_tl 0 < 256 ∧
      (OPN2_EnvelopeGenerate chip_level_sum).eg_out
        (u32 (chip_level_sum.cycles + 23) % 24) = 0x113 :=
  ⟨by decide, by decide,
    (C21_envelope_output chip_level_sum (by decide) (by decide)).1.trans (by decide)⟩

/-- C21 as stated fails when the sum exceeds `0x3FF`: for the level `0x3FF`
and the AM offset 1 the 10-bit wraparound of the sum is 0, and the code
stores `0x3FF`. -/
theorem C21_counterexample :
    (chip_am_one.eg_level (u32 (chip_am_one.cycles + 23) % 24) + chip_am_one.eg_lfo_am +
        (chip_am_one.eg_tl 0 <<< 3)) % 1024 = 0 ∧
      (OPN2_EnvelopeGenerate chip_am_one).eg_out (u32 (chip_am_one.cycles + 23) % 24) =
        0x3ff :=
  ⟨by decide, by decide⟩

/-! ## LFO modulators -/

theorem lfoInPart_Clock_head_eq (c : YM3438) :
    lfoInPart (OPN2_Clock_head c) = lfoInPart c := rfl

theorem lfoOutPart_Clock_cycle_eq (c : YM3438) :
    lfoOutPart (OPN2_Clock_cycle c) = lfoOutPart (OPN2_Clock_cycle (lfoInPart c)) := rfl

theorem lfoOutPart_Clock_timer_eq (c : YM3438) :
    lfoOutPart ( OPN2_Clock_timer c) = lfoOutPart c := rfl

theorem lfoOutPart_DoIO_eq (c : YM3438) :
    lfoOutPart ( OPN2_DoIO c) = lfoOutPart c := rfl

theorem lfoOutPart_DoTimerA_eq (c : YM3438) :
    lfoOutPart ( OPN2_DoTimerA c) = lfoOutPart c := rfl

theorem lfoOutPart_DoTimerB_eq (c : YM3438) :
    lfoOutPart ( OPN2_DoTimerB c) = lfoOutPart c := rfl

theorem lfoOutPart_KeyOn_eq (c : YM3438) :
    lfoOutPart ( OPN2_KeyOn c) = lfoOutPart c := rfl

theorem lfoOutPart_ChOutput_eq (chip_type : Nat) (c : YM3438) :
    lfoOutPart ( OPN2_ChOutput chip_type c) = lfoOutPart c := rfl

theorem lfoOutPart_ChGenerate_eq (c : YM3438) :
    lfoOutPart ( OPN2_ChGenerate c) = lfoOutPart c := rfl

theorem lfoOutPart_FMPrepare_eq (c : YM3438) :
    lfoOutPart ( OPN2_FMPrepare c) = lfoOutPart c := rfl

theorem lfoOutPart_FMGenerate_eq (c : YM3438) :
    lfoOutPart ( OPN2_FMGenerate c) = lfoOutPart c := rfl

theorem lfoOutPart_PhaseGenerate_eq (c : YM3438) :
    lfoOutPart ( OPN2_PhaseGenerate c) = lfoOutPart c := rfl

theorem lfoOutPart_PhaseCalcIncrement_eq (c : YM3438) :
    lfoOutPart ( OPN2_PhaseCalcIncrement c) = lfoOutPart c := rfl

theorem lfoOutPart_EnvelopeADSR_eq (c : YM3438) :
    lfoOutPart ( OPN2_EnvelopeADSR c) = lfoOutPart c := rfl

theorem lfoOutPart_EnvelopeGenerate_eq (c : YM3438) :
    lfoOutPart ( OPN2_EnvelopeGenerate c) = lfoOutPart c := rfl

theorem lfoOutPart_EnvelopeSSGEG_eq (c : YM3438) :
    lfoOutPart ( OPN2_EnvelopeSSGEG c) = lfoOutPart c := rfl

theorem lfoOutPart_EnvelopePrepare_eq (c : YM3438) :
    lfoOutPart ( OPN2_EnvelopePrepare c) = lfoOutPart c := rfl

theorem lfoOutPart_Clock_fnum_eq (c : YM3438) (slot : Nat) :
    lfoOutPart ( OPN2_Clock_fnum c slot) = lfoOutPart c := rfl

theorem lfoOutPart_UpdateLFO_eq (c : YM3438) :
    lfoOutPart ( OPN2_UpdateLFO c) = lfoOutPart c := rfl

theorem lfoOutPart_DoRegWrite_slot_eq (c : YM3438) :
    lfoOutPart ( OPN2_DoRegWrite_slot c) = lfoOutPart c := rfl

theorem lfoOutPart_DoRegWrite_channel_eq (c : YM3438) :
    lfoOutPart ( OPN2_DoRegWrite_channel c) = lfoOutPart c := rfl

theorem lfoOutPart_DoRegWrite_latch_eq (c : YM3438) :
    lfoOutPart ( OPN2_DoRegWrite_latch c) = lfoOutPart c := rfl

theorem lfoOutPart_DoRegWrite_data_eq (c : YM3438) :
    lfoOutPart ( OPN2_DoRegWrite_data c) = lfoOutPart c := rfl

theorem lfoOutPart_DoRegWrite_eq (c : YM3438) :
    lfoOutPart ( OPN2_DoRegWrite c) = lfoOutPart c := by
  simp only [OPN2_DoRegWrite, OPN2_DoRegWrite_update]
  rw [lfoOutPart_DoRegWrite_data_eq, lfoOutPart_DoRegWrite_latch_eq, lfoOutPart_DoRegWrite_channel_eq, lfoOutPart_DoRegWrite_slot_eq]

theorem lfoOutPart_Clock_next_eq (c : YM3438) :
    lfoOutPart ( OPN2_Clock_next c) = lfoOutPart c := rfl

theorem lfoOutPart_Clock_status_eq (c : YM3438) :
    lfoOutPart ( OPN2_Clock_status c) = lfoOutPart c := rfl

/-- The LFO modulators after `OPN2_Clock` are those that the cycle switch
computes from the fields of `lfoInPart` on entry. -/
theorem lfoOutPart_Clock (chip_type : Nat) (c : YM3438) :
    lfoOutPart (OPN2_Clock chip_type c).1 = lfoOutPart (OPN2_Clock_cycle (lfoInPart c)) := by
  have h1 : lfoOutPart (OPN2_Clock chip_type c).1 =
      lfoOutPart (OPN2_Clock_cycle (OPN2_Clock_head c)) := by
    simp only [OPN2_Clock]
    rw [lfoOutPart_Clock_status_eq,
      lfoOutPart_Clock_next_eq,
      lfoOutPart_DoRegWrite_eq,
      lfoOutPart_UpdateLFO_eq,
      lfoOutPart_Clock_fnum_eq,
      lfoOutPart_EnvelopePrepare_eq,
      lfoOutPart_EnvelopeSSGEG_eq,
      lfoOutPart_EnvelopeGenerate_eq,
      lfoOutPart_EnvelopeADSR_eq,
      lfoOutPart_PhaseCalcIncrement_eq,
      lfoOutPart_PhaseGenerate_eq,
      lfoOutPart_FMGenerate_eq,
      lfoOutPart_FMPrepare_eq,
      lfoOutPart_ChGenerate_eq,
      lfoOutPart_ChOutput_eq,
      lfoOutPart_KeyOn_eq,
      lfoOutPart_DoTimerB_eq,
      lfoOutPart_DoTimerA_eq,
      lfoOutPart_DoIO_eq,
      lfoOutPart_Clock_timer_eq]
  refine h1.trans ((lfoOutPart_Clock_cycle_eq _).trans ?_)
  rw [lfoInPart_Clock_head_eq]

/-- The PM modulator after one `OPN2_Clock`. -/
theorem Clock_lfo_pm (ct : Nat) (c : YM3438) :
    (OPN2_Clock ct c).1.lfo_pm = if c.cycles == 0 then c.lfo_cnt >>> 2 else c.lfo_pm := by
  have h := congrArg YM3438.lfo_pm (lfoOutPart_Clock ct c)
  exact h

/-- The AM modulator after one `OPN2_Clock` at cycle 0. -/
theorem Clock_lfo_am (ct : Nat) (c : YM3438) (hc : c.cycles = 0) :
    (OPN2_Clock ct c).1.lfo_am =
      u8 ((if c.lfo_cnt &&& 0x40 != 0 then c.lfo_cnt &&& 0x3f else c.lfo_cnt ^^^ 0x3f) <<< 1) := by
  have h : (OPN2_Clock ct c).1.lfo_am = (OPN2_Clock_cycle (lfoInPart c)).lfo_am := by
    have h0 := congrArg YM3438.lfo_am (lfoOutPart_Clock ct c)
    exact h0
  have h2 : ((lfoInPart c).cycles == 0) = true := by
    show (c.cycles == 0) = true
    rw [hc]
    rfl
  rw [h]
  simp only [OPN2_Clock_cycle, h2, if_true]
  rfl

/-- C22, with the value the code gives the AM modulator: with `lfo_en = 0` and
`lfo_cnt` masked by it (so `lfo_cnt = 0`), the `OPN2_Clock` step at cycle 0
sets `lfo_pm = 0` and `lfo_am = (0 ^ 0x3f) << 1 = 0x7E`; `OPN2_UpdateLFO`
keeps `lfo_cnt` at 0 while `lfo_en = 0`. -/
theorem C22_lfo_disabled (chip_type : Nat) (chip : YM3438)
    (hen : chip.lfo_en = 0) (hcnt : chip.lfo_cnt &&& chip.lfo_en = chip.lfo_cnt)
    (hcyc : chip.cycles = 0) :
    (OPN2_Clock chip_type chip).1.lfo_pm = 0 ∧
      (OPN2_Clock chip_type chip).1.lfo_am = 0x7e ∧
      (OPN2_UpdateLFO chip).lfo_cnt = 0 := by
  have h0 : chip.lfo_cnt = 0 := by
    rw [hen, Nat.and_zero] at hcnt
    exact hcnt.symm
  refine ⟨?_, ?_, ?_⟩
  · rw [Clock_lfo_pm, hcyc, h0]
    rfl
  · rw [Clock_lfo_am chip_type chip hcyc, h0]
    rfl
  · show _ &&& chip.lfo_en = 0
    rw [hen, Nat.and_zero]

/-- C22 on the reset chip. -/
theorem C22_lfo_disabled_witness :
    chip_reset.lfo_en = 0 ∧ chip_reset.lfo_cnt &&& chip_reset.lfo_en = chip_reset.lfo_cnt ∧
      chip_reset.cycles = 0 ∧
      (OPN2_Clock 0 chip_reset).1.lfo_pm = 0 ∧ (OPN2_Clock 0 chip_reset).1.lfo_am = 0x7e :=
  ⟨rfl, rfl, rfl, (C22_lfo_disabled 0 chip_reset rfl rfl rfl).1,
    (C22_lfo_disabled 0 chip_reset rfl rfl rfl).2.1⟩

/-- C22 as stated fails for `lfo_am`: on the reset chip (`lfo_en = 0`,
`lfo_cnt = 0`, cycle 0) the clock sets `lfo_am` to `0x7E`, not 0. -/
theorem C22_counterexample :
    chip_reset.lfo_en = 0 ∧ chip_reset.lfo_cnt &&& chip_reset.lfo_en = chip_reset.lfo_cnt ∧
      chip_reset.cycles = 0 ∧ (OPN2_Clock 0 chip_reset).1.lfo_am ≠ 0 := by
  refine ⟨rfl, rfl, rfl, ?_⟩
  rw [Clock_lfo_am 0 chip_reset rfl]
  decide

/-! ## Phase reset -/

theorem ToInt_ne_zero (b : Bool) : ToInt b ≠ 0 ↔ b = true := by
  cases b <;> simp [ToInt]

/-- C23, with the third cause the code has: `OPN2_EnvelopeADSR` sets
`pg_reset[s]`, `s = (cycles + 22) mod 24`, to 1 if the slot sees a key-on
transition (`eg_kon_latch[s] != 0` and `eg_kon[s] = 0`) or the SSG-EG
phase-reset latch `eg_ssg_pgrst_latch[s]` is set, and to 0 otherwise; and
`OPN2_PhaseGenerate` replaces the accumulator of `s' = (cycles + 19) mod 24` by
0 before adding the increment exactly when `pg_reset[s']` or
`mode_test_21[3]` is set. -/
theorem C23_phase_reset_causes (chip : YM3438) :
    ((OPN2_EnvelopeADSR chip).pg_reset (u32 (chip.cycles + 22) % 24) ≠ 0 ↔
        (chip.eg_kon_latch (u32 (chip.cycles + 22) % 24) ≠ 0 ∧
            chip.eg_kon (u32 (chip.cycles + 22) % 24) = 0) ∨
          chip.eg_ssg_pgrst_latch (u32 (chip.cycles + 22) % 24) ≠ 0) ∧
      (OPN2_EnvelopeADSR chip).pg_reset (u32 (chip.cycles + 22) % 24) ≤ 1 ∧
      (OPN2_PhaseGenerate chip).pg_phase (u32 (chip.cycles + 19) % 24) =
        ((if chip.pg_reset (u32 (chip.cycles + 19) % 24) != 0 || chip.mode_test_21 3 != 0
            then 0 else chip.pg_phase (u32 (chip.cycles + 19) % 24)) +
          chip.pg_inc (u32 (chip.cycles + 19) % 24)) % 2 ^ 20 := by
  refine ⟨?_, ?_, ?_⟩
  · rw [ADSR_pg_reset, upd_same, ToInt_ne_zero]
    simp only [Bool.or_eq_true, Bool.and_eq_true, bne_iff_ne, beq_iff_eq, ne_eq]
  · rw [ADSR_pg_reset, upd_same]
    unfold ToInt
    split <;> decide
  · have hinc : (if chip.pg_reset (u32 (chip.cycles + 20) % 24) != 0 then
          upd chip.pg_inc (u32 (chip.cycles + 20) % 24) 0 else chip.pg_inc)
        (u32 (chip.cycles + 19) % 24) = chip.pg_inc (u32 (chip.cycles + 19) % 24) := by
      split
      · exact upd_other _ _ _ _ (phase_slots_ne chip.cycles)
      · rfl
    by_cases hc : (chip.pg_reset (u32 (chip.cycles + 19) % 24) != 0 ||
        chip.mode_test_21 3 != 0) = true
    · simp only [OPN2_PhaseGenerate, hc, if_true, upd_same, hinc]
      exact u32_and_fffff _
    · simp only [OPN2_PhaseGenerate, hc, Bool.false_eq_true, if_false, upd_same, hinc]
      exact u32_and_fffff _

/-- C23 on a chip whose SSG-EG phase-reset latch is set: the request is
raised. -/
theorem C23_phase_reset_causes_witness :
    (OPN2_EnvelopeADSR chip_pgrst).pg_reset (u32 (chip_pgrst.cycles + 22) % 24) ≠ 0 :=
  (C23_phase_reset_causes chip_pgrst).1.2 (Or.inr (by decide))

/-- C23 as stated fails when the SSG-EG phase-reset latch is set: without a
key-on transition (`eg_kon_latch[s] = 0`) the step sets `pg_reset[s] = 1`. -/
theorem C23_counterexample :
    chip_pgrst.eg_kon_latch (u32 (chip_pgrst.cycles + 22) % 24) = 0 ∧
      (OPN2_EnvelopeADSR chip_pgrst).pg_reset (u32 (chip_pgrst.cycles + 22) % 24) = 1 :=
  ⟨rfl, rfl⟩

/-! ## Phase increment -/

set_option maxRecDepth 100000 in
theorem lfo_sh_zero : ∀ l, l < 16 →
    pg_lfo_sh1 0 (if l &&& 0x08 != 0 then l ^^^ 0x0f else l) = 7 ∧
      pg_lfo_sh2 0 (if l &&& 0x08 != 0 then l ^^^ 0x0f else l) = 7 := by
  decide

theorem and_f_lt (x : Nat) : x &&& 0x0f < 16 :=
  Nat.lt_of_le_of_lt Nat.and_le_right (by decide)

theorem fnum_h_shift (f : Nat) (h : f < 2048) : (f >>> 4) >>> 7 = 0 := by
  rw [Nat.shiftRight_eq_div_pow, Nat.shiftRight_eq_div_pow]
  have h1 : f / 2 ^ 4 < 128 := by
    have : (2 : Nat) ^ 4 = 16 := rfl
    omega
  exact Nat.div_eq_of_lt (Nat.lt_of_lt_of_le h1 (by decide))

theorem usub32_zero (a : Nat) (h : a < 4294967296) : usub32 a 0 = a := by
  unfold usub32 u32
  omega

theorem and_fff_small (a : Nat) (h : a < 4096) : a &&& 0xfff = a := by
  have h1 := Nat.and_pow_two_sub_one_eq_mod a 12
  simp only [show (2 : Nat) ^ 12 - 1 = 0xfff from rfl] at h1
  rw [h1]
  exact Nat.mod_eq_of_lt h

theorem and_1ffff_small (a : Nat) (h : a < 131072) : a &&& 0x1ffff = a := by
  have h1 := Nat.and_pow_two_sub_one_eq_mod a 17
  simp only [show (2 : Nat) ^ 17 - 1 = 0x1ffff from rfl] at h1
  rw [h1]
  exact Nat.mod_eq_of_lt h

/-- The base frequency fits in 17 bits. -/
theorem basefreq_lt (f b : Nat) (hf : f < 2048) (hb : b ≤ 7) :
    (2 * f) <<< b < 4294967296 ∧ ((2 * f) <<< b) >>> 2 < 131072 := by
  rw [Nat.shiftRight_eq_div_pow, Nat.shiftLeft_eq]
  have h2 : (2 : Nat) ^ 2 = 4 := rfl
  rw [h2]
  have hb' : b = 0 ∨ b = 1 ∨ b = 2 ∨ b = 3 ∨ b = 4 ∨ b = 5 ∨ b = 6 ∨ b = 7 := by omega
  rcases hb' with h | h | h | h | h | h | h | h <;> subst h <;> norm_num <;> omega

/-- The increment computed by `OPN2_PhaseCalcIncrement` without vibrato and
without detune. -/
theorem PhaseCalcIncrement_plain (chip : YM3438)
    (hfnum : chip.pg_fnum < 2048) (hblock : chip.pg_block ≤ 7)
    (hpms : chip.pms chip.channel = 0) (hdt : chip.dt chip.cycles &&& 0x03 = 0)
    (hmulti : chip.multi chip.cycles < 256) :
    (OPN2_PhaseCalcIncrement chip).pg_inc chip.cycles =
      (((((2 * chip.pg_fnum) <<< chip.pg_block) >>> 2) * chip.multi chip.cycles) >>> 1) %
        2 ^ 20 := by
  obtain ⟨s1, s2⟩ := lfo_sh_zero _ (and_f_lt chip.lfo_pm)
  have hz := fnum_h_shift chip.pg_fnum hfnum
  obtain ⟨b1, b2⟩ := basefreq_lt chip.pg_fnum chip.pg_block hfnum hblock
  have hf1 : u32 (chip.pg_fnum <<< 1) = 2 * chip.pg_fnum := by
    rw [Nat.shiftLeft_eq]
    unfold u32
    omega
  have hfm : (u32 (0 + 0)) >>> 2 = 0 := rfl
  have hpms5 : ¬ (0 > 5) := by decide
  have hdt0 : ((0 : Nat) != 0) = false := rfl
  have hf2 : u32 (2 * chip.pg_fnum + 0) = 2 * chip.pg_fnum := by
    unfold u32
    omega
  have hf3 : usub32 (2 * chip.pg_fnum) 0 = 2 * chip.pg_fnum := usub32_zero _ (by omega)
  have hf4 : (2 * chip.pg_fnum) &&& 0xfff = 2 * chip.pg_fnum := and_fff_small _ (by omega)
  have hb3 : u32 ((2 * chip.pg_fnum) <<< chip.pg_block) = (2 * chip.pg_fnum) <<< chip.pg_block :=
    Nat.mod_eq_of_lt b1
  simp only [OPN2_PhaseCalcIncrement, upd_same, hpms, hdt, s1, s2, hz, hf1, hfm, hpms5,
    hdt0, if_false, Bool.false_eq_true, hf2, hf3, ite_self, hf4, hb3]
  have hb4 : u32 (((2 * chip.pg_fnum) <<< chip.pg_block) >>> 2 + 0) =
      ((2 * chip.pg_fnum) <<< chip.pg_block) >>> 2 := by
    unfold u32
    omega
  have hb5 : usub32 (((2 * chip.pg_fnum) <<< chip.pg_block) >>> 2) 0 =
      ((2 * chip.pg_fnum) <<< chip.pg_block) >>> 2 := usub32_zero _ (by omega)
  simp only [hb4, hb5, ite_self, and_1ffff_small _ b2]
  have hm : ((2 * chip.pg_fnum) <<< chip.pg_block) >>> 2 * chip.multi chip.cycles <
      131072 * 256 := Nat.mul_lt_mul'' b2 hmulti
  have hu : u32 (((2 * chip.pg_fnum) <<< chip.pg_block) >>> 2 * chip.multi chip.cycles) =
      ((2 * chip.pg_fnum) <<< chip.pg_block) >>> 2 * chip.multi chip.cycles :=
    Nat.mod_eq_of_lt (by omega)
  rw [hu]
  have h1 := Nat.and_pow_two_sub_one_eq_mod
    ((((2 * chip.pg_fnum) <<< chip.pg_block) >>> 2 * chip.multi chip.cycles) >>> 1) 20
  simp only [show (2 : Nat) ^ 20 - 1 = 0xfffff from rfl] at h1
  exact h1

/-- The multiple stored by a write to the register `0x30` (DT, MULTI). -/
theorem DoRegWrite_slot_multi (c : YM3438) (hdata : c.write_fm_data ≠ 0)
    (hoff : op_offset (c.cycles % 12) = c.address &&& 0x107)
    (haddr : c.address &&& 0xf0 = 0x30) :
    (OPN2_DoRegWrite_slot c).multi
        (if c.address &&& 0x08 != 0 then c.cycles % 12 + 12 else c.cycles % 12) =
      if c.data &&& 0x0f = 0 then 1 else 2 * (c.data &&& 0x0f) := by
  have h1 : (c.write_fm_data != 0) = true := by simpa using hdata
  have h2 : (op_offset (c.cycles % 12) == c.address &&& 0x107) = true := by
    rw [hoff]
    exact beq_self_eq_true _
  have h3 : (c.address &&& 0xf0 == 0x30) = true := by
    rw [haddr]
    rfl
  have hd : c.data &&& 0x0f < 16 := and_f_lt c.data
  simp only [OPN2_DoRegWrite_slot, h1, h2, h3, Bool.and_self, if_true, upd_same]
  by_cases h0 : c.data &&& 0x0f = 0
  · rw [h0]
    rfl
  · have hb : (c.data &&& 0x0f == 0) = false := by simpa using h0
    rw [hb, if_neg h0, Nat.shiftLeft_eq]
    simp only [Bool.false_eq_true, if_false]
    unfold u8
    omega

/-- C24: with `pg_fnum < 2048`, `pg_block <= 7`, `pms[channel] = 0`,
`dt[slot] & 3 = 0` and `multi[slot]` in the range of `uint8`, for
`slot = cycles`, `OPN2_PhaseCalcIncrement` sets `pg_inc[slot]` to
`((((2 * pg_fnum) << pg_block) >> 2) * multi[slot] >> 1) mod 2^20`, whatever
`lfo_pm` is; and a write to the register `0x30` stores in `multi` 1 for the
multiple 0 and twice the multiple otherwise. -/
theorem C24_phase_increment (chip : YM3438)
    (hfnum : chip.pg_fnum < 2048) (hblock : chip.pg_block ≤ 7)
    (hpms : chip.pms chip.channel = 0) (hdt : chip.dt chip.cycles &&& 0x03 = 0)
    (hmulti : chip.multi chip.cycles < 256) :
    (OPN2_PhaseCalcIncrement chip).pg_inc chip.cycles =
        (((((2 * chip.pg_fnum) <<< chip.pg_block) >>> 2) * chip.multi chip.cycles) >>> 1) %
          2 ^ 20 ∧
      ∀ c : YM3438, c.write_fm_data ≠ 0 →
        op_offset (c.cycles % 12) = c.address &&& 0x107 → c.address &&& 0xf0 = 0x30 →
        (OPN2_DoRegWrite_slot c).multi
            (if c.address &&& 0x08 != 0 then c.cycles % 12 + 12 else c.cycles % 12) =
          if c.data &&& 0x0f = 0 then 1 else 2 * (c.data &&& 0x0f) :=
  ⟨PhaseCalcIncrement_plain chip hfnum hblock hpms hdt hmulti, DoRegWrite_slot_multi⟩

/-- C24 for the frequency number `0x400`, the block 4 and `multi = 2`: the
increment is `0x2000`; and the multiple 0 is stored as 1. -/
theorem C24_phase_increment_witness :
    chip_note.pg_fnum < 2048 ∧ chip_note.pg_block ≤ 7 ∧
      chip_note.pms chip_note.channel = 0 ∧ chip_note.dt chip_note.cycles &&& 0x03 = 0 ∧
      chip_note.multi chip_note.cycles < 256 ∧
      (OPN2_PhaseCalcIncrement chip_note).pg_inc chip_note.cycles = 0x2000 ∧
      (OPN2_DoRegWrite_slot chip_multi_zero).multi 0 = 1 :=
  ⟨by decide, by decide, rfl, rfl, by decide,
    (C24_phase_increment chip_note (by decide) (by decide) rfl rfl (by decide)).1.trans
      (by decide),
    (C24_phase_increment chip_note (by decide) (by decide) rfl rfl (by decide)).2
      chip_multi_zero (by decide) rfl rfl⟩

/-! ## Operator output -/

set_option maxRecDepth 100000 in
theorem logsinrom_small : ∀ q, q < 256 → logsinrom q ≤ 0x859 := by
  decide

set_option maxRecDepth 100000 in
theorem logsinrom_le (q : Nat) : logsinrom q ≤ 0x859 := by
  by_cases h : q < 256
  · exact logsinrom_small q h
  · have : logsinrom q = 0 := by
      unfold logsinrom tab1
      have hlen : logsinrom_tab.length = 256 := rfl
      exact List.getD_eq_default _ _ (by rw [hlen]; omega)
    rw [this]
    decide

set_option maxRecDepth 100000 in
theorem exprom_small : ∀ q, q < 256 → exprom q < 1024 := by
  decide

set_option maxRecDepth 100000 in
theorem exprom_lt (q : Nat) : exprom q < 1024 := by
  by_cases h : q < 256
  · exact exprom_small q h
  · have : exprom q = 0 := by
      unfold exprom tab1
      have hlen : exprom_tab.length = 256 := rfl
      exact List.getD_eq_default _ _ (by rw [hlen]; omega)
    rw [this]
    decide

/-- At the envelope output `0x3FF` the exponent shift is at least 15 and the
operator output before the sign is 0. -/
theorem fm_silent (q x : Nat) :
    i16 ((u16 ((exprom x ||| 0x400) <<< 2) >>>
      ((if u16 (logsinrom q + u16 (0x3ff <<< 2)) > 0x1fff then 0x1fff
        else u16 (logsinrom q + u16 (0x3ff <<< 2))) >>> 8) : Nat)) = 0 := by
  have hl := logsinrom_le q
  have he : exprom x ||| 0x400 < 2 ^ 11 :=
    Nat.or_lt_two_pow (Nat.lt_of_lt_of_le (exprom_lt x) (by decide)) (by decide)
  have h1 : u16 (0x3ff <<< 2) = 4092 := rfl
  have h2 : u16 (logsinrom q + 4092) = logsinrom q + 4092 := by
    unfold u16
    omega
  have h3 : u16 ((exprom x ||| 0x400) <<< 2) < 8192 := by
    rw [Nat.shiftLeft_eq]
    have : (2 : Nat) ^ 11 = 2048 := rfl
    have : (2 : Nat) ^ 2 = 4 := rfl
    unfold u16
    omega
  rw [h1, h2]
  have h4 : 15 ≤ (if logsinrom q + 4092 > 0x1fff then 0x1fff else logsinrom q + 4092) >>> 8 := by
    rw [Nat.shiftRight_eq_div_pow]
    have : (2 : Nat) ^ 8 = 256 := rfl
    split <;> omega
  generalize (if logsinrom q + 4092 > 0x1fff then 0x1fff else logsinrom q + 4092) >>> 8 = k at h4
  have h5 : u16 ((exprom x ||| 0x400) <<< 2) >>> k = 0 := by
    rw [Nat.shiftRight_eq_div_pow]
    apply Nat.div_eq_of_lt
    have h6 : (2 : Nat) ^ 15 ≤ 2 ^ k := Nat.pow_le_pow_right (by decide) h4
    have : (2 : Nat) ^ 15 = 32768 := rfl
    omega
  rw [h5]
  rfl

/-- C26: with `mode_test_21[4] = 0` and `eg_out[s] = 0x3FF` for
`s = (cycles + 19) mod 24`, `OPN2_FMGenerate` sets `fm_out[s] = 0`, whatever the
phase `pg_phase[s]` and the modulation `fm_mod[s]` are. -/
theorem C26_max_attenuation_silent (chip : YM3438)
    (htest : chip.mode_test_21 4 = 0)
    (hout : chip.eg_out (u32 (chip.cycles + 19) % 24) = 0x3ff) :
    (OPN2_FMGenerate chip).fm_out (u32 (chip.cycles + 19) % 24) = 0 := by
  simp only [OPN2_FMGenerate, upd_same, hout, htest, fm_silent]
  split <;> decide

/-- C26 on a reset chip with the phase `0x12345` and the modulation `0x2a5`. -/
theorem C26_max_attenuation_silent_witness :
    chip_loud_phase.mode_test_21 4 = 0 ∧
      chip_loud_phase.eg_out (u32 (chip_loud_phase.cycles + 19) % 24) = 0x3ff ∧
      (OPN2_FMGenerate chip_loud_phase).fm_out (u32 (chip_loud_phase.cycles + 19) % 24) = 0 :=
  ⟨rfl, rfl, C26_max_attenuation_silent chip_loud_phase rfl rfl⟩

/-! ## Scheduling invariant -/

/-- After any `OPN2_Clock` the scheduling invariant holds. -/
theorem SchedInv_Clock (ct : Nat) (c : YM3438) : SchedInv (OPN2_Clock ct c).1 := by
  refine ⟨?_, ?_⟩
  · rw [Clock_cycles]
    exact Nat.mod_lt _ (by decide)
  · rw [Clock_channel, Clock_cycles]

theorem Clock_cycles_succ (ct : Nat) (c : YM3438) (h : c.cycles < 24) :
    (OPN2_Clock ct c).1.cycles = (c.cycles + 1) % 24 := by
  rw [Clock_cycles]
  unfold u32
  omega

theorem apply_cycles (c : YM3438) : (OPN2_GenerateResampled_apply c).cycles = c.cycles := rfl

theorem apply_channel (c : YM3438) : (OPN2_GenerateResampled_apply c).channel = c.channel := rfl

/-- The queue loop leaves the scheduling counters and the clock count alone. -/
theorem drain_sched (fuel : Nat) : ∀ c c' : YM3438,
    OPN2_GenerateResampled_drain fuel c = .ok c' →
      c'.cycles = c.cycles ∧ c'.channel = c.channel ∧
        c'.writebuf_samplecnt = c.writebuf_samplecnt := by
  induction fuel with
  | zero =>
    intro c c' h
    simp only [OPN2_GenerateResampled_drain] at h
    cases h
  | succ n ih =>
    intro c c' h
    simp only [OPN2_GenerateResampled_drain] at h
    split at h
    · split at h
      · cases h
        exact ⟨rfl, rfl, rfl⟩
      · obtain ⟨h1, h2, h3⟩ := ih _ _ h
        exact ⟨h1.trans (apply_cycles c), h2.trans (apply_channel c),
          h3.trans (apply_writebuf_samplecnt c)⟩
    · cases h
      exact ⟨rfl, rfl, rfl⟩

theorem clock_cycles (ct : Nat) (c : YM3438) :
    (OPN2_GenerateResampled_clock ct c).cycles = u32 (c.cycles + 1) % 24 := by
  have h := Clock_cycles ct c
  exact h

theorem clock_channel (ct : Nat) (c : YM3438) :
    (OPN2_GenerateResampled_clock ct c).channel = (u32 (c.cycles + 1) % 24) % 6 := by
  have h := Clock_channel ct c
  exact h

/-- The rounds of the loop `for range 24` advance `cycles` by one each modulo
24, keep the scheduling invariant and count the clocks in
`writebuf_samplecnt`. -/
theorem clocks_sched (fuel ct n : Nat) : ∀ c c' : YM3438,
    OPN2_GenerateResampled_clocks fuel ct n c = .ok c' →
      (c.cycles < 24 → c'.cycles = (c.cycles + n) % 24) ∧
        (SchedInv c → SchedInv c') ∧
        (c.writebuf_samplecnt < 18446744073709551616 →
          c'.writebuf_samplecnt = u64 (c.writebuf_samplecnt + n)) ∧
        (0 < n → SchedInv c') := by
  induction n with
  | zero =>
    intro c c' h
    simp only [OPN2_GenerateResampled_clocks] at h
    cases h
    refine ⟨fun hc => ?_, id, fun hw => ?_, fun h0 => absurd h0 (Nat.lt_irrefl 0)⟩
    · show c.cycles = (c.cycles + 0) % 24
      omega
    · show c.writebuf_samplecnt = u64 (c.writebuf_samplecnt + 0)
      unfold u64
      omega
  | succ n ih =>
    intro c c' h
    simp only [OPN2_GenerateResampled_clocks] at h
    split at h
    · cases h
    · rename_i c1 hd
      obtain ⟨a1, a2, a3⟩ := drain_sched _ _ _ hd
      obtain ⟨b1, b2, b3, -⟩ := ih _ _ h
      have e1 : c1.cycles = u32 (c.cycles + 1) % 24 := a1.trans (clock_cycles ct c)
      have e2 : c1.channel = (u32 (c.cycles + 1) % 24) % 6 := a2.trans (clock_channel ct c)
      have e3 : c1.writebuf_samplecnt = c.writebuf_samplecnt :=
        a3.trans (clock_writebuf_samplecnt ct c)
      have hlt : c1.cycles < 24 := by
        rw [e1]
        exact Nat.mod_lt _ (by decide)
      have hs1 : SchedInv { c1 with writebuf_samplecnt := u64 (c1.writebuf_samplecnt + 1) } := by
        refine ⟨hlt, ?_⟩
        show c1.channel = c1.cycles % 6
        rw [e2, e1]
      refine ⟨fun hc => ?_, fun _ => b2 hs1, fun hw => ?_, fun _ => b2 hs1⟩
      · have h1 := b1 hlt
        have h2 : c1.cycles = (c.cycles + 1) % 24 := by
          rw [e1]
          unfold u32
          omega
        have h3 : c'.cycles = (c1.cycles + n) % 24 := h1
        rw [h3, h2]
        omega
      · have h1 : c'.writebuf_samplecnt = u64 (u64 (c1.writebuf_samplecnt + 1) + n) :=
          b3 (Nat.mod_lt _ (by decide))
        rw [h1, e3]
        unfold u64
        omega

theorem filter_cycles (uf : Int) (lp : Int → Int → Int) (c : YM3438) :
    (OPN2_GenerateResampled_filter uf lp c).cycles = c.cycles := by
  unfold OPN2_GenerateResampled_filter
  split <;> rfl

theorem filter_channel (uf : Int) (lp : Int → Int → Int) (c : YM3438) :
    (OPN2_GenerateResampled_filter uf lp c).channel = c.channel := by
  unfold OPN2_GenerateResampled_filter
  split <;> rfl

theorem filter_writebuf_samplecnt (uf : Int) (lp : Int → Int → Int) (c : YM3438) :
    (OPN2_GenerateResampled_filter uf lp c).writebuf_samplecnt = c.writebuf_samplecnt := by
  unfold OPN2_GenerateResampled_filter
  split <;> rfl

/-- The loop `for chip.samplecnt >= chip.rateratio` keeps the scheduling
invariant. -/
theorem loop_sched (dfuel ct : Nat) (uf : Int) (lp : Int → Int → Int) (fuel : Nat) :
    ∀ c c' : YM3438, SchedInv c →
      OPN2_GenerateResampled_loop dfuel ct uf lp fuel c = .ok c' → SchedInv c' := by
  induction fuel with
  | zero =>
    intro c c' _ h
    simp only [OPN2_GenerateResampled_loop] at h
    cases h
  | succ n ih =>
    intro c c' hinv h
    simp only [OPN2_GenerateResampled_loop] at h
    split at h
    · split at h
      · cases h
      · rename_i c1 hc
        have h1 : SchedInv c1 := (clocks_sched _ _ _ _ _ hc).2.1 hinv
        refine ih _ _ ⟨?_, ?_⟩ h
        · show (OPN2_GenerateResampled_filter uf lp c1).cycles < 24
          rw [filter_cycles]
          exact h1.1
        · show (OPN2_GenerateResampled_filter uf lp c1).channel =
            (OPN2_GenerateResampled_filter uf lp c1).cycles % 6
          rw [filter_cycles, filter_channel]
          exact h1.2
    · cases h
      exact hinv

theorem GenerateResampled_sched (fuel ct : Nat) (uf : Int) (lp : Int → Int → Int)
    (c : YM3438) (out : YM3438 × Int × Int) (hinv : SchedInv c)
    (h : OPN2_GenerateResampled fuel ct uf lp c = .ok out) : SchedInv out.1 := by
  simp only [OPN2_GenerateResampled] at h
  split at h
  · cases h
  · rename_i c1 hc
    have h1 := loop_sched _ _ _ _ _ _ _ hinv hc
    split at h
    · cases h
    · cases h
      exact h1

theorem Reset_sched (chip : YM3438) (rate clock : Nat) (r : YM3438)
    (h : OPN2_Reset chip rate clock = .ok r) : SchedInv r := by
  simp only [OPN2_Reset] at h
  split at h
  · cases h
  · cases h
    exact ⟨Nat.zero_lt_succ 23, rfl⟩

/-- C25: `cycles < 24` and `channel = cycles mod 6` hold for the chip that
`OPN2_Reset` returns and are preserved by `OPN2_Clock`, `OPN2_Write`,
`OPN2_Read` and `OPN2_GenerateResampled` (which returns when the resampler
fields are in order and the loops are given enough iterations); each
`OPN2_Clock` advances `cycles` by exactly 1 modulo 24. -/
theorem C25_scheduling_invariant (chip_type : Nat) (chip : YM3438)
    (hcycles : chip.cycles < 24) (hchannel : chip.channel = chip.cycles % 6) :
    (∀ (c : YM3438) (rate clock : Nat) (r : YM3438),
        OPN2_Reset c rate clock = .ok r → r.cycles < 24 ∧ r.channel = r.cycles % 6) ∧
      ((OPN2_Clock chip_type chip).1.cycles < 24 ∧
        (OPN2_Clock chip_type chip).1.channel = (OPN2_Clock chip_type chip).1.cycles % 6) ∧
      (OPN2_Clock chip_type chip).1.cycles = (chip.cycles + 1) % 24 ∧
      (∀ port data, (OPN2_Write chip port data).cycles < 24 ∧
        (OPN2_Write chip port data).channel = (OPN2_Write chip port data).cycles % 6) ∧
      (∀ port, (OPN2_Read chip_type chip port).1.cycles < 24 ∧
        (OPN2_Read chip_type chip port).1.channel =
          (OPN2_Read chip_type chip port).1.cycles % 6) ∧
      (∀ fuel use_filter lowpass out,
        OPN2_GenerateResampled fuel chip_type use_filter lowpass chip = .ok out →
          out.1.cycles < 24 ∧ out.1.channel = out.1.cycles % 6) ∧
      (GenInv chip → ∀ fuel use_filter lowpass, 2 ^ 31 < fuel →
        ∃ out, OPN2_GenerateResampled fuel chip_type use_filter lowpass chip = .ok out ∧
          out.1.cycles < 24 ∧ out.1.channel = out.1.cycles % 6) := by
  have hinv : SchedInv chip := ⟨hcycles, hchannel⟩
  refine ⟨fun c rate clock r h => Reset_sched c rate clock r h, SchedInv_Clock chip_type chip,
    Clock_cycles_succ chip_type chip hcycles, fun _ _ => hinv, fun _ => hinv,
    fun fuel uf lp out h => GenerateResampled_sched fuel chip_type uf lp chip out hinv h,
    fun hg fuel uf lp hfuel => ?_⟩
  obtain ⟨out, ho⟩ := GenerateResampled_returns fuel chip_type uf lp chip hg hfuel
  exact ⟨out, ho, GenerateResampled_sched fuel chip_type uf lp chip out hinv ho⟩

/-- C25 at cycle 23: the clock takes the chip to cycle 0 and channel 0. -/
theorem C25_scheduling_invariant_witness :
    chip_cycle_last.cycles < 24 ∧ chip_cycle_last.channel = chip_cycle_last.cycles % 6 ∧
      (OPN2_Clock 0 chip_cycle_last).1.cycles = 0 ∧
      (OPN2_Clock 0 chip_cycle_last).1.channel = 0 :=
  ⟨by decide, rfl,
    (C25_scheduling_invariant 0 chip_cycle_last (by decide) rfl).2.2.1.trans rfl,
    ((C25_scheduling_invariant 0 chip_cycle_last (by decide) rfl).2.1.2).trans
      (by rw [(C25_scheduling_invariant 0 chip_cycle_last (by decide) rfl).2.2.1]; rfl)⟩

/-! ## Native samples per host sample -/

/-- One round of the loop `for chip.samplecnt >= chip.rateratio` is one native
sample. -/
theorem loop_succ (dfuel ct : Nat) (uf : Int) (lp : Int → Int → Int) (fuel : Nat)
    (c : YM3438) (hge : c.samplecnt ≥ c.rateratio) :
    OPN2_GenerateResampled_loop dfuel ct uf lp (fuel + 1) c =
      match OPN2_GenerateResampled_native dfuel ct uf lp c with
      | .error e => .error e
      | .ok c1 => OPN2_GenerateResampled_loop dfuel ct uf lp fuel c1 := by
  simp only [OPN2_GenerateResampled_loop, OPN2_GenerateResampled_native, hge, if_true]
  split <;> rfl

theorem loop_done (dfuel ct : Nat) (uf : Int) (lp : Int → Int → Int) (fuel : Nat)
    (c : YM3438) (hlt : c.samplecnt < c.rateratio) :
    OPN2_GenerateResampled_loop dfuel ct uf lp (fuel + 1) c = .ok c := by
  have h : ¬ c.samplecnt ≥ c.rateratio := by omega
  simp only [OPN2_GenerateResampled_loop, h, if_false]

/-- One native sample returns, takes `rateratio` off `samplecnt`, brings
`cycles` back to its value and adds 24 to the count of clocks. -/
theorem native_spec (dfuel ct : Nat) (uf : Int) (lp : Int → Int → Int) (c : YM3438)
    (hdfuel : 2048 < dfuel) (hr : 0 < c.rateratio) (hge : c.rateratio ≤ c.samplecnt)
    (hs : c.samplecnt < 2147483648) (hcur : c.writebuf_cur < 2048) (hcyc : c.cycles < 24)
    (hw : c.writebuf_samplecnt < 18446744073709551616) :
    ∃ c1, OPN2_GenerateResampled_native dfuel ct uf lp c = .ok c1 ∧
      c1.rateratio = c.rateratio ∧ c1.samplecnt = c.samplecnt - c.rateratio ∧
      c1.writebuf_cur < 2048 ∧ c1.cycles = c.cycles ∧ c1.channel = c1.cycles % 6 ∧
      c1.writebuf_samplecnt = u64 (c.writebuf_samplecnt + 24) := by
  obtain ⟨c1, hc⟩ := clocks_returns dfuel ct 24 hdfuel
    { c with
      oldsamples := upd (upd c.oldsamples 0 (c.samples 0)) 1 (c.samples 1)
      samples := upd (upd c.samples 0 0) 1 0 } hcur
  obtain ⟨a1, a2, a3⟩ := clocks_frame _ _ _ _ _ hc
  obtain ⟨s1, -, s3, s4⟩ := clocks_sched _ _ _ _ _ hc
  have b1 : c1.rateratio = c.rateratio := a1
  have b2 : c1.samplecnt = c.samplecnt := a2
  have b3 : c1.cycles = (c.cycles + 24) % 24 := s1 hcyc
  have b4 : c1.writebuf_samplecnt = u64 (c.writebuf_samplecnt + 24) := s3 hw
  have b5 : c1.channel = c1.cycles % 6 := (s4 (by decide)).2
  have hfit : i32 (c.samplecnt - c.rateratio) = c.samplecnt - c.rateratio :=
    i32_of_fits ⟨by omega, by omega⟩
  have hc' : OPN2_GenerateResampled_clocks dfuel ct 24
      { c with
        oldsamples := upd (upd c.oldsamples 0 (c.samples 0)) 1 (c.samples 1)
        samples := upd (upd c.samples 0 0) 1 0 } = .ok c1 := hc
  have hn : OPN2_GenerateResampled_native dfuel ct uf lp c =
      .ok { OPN2_GenerateResampled_filter uf lp c1 with
        samplecnt := i32 ((OPN2_GenerateResampled_filter uf lp c1).samplecnt -
          (OPN2_GenerateResampled_filter uf lp c1).rateratio) } := by
    simp only [OPN2_GenerateResampled_native, hc']
  refine ⟨_, hn, ?_, ?_, ?_, ?_, ?_, ?_⟩
  · show (OPN2_GenerateResampled_filter uf lp c1).rateratio = c.rateratio
    rw [filter_rateratio, b1]
  · show i32 ((OPN2_GenerateResampled_filter uf lp c1).samplecnt -
      (OPN2_GenerateResampled_filter uf lp c1).rateratio) = c.samplecnt - c.rateratio
    rw [filter_rateratio, filter_samplecnt, b1, b2, hfit]
  · show (OPN2_GenerateResampled_filter uf lp c1).writebuf_cur < 2048
    rw [filter_writebuf_cur]
    exact a3 hcur
  · show (OPN2_GenerateResampled_filter uf lp c1).cycles = c.cycles
    rw [filter_cycles, b3]
    omega
  · show (OPN2_GenerateResampled_filter uf lp c1).channel =
      (OPN2_GenerateResampled_filter uf lp c1).cycles % 6
    rw [filter_cycles, filter_channel]
    exact b5
  · show (OPN2_GenerateResampled_filter uf lp c1).writebuf_samplecnt = _
    rw [filter_writebuf_samplecnt, b4]

/-- The chip after `k` native samples in a row, when `samplecnt` holds at least
`k` times `rateratio`. -/
theorem natives_spec (dfuel ct : Nat) (uf : Int) (lp : Int → Int → Int)
    (hdfuel : 2048 < dfuel) (k : Nat) : ∀ c : YM3438,
    0 < c.rateratio → k * c.rateratio ≤ c.samplecnt → c.samplecnt < 2147483648 →
    c.writebuf_cur < 2048 → c.cycles < 24 → c.writebuf_samplecnt < 18446744073709551616 →
    ∃ c', OPN2_GenerateResampled_natives dfuel ct uf lp k c = .ok c' ∧
      c'.rateratio = c.rateratio ∧ c'.samplecnt = c.samplecnt - k * c.rateratio ∧
      c'.writebuf_cur < 2048 ∧ c'.cycles = c.cycles ∧
      (c.channel = c.cycles % 6 → c'.channel = c'.cycles % 6) ∧
      c'.writebuf_samplecnt = u64 (c.writebuf_samplecnt + 24 * k) := by
  induction k with
  | zero =>
    intro c hr hk hs hcur hcyc hw
    refine ⟨c, rfl, rfl, ?_, hcur, rfl, id, ?_⟩
    · simp
    · show c.writebuf_samplecnt = u64 (c.writebuf_samplecnt + 24 * 0)
      unfold u64
      omega
  | succ k ih =>
    intro c hr hk hs hcur hcyc hw
    have hk' : k * c.rateratio + c.rateratio ≤ c.samplecnt := by
      have e : ((k + 1 : Nat) : Int) * c.rateratio = k * c.rateratio + c.rateratio := by
        push_cast
        ring
      rw [e] at hk
      exact hk
    have hk0 : (0 : Int) ≤ k * c.rateratio := by positivity
    obtain ⟨c1, h1, r1, r2, r3, r4, r5, r6⟩ :=
      native_spec dfuel ct uf lp c hdfuel hr (by omega) hs hcur hcyc hw
    obtain ⟨c2, h2, q1, q2, q3, q4, q5, q6⟩ := ih c1 (by rw [r1]; exact hr)
      (by rw [r1, r2]; omega) (by rw [r2]; omega) r3 (by rw [r4]; exact hcyc)
      (by rw [r6]; exact Nat.mod_lt _ (by decide))
    have hn : OPN2_GenerateResampled_natives dfuel ct uf lp (k + 1) c = .ok c2 := by
      simp only [OPN2_GenerateResampled_natives, h1, h2]
    refine ⟨c2, hn, q1.trans r1, ?_, q3,
      q4.trans r4, fun _ => q5 r5, ?_⟩
    · rw [q2, r1, r2]
      push_cast
      ring
    · rw [q6, r6]
      unfold u64
      omega

/-- The loop `for chip.samplecnt >= chip.rateratio` makes `k` native samples
when `samplecnt` holds `k` times `rateratio` and not `k + 1` times. -/
theorem loop_natives (dfuel ct : Nat) (uf : Int) (lp : Int → Int → Int)
    (hdfuel : 2048 < dfuel) (k : Nat) : ∀ (fuel : Nat) (c : YM3438),
    0 < c.rateratio → k * c.rateratio ≤ c.samplecnt →
    c.samplecnt < (k + 1 : Nat) * c.rateratio → c.samplecnt < 2147483648 →
    c.writebuf_cur < 2048 → c.cycles < 24 → c.writebuf_samplecnt < 18446744073709551616 →
    k < fuel →
    OPN2_GenerateResampled_loop dfuel ct uf lp fuel c =
      OPN2_GenerateResampled_natives dfuel ct uf lp k c := by
  induction k with
  | zero =>
    intro fuel c hr hk hlt hs hcur hcyc hw hf
    obtain ⟨f, rfl⟩ : ∃ f, fuel = f + 1 := ⟨fuel - 1, by omega⟩
    have h : c.samplecnt < c.rateratio := by
      simpa using hlt
    rw [loop_done dfuel ct uf lp f c h]
    rfl
  | succ k ih =>
    intro fuel c hr hk hlt hs hcur hcyc hw hf
    obtain ⟨f, rfl⟩ : ∃ f, fuel = f + 1 := ⟨fuel - 1, by omega⟩
    have e1 : ((k + 1 : Nat) : Int) * c.rateratio = k * c.rateratio + c.rateratio := by
      push_cast
      ring
    have e2 : ((k + 1 + 1 : Nat) : Int) * c.rateratio =
        ((k + 1 : Nat) : Int) * c.rateratio + c.rateratio := by
      push_cast
      ring
    rw [e1] at hk
    rw [e2] at hlt
    have hk0 : (0 : Int) ≤ k * c.rateratio := by positivity
    obtain ⟨c1, h1, r1, r2, r3, r4, r5, r6⟩ :=
      native_spec dfuel ct uf lp c hdfuel hr (by omega) hs hcur hcyc hw
    rw [loop_succ dfuel ct uf lp f c (by omega)]
    simp only [OPN2_GenerateResampled_natives, h1]
    exact ih f c1 (by rw [r1]; exact hr) (by rw [r1, r2]; omega) (by rw [r1, r2]; omega)
      (by rw [r2]; omega) r3 (by rw [r4]; exact hcyc)
      (by rw [r6]; exact Nat.mod_lt _ (by decide)) (by omega)

/-- The number of times a positive `r` goes into a non-negative `s`. -/
theorem quotient_bounds (s r : Int) (hr : 0 < r) (hs : 0 ≤ s) :
    ((s / r).toNat : Int) * r ≤ s ∧ s < (((s / r).toNat + 1 : Nat) : Int) * r ∧
      s - ((s / r).toNat : Int) * r = s % r := by
  have h0 : 0 ≤ s / r := Int.ediv_nonneg hs (le_of_lt hr)
  have h1 : ((s / r).toNat : Int) = s / r := Int.toNat_of_nonneg h0
  have h2 := Int.emod_add_ediv s r
  have h3 := Int.emod_nonneg s (ne_of_gt hr)
  have h4 := Int.emod_lt_of_pos s hr
  have h5 : r * (s / r) = s / r * r := mul_comm _ _
  refine ⟨?_, ?_, ?_⟩
  · rw [h1]
    omega
  · push_cast
    rw [h1, add_mul, one_mul]
    omega
  · rw [h1]
    omega

/-- One call of `OPN2_GenerateResampled` makes `samplecnt / rateratio` native
samples and then adds `1 << RSM_FRAC` to what is left of `samplecnt`. -/
theorem GenerateResampled_count (fuel ct : Nat) (uf : Int) (lp : Int → Int → Int)
    (c : YM3438) (hr : 0 < c.rateratio) (hs : 0 ≤ c.samplecnt)
    (hs32 : c.samplecnt < 2147483648) (hcur : c.writebuf_cur < 2048) (hcyc : c.cycles < 24)
    (hw : c.writebuf_samplecnt < 18446744073709551616) (hfuel : 2 ^ 31 < fuel) :
    ∃ c', OPN2_GenerateResampled_natives fuel ct uf lp (c.samplecnt / c.rateratio).toNat c =
        .ok c' ∧
      OPN2_GenerateResampled fuel ct uf lp c =
        .ok ({ c' with samplecnt := i32 (c'.samplecnt + 2 ^ RSM_FRAC) },
          OPN2_GenerateResampled_blend c' 0, OPN2_GenerateResampled_blend c' 1) ∧
      c'.samplecnt = c.samplecnt % c.rateratio ∧ c'.cycles = c.cycles ∧
      (c.channel = c.cycles % 6 → c'.channel = c'.cycles % 6) ∧
      c'.writebuf_samplecnt =
        u64 (c.writebuf_samplecnt + 24 * (c.samplecnt / c.rateratio).toNat) := by
  obtain ⟨q1, q2, q3⟩ := quotient_bounds c.samplecnt c.rateratio hr hs
  have hf : (2 : Nat) ^ 31 = 2147483648 := rfl
  have hdfuel : 2048 < fuel := by omega
  have hk : (c.samplecnt / c.rateratio).toNat < fuel := by
    have h1 : (((c.samplecnt / c.rateratio).toNat : Nat) : Int) ≤
        ((c.samplecnt / c.rateratio).toNat : Int) * c.rateratio := by
      have h0 : (0 : Int) ≤ ((c.samplecnt / c.rateratio).toNat : Int) := Int.ofNat_nonneg _
      nlinarith
    have h2 : (((c.samplecnt / c.rateratio).toNat : Nat) : Int) < (fuel : Int) := by
      have h3 : ((2147483648 : Nat) : Int) < (fuel : Int) := by
        have : 2147483648 < fuel := by omega
        exact_mod_cast this
      push_cast at h3
      omega
    exact_mod_cast h2
  obtain ⟨c', h1, r1, r2, r3, r4, r5, r6⟩ := natives_spec fuel ct uf lp hdfuel
    (c.samplecnt / c.rateratio).toNat c hr q1 hs32 hcur hcyc hw
  have hl := loop_natives fuel ct uf lp hdfuel (c.samplecnt / c.rateratio).toNat fuel c hr q1 q2
    hs32 hcur hcyc hw hk
  have hz : (c'.rateratio == 0) = false := by
    have : c'.rateratio ≠ 0 := by
      rw [r1]
      omega
    simpa using this
  have hg : OPN2_GenerateResampled fuel ct uf lp c =
      .ok ({ c' with samplecnt := i32 (c'.samplecnt + 2 ^ RSM_FRAC) },
        OPN2_GenerateResampled_blend c' 0, OPN2_GenerateResampled_blend c' 1) := by
    simp only [OPN2_GenerateResampled, hl, h1, hz]
    rfl
  exact ⟨c', h1, hg, r2.trans q3, r4, r5, r6⟩

/-- C29, with the count of clocks in `uint64` arithmetic: with `rateratio > 0`,
`0 <= samplecnt`, `cycles < 24`, `writebuf_cur` inside the ring, the fields in
the range of their types and `samplecnt mod rateratio + 1024` in the range of
`int32`, one call of `OPN2_GenerateResampled` returns, makes exactly
`floor(samplecnt / rateratio)` native samples in a row, each by the 24 rounds
of the loop `for range 24`, and afterwards `cycles` is unchanged,
`writebuf_samplecnt` is the old value plus 24 times that number modulo `2^64`,
and `samplecnt` is `(old samplecnt mod rateratio) + 1024`. -/
theorem C29_native_samples (fuel chip_type : Nat) (use_filter : Int)
    (lowpass : Int → Int → Int) (chip : YM3438)
    (hratio : 0 < chip.rateratio) (hcnt : 0 ≤ chip.samplecnt)
    (hcnt32 : chip.samplecnt < 2 ^ 31) (hcycles : chip.cycles < 24)
    (hcur : chip.writebuf_cur < 2048) (hwcnt : chip.writebuf_samplecnt < 2 ^ 64)
    (hfit : chip.samplecnt % chip.rateratio + 1024 < 2 ^ 31) (hfuel : 2 ^ 31 < fuel) :
    ∃ out, OPN2_GenerateResampled fuel chip_type use_filter lowpass chip = .ok out ∧
      (∃ c, OPN2_GenerateResampled_natives fuel chip_type use_filter lowpass
          (chip.samplecnt / chip.rateratio).toNat chip = .ok c ∧
        out.1 = { c with samplecnt := c.samplecnt + 1024 }) ∧
      out.1.cycles = chip.cycles ∧
      out.1.writebuf_samplecnt =
        (chip.writebuf_samplecnt + 24 * (chip.samplecnt / chip.rateratio).toNat) % 2 ^ 64 ∧
      (chip.writebuf_samplecnt + 24 * (chip.samplecnt / chip.rateratio).toNat < 2 ^ 64 →
        out.1.writebuf_samplecnt =
          chip.writebuf_samplecnt + 24 * (chip.samplecnt / chip.rateratio).toNat) ∧
      out.1.samplecnt = chip.samplecnt % chip.rateratio + 1024 := by
  have hcnt32' : chip.samplecnt < 2147483648 := by
    norm_num at hcnt32
    exact hcnt32
  have hfit' : chip.samplecnt % chip.rateratio + 1024 < 2147483648 := by
    norm_num at hfit
    exact hfit
  obtain ⟨c, h1, h2, h3, h4, -, h6⟩ := GenerateResampled_count fuel chip_type use_filter
    lowpass chip hratio hcnt hcnt32' hcur hcycles hwcnt hfuel
  have h0 := Int.emod_nonneg chip.samplecnt (ne_of_gt hratio)
  have hadd : i32 (c.samplecnt + 2 ^ RSM_FRAC) = c.samplecnt + 1024 := by
    show i32 (c.samplecnt + 1024) = _
    rw [h3]
    exact i32_of_fits ⟨by omega, hfit'⟩
  refine ⟨_, h2, ⟨c, h1, ?_⟩, h4, h6, fun hlt => ?_, ?_⟩
  · show ({ c with samplecnt := i32 (c.samplecnt + 2 ^ RSM_FRAC) } : YM3438) = _
    rw [hadd]
  · show c.writebuf_samplecnt = _
    rw [h6]
    exact Nat.mod_eq_of_lt hlt
  · show i32 (c.samplecnt + 2 ^ RSM_FRAC) = _
    rw [hadd, h3]

/-- C29 on a reset chip with `samplecnt = 2000` and `rateratio = 847`: two
native samples, 48 clocks, and `samplecnt = 306 + 1024` afterwards. -/
theorem C29_native_samples_witness :
    0 < chip_two_samples.rateratio ∧ 0 ≤ chip_two_samples.samplecnt ∧
      chip_two_samples.samplecnt < 2 ^ 31 ∧ chip_two_samples.cycles < 24 ∧
      chip_two_samples.writebuf_cur < 2048 ∧ chip_two_samples.writebuf_samplecnt < 2 ^ 64 ∧
      chip_two_samples.samplecnt % chip_two_samples.rateratio + 1024 < 2 ^ 31 ∧
      ∃ out, OPN2_GenerateResampled (2 ^ 31 + 1) 0 0 (fun old _ => old) chip_two_samples =
          .ok out ∧
        out.1.cycles = 0 ∧ out.1.writebuf_samplecnt = 48 ∧ out.1.samplecnt = 1330 := by
  refine ⟨by decide, by decide, by decide, by decide, by decide, by decide, by decide, ?_⟩
  obtain ⟨out, h1, -, h3, h4, -, h6⟩ := C29_native_samples (2 ^ 31 + 1) 0 0 (fun old _ => old)
    chip_two_samples (by decide) (by decide) (by decide) (by decide) (by decide) (by decide)
    (by decide) (by decide)
  exact ⟨out, h1, h3, h4.trans (by decide), h6.trans (by decide)⟩

/-- C29 as stated fails when the count of clocks wraps in `uint64`: with
`samplecnt = rateratio = 847` one native sample is made, and the count goes
from `2^64 - 16` to 8 instead of growing by 24. -/
theorem C29_counterexample :
    0 < chip_count_wrap.rateratio ∧ 0 ≤ chip_count_wrap.samplecnt ∧
      chip_count_wrap.cycles < 24 ∧
      chip_count_wrap.samplecnt / chip_count_wrap.rateratio = 1 ∧
      chip_count_wrap.writebuf_samplecnt = 18446744073709551600 ∧
      ∃ out, OPN2_GenerateResampled (2 ^ 31 + 1) 0 0 (fun old _ => old) chip_count_wrap =
          .ok out ∧
        out.1.writebuf_samplecnt = 8 := by
  refine ⟨by decide, by decide, by decide, by decide, rfl, ?_⟩
  obtain ⟨c, -, h2, -, -, -, h6⟩ := GenerateResampled_count (2 ^ 31 + 1) 0 0 (fun old _ => old)
    chip_count_wrap (by decide) (by decide) (by decide) (by decide) (by decide) (by decide)
    (by decide)
  refine ⟨_, h2, ?_⟩
  show c.writebuf_samplecnt = 8
  rw [h6]
  decide

/-! ## Key-on scope -/

theorem konInPart_Clock_head_eq (c : YM3438) :
    konInPart ( OPN2_Clock_head c) = konInPart c := rfl

theorem konInPart_Clock_cycle_eq (c : YM3438) :
    konInPart ( OPN2_Clock_cycle c) = konInPart c := rfl

theorem konInPart_Clock_timer_eq (c : YM3438) :
    konInPart ( OPN2_Clock_timer c) = konInPart c := rfl

theorem konInPart_DoIO_eq (c : YM3438) :
    konInPart ( OPN2_DoIO c) = konInPart c := rfl

theorem konInPart_DoTimerA_eq (c : YM3438) :
    konInPart ( OPN2_DoTimerA c) = konInPart c := rfl

theorem konInPart_DoTimerB_eq (c : YM3438) :
    konInPart ( OPN2_DoTimerB c) = konInPart c := rfl

theorem konOutPart_ChOutput_eq (chip_type : Nat) (c : YM3438) :
    konOutPart ( OPN2_ChOutput chip_type c) = konOutPart c := rfl

theorem konOutPart_ChGenerate_eq (c : YM3438) :
    konOutPart ( OPN2_ChGenerate c) = konOutPart c := rfl

theorem konOutPart_FMPrepare_eq (c : YM3438) :
    konOutPart ( OPN2_FMPrepare c) = konOutPart c := rfl

theorem konOutPart_FMGenerate_eq (c : YM3438) :
    konOutPart ( OPN2_FMGenerate c) = konOutPart c := rfl

theorem konOutPart_PhaseGenerate_eq (c : YM3438) :
    konOutPart ( OPN2_PhaseGenerate c) = konOutPart c := rfl

theorem konOutPart_PhaseCalcIncrement_eq (c : YM3438) :
    konOutPart ( OPN2_PhaseCalcIncrement c) = konOutPart c := rfl

theorem konOutPart_EnvelopeADSR_eq (c : YM3438) :
    konOutPart ( OPN2_EnvelopeADSR c) = konOutPart c := rfl

theorem konOutPart_EnvelopeGenerate_eq (c : YM3438) :
    konOutPart ( OPN2_EnvelopeGenerate c) = konOutPart c := rfl

theorem konOutPart_EnvelopeSSGEG_eq (c : YM3438) :
    konOutPart ( OPN2_EnvelopeSSGEG c) = konOutPart c := rfl

theorem konOutPart_EnvelopePrepare_eq (c : YM3438) :
    konOutPart ( OPN2_EnvelopePrepare c) = konOutPart c := rfl

theorem konOutPart_Clock_fnum_eq (c : YM3438) (slot : Nat) :
    konOutPart ( OPN2_Clock_fnum c slot) = konOutPart c := rfl

theorem konOutPart_UpdateLFO_eq (c : YM3438) :
    konOutPart ( OPN2_UpdateLFO c) = konOutPart c := rfl

theorem konOutPart_DoRegWrite_slot_eq (c : YM3438) :
    konOutPart ( OPN2_DoRegWrite_slot c) = konOutPart c := rfl

theorem konOutPart_DoRegWrite_channel_eq (c : YM3438) :
    konOutPart ( OPN2_DoRegWrite_channel c) = konOutPart c := rfl

theorem konOutPart_DoRegWrite_latch_eq (c : YM3438) :
    konOutPart ( OPN2_DoRegWrite_latch c) = konOutPart c := rfl

theorem konOutPart_DoRegWrite_data_eq (c : YM3438) :
    konOutPart ( OPN2_DoRegWrite_data c) = konOutPart c := rfl

theorem konOutPart_DoRegWrite_eq (c : YM3438) :
    konOutPart ( OPN2_DoRegWrite c) = konOutPart c := by
  simp only [OPN2_DoRegWrite, OPN2_DoRegWrite_update]
  rw [konOutPart_DoRegWrite_data_eq, konOutPart_DoRegWrite_latch_eq, konOutPart_DoRegWrite_channel_eq, konOutPart_DoRegWrite_slot_eq]

theorem konOutPart_Clock_next_eq (c : YM3438) :
    konOutPart ( OPN2_Clock_next c) = konOutPart c := rfl

theorem konOutPart_Clock_status_eq (c : YM3438) :
    konOutPart ( OPN2_Clock_status c) = konOutPart c := rfl

theorem konOutPart_KeyOn_eq (c : YM3438) :
    konOutPart (OPN2_KeyOn c) = konOutPart (OPN2_KeyOn (konInPart c)) := rfl

/-- The key-on bits after `OPN2_Clock` are those that `OPN2_KeyOn` computes
from the fields of `konInPart` on entry. -/
theorem konOutPart_Clock (chip_type : Nat) (c : YM3438) :
    konOutPart (OPN2_Clock chip_type c).1 = konOutPart (OPN2_KeyOn (konInPart c)) := by
  have h1 : konOutPart (OPN2_Clock chip_type c).1 =
      konOutPart (OPN2_KeyOn (OPN2_DoTimerB (OPN2_DoTimerA
        ( OPN2_DoIO (OPN2_Clock_timer (OPN2_Clock_cycle (OPN2_Clock_head c))))))) := by
    simp only [OPN2_Clock]
    rw [konOutPart_Clock_status_eq,
      konOutPart_Clock_next_eq,
      konOutPart_DoRegWrite_eq,
      konOutPart_UpdateLFO_eq,
      konOutPart_Clock_fnum_eq,
      konOutPart_EnvelopePrepare_eq,
      konOutPart_EnvelopeSSGEG_eq,
      konOutPart_EnvelopeGenerate_eq,
      konOutPart_EnvelopeADSR_eq,
      konOutPart_PhaseCalcIncrement_eq,
      konOutPart_PhaseGenerate_eq,
      konOutPart_FMGenerate_eq,
      konOutPart_FMPrepare_eq,
      konOutPart_ChGenerate_eq,
      konOutPart_ChOutput_eq]
  refine h1.trans ((konOutPart_KeyOn_eq _).trans ?_)
  rw [konInPart_DoTimerB_eq,
    konInPart_DoTimerA_eq,
    konInPart_DoIO_eq,
    konInPart_Clock_timer_eq,
    konInPart_Clock_cycle_eq,
    konInPart_Clock_head_eq]

/-- The key-on bits after one `OPN2_Clock`. -/
theorem Clock_mode_kon (ct : Nat) (c : YM3438) :
    (OPN2_Clock ct c).1.mode_kon = (OPN2_KeyOn c).mode_kon := by
  have h := congrArg YM3438.mode_kon (konOutPart_Clock ct c)
  exact h

theorem KeyOn_mode_kon (c : YM3438) :
    (OPN2_KeyOn c).mode_kon =
      if c.cycles == c.mode_kon_channel then
        upd (upd (upd (upd c.mode_kon c.channel (c.mode_kon_operator 0))
          (c.channel + 12) (c.mode_kon_operator 1))
          (c.channel + 6) (c.mode_kon_operator 2))
          (c.channel + 18) (c.mode_kon_operator 3)
      else c.mode_kon := rfl

theorem KeyOn_mode_kon_miss (c : YM3438) (h : c.cycles ≠ c.mode_kon_channel) :
    (OPN2_KeyOn c).mode_kon = c.mode_kon := by
  have hb : (c.cycles == c.mode_kon_channel) = false := by simpa using h
  rw [KeyOn_mode_kon, hb]
  rfl

/-- While `mode_kon_channel` is `0xFF` the clocks leave `mode_kon` alone. -/
theorem mode_kon_idle (ct n : Nat) : ∀ c : YM3438, c.cycles < 24 →
    (∀ k, k < n → (OPN2_Clock_n ct k c).mode_kon_channel = 0xff) →
    (OPN2_Clock_n ct n c).mode_kon = c.mode_kon := by
  induction n with
  | zero =>
    intro c _ _
    rfl
  | succ n ih =>
    intro c hc hk
    have h1 := ih c hc (fun k hk' => hk k (Nat.lt_succ_of_lt hk'))
    have h2 := hk n (Nat.lt_succ_self n)
    have h3 := Clock_n_cycles ct n c hc
    rw [Clock_n_last, Clock_mode_kon, KeyOn_mode_kon_miss, h1]
    rw [h2, h3]
    have : (c.cycles + n) % 24 < 24 := Nat.mod_lt _ (by decide)
    omega

/-- A data write to the register `0x28` whose low two bits are 3 stores `0xFF`
in `mode_kon_channel`. -/
theorem DoRegWrite_kon_invalid (c : YM3438) (hen : c.write_d_en ≠ 0)
    (hport : c.write_data &&& 0x100 = 0) (hreg : c.write_fm_mode_a = 0x28)
    (hlow : c.write_data &&& 0x03 = 0x03) :
    (OPN2_DoRegWrite c).mode_kon_channel = 0xff := by
  have h1 : (c.write_d_en != 0) = true := by simpa using hen
  show (if ((c.write_a_en != 0 || c.write_d_en != 0) && c.write_d_en != 0 &&
      c.write_data &&& 0x100 == 0) && c.write_fm_mode_a == 0x28 then
      (if c.write_data &&& 0x03 == 0x03 then 0xff
        else u8 ((c.write_data &&& 0x03) + ((c.write_data >>> 2) &&& 1) * 3))
    else c.mode_kon_channel) = 0xff
  rw [h1, hport, hreg, hlow]
  simp

theorem KonChannelInv_Clock_head (c : YM3438) (h : KonChannelInv c) :
    KonChannelInv ( OPN2_Clock_head c) := h

theorem KonChannelInv_Clock_cycle (c : YM3438) (h : KonChannelInv c) :
    KonChannelInv ( OPN2_Clock_cycle c) := h

theorem KonChannelInv_Clock_timer (c : YM3438) (h : KonChannelInv c) :
    KonChannelInv ( OPN2_Clock_timer c) := h

theorem KonChannelInv_DoIO (c : YM3438) (h : KonChannelInv c) :
    KonChannelInv ( OPN2_DoIO c) := h

theorem KonChannelInv_DoTimerA (c : YM3438) (h : KonChannelInv c) :
    KonChannelInv ( OPN2_DoTimerA c) := h

theorem KonChannelInv_DoTimerB (c : YM3438) (h : KonChannelInv c) :
    KonChannelInv ( OPN2_DoTimerB c) := h

theorem KonChannelInv_KeyOn (c : YM3438) (h : KonChannelInv c) :
    KonChannelInv ( OPN2_KeyOn c) := h

theorem KonChannelInv_ChOutput (chip_type : Nat) (c : YM3438) (h : KonChannelInv c) :
    KonChannelInv ( OPN2_ChOutput chip_type c) := h

theorem KonChannelInv_ChGenerate (c : YM3438) (h : KonChannelInv c) :
    KonChannelInv ( OPN2_ChGenerate c) := h

theorem KonChannelInv_FMPrepare (c : YM3438) (h : KonChannelInv c) :
    KonChannelInv ( OPN2_FMPrepare c) := h

theorem KonChannelInv_FMGenerate (c : YM3438) (h : KonChannelInv c) :
    KonChannelInv ( OPN2_FMGenerate c) := h

theorem KonChannelInv_PhaseGenerate (c : YM3438) (h : KonChannelInv c) :
    KonChannelInv ( OPN2_PhaseGenerate c) := h

theorem KonChannelInv_PhaseCalcIncrement (c : YM3438) (h : KonChannelInv c) :
    KonChannelInv ( OPN2_PhaseCalcIncrement c) := h

theorem KonChannelInv_EnvelopeADSR (c : YM3438) (h : KonChannelInv c) :
    KonChannelInv ( OPN2_EnvelopeADSR c) := h

theorem KonChannelInv_EnvelopeGenerate (c : YM3438) (h : KonChannelInv c) :
    KonChannelInv ( OPN2_EnvelopeGenerate c) := h

theorem KonChannelInv_EnvelopeSSGEG (c : YM3438) (h : KonChannelInv c) :
    KonChannelInv ( OPN2_EnvelopeSSGEG c) := h

theorem KonChannelInv_EnvelopePrepare (c : YM3438) (h : KonChannelInv c) :
    KonChannelInv ( OPN2_EnvelopePrepare c) := h

theorem KonChannelInv_Clock_fnum (c : YM3438) (slot : Nat) (h : KonChannelInv c) :
    KonChannelInv ( OPN2_Clock_fnum c slot) := h

theorem KonChannelInv_UpdateLFO (c : YM3438) (h : KonChannelInv c) :
    KonChannelInv ( OPN2_UpdateLFO c) := h

theorem KonChannelInv_Clock_next (c : YM3438) (h : KonChannelInv c) :
    KonChannelInv ( OPN2_Clock_next c) := h

theorem KonChannelInv_Clock_status (c : YM3438) (h : KonChannelInv c) :
    KonChannelInv ( OPN2_Clock_status c) := h

/-- A write to the register `0x28` stores a channel in `0..5` or `0xFF`, and
every other step of `OPN2_DoRegWrite` keeps the key-on channel. -/
theorem KonChannelInv_DoRegWrite (c : YM3438) (h : KonChannelInv c) :
    KonChannelInv (OPN2_DoRegWrite c) := by
  have e : (OPN2_DoRegWrite c).mode_kon_channel =
      (if ((c.write_a_en != 0 || c.write_d_en != 0) && c.write_d_en != 0 &&
          c.write_data &&& 0x100 == 0) && c.write_fm_mode_a == 0x28 then
        (if c.write_data &&& 0x03 == 0x03 then 0xff
          else u8 ((c.write_data &&& 0x03) + ((c.write_data >>> 2) &&& 1) * 3))
      else c.mode_kon_channel) := rfl
  unfold KonChannelInv
  rw [e]
  split
  · split
    · exact Or.inr rfl
    · rename_i h3
      have h3' : c.write_data &&& 0x03 ≠ 3 := by simpa using h3
      have h1 : c.write_data &&& 0x03 ≤ 3 := Nat.and_le_right
      have h2 : (c.write_data >>> 2) &&& 1 ≤ 1 := Nat.and_le_right
      have hs : (c.write_data &&& 0x03) + ((c.write_data >>> 2) &&& 1) * 3 ≤ 5 := by omega
      exact Or.inl (le_trans (Nat.mod_le _ _) hs)
  · exact h

/-- `OPN2_Clock` keeps the key-on channel among the six channels or `0xFF`. -/
theorem KonChannelInv_Clock (ct : Nat) (c : YM3438) (h : KonChannelInv c) :
    KonChannelInv (OPN2_Clock ct c).1 := by
  have h1 := KonChannelInv_Clock_head c h
  have h2 := KonChannelInv_Clock_cycle _ h1
  have h3 := KonChannelInv_Clock_timer _ h2
  have h4 := KonChannelInv_DoIO _ h3
  have h5 := KonChannelInv_DoTimerA _ h4
  have h6 := KonChannelInv_DoTimerB _ h5
  have h7 := KonChannelInv_KeyOn _ h6
  have h8 := KonChannelInv_ChOutput ct _ h7
  have h9 := KonChannelInv_ChGenerate _ h8
  have h10 := KonChannelInv_FMPrepare _ h9
  have h11 := KonChannelInv_FMGenerate _ h10
  have h12 := KonChannelInv_PhaseGenerate _ h11
  have h13 := KonChannelInv_PhaseCalcIncrement _ h12
  have h14 := KonChannelInv_EnvelopeADSR _ h13
  have h15 := KonChannelInv_EnvelopeGenerate _ h14
  have h16 := KonChannelInv_EnvelopeSSGEG _ h15
  have h17 := KonChannelInv_EnvelopePrepare _ h16
  have h18 := KonChannelInv_Clock_fnum _ c.cycles h17
  have h19 := KonChannelInv_UpdateLFO _ h18
  have h20 := KonChannelInv_DoRegWrite _ h19
  have h21 := KonChannelInv_Clock_next _ h20
  exact KonChannelInv_Clock_status _ h21

/-- `OPN2_Clock` keeps the key-on invariant. -/
theorem KonInv_Clock (ct : Nat) (c : YM3438) (h : KonInv c) : KonInv (OPN2_Clock ct c).1 :=
  ⟨SchedInv_Clock ct c, KonChannelInv_Clock ct c h.2⟩

/-- The chip that `OPN2_Reset` returns satisfies the key-on invariant. -/
theorem KonInv_Reset (chip r : YM3438) (rate clock : Nat)
    (h : OPN2_Reset chip rate clock = .ok r) : KonInv r := by
  refine ⟨Reset_sched chip rate clock r h, ?_⟩
  simp only [OPN2_Reset] at h
  split at h
  · cases h
  · cases h
    exact Or.inl (Nat.zero_le 5)

/-- The bus calls keep the key-on invariant. -/
theorem KonInv_apply (ct : Nat) (c : YM3438) (op : BusOp) (h : KonInv c) :
    KonInv (BusOp.apply ct c op).1 := by
  cases op with
  | write port data => exact h
  | setTestPin value => exact h
  | read port => exact h
  | clock => exact KonInv_Clock ct c h

/-- The queue loop keeps the key-on invariant. -/
theorem KonInv_drain (fuel : Nat) : ∀ c c' : YM3438, KonInv c →
    OPN2_GenerateResampled_drain fuel c = .ok c' → KonInv c' := by
  induction fuel with
  | zero =>
    intro c c' _ h
    simp only [OPN2_GenerateResampled_drain] at h
    cases h
  | succ n ih =>
    intro c c' hinv h
    simp only [OPN2_GenerateResampled_drain] at h
    split at h
    · split at h
      · cases h
        exact hinv
      · have ha : KonInv (OPN2_GenerateResampled_apply c) := hinv
        exact ih _ _ ha h
    · cases h
      exact hinv

theorem clock_mode_kon_channel (ct : Nat) (c : YM3438) :
    (OPN2_GenerateResampled_clock ct c).mode_kon_channel =
      (OPN2_Clock ct c).1.mode_kon_channel := rfl

/-- One round of the loop `for range 24` up to the queue loop keeps the key-on
invariant. -/
theorem KonInv_clock (ct : Nat) (c : YM3438) (h : KonInv c) :
    KonInv (OPN2_GenerateResampled_clock ct c) := by
  refine ⟨⟨?_, ?_⟩, ?_⟩
  · rw [clock_cycles]
    exact Nat.mod_lt _ (by decide)
  · rw [clock_channel, clock_cycles]
  · unfold KonChannelInv
    rw [clock_mode_kon_channel]
    exact KonChannelInv_Clock ct c h.2

/-- The rounds of the loop `for range 24` keep the key-on invariant. -/
theorem KonInv_clocks (fuel ct n : Nat) : ∀ c c' : YM3438, KonInv c →
    OPN2_GenerateResampled_clocks fuel ct n c = .ok c' → KonInv c' := by
  induction n with
  | zero =>
    intro c c' hinv h
    simp only [OPN2_GenerateResampled_clocks] at h
    cases h
    exact hinv
  | succ n ih =>
    intro c c' hinv h
    simp only [OPN2_GenerateResampled_clocks] at h
    split at h
    · cases h
    · rename_i c1 hd
      have h2 : KonInv c1 := KonInv_drain _ _ _ (KonInv_clock ct c hinv) hd
      have h3 : KonInv { c1 with writebuf_samplecnt := u64 (c1.writebuf_samplecnt + 1) } := h2
      exact ih _ _ h3 h

theorem KonInv_filter (uf : Int) (lp : Int → Int → Int) (c : YM3438) (h : KonInv c) :
    KonInv (OPN2_GenerateResampled_filter uf lp c) := by
  unfold OPN2_GenerateResampled_filter
  split <;> exact h

/-- The loop `for chip.samplecnt >= chip.rateratio` keeps the key-on
invariant. -/
theorem KonInv_loop (dfuel ct : Nat) (uf : Int) (lp : Int → Int → Int) (fuel : Nat) :
    ∀ c c' : YM3438, KonInv c →
      OPN2_GenerateResampled_loop dfuel ct uf lp fuel c = .ok c' → KonInv c' := by
  induction fuel with
  | zero =>
    intro c c' _ h
    simp only [OPN2_GenerateResampled_loop] at h
    cases h
  | succ n ih =>
    intro c c' hinv h
    simp only [OPN2_GenerateResampled_loop] at h
    split at h
    · split at h
      · cases h
      · rename_i c1 hc
        have h1 : KonInv c1 := KonInv_clocks _ _ _ _ c1 (by exact hinv) hc
        exact ih _ c' (by exact KonInv_filter uf lp c1 h1) h
    · cases h
      exact hinv

theorem KonInv_GenerateResampled (fuel ct : Nat) (uf : Int) (lp : Int → Int → Int)
    (c : YM3438) (out : YM3438 × Int × Int) (hinv : KonInv c)
    (h : OPN2_GenerateResampled fuel ct uf lp c = .ok out) : KonInv out.1 := by
  simp only [OPN2_GenerateResampled] at h
  split at h
  · cases h
  · rename_i c1 hc
    have h1 := KonInv_loop _ _ _ _ _ _ _ hinv hc
    split at h
    · cases h
    · cases h
      exact h1

theorem KonInv_WriteBuffered (fuel ct : Nat) (c c' : YM3438) (port data : Nat)
    (hinv : KonInv c) (h : OPN2_WriteBuffered fuel ct c port data = .ok c') : KonInv c' := by
  simp only [OPN2_WriteBuffered] at h
  split at h
  · simp only [WriteBuffered_skip_never_exits] at h
    cases h
  · cases h
    exact hinv

/-- Every chip reached by host calls that returned keeps the key-on
invariant. -/
theorem KonInv_run (fuel ct : Nat) (uf : Int) (lp : Int → Int → Int)
    (ops : List HostOp) : ∀ c c' : YM3438, KonInv c →
      HostOp.run fuel ct uf lp c ops = .ok c' → KonInv c' := by
  induction ops with
  | nil =>
    intro c c' hinv h
    simp only [HostOp.run] at h
    cases h
    exact hinv
  | cons op ops ih =>
    intro c c' hinv h
    cases op with
    | bus op =>
      simp only [HostOp.run] at h
      exact ih _ _ (KonInv_apply ct c op hinv) h
    | writeBuffered port data =>
      simp only [HostOp.run] at h
      split at h
      · cases h
      · rename_i c1 hc
        exact ih _ _ (KonInv_WriteBuffered _ _ _ _ _ _ hinv hc) h
    | generate =>
      simp only [HostOp.run] at h
      split at h
      · cases h
      · rename_i r hr
        exact ih _ _ (KonInv_GenerateResampled _ _ _ _ _ _ hinv hr) h

/-- Under the key-on invariant a key-on on the current cycle falls on one of
the six channel cycles and sets exactly the four operator entries of that
channel. -/
theorem KeyOn_scope (chip : YM3438) (hinv : KonInv chip)
    (he : chip.cycles = chip.mode_kon_channel) :
    chip.cycles ≤ 5 ∧ chip.channel = chip.cycles ∧
      (OPN2_KeyOn chip).mode_kon chip.cycles = chip.mode_kon_operator 0 ∧
      (OPN2_KeyOn chip).mode_kon (chip.cycles + 12) = chip.mode_kon_operator 1 ∧
      (OPN2_KeyOn chip).mode_kon (chip.cycles + 6) = chip.mode_kon_operator 2 ∧
      (OPN2_KeyOn chip).mode_kon (chip.cycles + 18) = chip.mode_kon_operator 3 ∧
      ∀ i, i ≠ chip.cycles → i ≠ chip.cycles + 12 → i ≠ chip.cycles + 6 →
        i ≠ chip.cycles + 18 → (OPN2_KeyOn chip).mode_kon i = chip.mode_kon i := by
  obtain ⟨⟨hcycles, hchannel⟩, hkon⟩ := hinv
  have hkon' : chip.mode_kon_channel ≤ 5 ∨ chip.mode_kon_channel = 0xff := hkon
  have h5 : chip.cycles ≤ 5 := by omega
  have hch : chip.channel = chip.cycles := by
    rw [hchannel]
    omega
  have hb : (chip.cycles == chip.mode_kon_channel) = true := by
    rw [he]
    exact beq_self_eq_true _
  rw [KeyOn_mode_kon, hb, hch]
  simp only [if_true]
  refine ⟨h5, trivial, ?_, ?_, ?_, ?_, ?_⟩
  · rw [upd_other _ _ _ _ (by omega), upd_other _ _ _ _ (by omega),
      upd_other _ _ _ _ (by omega), upd_same]
  · rw [upd_other _ _ _ _ (by omega), upd_other _ _ _ _ (by omega), upd_same]
  · rw [upd_other _ _ _ _ (by omega), upd_same]
  · rw [upd_same]
  · intro i h0 h12 h6 h18
    rw [upd_other _ _ _ _ h18, upd_other _ _ _ _ h6, upd_other _ _ _ _ h12,
      upd_other _ _ _ _ h0]

/-- C28: in every chip state reached from `OPN2_Reset` by host calls that
returned (bus calls, buffered writes and sample generation), `cycles < 24`,
`channel = cycles mod 6` and `mode_kon_channel` is at most 5 or `0xFF`.  In
such a state `OPN2_KeyOn` changes `mode_kon` only when
`cycles = mode_kon_channel`, and then `cycles <= 5` and exactly the entries
`cycles`, `cycles + 12`, `cycles + 6`, `cycles + 18` are set to
`mode_kon_operator[0]`, `[1]`, `[2]`, `[3]`; the `mode_kon` left by
`OPN2_Clock` is the one `OPN2_KeyOn` forms from the chip on entry.  A data
write to the register `0x28` whose low two bits are 3 stores `0xFF` in
`mode_kon_channel`, and while it is `0xFF` no clock changes `mode_kon`. -/
theorem C28_key_on_scope (fuel chip_type rate clock : Nat) (use_filter : Int)
    (lowpass : Int → Int → Int) (chip₀ r chip : YM3438) (ops : List HostOp)
    (hreset : OPN2_Reset chip₀ rate clock = .ok r)
    (hrun : HostOp.run fuel chip_type use_filter lowpass r ops = .ok chip) :
    chip.cycles < 24 ∧ chip.channel = chip.cycles % 6 ∧
    (chip.mode_kon_channel ≤ 5 ∨ chip.mode_kon_channel = 0xff) ∧
    (OPN2_Clock chip_type chip).1.mode_kon = (OPN2_KeyOn chip).mode_kon ∧
    (chip.cycles ≠ chip.mode_kon_channel → (OPN2_KeyOn chip).mode_kon = chip.mode_kon) ∧
    (chip.cycles = chip.mode_kon_channel →
      chip.cycles ≤ 5 ∧ chip.channel = chip.cycles ∧
      (OPN2_KeyOn chip).mode_kon chip.cycles = chip.mode_kon_operator 0 ∧
      (OPN2_KeyOn chip).mode_kon (chip.cycles + 12) = chip.mode_kon_operator 1 ∧
      (OPN2_KeyOn chip).mode_kon (chip.cycles + 6) = chip.mode_kon_operator 2 ∧
      (OPN2_KeyOn chip).mode_kon (chip.cycles + 18) = chip.mode_kon_operator 3 ∧
      ∀ i, i ≠ chip.cycles → i ≠ chip.cycles + 12 → i ≠ chip.cycles + 6 →
        i ≠ chip.cycles + 18 → (OPN2_KeyOn chip).mode_kon i = chip.mode_kon i) ∧
    (∀ c : YM3438, c.write_d_en ≠ 0 → c.write_data &&& 0x100 = 0 →
      c.write_fm_mode_a = 0x28 → c.write_data &&& 0x03 = 0x03 →
      (OPN2_DoRegWrite c).mode_kon_channel = 0xff) ∧
    (∀ n, (∀ k, k < n → (OPN2_Clock_n chip_type k chip).mode_kon_channel = 0xff) →
      (OPN2_Clock_n chip_type n chip).mode_kon = chip.mode_kon) := by
  have hinv : KonInv chip :=
    KonInv_run fuel chip_type use_filter lowpass ops r chip
      (KonInv_Reset chip₀ r rate clock hreset) hrun
  exact ⟨hinv.1.1, hinv.1.2, hinv.2, Clock_mode_kon chip_type chip, KeyOn_mode_kon_miss chip,
    KeyOn_scope chip hinv, DoRegWrite_kon_invalid,
    fun n hn => mode_kon_idle chip_type n chip hinv.1.1 hn⟩

/-- C28 on the reset chip after the two bus writes of a key-on for the
channel bits 3: the chip is at cycle 0 with the key-on channel 0, so
`OPN2_KeyOn` sets the four operator entries of channel 0; and the data byte
`0xf3` stores `0xFF` as the key-on channel. -/
theorem C28_key_on_scope_witness :
    OPN2_Reset YM3438.zero 44100 7670454 = .ok chip_reset ∧
      HostOp.run 0 0 0 (fun old _ => old) chip_reset
          [HostOp.bus (BusOp.write 0 0x28), HostOp.bus (BusOp.write 1 0xf3)] =
        .ok (OPN2_Write (OPN2_Write chip_reset 0 0x28) 1 0xf3) ∧
      (OPN2_KeyOn (OPN2_Write (OPN2_Write chip_reset 0 0x28) 1 0xf3)).mode_kon 12 = 0 ∧
      (OPN2_DoRegWrite chip_kon_invalid).mode_kon_channel = 0xff :=
  ⟨rfl, rfl,
    ((C28_key_on_scope 0 0 44100 7670454 0 (fun old _ => old) YM3438.zero chip_reset
      (OPN2_Write (OPN2_Write chip_reset 0 0x28) 1 0xf3)
      [HostOp.bus (BusOp.write 0 0x28), HostOp.bus (BusOp.write 1 0xf3)] rfl rfl).2.2.2.2.2.1
        rfl).2.2.2.1,
    (C28_key_on_scope 0 0 44100 7670454 0 (fun old _ => old) YM3438.zero chip_reset
      (OPN2_Write (OPN2_Write chip_reset 0 0x28) 1 0xf3)
      [HostOp.bus (BusOp.write 0 0x28), HostOp.bus (BusOp.write 1 0xf3)] rfl rfl).2.2.2.2.2.2.1
        chip_kon_invalid (by decide) rfl rfl rfl⟩

/-! ## Output range -/

theorem chanPart_Clock_head_eq (c : YM3438) :
    chanPart ( OPN2_Clock_head c) = chanPart c := rfl

theorem chanPart_Clock_cycle_eq (c : YM3438) :
    chanPart ( OPN2_Clock_cycle c) = chanPart c := rfl

theorem chanPart_Clock_timer_eq (c : YM3438) :
    chanPart ( OPN2_Clock_timer c) = chanPart c := rfl

theorem chanPart_DoIO_eq (c : YM3438) :
    chanPart ( OPN2_DoIO c) = chanPart c := rfl

theorem chanPart_DoTimerA_eq (c : YM3438) :
    chanPart ( OPN2_DoTimerA c) = chanPart c := rfl

theorem chanPart_DoTimerB_eq (c : YM3438) :
    chanPart ( OPN2_DoTimerB c) = chanPart c := rfl

theorem chanPart_KeyOn_eq (c : YM3438) :
    chanPart ( OPN2_KeyOn c) = chanPart c := rfl

theorem chanPart_FMPrepare_eq (c : YM3438) :
    chanPart ( OPN2_FMPrepare c) = chanPart c := rfl

theorem chanPart_FMGenerate_eq (c : YM3438) :
    chanPart ( OPN2_FMGenerate c) = chanPart c := rfl

theorem chanPart_PhaseGenerate_eq (c : YM3438) :
    chanPart ( OPN2_PhaseGenerate c) = chanPart c := rfl

theorem chanPart_PhaseCalcIncrement_eq (c : YM3438) :
    chanPart ( OPN2_PhaseCalcIncrement c) = chanPart c := rfl

theorem chanPart_EnvelopeADSR_eq (c : YM3438) :
    chanPart ( OPN2_EnvelopeADSR c) = chanPart c := rfl

theorem chanPart_EnvelopeGenerate_eq (c : YM3438) :
    chanPart ( OPN2_EnvelopeGenerate c) = chanPart c := rfl

theorem chanPart_EnvelopeSSGEG_eq (c : YM3438) :
    chanPart ( OPN2_EnvelopeSSGEG c) = chanPart c := rfl

theorem chanPart_EnvelopePrepare_eq (c : YM3438) :
    chanPart ( OPN2_EnvelopePrepare c) = chanPart c := rfl

theorem chanPart_Clock_fnum_eq (c : YM3438) (slot : Nat) :
    chanPart ( OPN2_Clock_fnum c slot) = chanPart c := rfl

theorem chanPart_UpdateLFO_eq (c : YM3438) :
    chanPart ( OPN2_UpdateLFO c) = chanPart c := rfl

theorem chanPart_DoRegWrite_slot_eq (c : YM3438) :
    chanPart ( OPN2_DoRegWrite_slot c) = chanPart c := rfl

theorem chanPart_DoRegWrite_channel_eq (c : YM3438) :
    chanPart ( OPN2_DoRegWrite_channel c) = chanPart c := rfl

theorem chanPart_DoRegWrite_latch_eq (c : YM3438) :
    chanPart ( OPN2_DoRegWrite_latch c) = chanPart c := rfl

theorem chanPart_DoRegWrite_data_eq (c : YM3438) :
    chanPart ( OPN2_DoRegWrite_data c) = chanPart c := rfl

theorem chanPart_DoRegWrite_eq (c : YM3438) :
    chanPart ( OPN2_DoRegWrite c) = chanPart c := by
  simp only [OPN2_DoRegWrite, OPN2_DoRegWrite_update]
  rw [chanPart_DoRegWrite_data_eq, chanPart_DoRegWrite_latch_eq, chanPart_DoRegWrite_channel_eq, chanPart_DoRegWrite_slot_eq]

theorem chanPart_Clock_next_eq (c : YM3438) :
    chanPart ( OPN2_Clock_next c) = chanPart c := rfl

theorem chanPart_Clock_status_eq (c : YM3438) :
    chanPart ( OPN2_Clock_status c) = chanPart c := rfl

/-- The channel part after `OPN2_Clock` is that after the two channel steps;
the stages before them leave the channel part alone. -/
theorem chanPart_Clock (chip_type : Nat) (c : YM3438) :
    chanPart (OPN2_Clock chip_type c).1 =
      chanPart (OPN2_ChGenerate (OPN2_ChOutput chip_type
        (OPN2_KeyOn (OPN2_DoTimerB (OPN2_DoTimerA
          ( OPN2_DoIO (OPN2_Clock_timer (OPN2_Clock_cycle (OPN2_Clock_head c))))))))) := by
  simp only [OPN2_Clock]
  rw [chanPart_Clock_status_eq,
    chanPart_Clock_next_eq,
    chanPart_DoRegWrite_eq,
    chanPart_UpdateLFO_eq,
    chanPart_Clock_fnum_eq,
    chanPart_EnvelopePrepare_eq,
    chanPart_EnvelopeSSGEG_eq,
    chanPart_EnvelopeGenerate_eq,
    chanPart_EnvelopeADSR_eq,
    chanPart_PhaseCalcIncrement_eq,
    chanPart_PhaseGenerate_eq,
    chanPart_FMGenerate_eq,
    chanPart_FMPrepare_eq]

theorem chanPart_Clock_pre (c : YM3438) :
    chanPart (OPN2_KeyOn (OPN2_DoTimerB (OPN2_DoTimerA
      ( OPN2_DoIO (OPN2_Clock_timer (OPN2_Clock_cycle (OPN2_Clock_head c))))))) =
      chanPart c := by
  rw [chanPart_KeyOn_eq,
    chanPart_DoTimerB_eq,
    chanPart_DoTimerA_eq,
    chanPart_DoIO_eq,
    chanPart_Clock_timer_eq,
    chanPart_Clock_cycle_eq,
    chanPart_Clock_head_eq]

theorem RangeInv_congr (c d : YM3438) (h : chanPart c = chanPart d) (hd : RangeInv d) :
    RangeInv c := by
  have h1 : c.ch_acc = d.ch_acc := by
    have h0 := congrArg YM3438.ch_acc h
    exact h0
  have h2 : c.ch_out = d.ch_out := by
    have h0 := congrArg YM3438.ch_out h
    exact h0
  have h3 : c.ch_lock = d.ch_lock := by
    have h0 := congrArg YM3438.ch_lock h
    exact h0
  unfold RangeInv
  rw [h1, h2, h3]
  exact hd

theorem bits16_255 : bits16 255 = 255 := rfl

theorem bits16_256 : bits16 256 = 256 := rfl

/-- The sign extension of bit 8 is a 9-bit signed value. -/
theorem SIGN_EXTEND_8_range (v : Int) : -256 ≤ SIGN_EXTEND 8 v ∧ SIGN_EXTEND 8 v ≤ 255 := by
  have h1 : bits16 v &&& 255 ≤ 255 := Nat.and_le_right
  have h2 : bits16 v &&& 256 ≤ 256 := Nat.and_le_right
  have e1 : i16 (2 ^ 8 - 1) = 255 := rfl
  have e2 : i16 (2 ^ 8) = 256 := rfl
  unfold SIGN_EXTEND iand16
  rw [e1, e2, bits16_255, bits16_256]
  unfold i16
  omega

/-- The lock step keeps the channel values in range. -/
theorem RangeInv_ChOutput (ct : Nat) (c : YM3438) (h : RangeInv c) :
    RangeInv (OPN2_ChOutput ct c) := by
  obtain ⟨h1, h2, h3⟩ := h
  refine ⟨h1, h2, ?_⟩
  show -256 ≤ (if c.cycles &&& 3 == 0 && c.mode_test_2c 5 == 0 then
      c.ch_out (if c.cycles < 12 then u32 (c.channel + 1) else c.channel) else c.ch_lock) ∧
    (if c.cycles &&& 3 == 0 && c.mode_test_2c 5 == 0 then
      c.ch_out (if c.cycles < 12 then u32 (c.channel + 1) else c.channel) else c.ch_lock) ≤ 255
  split
  · exact h2 _
  · exact h3

theorem clamp_range (x : Int) :
    -256 ≤ (if x > 255 then 255 else if x < -256 then -256 else x) ∧
      (if x > 255 then 255 else if x < -256 then -256 else x) ≤ 255 := by
  split
  · exact ⟨by decide, by decide⟩
  · split
    · exact ⟨by decide, by decide⟩
    · omega

/-- The accumulator step keeps the channel values in range: the sum is
clamped. -/
theorem RangeInv_ChGenerate (c : YM3438) (h : RangeInv c) : RangeInv (OPN2_ChGenerate c) := by
  obtain ⟨h1, h2, h3⟩ := h
  refine ⟨fun i => ?_, fun i => ?_, h3⟩
  · simp only [OPN2_ChGenerate]
    unfold upd
    split
    · exact clamp_range _
    · exact h1 i
  · simp only [OPN2_ChGenerate]
    split
    · unfold upd
      split
      · exact h1 _
      · exact h2 i
    · exact h2 i

/-- The selected sample of `OPN2_ChOutput` is a 9-bit signed value. -/
theorem ChOutput_out_range (c : YM3438) (b1 b2 : Bool) (i : Nat) (h : RangeInv c) :
    -256 ≤ (if b1 then SIGN_EXTEND 8 c.dacdata else if b2 then c.ch_out i else c.ch_lock) ∧
      (if b1 then SIGN_EXTEND 8 c.dacdata else if b2 then c.ch_out i else c.ch_lock) ≤ 255 := by
  split
  · exact SIGN_EXTEND_8_range _
  · split
    · exact h.2.1 i
    · exact h.2.2

theorem i16_small (z : Int) (h1 : -32768 ≤ z) (h2 : z < 32768) : i16 z = z := by
  unfold i16
  rw [Int.emod_eq_of_lt (by omega) (by omega)]
  omega

theorem gated_range (b : Bool) (x : Int) (h : -256 ≤ x ∧ x ≤ 255) :
    -256 ≤ (if b then x else 0) ∧ (if b then x else 0) ≤ 255 := by
  split
  · exact h
  · exact ⟨by decide, by decide⟩

/-- The DAC emulation of the YM2612: a 9-bit signed sample gives an output
between -768 and 768. -/
theorem dac_range (b : Bool) (x : Int) (h : -256 ≤ x ∧ x ≤ 255) :
    -768 ≤ i16 ((if b then (if x ≥ 0 then i16 (x + 1) else x)
        else (if x ≥ 0 then i16 (isar x 8 + 1) else isar x 8)) * 3) ∧
      i16 ((if b then (if x ≥ 0 then i16 (x + 1) else x)
        else (if x ≥ 0 then i16 (isar x 8 + 1) else isar x 8)) * 3) ≤ 768 := by
  obtain ⟨h1, h2⟩ := h
  have e : (2 : Int) ^ 8 = 256 := rfl
  have hv : -256 ≤ (if b then (if x ≥ 0 then i16 (x + 1) else x)
        else (if x ≥ 0 then i16 (isar x 8 + 1) else isar x 8)) ∧
      (if b then (if x ≥ 0 then i16 (x + 1) else x)
        else (if x ≥ 0 then i16 (isar x 8 + 1) else isar x 8)) ≤ 256 := by
    have hq : -1 ≤ x / 256 ∧ x / 256 ≤ 0 := by omega
    unfold isar
    rw [e]
    split <;> split
    · rw [i16_small (x + 1) (by omega) (by omega)]
      omega
    · omega
    · rw [i16_small (x / 256 + 1) (by omega) (by omega)]
      omega
    · omega
  generalize (if b then (if x ≥ 0 then i16 (x + 1) else x)
    else (if x ≥ 0 then i16 (isar x 8 + 1) else isar x 8)) = v at hv ⊢
  rw [i16_small (v * 3) (by omega) (by omega)]
  omega

/-- The two outputs of `OPN2_ChOutput` are in range. -/
theorem ChOutput_range (ct : Nat) (c : YM3438) (h : RangeInv c) :
    (ct &&& ModeYM2612 = 0 →
      (-256 ≤ (OPN2_ChOutput ct c).mol ∧ (OPN2_ChOutput ct c).mol ≤ 255) ∧
        (-256 ≤ (OPN2_ChOutput ct c).mor ∧ (OPN2_ChOutput ct c).mor ≤ 255)) ∧
    (ct &&& ModeYM2612 ≠ 0 →
      (-768 ≤ (OPN2_ChOutput ct c).mol ∧ (OPN2_ChOutput ct c).mol ≤ 768) ∧
        (-768 ≤ (OPN2_ChOutput ct c).mor ∧ (OPN2_ChOutput ct c).mor ≤ 768)) := by
  refine ⟨fun hm => ?_, fun hm => ?_⟩
  · have hb : (ct &&& ModeYM2612 != 0) = false := by
      rw [hm]
      rfl
    simp only [OPN2_ChOutput, hb, Bool.false_eq_true, if_false]
    exact ⟨gated_range _ _ (ChOutput_out_range c _ _ _ h),
      gated_range _ _ (ChOutput_out_range c _ _ _ h)⟩
  · have hb : (ct &&& ModeYM2612 != 0) = true := by simpa using hm
    simp only [OPN2_ChOutput, hb, if_true]
    exact ⟨dac_range _ _ (ChOutput_out_range c _ _ _ h),
      dac_range _ _ (ChOutput_out_range c _ _ _ h)⟩

/-- The pair handed back by `OPN2_Clock` is the pair `(mol, mor)` of the new
chip. -/
theorem Clock_buffer (ct : Nat) (c : YM3438) :
    (OPN2_Clock ct c).2 = (i32 (OPN2_Clock ct c).1.mol, i32 (OPN2_Clock ct c).1.mor) := rfl

/-- One `OPN2_Clock` keeps the channel values in range and hands back a pair in
range. -/
theorem RangeInv_Clock (ct : Nat) (c : YM3438) (h : RangeInv c) :
    RangeInv (OPN2_Clock ct c).1 ∧
      (ct &&& ModeYM2612 = 0 →
        (-256 ≤ (OPN2_Clock ct c).2.1 ∧ (OPN2_Clock ct c).2.1 ≤ 255) ∧
          (-256 ≤ (OPN2_Clock ct c).2.2 ∧ (OPN2_Clock ct c).2.2 ≤ 255)) ∧
      (ct &&& ModeYM2612 ≠ 0 →
        (-768 ≤ (OPN2_Clock ct c).2.1 ∧ (OPN2_Clock ct c).2.1 ≤ 768) ∧
          (-768 ≤ (OPN2_Clock ct c).2.2 ∧ (OPN2_Clock ct c).2.2 ≤ 768)) := by
  have hp := RangeInv_congr _ c (chanPart_Clock_pre c) h
  have hm : (OPN2_Clock ct c).1.mol = (OPN2_ChOutput ct
      (OPN2_KeyOn (OPN2_DoTimerB (OPN2_DoTimerA
        ( OPN2_DoIO (OPN2_Clock_timer (OPN2_Clock_cycle (OPN2_Clock_head c)))))))).mol := by
    have h0 := congrArg YM3438.mol (chanPart_Clock ct c)
    exact h0
  have hr : (OPN2_Clock ct c).1.mor = (OPN2_ChOutput ct
      (OPN2_KeyOn (OPN2_DoTimerB (OPN2_DoTimerA
        ( OPN2_DoIO (OPN2_Clock_timer (OPN2_Clock_cycle (OPN2_Clock_head c)))))))).mor := by
    have h0 := congrArg YM3438.mor (chanPart_Clock ct c)
    exact h0
  obtain ⟨r1, r2⟩ := ChOutput_range ct _ hp
  have e1 : (OPN2_Clock ct c).2.1 = i32 (OPN2_Clock ct c).1.mol :=
    congrArg Prod.fst (Clock_buffer ct c)
  have e2 : (OPN2_Clock ct c).2.2 = i32 (OPN2_Clock ct c).1.mor :=
    congrArg Prod.snd (Clock_buffer ct c)
  refine ⟨RangeInv_congr _ _ (chanPart_Clock ct c)
    (RangeInv_ChGenerate _ (RangeInv_ChOutput ct _ hp)), fun h0 => ?_, fun h0 => ?_⟩
  · obtain ⟨⟨a1, a2⟩, ⟨a3, a4⟩⟩ := r1 h0
    rw [e1, e2, hm, hr, i32_of_fits ⟨by omega, by omega⟩, i32_of_fits ⟨by omega, by omega⟩]
    exact ⟨⟨a1, a2⟩, ⟨a3, a4⟩⟩
  · obtain ⟨⟨a1, a2⟩, ⟨a3, a4⟩⟩ := r2 h0
    rw [e1, e2, hm, hr, i32_of_fits ⟨by omega, by omega⟩, i32_of_fits ⟨by omega, by omega⟩]
    exact ⟨⟨a1, a2⟩, ⟨a3, a4⟩⟩

theorem RangeInv_Reset (chip r : YM3438) (rate clock : Nat)
    (h : OPN2_Reset chip rate clock = .ok r) : RangeInv r := by
  simp only [OPN2_Reset] at h
  split at h
  · cases h
  · cases h
    have hz : (-256 : Int) ≤ 0 ∧ (0 : Int) ≤ 255 := ⟨by decide, by decide⟩
    exact ⟨fun _ => hz, fun _ => hz, hz⟩

theorem RangeInv_run (ct : Nat) (ops : List BusOp) :
    ∀ c : YM3438, RangeInv c → RangeInv (BusOp.run ct c ops) := by
  induction ops with
  | nil => exact fun c h => h
  | cons op ops ih =>
    intro c h
    refine ih _ ?_
    cases op with
    | write port data => exact h
    | setTestPin value => exact h
    | read port => exact h
    | clock => exact (RangeInv_Clock ct c h).1

/-- C27: in every chip state reached from the chip that `OPN2_Reset` returns
by calls of `OPN2_Write`, `OPN2_SetTestPin`, `OPN2_Read` and `OPN2_Clock`,
every `ch_acc` and `ch_out` entry and `ch_lock` lie in `[-256, 255]`, and the
pair that the next `OPN2_Clock` hands back lies in `[-256, 255]` when
`chip_type` lacks `ModeYM2612` and in `[-768, 768]` when it has it. -/
theorem C27_output_range (chip_type rate clock : Nat) (chip r : YM3438)
    (ops : List BusOp) (hreset : OPN2_Reset chip rate clock = .ok r) :
    (∀ i, -256 ≤ (BusOp.run chip_type r ops).ch_acc i ∧
        (BusOp.run chip_type r ops).ch_acc i ≤ 255) ∧
      (∀ i, -256 ≤ (BusOp.run chip_type r ops).ch_out i ∧
        (BusOp.run chip_type r ops).ch_out i ≤ 255) ∧
      (-256 ≤ (BusOp.run chip_type r ops).ch_lock ∧
        (BusOp.run chip_type r ops).ch_lock ≤ 255) ∧
      (chip_type &&& ModeYM2612 = 0 →
        (-256 ≤ (OPN2_Clock chip_type (BusOp.run chip_type r ops)).2.1 ∧
          (OPN2_Clock chip_type (BusOp.run chip_type r ops)).2.1 ≤ 255) ∧
        (-256 ≤ (OPN2_Clock chip_type (BusOp.run chip_type r ops)).2.2 ∧
          (OPN2_Clock chip_type (BusOp.run chip_type r ops)).2.2 ≤ 255)) ∧
      (chip_type &&& ModeYM2612 ≠ 0 →
        (-768 ≤ (OPN2_Clock chip_type (BusOp.run chip_type r ops)).2.1 ∧
          (OPN2_Clock chip_type (BusOp.run chip_type r ops)).2.1 ≤ 768) ∧
        (-768 ≤ (OPN2_Clock chip_type (BusOp.run chip_type r ops)).2.2 ∧
          (OPN2_Clock chip_type (BusOp.run chip_type r ops)).2.2 ≤ 768)) := by
  have hinv := RangeInv_run chip_type ops r (RangeInv_Reset chip r rate clock hreset)
  obtain ⟨h1, h2, h3⟩ := RangeInv_Clock chip_type _ hinv
  exact ⟨hinv.1, hinv.2.1, hinv.2.2, h2, h3⟩

/-- C27 after a reset, a write, a clock and a read, for the YM2612. -/
theorem C27_output_range_witness :
    OPN2_Reset YM3438.zero 44100 7670454 = .ok chip_reset ∧
      (-768 ≤ (OPN2_Clock 1 (BusOp.run 1 chip_reset
          [BusOp.write 0 0x2a, BusOp.clock, BusOp.read 0])).2.1 ∧
        (OPN2_Clock 1 (BusOp.run 1 chip_reset
          [BusOp.write 0 0x2a, BusOp.clock, BusOp.read 0])).2.1 ≤ 768) :=
  ⟨rfl, ((C27_output_range 1 44100 7670454 YM3438.zero chip_reset
    [BusOp.write 0 0x2a, BusOp.clock, BusOp.read 0] rfl).2.2.2.2 (by decide)).1⟩

/-! ## Silence after reset -/

theorem DoIO_silent_a_en (c : YM3438) (h : c.write_a = 0) : ( OPN2_DoIO c).write_a_en = 0 := by
  show ToInt (c.write_a &&& 0x03 == 0x01) = 0
  rw [h]
  rfl

theorem DoIO_silent_d_en (c : YM3438) (h : c.write_d = 0) : ( OPN2_DoIO c).write_d_en = 0 := by
  show ToInt (c.write_d &&& 0x03 == 0x01) = 0
  rw [h]
  rfl

theorem DoIO_silent_a (c : YM3438) (h : c.write_a = 0) : ( OPN2_DoIO c).write_a = 0 := by
  show u8 (c.write_a <<< 1) = 0
  rw [h]
  rfl

theorem DoIO_silent_d (c : YM3438) (h : c.write_d = 0) : ( OPN2_DoIO c).write_d = 0 := by
  show u8 (c.write_d <<< 1) = 0
  rw [h]
  rfl

/-- An idle Timer A stays idle. -/
theorem DoTimerA_silent (c : YM3438) (h : Silent c) :
    (OPN2_DoTimerA c).timer_a_load_lock = 0 ∧
      (OPN2_DoTimerA c).mode_kon_csm = 0 ∧
      (OPN2_DoTimerA c).timer_a_load_latch = 0 ∧
      (OPN2_DoTimerA c).timer_a_overflow_flag = 0 ∧
      (OPN2_DoTimerA c).timer_a_overflow = 0 ∧
      (OPN2_DoTimerA c).timer_a_cnt = 0 := by
  have h1 := h.timer_a_overflow
  have h2 := h.timer_a_load
  have h3 := h.timer_a_load_lock
  have h4 := h.timer_a_load_latch
  have h5 := h.timer_a_cnt
  have h6 := h.timer_a_overflow_flag
  have h7 := h.mode_test_21 2
  have e1 : ToInt ((0 : Nat) == 0 && (0 : Nat) != 0) = 0 := rfl
  have e2 : ((0 : Nat) != 0) = false := rfl
  have h8 := h.mode_kon_csm
  refine ⟨?_, ?_, ?_, ?_, ?_, ?_⟩
  · simp only [OPN2_DoTimerA, h2, h3, ite_self]
  · simp only [OPN2_DoTimerA, h1, h2, h3, h8, e1, Nat.or_zero, ite_self]
  · simp only [OPN2_DoTimerA, h1, h2, h3, e1, Nat.or_zero, ite_self]
  · simp only [OPN2_DoTimerA, h1, h6, Nat.zero_and, Nat.or_zero, ite_self]
  · simp only [OPN2_DoTimerA, h1, h2, h3, h4, h5, h7, e1, e2, Nat.or_zero, ite_self,
      Bool.and_false, Bool.or_false, Bool.false_eq_true, if_false]
    rfl
  · simp only [OPN2_DoTimerA, h1, h2, h3, h4, h5, h7, e1, e2, Nat.or_zero, ite_self,
      Bool.and_false, Bool.or_false, Bool.false_eq_true, if_false]
    rfl

/-- An idle Timer B stays idle. -/
theorem DoTimerB_silent (c : YM3438) (h : Silent c) :
    (OPN2_DoTimerB c).timer_b_load_lock = 0 ∧
      (OPN2_DoTimerB c).timer_b_load_latch = 0 ∧
      (OPN2_DoTimerB c).timer_b_overflow_flag = 0 ∧
      (OPN2_DoTimerB c).timer_b_overflow = 0 ∧
      (OPN2_DoTimerB c).timer_b_cnt = 0 := by
  have h1 := h.timer_b_overflow
  have h2 := h.timer_b_load
  have h3 := h.timer_b_load_lock
  have h4 := h.timer_b_load_latch
  have h5 := h.timer_b_cnt
  have h6 := h.timer_b_overflow_flag
  have h7 := h.mode_test_21 2
  have e1 : ToInt ((0 : Nat) == 0 && (0 : Nat) != 0) = 0 := rfl
  have e2 : ((0 : Nat) != 0) = false := rfl
  refine ⟨?_, ?_, ?_, ?_, ?_⟩
  · simp only [OPN2_DoTimerB, h2, h3, ite_self]
  · simp only [OPN2_DoTimerB, h1, h2, h3, e1, Nat.or_zero, ite_self]
  · simp only [OPN2_DoTimerB, h1, h6, Nat.zero_and, Nat.or_zero, ite_self]
  · simp only [OPN2_DoTimerB, h1, h2, h3, h4, h5, h7, e1, e2, Nat.or_zero, ite_self,
      Bool.and_false, Bool.or_false, Bool.false_eq_true, if_false]
    rfl
  · simp only [OPN2_DoTimerB, h1, h2, h3, h4, h5, h7, e1, e2, Nat.or_zero, ite_self,
      Bool.and_false, Bool.or_false, Bool.false_eq_true, if_false]
    rfl

theorem upd_zero {α : Type} (a : Nat → α) (i : Nat) (z : α) (h : ∀ j, a j = z) :
    ∀ j, upd a i z j = z := by
  intro j
  unfold upd
  split
  · rfl
  · exact h j

/-- Without a key-on request `OPN2_KeyOn` leaves every key off. -/
theorem KeyOn_silent (c : YM3438) (h : Silent c) :
    (∀ i, (OPN2_KeyOn c).eg_kon_latch i = 0) ∧ (∀ i, (OPN2_KeyOn c).mode_kon i = 0) := by
  have hk := h.mode_kon
  have ho := h.mode_kon_operator
  have hl := h.eg_kon_latch
  have hcsm := h.mode_kon_csm
  have e2 : ((0 : Nat) != 0) = false := rfl
  refine ⟨fun i => ?_, fun i => ?_⟩
  · simp only [OPN2_KeyOn, hcsm, e2, Bool.and_false, Bool.false_eq_true, if_false, hk]
    exact upd_zero _ _ _ hl i
  · rw [KeyOn_mode_kon]
    split
    · rw [ho 0, ho 1, ho 2, ho 3]
      exact upd_zero _ _ _ (upd_zero _ _ _ (upd_zero _ _ _ (upd_zero _ _ _ hk))) i
    · exact hk i

/-- With nothing in the channel and the DAC off the plain YM3438 outputs 0. -/
theorem ChOutput_silent (ct : Nat) (c : YM3438) (hct : ct &&& ModeYM2612 = 0) (h : Silent c) :
    (OPN2_ChOutput ct c).ch_lock = 0 ∧ (OPN2_ChOutput ct c).mol = 0 ∧
      (OPN2_ChOutput ct c).mor = 0 := by
  have hlock := h.ch_lock
  have hout := h.ch_out
  have hdac := h.dacen
  have ht := h.mode_test_2c 5
  have e2 : ((0 : Nat) != 0) = false := rfl
  have h1 : (OPN2_ChOutput ct c).ch_lock = 0 := by
    show (if c.cycles &&& 3 == 0 && c.mode_test_2c 5 == 0 then
      c.ch_out (if c.cycles < 12 then u32 (c.channel + 1) else c.channel) else c.ch_lock) = 0
    rw [hlock, hout]
    exact ite_self 0
  refine ⟨h1, ?_, ?_⟩
  · rw [ChOutput_mol ct c hct, h1, hdac, ht]
    simp only [e2, Bool.and_false, Bool.or_false, Bool.false_eq_true, if_false, ite_self]
  · rw [ChOutput_mor ct c hct, h1, hdac, ht]
    simp only [e2, Bool.and_false, Bool.or_false, Bool.false_eq_true, if_false, ite_self]

/-- With every operator output 0 the channel accumulators stay at 0. -/
theorem ChGenerate_silent (c : YM3438) (h : Silent c) :
    (∀ i, (OPN2_ChGenerate c).ch_out i = 0) ∧ (∀ i, (OPN2_ChGenerate c).ch_acc i = 0) := by
  have hout := h.ch_out
  have hacc := h.ch_acc
  have hfm := h.fm_out
  have ht := h.mode_test_2c 5
  have e3 : i16 ((0 : Nat) : Int) = 0 := rfl
  have e4 : i16 (0 + isar 0 5) = 0 := by decide
  have e5 : i16 (0 + 0) = 0 := rfl
  refine ⟨fun i => ?_, fun i => ?_⟩
  · simp only [OPN2_ChGenerate, hacc]
    split
    · exact upd_zero _ _ _ hout i
    · exact hout i
  · simp only [OPN2_ChGenerate, hacc, hfm, ht, e3, e4, e5, ite_self]
    have e6 : (if (0 : Int) > 255 then (255 : Int) else if (0 : Int) < -256 then -256 else 0) =
        0 := by decide
    rw [e6]
    exact upd_zero _ _ _ hacc i

/-- At the envelope output `0x3FF` the operator output of the slot is 0. -/
theorem FMGenerate_slot_silent (c : YM3438) (htest : c.mode_test_21 4 = 0)
    (hout : c.eg_out (u32 (c.cycles + 19) % 24) = 0x3ff) :
    (OPN2_FMGenerate c).fm_out (u32 (c.cycles + 19) % 24) = 0 := by
  simp only [OPN2_FMGenerate, upd_same, hout, htest, fm_silent]
  split <;> decide

theorem FMGenerate_fm_out_other (c : YM3438) (i : Nat) (h : i ≠ u32 (c.cycles + 19) % 24) :
    (OPN2_FMGenerate c).fm_out i = c.fm_out i := by
  simp only [OPN2_FMGenerate]
  exact upd_other _ _ _ _ h

/-- With every envelope output at `0x3FF` the operator outputs stay at 0. -/
theorem FMGenerate_silent (c : YM3438) (h : Silent c) :
    ∀ i, (OPN2_FMGenerate c).fm_out i = 0 := by
  have hfm := h.fm_out
  have heg := h.eg_out
  have htest := h.mode_test_21 4
  intro i
  by_cases h : i = u32 (c.cycles + 19) % 24
  · rw [h]
    exact FMGenerate_slot_silent c htest (heg _ (Nat.mod_lt _ (by decide)))
  · rw [FMGenerate_fm_out_other c i h]
    exact hfm i

theorem ADSR_eg_kon (c : YM3438) :
    (OPN2_EnvelopeADSR c).eg_kon =
      upd c.eg_kon (u32 (c.cycles + 22) % 24) (c.eg_kon_latch (u32 (c.cycles + 22) % 24)) :=
  rfl

theorem upd_keep {α : Type} (a : Nat → α) (i n : Nat) (z : α) (h : ∀ j, j < n → a j = z) :
    ∀ j, j < n → upd a i z j = z := by
  intro j hj
  unfold upd
  split
  · rfl
  · exact h j hj

/-- An envelope resting in Release at `0x3FF` with its key off stays there. -/
theorem ADSR_silent (c : YM3438) (h : Silent c) :
    (∀ i, (OPN2_EnvelopeADSR c).eg_kon i = 0) ∧
      (∀ i, i < 24 → (OPN2_EnvelopeADSR c).eg_level i = 0x3ff) ∧
      (∀ i, i < 24 → (OPN2_EnvelopeADSR c).eg_state i = eg_num_release) := by
  have hl := h.eg_kon_latch
  have hk := h.eg_kon
  have hen := h.eg_ssg_enable
  have hh := h.eg_ssg_hold_up_latch
  have hs := h.eg_state
  have hv := h.eg_level
  have hlt : u32 (c.cycles + 22) % 24 < 24 := Nat.mod_lt _ (by decide)
  have hev : OPN2_EnvelopeADSR_kon_event c (u32 (c.cycles + 22) % 24) = 0 := by
    simp only [OPN2_EnvelopeADSR_kon_event, hl, hk]
    rfl
  have hlev : OPN2_EnvelopeADSR_level c (u32 (c.cycles + 22) % 24) = 0x3ff := by
    simp only [OPN2_EnvelopeADSR_level, hl, hk, hv _ hlt]
    rfl
  have hst : c.eg_state (u32 (c.cycles + 22) % 24) ≠ eg_num_attack := by
    rw [hs _ hlt]
    decide
  have heo : OPN2_EnvelopeADSR_eg_off c (u32 (c.cycles + 22) % 24) ≠ 0 :=
    eg_off_saturated c _ (Or.inl ⟨hen _, by rw [hlev]; rfl⟩)
  have hoff : (OPN2_EnvelopeADSR_kon_event c (u32 (c.cycles + 22) % 24) == 0 &&
      c.eg_ssg_hold_up_latch (u32 (c.cycles + 22) % 24) == 0 &&
      c.eg_state (u32 (c.cycles + 22) % 24) != eg_num_attack &&
      OPN2_EnvelopeADSR_eg_off c (u32 (c.cycles + 22) % 24) != 0) = true := by
    rw [hev, hh]
    simp [hst, heo]
  refine ⟨fun i => ?_, fun i hi => ?_, fun i hi => ?_⟩
  · rw [ADSR_eg_kon, hl]
    exact upd_zero _ _ _ hk i
  · rw [ADSR_eg_level, if_pos hoff, hev, next_inc_off c _ _ _ hst heo]
    exact upd_keep _ _ _ _ hv i hi
  · rw [ADSR_eg_state, if_pos hoff]
    exact upd_keep _ _ _ _ hs i hi

/-- At the level `0x3FF` the envelope output stays at `0x3FF`. -/
theorem EnvelopeGenerate_silent (c : YM3438) (h : Silent c) :
    ∀ i, i < 24 → (OPN2_EnvelopeGenerate c).eg_out i = 0x3ff := by
  have ho := h.eg_out
  have hv := h.eg_level
  have hinv := h.eg_ssg_inv
  have ht := h.mode_test_21 5
  have ham := h.eg_lfo_am
  have htl := h.eg_tl
  have hlt : u32 (c.cycles + 23) % 24 < 24 := Nat.mod_lt _ (by decide)
  have e2 : ((0 : Nat) != 0) = false := rfl
  have hval := EnvelopeGenerate_value 0x3ff 0 0 (c.mode_csm != 0 && c.channel == 2 + 1)
    (by decide) (by decide)
  have hmin : min 0x3ff ((0x3ff &&& 0x3ff) + 0 +
      (if (c.mode_csm != 0 && c.channel == 2 + 1) = true then 0 else 0 <<< 3)) = 0x3ff := by
    split <;> decide
  rw [hmin] at hval
  intro i hi
  simp only [OPN2_EnvelopeGenerate, hv _ hlt, hinv, ht, ham, htl, e2, Bool.false_eq_true,
    if_false]
  rw [hval]
  exact upd_keep _ _ _ _ ho i hi

/-- With every SSG-EG register 0 the SSG-EG latches stay clear. -/
theorem SSGEG_silent (c : YM3438) (h : Silent c) :
    (∀ i, (OPN2_EnvelopeSSGEG c).eg_ssg_enable i = 0) ∧
      (∀ i, (OPN2_EnvelopeSSGEG c).eg_ssg_hold_up_latch i = 0) ∧
      (∀ i, (OPN2_EnvelopeSSGEG c).eg_ssg_inv i = 0) := by
  have hssg := h.ssg_eg
  have hen := h.eg_ssg_enable
  have hh := h.eg_ssg_hold_up_latch
  have hinv := h.eg_ssg_inv
  have e0 : ((0 : Nat) != 0) = false := rfl
  have e1 : ((0 : Nat) &&& 0x08 != 0) = false := rfl
  have e2 : ((0 : Nat) >>> 3) &&& 0x01 = 0 := rfl
  have e3 : ((0 : Nat) >>> 2) &&& 0x01 = 0 := rfl
  refine ⟨fun i => ?_, fun i => ?_, fun i => ?_⟩
  · simp only [OPN2_EnvelopeSSGEG, hssg, e2]
    exact upd_zero _ _ _ hen i
  · simp only [OPN2_EnvelopeSSGEG, hssg, e1, Bool.false_and, Bool.false_eq_true, if_false]
    exact upd_zero _ _ _ hh i
  · simp only [OPN2_EnvelopeSSGEG, hssg, e0, e1, e2, e3, Bool.false_eq_true, if_false,
      upd_same, Nat.and_zero, Nat.xor_zero, Nat.zero_and]
    exact upd_zero _ _ _ hinv i

/-- With AM off and the total levels 0 the two offsets of the envelope output
are 0. -/
theorem EnvelopePrepare_silent (c : YM3438) (h : Silent c) :
    (OPN2_EnvelopePrepare c).eg_lfo_am = 0 ∧ (OPN2_EnvelopePrepare c).eg_tl 0 = 0 := by
  have ham := h.am
  have htl := h.tl
  have e2 : ((0 : Nat) != 0) = false := rfl
  refine ⟨?_, ?_⟩
  · simp only [OPN2_EnvelopePrepare, ham, e2, Bool.false_eq_true, if_false]
  · simp only [OPN2_EnvelopePrepare, htl, upd_same]

/-- Without a pending write `OPN2_DoRegWrite` changes nothing. -/
theorem DoRegWrite_idle (c : YM3438) (hd : c.write_fm_data = 0) (ha : c.write_a_en = 0)
    (hde : c.write_d_en = 0) : OPN2_DoRegWrite c = c := by
  have b1 : (c.write_fm_data != 0) = false := by
    rw [hd]
    rfl
  have b2 : (c.write_a_en != 0) = false := by
    rw [ha]
    rfl
  have b3 : (c.write_d_en != 0) = false := by
    rw [hde]
    rfl
  have hs : OPN2_DoRegWrite_slot c = c := by
    simp only [OPN2_DoRegWrite_slot, b1, Bool.false_and, Bool.false_eq_true, if_false]
  have hc : OPN2_DoRegWrite_channel c = c := by
    simp only [OPN2_DoRegWrite_channel, b1, Bool.false_and, Bool.false_eq_true, if_false]
  have hl : OPN2_DoRegWrite_latch c = c := by
    simp only [OPN2_DoRegWrite_latch, OPN2_DoRegWrite_mode, b2, b3, Bool.or_false,
      Bool.false_and, Bool.and_false, Bool.false_eq_true, if_false]
  have hdt : OPN2_DoRegWrite_data c = c := by
    simp only [OPN2_DoRegWrite_data, b1, Bool.false_eq_true, if_false]
  rw [OPN2_DoRegWrite, OPN2_DoRegWrite_update, hs, hc, hl, hdt]

theorem Silent_Clock_head (c : YM3438)
    (h : Silent c) : Silent ( OPN2_Clock_head c) :=
  { h with }

theorem Silent_Clock_cycle (c : YM3438)
    (h : Silent c) : Silent ( OPN2_Clock_cycle c) :=
  { h with }

theorem Silent_Clock_timer (c : YM3438)
    (h : Silent c) : Silent ( OPN2_Clock_timer c) :=
  { h with }

theorem Silent_DoIO (c : YM3438)
    (h : Silent c) : Silent ( OPN2_DoIO c) :=
  { h with
    write_a := DoIO_silent_a c h.write_a
    write_d := DoIO_silent_d c h.write_d
    write_a_en := DoIO_silent_a_en c h.write_a
    write_d_en := DoIO_silent_d_en c h.write_d }

theorem Silent_DoTimerA (c : YM3438)
    (h : Silent c) : Silent ( OPN2_DoTimerA c) :=
  { h with
    timer_a_overflow := (DoTimerA_silent c h).2.2.2.2.1
    timer_a_load_lock := (DoTimerA_silent c h).1
    timer_a_load_latch := (DoTimerA_silent c h).2.2.1
    timer_a_cnt := (DoTimerA_silent c h).2.2.2.2.2
    timer_a_overflow_flag := (DoTimerA_silent c h).2.2.2.1
    mode_kon_csm := (DoTimerA_silent c h).2.1 }

theorem Silent_DoTimerB (c : YM3438)
    (h : Silent c) : Silent ( OPN2_DoTimerB c) :=
  { h with
    timer_b_overflow := (DoTimerB_silent c h).2.2.2.1
    timer_b_load_lock := (DoTimerB_silent c h).1
    timer_b_load_latch := (DoTimerB_silent c h).2.1
    timer_b_cnt := (DoTimerB_silent c h).2.2.2.2
    timer_b_overflow_flag := (DoTimerB_silent c h).2.2.1 }

theorem Silent_KeyOn (c : YM3438)
    (h : Silent c) : Silent ( OPN2_KeyOn c) :=
  { h with
    mode_kon := (KeyOn_silent c h).2
    eg_kon_latch := (KeyOn_silent c h).1 }

theorem Silent_ChOutput (chip_type : Nat) (c : YM3438) (hct : chip_type &&& ModeYM2612 = 0)
    (h : Silent c) : Silent ( OPN2_ChOutput chip_type c) :=
  { h with
    ch_lock := (ChOutput_silent chip_type c hct h).1
    mol := (ChOutput_silent chip_type c hct h).2.1
    mor := (ChOutput_silent chip_type c hct h).2.2 }

theorem Silent_ChGenerate (c : YM3438)
    (h : Silent c) : Silent ( OPN2_ChGenerate c) :=
  { h with
    ch_out := (ChGenerate_silent c h).1
    ch_acc := (ChGenerate_silent c h).2 }

theorem Silent_FMPrepare (c : YM3438)
    (h : Silent c) : Silent ( OPN2_FMPrepare c) :=
  { h with }

theorem Silent_FMGenerate (c : YM3438)
    (h : Silent c) : Silent ( OPN2_FMGenerate c) :=
  { h with
    fm_out := FMGenerate_silent c h }

theorem Silent_PhaseGenerate (c : YM3438)
    (h : Silent c) : Silent ( OPN2_PhaseGenerate c) :=
  { h with }

theorem Silent_PhaseCalcIncrement (c : YM3438)
    (h : Silent c) : Silent ( OPN2_PhaseCalcIncrement c) :=
  { h with }

theorem Silent_EnvelopeADSR (c : YM3438)
    (h : Silent c) : Silent ( OPN2_EnvelopeADSR c) :=
  { h with
    eg_kon := (ADSR_silent c h).1
    eg_level := (ADSR_silent c h).2.1
    eg_state := (ADSR_silent c h).2.2 }

theorem Silent_EnvelopeGenerate (c : YM3438)
    (h : Silent c) : Silent ( OPN2_EnvelopeGenerate c) :=
  { h with
    eg_out := EnvelopeGenerate_silent c h }

theorem Silent_EnvelopeSSGEG (c : YM3438)
    (h : Silent c) : Silent ( OPN2_EnvelopeSSGEG c) :=
  { h with
    eg_ssg_enable := (SSGEG_silent c h).1
    eg_ssg_hold_up_latch := (SSGEG_silent c h).2.1
    eg_ssg_inv := (SSGEG_silent c h).2.2 }

theorem Silent_EnvelopePrepare (c : YM3438)
    (h : Silent c) : Silent ( OPN2_EnvelopePrepare c) :=
  { h with
    eg_lfo_am := (EnvelopePrepare_silent c h).1
    eg_tl := (EnvelopePrepare_silent c h).2 }

theorem Silent_Clock_fnum (c : YM3438) (slot : Nat)
    (h : Silent c) : Silent ( OPN2_Clock_fnum c slot) :=
  { h with }

theorem Silent_UpdateLFO (c : YM3438)
    (h : Silent c) : Silent ( OPN2_UpdateLFO c) :=
  { h with }

theorem Silent_Clock_next (c : YM3438)
    (h : Silent c) : Silent ( OPN2_Clock_next c) :=
  { h with }

theorem Silent_Clock_status (c : YM3438)
    (h : Silent c) : Silent ( OPN2_Clock_status c) :=
  { h with }

theorem Silent_DoRegWrite (c : YM3438) (h : Silent c) : Silent (OPN2_DoRegWrite c) := by
  rw [DoRegWrite_idle c h.write_fm_data h.write_a_en h.write_d_en]
  exact h

/-- One `OPN2_Clock` of the plain YM3438 keeps the chip silent and hands back
the pair `(0, 0)`. -/
theorem Silent_Clock (ct : Nat) (c : YM3438) (hct : ct &&& ModeYM2612 = 0) (h : Silent c) :
    Silent (OPN2_Clock ct c).1 ∧ (OPN2_Clock ct c).2 = (0, 0) := by
  have h1 := Silent_Clock_head c h
  have h2 := Silent_Clock_cycle _ h1
  have h3 := Silent_Clock_timer _ h2
  have h4 := Silent_DoIO _ h3
  have h5 := Silent_DoTimerA _ h4
  have h6 := Silent_DoTimerB _ h5
  have h7 := Silent_KeyOn _ h6
  have h8 := Silent_ChOutput ct _ hct h7
  have h9 := Silent_ChGenerate _ h8
  have h10 := Silent_FMPrepare _ h9
  have h11 := Silent_FMGenerate _ h10
  have h12 := Silent_PhaseGenerate _ h11
  have h13 := Silent_PhaseCalcIncrement _ h12
  have h14 := Silent_EnvelopeADSR _ h13
  have h15 := Silent_EnvelopeGenerate _ h14
  have h16 := Silent_EnvelopeSSGEG _ h15
  have h17 := Silent_EnvelopePrepare _ h16
  have h18 := Silent_Clock_fnum _ c.cycles h17
  have h19 := Silent_UpdateLFO _ h18
  have h20 := Silent_DoRegWrite _ h19
  have h21 := Silent_Clock_next _ h20
  have hs : Silent (OPN2_Clock ct c).1 := Silent_Clock_status _ h21
  refine ⟨hs, ?_⟩
  rw [Clock_buffer, hs.mol, hs.mor]
  rfl

theorem Silent_Clock_n (ct : Nat) (hct : ct &&& ModeYM2612 = 0) (n : Nat) :
    ∀ c : YM3438, Silent c → Silent (OPN2_Clock_n ct n c) := by
  induction n with
  | zero => exact fun c h => h
  | succ n ih =>
    intro c h
    rw [Clock_n_succ]
    exact ih _ (Silent_Clock ct c hct h).1

theorem setRange_lt {α : Type} (n : Nat) (a f : Nat → α) (i : Nat) (h : i < n) :
    setRange n a f i = f i := by
  unfold setRange
  rw [if_pos h]

/-- The chip that `OPN2_Reset` returns is silent. -/
theorem Silent_Reset (chip r : YM3438) (rate clock : Nat)
    (h : OPN2_Reset chip rate clock = .ok r) : Silent r := by
  simp only [OPN2_Reset] at h
  split at h
  · cases h
  · cases h
    exact {
      write_a := rfl
      write_d := rfl
      write_a_en := rfl
      write_d_en := rfl
      write_fm_data := rfl
      mode_test_21 := fun _ => rfl
      mode_test_2c := fun _ => rfl
      timer_a_overflow := rfl
      timer_a_load := rfl
      timer_a_load_lock := rfl
      timer_a_load_latch := rfl
      timer_a_cnt := rfl
      timer_a_overflow_flag := rfl
      timer_b_overflow := rfl
      timer_b_load := rfl
      timer_b_load_lock := rfl
      timer_b_load_latch := rfl
      timer_b_cnt := rfl
      timer_b_overflow_flag := rfl
      mode_kon_csm := rfl
      mode_kon := fun _ => rfl
      mode_kon_operator := fun _ => rfl
      eg_kon_latch := fun _ => rfl
      eg_kon := fun _ => rfl
      ch_lock := rfl
      ch_out := fun _ => rfl
      ch_acc := fun _ => rfl
      dacen := rfl
      mol := rfl
      mor := rfl
      fm_out := fun _ => rfl
      eg_out := fun i hi => setRange_lt 24 YM3438.zero.eg_out (fun _ => 0x3ff) i hi
      eg_level := fun i hi => setRange_lt 24 YM3438.zero.eg_level (fun _ => 0x3ff) i hi
      eg_state := fun i hi =>
        setRange_lt 24 YM3438.zero.eg_state (fun _ => eg_num_release) i hi
      eg_ssg_enable := fun _ => rfl
      eg_ssg_hold_up_latch := fun _ => rfl
      eg_ssg_inv := fun _ => rfl
      ssg_eg := fun _ => rfl
      eg_lfo_am := rfl
      eg_tl := rfl
      am := fun _ => rfl
      tl := fun _ => rfl }

/-- C30: with `chip_type` lacking `ModeYM2612`, on the chip that `OPN2_Reset`
returns and without any write, after every number `n` of `OPN2_Clock` calls
the next call hands back `(0, 0)`, every slot has
`eg_level = eg_out = 0x3FF`, `eg_state = Release` and `fm_out = 0`, and both
timer overflow flags are 0. -/
theorem C30_silence_after_reset (chip_type rate clock : Nat) (chip r : YM3438) (n : Nat)
    (htype : chip_type &&& ModeYM2612 = 0) (hreset : OPN2_Reset chip rate clock = .ok r) :
    (OPN2_Clock chip_type (OPN2_Clock_n chip_type n r)).2 = (0, 0) ∧
      (∀ i, i < 24 →
        (OPN2_Clock_n chip_type n r).eg_level i = 0x3ff ∧
          (OPN2_Clock_n chip_type n r).eg_out i = 0x3ff ∧
          (OPN2_Clock_n chip_type n r).eg_state i = eg_num_release ∧
          (OPN2_Clock_n chip_type n r).fm_out i = 0) ∧
      (OPN2_Clock_n chip_type n r).timer_a_overflow_flag = 0 ∧
      (OPN2_Clock_n chip_type n r).timer_b_overflow_flag = 0 := by
  have hs := Silent_Clock_n chip_type htype n r (Silent_Reset chip r rate clock hreset)
  exact ⟨(Silent_Clock chip_type _ htype hs).2,
    fun i hi => ⟨hs.eg_level i hi, hs.eg_out i hi, hs.eg_state i hi, hs.fm_out i⟩,
    hs.timer_a_overflow_flag, hs.timer_b_overflow_flag⟩

/-- C30 for the reset at 44100 Hz: the call after 1000 clocks hands back
`(0, 0)`. -/
theorem C30_silence_after_reset_witness :
    (0 : Nat) &&& ModeYM2612 = 0 ∧ OPN2_Reset YM3438.zero 44100 7670454 = .ok chip_reset ∧
      (OPN2_Clock 0 (OPN2_Clock_n 0 1000 chip_reset)).2 = (0, 0) ∧
      (OPN2_Clock_n 0 1000 chip_reset).timer_a_overflow_flag = 0 :=
  ⟨by decide, rfl,
    (C30_silence_after_reset 0 44100 7670454 YM3438.zero chip_reset 1000 (by decide) rfl).1,
    (C30_silence_after_reset 0 44100 7670454 YM3438.zero chip_reset 1000 (by decide) rfl).2.2.1⟩

/-! ## Envelope level arithmetic -/

/-- The level after `OPN2_EnvelopeADSR` is the sum `nextlevel + inc` converted
to `int16` and masked with `0x3ff`. -/
theorem ADSR_eg_level_sum (c : YM3438) :
    (OPN2_EnvelopeADSR c).eg_level =
      upd c.eg_level (u32 (c.cycles + 22) % 24)
        (bits16 (i16 (OPN2_EnvelopeADSR_sum c (u32 (c.cycles + 22) % 24))) &&& 0x3ff) := rfl

/-- The Attack increment `(^level << eg_inc) >> 5` of a level in `1..0x3ff`
with `eg_inc` in `1..4` is negative and at least `-level`. -/
theorem attack_inc (L : Int) (k : Nat) (h1 : 1 ≤ L) (h2 : L ≤ 1023) (hk0 : k ≠ 0) (hk : k ≤ 4) :
    -L ≤ isar (ishl16 (inot16 L) k) 5 ∧ isar (ishl16 (inot16 L) k) 5 ≤ -1 := by
  have e1 : inot16 L = -L - 1 := i16_small _ (by omega) (by omega)
  have hi : k = 1 ∨ k = 2 ∨ k = 3 ∨ k = 4 := by omega
  rw [e1]
  unfold isar ishl16
  rcases hi with hi | hi | hi | hi <;> rw [hi] <;>
    rw [i16_small _ (by omega) (by omega)] <;> omega

/-- The Decay, Sustain and Release increment `1 << (eg_inc - 1)`, shifted by
two more bits with SSG-EG, for `eg_inc` in `1..4`. -/
theorem decay_inc (k : Nat) (b : Bool) (hk0 : k ≠ 0) (hk : k ≤ 4) :
    1 ≤ (if b then ishl16 (i16 (2 ^ usub8 k 1)) 2 else i16 (2 ^ usub8 k 1)) ∧
      (if b then ishl16 (i16 (2 ^ usub8 k 1)) 2 else i16 (2 ^ usub8 k 1)) ≤
        (if b then 32 else 8) := by
  have hi : k = 1 ∨ k = 2 ∨ k = 3 ∨ k = 4 := by omega
  rcases hi with hi | hi | hi | hi <;> rw [hi] <;> cases b <;> decide

/-- The level of `OPN2_EnvelopeADSR` after the key-off substitution is in
`0..0x3ff` when `eg_level` is. -/
theorem level_range (c : YM3438) (s : Nat) (h : c.eg_level s ≤ 0x3ff) :
    0 ≤ OPN2_EnvelopeADSR_level c s ∧ OPN2_EnvelopeADSR_level c s ≤ 0x3ff := by
  have e : i16 ((c.eg_level s : Nat) : Int) = ((c.eg_level s : Nat) : Int) :=
    i16_small _ (by omega) (by omega)
  simp only [OPN2_EnvelopeADSR_level]
  rw [e]
  split
  · split
    · unfold iand16
      have hb : bits16 (i16 (512 - ((c.eg_level s : Nat) : Int))) &&& bits16 0x3ff ≤ 0x3ff :=
        Nat.and_le_right
      rw [i16_small _ (by omega) (by omega)]
      omega
    · omega
  · omega

/-- With `eg_off` clear, a level in `0..0x3ff` leaves room for the largest
Decay increment: 32 with SSG-EG, 8 without. -/
theorem eg_off_zero (c : YM3438) (s : Nat)
    (h0 : 0 ≤ OPN2_EnvelopeADSR_level c s) (h1 : OPN2_EnvelopeADSR_level c s ≤ 0x3ff)
    (he : OPN2_EnvelopeADSR_eg_off c s = 0) :
    OPN2_EnvelopeADSR_level c s + (if c.eg_ssg_enable s != 0 then 32 else 8) < 1024 := by
  unfold OPN2_EnvelopeADSR_eg_off at he
  obtain ⟨n, hn⟩ : ∃ n : Nat, OPN2_EnvelopeADSR_level c s = (n : Int) :=
    ⟨(OPN2_EnvelopeADSR_level c s).toNat, by omega⟩
  rw [hn] at he h1 ⊢
  by_cases hs : (c.eg_ssg_enable s != 0) = true
  · simp only [hs, if_true, isar] at he ⊢
    omega
  · simp only [hs, Bool.false_eq_true, if_false] at he ⊢
    have e := iand16_small n 0x3f0 (by omega) (by decide)
    have e' : iand16 (n : Int) 0x3f0 = ((n &&& 0x3f0 : Nat) : Int) := e
    rw [e'] at he
    have hne : n &&& 0x3f0 ≠ 0x3f0 := by
      intro hh
      rw [hh] at he
      exact absurd he (by decide)
    have := and_3f0_lt _ (by omega) hne
    omega

/-- The locals `nextlevel` and `inc` of `OPN2_EnvelopeADSR` before the CSM and
"Envelope off" statements, for a level in `0..0x3ff` and `eg_inc <= 4`:
`nextlevel` is the level or 0, and `inc` is 0, or an Attack increment in
`-level..-1` in the Attack state, or a Decay increment in `1..8` (`1..32` with
SSG-EG) outside the Attack state with `eg_off` clear. -/
theorem next_range (c : YM3438) (s k eo : Nat) (L : Int) (h0 : 0 ≤ L) (h1 : L ≤ 1023)
    (hinc : c.eg_inc ≤ 4) :
    ((OPN2_EnvelopeADSR_next c s k eo L).2.1 = L ∨ (OPN2_EnvelopeADSR_next c s k eo L).2.1 = 0) ∧
      ((OPN2_EnvelopeADSR_next c s k eo L).2.2 = 0 ∨
        (c.eg_state s = eg_num_attack ∧ (OPN2_EnvelopeADSR_next c s k eo L).2.1 = L ∧
          -L ≤ (OPN2_EnvelopeADSR_next c s k eo L).2.2 ∧
          (OPN2_EnvelopeADSR_next c s k eo L).2.2 ≤ -1) ∨
        (eo = 0 ∧ c.eg_state s ≠ eg_num_attack ∧ (OPN2_EnvelopeADSR_next c s k eo L).2.1 = L ∧
          1 ≤ (OPN2_EnvelopeADSR_next c s k eo L).2.2 ∧
          (OPN2_EnvelopeADSR_next c s k eo L).2.2 ≤
            (if c.eg_ssg_enable s != 0 then 32 else 8))) := by
  by_cases hk : (k != 0) = true
  · by_cases hr : (c.eg_ratemax != 0) = true
    · have e : OPN2_EnvelopeADSR_next c s k eo L = (eg_num_attack, 0, 0) := by
        simp only [OPN2_EnvelopeADSR_next, hk, hr, if_true]
      rw [e]
      exact ⟨Or.inr rfl, Or.inl rfl⟩
    · by_cases ha : (c.eg_state s == eg_num_attack && L != 0 && c.eg_inc != 0 &&
          c.eg_kon_latch s != 0) = true
      · have e : OPN2_EnvelopeADSR_next c s k eo L =
            (eg_num_attack, L, isar (ishl16 (inot16 L) c.eg_inc) 5) := by
          simp only [OPN2_EnvelopeADSR_next, hk, hr, ha, if_true, Bool.false_eq_true, if_false]
        rw [e]
        simp only [Bool.and_eq_true, beq_iff_eq, bne_iff_ne, ne_eq] at ha
        have hb := attack_inc L c.eg_inc (by omega) h1 ha.1.2 hinc
        exact ⟨Or.inl rfl, Or.inr (Or.inl ⟨ha.1.1.1, rfl, hb⟩)⟩
      · have e : OPN2_EnvelopeADSR_next c s k eo L = (eg_num_attack, L, 0) := by
          simp only [OPN2_EnvelopeADSR_next, hk, hr, ha, if_true, Bool.false_eq_true, if_false]
        rw [e]
        exact ⟨Or.inl rfl, Or.inl rfl⟩
  · have e1 : (OPN2_EnvelopeADSR_next c s k eo L).2.1 = L := by
      simp only [OPN2_EnvelopeADSR_next, hk, Bool.false_eq_true, if_false]
    rw [e1]
    refine ⟨Or.inl rfl, ?_⟩
    by_cases hA : (c.eg_state s == eg_num_attack) = true
    · have hst : c.eg_state s = eg_num_attack := by simpa using hA
      by_cases hz : (L == 0) = true
      · left
        simp only [OPN2_EnvelopeADSR_next, hk, hA, hz, if_true, Bool.false_eq_true, if_false]
      · by_cases hb : (c.eg_inc != 0 && c.eg_ratemax == 0 && c.eg_kon_latch s != 0) = true
        · have e : (OPN2_EnvelopeADSR_next c s k eo L).2.2 =
              isar (ishl16 (inot16 L) c.eg_inc) 5 := by
            simp only [OPN2_EnvelopeADSR_next, hk, hA, hz, hb, if_true, Bool.false_eq_true,
              if_false]
          rw [e]
          simp only [Bool.and_eq_true, beq_iff_eq, bne_iff_ne, ne_eq] at hb
          have hz' : L ≠ 0 := by simpa using hz
          exact Or.inr (Or.inl ⟨hst, rfl, attack_inc L c.eg_inc (by omega) h1 hb.1.1 hinc⟩)
        · left
          simp only [OPN2_EnvelopeADSR_next, hk, hA, hz, hb, if_true, Bool.false_eq_true,
            if_false]
    · have hst : c.eg_state s ≠ eg_num_attack := by simpa using hA
      by_cases hD : (c.eg_state s == eg_num_decay) = true
      · by_cases hsl : (isar L 4 == ((u8 (c.eg_sl 1 <<< 1) : Nat) : Int)) = true
        · left
          simp only [OPN2_EnvelopeADSR_next, hk, hA, hD, hsl, if_true, Bool.false_eq_true,
            if_false]
        · by_cases hb : (eo == 0 && c.eg_inc != 0) = true
          · have e : (OPN2_EnvelopeADSR_next c s k eo L).2.2 =
                (if c.eg_ssg_enable s != 0 then ishl16 (i16 (2 ^ usub8 c.eg_inc 1)) 2
                  else i16 (2 ^ usub8 c.eg_inc 1)) := by
              simp only [OPN2_EnvelopeADSR_next, hk, hA, hD, hsl, hb, if_true,
                Bool.false_eq_true, if_false]
            rw [e]
            simp only [Bool.and_eq_true, beq_iff_eq, bne_iff_ne, ne_eq] at hb
            exact Or.inr (Or.inr ⟨hb.1, hst, rfl, decay_inc c.eg_inc _ hb.2 hinc⟩)
          · left
            simp only [OPN2_EnvelopeADSR_next, hk, hA, hD, hsl, hb, if_true,
              Bool.false_eq_true, if_false]
      · by_cases hS : (c.eg_state s == eg_num_sustain || c.eg_state s == eg_num_release) = true
        · by_cases hb : (eo == 0 && c.eg_inc != 0) = true
          · have e : (OPN2_EnvelopeADSR_next c s k eo L).2.2 =
                (if c.eg_ssg_enable s != 0 then ishl16 (i16 (2 ^ usub8 c.eg_inc 1)) 2
                  else i16 (2 ^ usub8 c.eg_inc 1)) := by
              simp only [OPN2_EnvelopeADSR_next, hk, hA, hD, hS, hb, if_true,
                Bool.false_eq_true, if_false]
            rw [e]
            simp only [Bool.and_eq_true, beq_iff_eq, bne_iff_ne, ne_eq] at hb
            exact Or.inr (Or.inr ⟨hb.1, hst, rfl, decay_inc c.eg_inc _ hb.2 hinc⟩)
          · left
            simp only [OPN2_EnvelopeADSR_next, hk, hA, hD, hS, hb, if_true,
              Bool.false_eq_true, if_false]
        · left
          simp only [OPN2_EnvelopeADSR_next, hk, hA, hD, hS, if_true, Bool.false_eq_true,
            if_false]

/-- Outside CSM the sum `nextlevel + inc` of `OPN2_EnvelopeADSR` is in
`0..0x3ff` for a level in `0..0x3ff` and `eg_inc <= 4`; the increment is at
most 0 in the Attack state and at least 0 in the other states. -/
theorem sum_range (c : YM3438) (s : Nat) (hlevel : c.eg_level s ≤ 0x3ff) (hinc : c.eg_inc ≤ 4)
    (hcsm : c.eg_kon_csm s = 0) :
    0 ≤ OPN2_EnvelopeADSR_sum c s ∧ OPN2_EnvelopeADSR_sum c s ≤ 0x3ff ∧
      (c.eg_state s = eg_num_attack → OPN2_EnvelopeADSR_inc c s ≤ 0) ∧
      (c.eg_state s ≠ eg_num_attack → 0 ≤ OPN2_EnvelopeADSR_inc c s) := by
  obtain ⟨l0, l1⟩ := level_range c s hlevel
  obtain ⟨n1, n2⟩ := next_range c s (OPN2_EnvelopeADSR_kon_event c s)
    (OPN2_EnvelopeADSR_eg_off c s) (OPN2_EnvelopeADSR_level c s) l0 l1 hinc
  have hc : (c.eg_kon_csm s != 0) = false := by
    rw [hcsm]
    rfl
  simp only [OPN2_EnvelopeADSR_sum, OPN2_EnvelopeADSR_inc, hc, Bool.false_eq_true, if_false]
  rcases n2 with n2 | ⟨hst, e1, n2, n3⟩ | ⟨e0, hst, e1, n2, n3⟩
  · rw [n2]
    refine ⟨?_, ?_, fun _ => le_refl _, fun _ => le_refl _⟩
    · split
      · decide
      · rcases n1 with n1 | n1 <;> rw [n1] <;> omega
    · split
      · decide
      · rcases n1 with n1 | n1 <;> rw [n1] <;> omega
  · have hA : (c.eg_state s != eg_num_attack) = false := by
      rw [hst]
      rfl
    rw [hA, e1]
    simp only [Bool.and_false, Bool.false_and, Bool.false_eq_true, if_false]
    exact ⟨by omega, by omega, fun _ => by omega, fun h => absurd hst h⟩
  · have hoff : (OPN2_EnvelopeADSR_eg_off c s != 0) = false := by
      rw [e0]
      rfl
    have hb := eg_off_zero c s l0 l1 e0
    rw [hoff, e1]
    simp only [Bool.and_false, Bool.false_eq_true, if_false]
    refine ⟨by omega, ?_, fun h => absurd h hst, fun _ => by omega⟩
    have h8 : (if c.eg_ssg_enable s != 0 then (32 : Int) else 8) =
        (if c.eg_ssg_enable s != 0 then 32 else 8) := rfl
    omega

/-- In the Attack state with a non-zero level, a non-zero increment, the rate
below its maximum and the key latched on, the increment of
`OPN2_EnvelopeADSR` is `(^level << eg_inc) >> 5` on the level `eg_level[s]`,
with or without a key-on event. -/
theorem sum_attack (c : YM3438) (s : Nat) (hlevel : c.eg_level s ≤ 0x3ff)
    (hcsm : c.eg_kon_csm s = 0) (hst : c.eg_state s = eg_num_attack)
    (hnz : c.eg_level s ≠ 0) (hi : c.eg_inc ≠ 0) (hr : c.eg_ratemax = 0)
    (hk : c.eg_kon_latch s ≠ 0) :
    OPN2_EnvelopeADSR_sum c s =
      ((c.eg_level s : Nat) : Int) +
        isar (ishl16 (inot16 ((c.eg_level s : Nat) : Int)) c.eg_inc) 5 := by
  have hc : (c.eg_kon_csm s != 0) = false := by
    rw [hcsm]
    rfl
  have hA : (c.eg_state s == eg_num_attack) = true := by
    rw [hst]
    rfl
  have hA' : (c.eg_state s != eg_num_attack) = false := by
    rw [hst]
    rfl
  have hr1 : (c.eg_ratemax != 0) = false := by
    rw [hr]
    rfl
  have hr2 : (c.eg_ratemax == 0) = true := by
    rw [hr]
    rfl
  have hk1 : (c.eg_kon_latch s != 0) = true := by simpa using hk
  have hk2 : (c.eg_kon_latch s == 0) = false := by simpa using hk
  have hi1 : (c.eg_inc != 0) = true := by simpa using hi
  have hlev : OPN2_EnvelopeADSR_level c s = ((c.eg_level s : Nat) : Int) := by
    simp only [OPN2_EnvelopeADSR_level, hk2, Bool.and_false, ToInt, Bool.false_eq_true, if_false,
      show ((0 : Nat) != 0) = false from rfl]
    exact i16_small _ (by omega) (by omega)
  have hl1 : ((((c.eg_level s : Nat) : Int)) != 0) = true := by
    simp only [bne_iff_ne, ne_eq]
    omega
  have hl2 : ((((c.eg_level s : Nat) : Int)) == 0) = false := by
    simp only [beq_eq_false_iff_ne, ne_eq]
    omega
  simp only [OPN2_EnvelopeADSR_sum, hc, hA', Bool.and_false, Bool.false_and, Bool.false_eq_true,
    if_false]
  rw [hlev]
  by_cases hev : (OPN2_EnvelopeADSR_kon_event c s != 0) = true
  · simp only [OPN2_EnvelopeADSR_next, hev, hr1, hA, hl1, hi1, hk1, Bool.and_self, if_true,
      Bool.false_eq_true, if_false]
  · simp only [OPN2_EnvelopeADSR_next, hev, hA, hl2, hi1, hr2, hk1, Bool.and_self, if_true,
      Bool.false_eq_true, if_false]

/-- C31: for the slot `s = (cycles + 22) % 24` of `OPN2_EnvelopeADSR` with
`eg_level[s] <= 0x3FF`, `eg_inc <= 4` and `eg_kon_csm[s] = 0`, the value
`nextlevel + inc` lies in `0..0x3FF`, so neither the `int16` addition nor the
final `& 0x3ff` changes it and it is the new `eg_level[s]`.  The increment is
at most 0 in the Attack state, where the sum stays at or above 0, and at least
0 in the other states, where the sum stays at or below `0x3FF`.  When the
Attack increment applies (Attack state, non-zero level and increment, the rate
below its maximum, the key latched on) the new level is strictly lower. -/
theorem C31_level_no_wrap (chip : YM3438)
    (hlevel : chip.eg_level (u32 (chip.cycles + 22) % 24) ≤ 0x3ff)
    (hinc : chip.eg_inc ≤ 4)
    (hcsm : chip.eg_kon_csm (u32 (chip.cycles + 22) % 24) = 0) :
    0 ≤ OPN2_EnvelopeADSR_sum chip (u32 (chip.cycles + 22) % 24) ∧
      OPN2_EnvelopeADSR_sum chip (u32 (chip.cycles + 22) % 24) ≤ 0x3ff ∧
      i16 (OPN2_EnvelopeADSR_sum chip (u32 (chip.cycles + 22) % 24)) =
        OPN2_EnvelopeADSR_sum chip (u32 (chip.cycles + 22) % 24) ∧
      bits16 (i16 (OPN2_EnvelopeADSR_sum chip (u32 (chip.cycles + 22) % 24))) &&& 0x3ff =
        bits16 (i16 (OPN2_EnvelopeADSR_sum chip (u32 (chip.cycles + 22) % 24))) ∧
      (((OPN2_EnvelopeADSR chip).eg_level (u32 (chip.cycles + 22) % 24) : Nat) : Int) =
        OPN2_EnvelopeADSR_sum chip (u32 (chip.cycles + 22) % 24) ∧
      (chip.eg_state (u32 (chip.cycles + 22) % 24) = eg_num_attack →
        OPN2_EnvelopeADSR_inc chip (u32 (chip.cycles + 22) % 24) ≤ 0) ∧
      (chip.eg_state (u32 (chip.cycles + 22) % 24) ≠ eg_num_attack →
        0 ≤ OPN2_EnvelopeADSR_inc chip (u32 (chip.cycles + 22) % 24)) ∧
      (chip.eg_state (u32 (chip.cycles + 22) % 24) = eg_num_attack →
        chip.eg_level (u32 (chip.cycles + 22) % 24) ≠ 0 → chip.eg_inc ≠ 0 →
        chip.eg_ratemax = 0 → chip.eg_kon_latch (u32 (chip.cycles + 22) % 24) ≠ 0 →
        (OPN2_EnvelopeADSR chip).eg_level (u32 (chip.cycles + 22) % 24) <
          chip.eg_level (u32 (chip.cycles + 22) % 24)) := by
  obtain ⟨s0, s1, s2, s3⟩ := sum_range chip _ hlevel hinc hcsm
  have e := bits16_i16_small _ s0 (by omega)
  have eb : bits16 (i16 (OPN2_EnvelopeADSR_sum chip (u32 (chip.cycles + 22) % 24))) =
      (OPN2_EnvelopeADSR_sum chip (u32 (chip.cycles + 22) % 24)).toNat := by
    rw [i16_small _ (by omega) (by omega)]
    unfold bits16
    omega
  have el : (OPN2_EnvelopeADSR chip).eg_level (u32 (chip.cycles + 22) % 24) =
      (OPN2_EnvelopeADSR_sum chip (u32 (chip.cycles + 22) % 24)).toNat := by
    rw [ADSR_eg_level_sum, upd_same, e]
  refine ⟨s0, s1, i16_small _ (by omega) (by omega), ?_, ?_, s2, s3, ?_⟩
  · rw [e, eb]
  · rw [el]
    omega
  · intro hst hnz hi hr hk
    rw [el, sum_attack chip _ hlevel hcsm hst hnz hi hr hk]
    have hb := attack_inc ((chip.eg_level (u32 (chip.cycles + 22) % 24) : Nat) : Int) chip.eg_inc
      (by omega) (by omega) hi hinc
    omega

/-- C31 on a chip in Attack at the level `0x3ff` with the increment 4. -/
theorem C31_level_no_wrap_witness :
    chip_attack.eg_level (u32 (chip_attack.cycles + 22) % 24) ≤ 0x3ff ∧
      chip_attack.eg_inc ≤ 4 ∧
      chip_attack.eg_kon_csm (u32 (chip_attack.cycles + 22) % 24) = 0 ∧
      OPN2_EnvelopeADSR_sum chip_attack (u32 (chip_attack.cycles + 22) % 24) = 0x1ff ∧
      (OPN2_EnvelopeADSR chip_attack).eg_level (u32 (chip_attack.cycles + 22) % 24) <
        chip_attack.eg_level (u32 (chip_attack.cycles + 22) % 24) :=
  ⟨by decide, by decide, rfl, by decide,
    (C31_level_no_wrap chip_attack (by decide) (by decide) rfl).2.2.2.2.2.2.2
      rfl (by decide) (by decide) rfl (by decide)⟩

end Nukeykt
